import Mathlib

set_option maxRecDepth 1000000

/-!
# xfer_server: upload protocol verification

A shallow embedding of the upload path of the base-station daemon
(`UploadCommandBuilder`, `UploadSegmentTracker`, `UploadRetryStrategy`,
`UploadManager`, `CommandReceiverSubs`) together with theorems about it.

Conventions of the embedding:
* C++ `int` values are `Int`; the arithmetic modelled here stays far from the
  32-bit limits for the inputs the theorems quantify over.
* bytes (`unsigned char`, `uint8_t`) are `Nat` values below 256; a frame is a
  `List Nat` of length 128 read with `getD _ 0`.
* a `for` loop with a constant bound is a structural recursion over the number
  of remaining iterations.
-/

namespace XferServer

/-! ## LinkTimingConstants.h -/

/-- Embeds `LinkTiming::UPLOAD_MAX_SEGMENTS_PER_0X55`. -/
def UPLOAD_MAX_SEGMENTS_PER_0X55 : Int := 532

/-- Embeds `LinkTiming::BITMAP_SCAN_STRIDE`. -/
def BITMAP_SCAN_STRIDE : Int := 28

/-- Embeds `LinkTiming::BITMAP_OPTIMIZATION_THRESHOLD`. -/
def BITMAP_OPTIMIZATION_THRESHOLD : Nat := 10

/-- Embeds `LinkTiming::UPLOAD_SAMPLES_PER_SEGMENT`. -/
def UPLOAD_SAMPLES_PER_SEGMENT : Nat := 32

/-! ## UploadCommandBuilder::build_segment_bitmask -/

/-- Loop variables of `build_segment_bitmask` that the inner bit loop updates. -/
structure MaskState where
  current_segment : Int
  byte_value : Nat
  total_segments_used : Int
deriving DecidableEq, Repr

/-- One iteration of the inner loop `for (bit = 7; bit >= 1; bit--)`:
past the end the position is skipped, a missing segment sets its bit and is
counted, a received segment leaves the bit clear. `missing_set` is the
`unordered_set` built from `missing_segments`, so only membership matters. -/
def bit_iteration (missing_segments : List Int) (total_segments : Int) (s : MaskState)
    (bit : Nat) : MaskState :=
  if s.current_segment ≥ total_segments then
    { s with current_segment := s.current_segment + 1 }
  else if s.current_segment ∈ missing_segments then
    { current_segment := s.current_segment + 1
      byte_value := s.byte_value ||| (1 <<< bit)
      total_segments_used := s.total_segments_used + 1 }
  else
    { s with current_segment := s.current_segment + 1 }

/-- The inner loop for one bitmap byte: `byte_value` starts at `0x01` and the
bits 7 down to 1 are visited in that order. -/
def byte_bits (missing_segments : List Int) (total_segments : Int)
    (current_segment total_segments_used : Int) : MaskState :=
  [7, 6, 5, 4, 3, 2, 1].foldl (bit_iteration missing_segments total_segments)
    ⟨current_segment, 0x01, total_segments_used⟩

/-- The tail loop `for (remaining = byte_idx + 1; remaining < 76; remaining++)
bitmask[remaining] = 0x01`, with `n` iterations left. -/
def fill_remaining : Nat → Nat → List Nat → List Nat
  | 0, _, bitmask => bitmask
  | n + 1, remaining, bitmask => fill_remaining n (remaining + 1) (bitmask.set remaining 0x01)

/-- The outer loop `for (byte_idx = 0; byte_idx < 76; byte_idx++)` with `n`
iterations left (`n = 76 - byte_idx`), including the early `break`. -/
def mask_loop (missing_segments : List Int) (total_segments : Int) :
    Nat → Nat → List Nat → Int → Int → List Nat × Int
  | 0, _, bitmask, _, used => (bitmask, used)
  | n + 1, byte_idx, bitmask, current_segment, used =>
    let s := byte_bits missing_segments total_segments current_segment used
    let bitmask1 := bitmask.set byte_idx s.byte_value
    if s.current_segment ≥ total_segments then
      (fill_remaining n (byte_idx + 1) bitmask1, s.total_segments_used)
    else
      mask_loop missing_segments total_segments n (byte_idx + 1) bitmask1
        s.current_segment s.total_segments_used

/-- Embeds `UploadCommandBuilder::build_segment_bitmask`: the 76 bytes written to
`bitmask` and the returned `total_segments_used`. -/
def build_segment_bitmask (start_segment : Int) (missing_segments : List Int)
    (total_segments : Int) : List Nat × Int :=
  mask_loop missing_segments total_segments 76 0 (List.replicate 76 0x01) start_segment 0

/-! ## Properties of build_segment_bitmask -/

/-- Whether segment `seg` is requested: it lies below `total` and is missing. -/
def requested (missing : List Int) (total seg : Int) : Bool :=
  decide (seg < total) && decide (seg ∈ missing)

/-- Number of requested segments among `c, c+1, ..., c+n-1`. -/
def requestedCount (missing : List Int) (total c : Int) (n : Nat) : Nat :=
  List.countP (fun (k : Nat) => requested missing total (c + (k : Int))) (List.range n)

/-- What a finished bitmap byte must look like when its first segment is `c`. -/
def GoodByte (m : List Int) (t c : Int) (v : Nat) : Prop :=
  v.testBit 0 = true ∧ v < 256 ∧
    ∀ p : Nat, 1 ≤ p → p ≤ 7 → v.testBit p = requested m t (c + (7 - (p : Int)))

/-! ## UploadCommandBuilder: window search and the 0x55 frame -/

/-- Loop of `count_segments_in_window` over the (sorted) missing list:
`continue` below the window, `break` at its end. -/
def count_window_loop (start_segment end_segment : Int) : List Int → Int → Int
  | [], count => count
  | seg :: rest, count =>
    if seg < start_segment then count_window_loop start_segment end_segment rest count
    else if seg ≥ end_segment then count
    else count_window_loop start_segment end_segment rest (count + 1)

/-- Embeds `UploadCommandBuilder::count_segments_in_window`. -/
def count_segments_in_window (start_segment : Int) (missing_segments : List Int)
    (max_segments_per_bitmap : Int) : Int :=
  count_window_loop start_segment (start_segment + max_segments_per_bitmap) missing_segments 0

/-- Phase 1 of `find_optimal_start_segment`: the loop
`for (scan_pos = 0; scan_pos < total_segments; scan_pos += scan_stride)`.
The first component of the result is `true` when the loop left through the
early `return best_start`; the others are `best_start` and `best_count`.
The first argument bounds the number of iterations (the loop needs at most
`total_segments` of them). -/
def scan_loop (missing_segments : List Int) (total_segments max_segments_per_bitmap
    max_possible_count : Int) : Nat → Int → Int → Int → Bool × Int × Int
  | 0, _, best_start, best_count => (false, best_start, best_count)
  | n + 1, scan_pos, best_start, best_count =>
    if scan_pos < total_segments then
      let count := count_segments_in_window scan_pos missing_segments max_segments_per_bitmap
      if count > best_count then
        if count ≥ max_possible_count then (true, scan_pos, count)
        else scan_loop missing_segments total_segments max_segments_per_bitmap
          max_possible_count n (scan_pos + BITMAP_SCAN_STRIDE) scan_pos count
      else scan_loop missing_segments total_segments max_segments_per_bitmap
        max_possible_count n (scan_pos + BITMAP_SCAN_STRIDE) best_start best_count
    else (false, best_start, best_count)

/-- Embeds `UploadCommandBuilder::find_optimal_start_segment`. -/
def find_optimal_start_segment (missing_segments : List Int) (total_segments : Int)
    (max_segments_per_bitmap : Int) : Int :=
  match missing_segments with
  | [] => -1
  | first :: _ =>
    if missing_segments.length < BITMAP_OPTIMIZATION_THRESHOLD then first
    else
      let total_missing : Int := missing_segments.length
      let max_possible_count := min total_missing max_segments_per_bitmap
      let r := scan_loop missing_segments total_segments max_segments_per_bitmap
        max_possible_count total_segments.toNat 0 first 0
      if r.1 then r.2.1
      else
        let first_count := count_segments_in_window first missing_segments max_segments_per_bitmap
        if first_count > r.2.2 then first else r.2.1

/-- Lower-case hexadecimal digit character for a value below 16. -/
def hex_char (d : Nat) : Nat := if d < 10 then 48 + d else 87 + d

/-- Hexadecimal digits of `v`, most significant first, without leading zeros
(one digit for zero); eight steps cover every 32-bit value. -/
def hex_digits : Nat → Nat → List Nat → List Nat
  | 0, _, acc => acc
  | n + 1, v, acc =>
    if v < 16 then hex_char v :: acc else hex_digits n (v / 16) (hex_char (v % 16) :: acc)

/-- Embeds `snprintf(buf, 5, "%04x", value)` followed by copying the first four
characters: the `int` argument is printed as an unsigned 32-bit value, padded
with zeros to four digits, and at most four characters are stored. -/
def snprintf_04x (value : Int) : List Nat :=
  let digits := hex_digits 8 (value % 4294967296).toNat []
  (List.replicate (4 - digits.length) 48 ++ digits).take 4

/-- Sequential stores `buf[idx + k] = bytes[k]` (also `memcpy`). -/
def write_at : List Nat → Nat → List Nat → List Nat
  | buf, _, [] => buf
  | buf, idx, b :: rest => write_at (buf.set idx b) (idx + 1) rest

/-- The four MAC bytes, big endian. -/
def mac_bytes (macid : Nat) : List Nat :=
  [(macid >>> 24) &&& 0xff, (macid >>> 16) &&& 0xff, (macid >>> 8) &&& 0xff, macid &&& 0xff]

/-- Embeds `UploadCommandBuilder::build_partial_upload_command`: the 128-byte frame and
the value stored through `total_segments_used`. -/
def build_partial_upload_command (macid : Nat) (start_segment : Int)
    (missing_segments : List Int) (total_segments : Int) : List Nat × Int :=
  let optimized_start :=
    find_optimal_start_segment missing_segments total_segments UPLOAD_MAX_SEGMENTS_PER_0X55
  let start_segment := if optimized_start ≥ 0 then optimized_start else start_segment
  let cmd_buffer := List.replicate 128 0x30
  let cmd_buffer := write_at cmd_buffer 0 [0x74, 0x53, 0x01, 0xff, 0xff, 0xff, 0xff, 0x01]
  let cmd_buffer := write_at cmd_buffer 13 (mac_bytes macid)
  let cmd_buffer := write_at cmd_buffer 17 (mac_bytes macid)
  let cmd_buffer := write_at cmd_buffer 45 [0x55]
  let cmd_buffer := write_at cmd_buffer 46 (snprintf_04x start_segment)
  let bitmask := build_segment_bitmask start_segment missing_segments total_segments
  let cmd_buffer := write_at cmd_buffer 50 bitmask.1
  let cmd_buffer := write_at cmd_buffer 126 [0x75, 0x50]
  (cmd_buffer, bitmask.2)

/-! ## CommandReceiverSubs::parse_upload_partial_request -/

/-- C `isspace` in the default locale. -/
def is_space (c : Nat) : Bool := c == 32 || (9 ≤ c && c ≤ 13)

/-- Value of a hexadecimal digit character, either case. -/
def hex_val (c : Nat) : Option Nat :=
  if 48 ≤ c ∧ c ≤ 57 then some (c - 48)
  else if 97 ≤ c ∧ c ≤ 102 then some (c - 87)
  else if 65 ≤ c ∧ c ≤ 70 then some (c - 55)
  else none

/-- Value of the longest run of hexadecimal digits at the front of a string
(a NUL or any other character ends it). -/
def scan_hex_digits : List Nat → Nat → Nat
  | [], acc => acc
  | c :: cs, acc =>
    match hex_val c with
    | some d => scan_hex_digits cs (acc * 16 + d)
    | none => acc

/-- Whether a string starts with a hexadecimal digit. -/
def starts_with_hex : List Nat → Bool
  | [] => false
  | c :: _ => (hex_val c).isSome

/-- The digits part of a `%x` conversion: an optional `0x` / `0X` prefix, then
hexadecimal digits; `none` when no digit is found (matching failure). -/
def scan_hex_body : List Nat → Option Nat
  | 48 :: x :: rest =>
    if (x == 120 || x == 88) && starts_with_hex rest then some (scan_hex_digits rest 0)
    else some (scan_hex_digits (x :: rest) 0)
  | s => if starts_with_hex s then some (scan_hex_digits s 0) else none

/-- Embeds `sscanf(str, "%x", &v)` on a NUL-terminated string: leading white space is
skipped, an optional sign is accepted, the result is reduced modulo `2 ^ bits`
(`bits = 16` for `%hx`, `32` for `%x`). `none` means that nothing was
converted and the destination keeps its previous value. -/
def sscanf_hex (bits : Nat) (str : List Nat) : Option Nat :=
  match str.dropWhile is_space with
  | 45 :: rest => (scan_hex_body rest).map (fun v => (2 ^ bits - v % 2 ^ bits) % 2 ^ bits)
  | 43 :: rest => (scan_hex_body rest).map (fun v => v % 2 ^ bits)
  | s => (scan_hex_body s).map (fun v => v % 2 ^ bits)

/-- Fields that `parse_upload_partial_request` writes. -/
structure PartialRequest where
  has_upload_partial_request : Bool
  upload_partial_start_addr : Nat
  upload_partial_segments : List Nat
deriving DecidableEq, Repr

/-- Inner loop of the bitmask parse, `for (bit_pos = 7; bit_pos >= 1; bit_pos--)`. -/
def parse_mask_byte (mask byte_idx : Nat) (segments : List Nat) : List Nat :=
  [7, 6, 5, 4, 3, 2, 1].foldl
    (fun segs bit_pos =>
      if mask &&& (1 <<< bit_pos) ≠ 0 then
        segs ++ [((byte_idx * 7) + (7 - bit_pos)) % 65536]
      else segs)
    segments

/-- Embeds `CommandReceiverSubs::parse_upload_partial_request` on the frame `data`
(`command_code` is `data[45]`); the fields keep their constructor values when
the opcode is not `'U'`. -/
def parse_upload_partial_request (data : List Nat) : PartialRequest :=
  if data.getD 45 0 ≠ 0x55 then
    { has_upload_partial_request := false
      upload_partial_start_addr := 0
      upload_partial_segments := [] }
  else
    let addr_str := [data.getD 46 0, data.getD 47 0, data.getD 48 0, data.getD 49 0, 0]
    let start_segment := (sscanf_hex 16 addr_str).getD 0
    { has_upload_partial_request := true
      upload_partial_start_addr := (start_segment * 32) % 65536
      upload_partial_segments :=
        (List.range 76).foldl
          (fun segs byte_idx => parse_mask_byte (data.getD (50 + byte_idx) 0) byte_idx segs) [] }

/-! ## UploadTypes.h -/

/-- Embeds `enum UploadState`. -/
inductive UploadState where
  | UPLOAD_IDLE
  | UPLOAD_INIT
  | UPLOAD_COMMAND_SENT
  | UPLOAD_RECEIVING
  | UPLOAD_RETRY_PARTIAL
deriving DecidableEq, Repr

/-- Embeds `enum RetryDecision`. -/
inductive RetryDecision where
  | DECISION_WAIT
  | DECISION_RETRY_FULL
  | DECISION_RETRY_PARTIAL
deriving DecidableEq, Repr

/-! ## UploadSegmentTracker -/

/-- Embeds `int16_t data[32]`: one segment of samples. -/
abbrev SampleBlock := { l : List Int // l.length = 32 }

/-- Embeds `memset(data, 0, sizeof(data))`. -/
def zero_block : SampleBlock := ⟨List.replicate 32 0, rfl⟩

/-- Embeds `struct UploadSegment`. -/
structure UploadSegment where
  address : Nat
  received : Bool
  data : SampleBlock
deriving DecidableEq

/-- Embeds `UploadSegment(uint16_t addr)`. -/
def UploadSegment.new (addr : Nat) : UploadSegment :=
  { address := addr % 65536, received := false, data := zero_block }

/-- Private members of `class UploadSegmentTracker`. -/
structure UploadSegmentTracker where
  segments : List UploadSegment
  total_segments : Int
  segments_received : Int
deriving DecidableEq

namespace UploadSegmentTracker

/-- Embeds `UploadSegmentTracker::UploadSegmentTracker()`. -/
def new : UploadSegmentTracker :=
  { segments := [], total_segments := 0, segments_received := 0 }

/-- Embeds `UploadSegmentTracker::reset`. -/
def reset (_t : UploadSegmentTracker) : UploadSegmentTracker :=
  { segments := [], total_segments := 0, segments_received := 0 }

/-- The method `initialize(int total_segs)` of `UploadSegmentTracker`: after
`reset()`, one fresh segment is pushed for every `i` with `0 <= i < total_segs`. -/
def initialize_tracker (t : UploadSegmentTracker) (total_segs : Int) : UploadSegmentTracker :=
  { (reset t) with
    total_segments := total_segs
    segments := (List.range total_segs.toNat).map UploadSegment.new }

/-- Embeds `segments[segment_num]` for an index inside the vector. -/
def segment_at (t : UploadSegmentTracker) (segment_num : Int) : UploadSegment :=
  t.segments.getD segment_num.toNat (UploadSegment.new 0)

/-- Embeds `UploadSegmentTracker::mark_received`: the returned flag and the new state. -/
def mark_received (t : UploadSegmentTracker) (segment_num : Int) (data : SampleBlock) :
    Bool × UploadSegmentTracker :=
  if segment_num < 0 ∨ segment_num ≥ t.total_segments then (false, t)
  else if (t.segment_at segment_num).received then (false, t)
  else
    (true,
      { t with
        segments := t.segments.set segment_num.toNat
          { (t.segment_at segment_num) with data := data, received := true }
        segments_received := t.segments_received + 1 })

/-- Embeds `UploadSegmentTracker::is_received`. -/
def is_received (t : UploadSegmentTracker) (segment_num : Int) : Bool :=
  if segment_num < 0 ∨ segment_num ≥ t.total_segments then false
  else (t.segment_at segment_num).received

/-- Embeds `UploadSegmentTracker::get_missing_segments`. -/
def get_missing_segments (t : UploadSegmentTracker) : List Int :=
  (List.filter (fun (i : Nat) => !(t.segment_at (i : Int)).received)
    (List.range t.total_segments.toNat)).map (fun (i : Nat) => (i : Int))

/-- Embeds `get_received_count`. -/
def get_received_count (t : UploadSegmentTracker) : Int := t.segments_received

/-- Embeds `get_total_count`. -/
def get_total_count (t : UploadSegmentTracker) : Int := t.total_segments

/-- Embeds `get_missing_count`. -/
def get_missing_count (t : UploadSegmentTracker) : Int :=
  t.total_segments - t.segments_received

/-- Embeds `UploadSegmentTracker::is_complete`. -/
def is_complete (t : UploadSegmentTracker) : Bool :=
  decide (t.segments_received = t.total_segments) && decide (t.total_segments > 0)

/-- Embeds `UploadSegmentTracker::get_all_data`: the 32 samples of every segment, in
vector order. -/
def get_all_data (t : UploadSegmentTracker) : List Int :=
  t.segments.foldl (fun result segment => result ++ segment.data.val) []

/-- The tracker after a sequence of `mark_received` calls. -/
def mark_all (t : UploadSegmentTracker) (calls : List (Int × SampleBlock)) :
    UploadSegmentTracker :=
  calls.foldl (fun t c => (t.mark_received c.1 c.2).2) t

/-- States reachable from construction through `initialize_tracker` with a
non-negative count, `mark_received` and `reset`. -/
inductive Reachable : UploadSegmentTracker → Prop where
  | construct : Reachable new
  | init (t : UploadSegmentTracker) (n : Int) : Reachable t → 0 ≤ n → Reachable (t.initialize_tracker n)
  | mark (t : UploadSegmentTracker) (i : Int) (d : SampleBlock) :
      Reachable t → Reachable (t.mark_received i d).2
  | clear (t : UploadSegmentTracker) : Reachable t → Reachable t.reset

end UploadSegmentTracker

/-- Samples of the first call in `calls` that addresses segment `i`, zeros when
there is none. -/
def first_samples (calls : List (Int × SampleBlock)) (i : Int) : SampleBlock :=
  match calls.find? (fun c => decide (c.1 = i)) with
  | some c => c.2
  | none => zero_block

/-! ## UploadRetryStrategy -/

/-- Embeds `UploadRetryStrategy::MAX_SEGMENTS_PER_0X55`. -/
def MAX_SEGMENTS_PER_0X55 : Int := 532

/-- Embeds `UploadRetryStrategy::FORCE_PARTIAL_UPLOAD`. -/
def FORCE_PARTIAL_UPLOAD : Bool := true

/-- Embeds `UploadRetryStrategy::calculate_expected_packets`, i.e.
`static_cast<int>(total_segments * 0.05)`. The double nearest to 0.05 exceeds
1/20 by the relative amount `2^-54`, so for every 32-bit `total_segments` the
rounded product is the integer `total_segments / 20` when that is an integer
and otherwise has the same integer part as the exact quotient; the cast
truncates towards zero. -/
def calculate_expected_packets (total_segments : Int) : Int :=
  Int.tdiv total_segments 20

/-- Embeds `UploadRetryStrategy::evaluate` (the returned decision). The comparison
`segments_received < expected * 0.10` of an `int` with a `double` holds exactly
when `10 * segments_received < expected` (the rounded product equals
`expected / 10` when that is an integer and is otherwise at least 1/10 away from
every integer), and `static_cast<int>(total_segments * 0.80)` is
`4 * total_segments / 5` truncated, by the same argument as for 0.05. -/
def evaluate (current_state : UploadState) (segments_received total_segments : Int)
    (_retry_count _max_retries : Int) : RetryDecision :=
  let missing := total_segments - segments_received
  let expected := calculate_expected_packets total_segments
  if current_state = UploadState.UPLOAD_COMMAND_SENT ∧ segments_received = 0 then
    RetryDecision.DECISION_RETRY_FULL
  else if segments_received > 0 ∧ 10 * segments_received < expected then
    RetryDecision.DECISION_RETRY_FULL
  else if missing > MAX_SEGMENTS_PER_0X55 ∧ missing > Int.tdiv (4 * total_segments) 5 then
    RetryDecision.DECISION_RETRY_FULL
  else if missing > 0 then
    RetryDecision.DECISION_RETRY_PARTIAL
  else
    RetryDecision.DECISION_WAIT

/-- The branch of `evaluate` that produced the decision, numbered as in the
source comments (`BRANCH 1` .. `BRANCH 4`; 5 is the final `else`). -/
def evaluate_branch (current_state : UploadState) (segments_received total_segments : Int) :
    Nat :=
  let missing := total_segments - segments_received
  let expected := calculate_expected_packets total_segments
  if current_state = UploadState.UPLOAD_COMMAND_SENT ∧ segments_received = 0 then 1
  else if segments_received > 0 ∧ 10 * segments_received < expected then 2
  else if missing > MAX_SEGMENTS_PER_0X55 ∧ missing > Int.tdiv (4 * total_segments) 5 then 3
  else if missing > 0 then 4
  else 5

/-- The five rules of the retry strategy as the specification words them, with
the thresholds `0.10 * (0.05 * total)` and `0.80 * total` taken as exact
rational numbers. -/
def spec_evaluate (state : UploadState) (received total : Int) : RetryDecision :=
  let missing := total - received
  if state = UploadState.UPLOAD_COMMAND_SENT ∧ received = 0 then
    RetryDecision.DECISION_RETRY_FULL
  else if 0 < received ∧ (received : ℚ) < (10 / 100 : ℚ) * ((5 / 100 : ℚ) * (total : ℚ)) then
    RetryDecision.DECISION_RETRY_FULL
  else if missing > 532 ∧ (missing : ℚ) > (80 / 100 : ℚ) * (total : ℚ) then
    RetryDecision.DECISION_RETRY_FULL
  else if missing > 0 then
    RetryDecision.DECISION_RETRY_PARTIAL
  else
    RetryDecision.DECISION_WAIT

/-- The same five rules with the expected-packet count truncated to an integer
before the 10% threshold is taken: `0.10 * floor(0.05 * total)`. -/
def spec_evaluate_truncated (state : UploadState) (received total : Int) : RetryDecision :=
  let missing := total - received
  if state = UploadState.UPLOAD_COMMAND_SENT ∧ received = 0 then
    RetryDecision.DECISION_RETRY_FULL
  else if 0 < received ∧
      (received : ℚ) < (10 / 100 : ℚ) * ((⌊(5 / 100 : ℚ) * (total : ℚ)⌋ : Int) : ℚ) then
    RetryDecision.DECISION_RETRY_FULL
  else if missing > 532 ∧ (missing : ℚ) > (80 / 100 : ℚ) * (total : ℚ) then
    RetryDecision.DECISION_RETRY_FULL
  else if missing > 0 then
    RetryDecision.DECISION_RETRY_PARTIAL
  else
    RetryDecision.DECISION_WAIT

/-! ## CommandReceiverSubs::verify_upload_checksum -/

/-- Embeds `for (i = lo; i < lo + n; i++) basic_checksum += data[i];` on a `uint16_t`. -/
def checksum_loop (data : List Nat) : Nat → Nat → Nat → Nat
  | 0, _, basic_checksum => basic_checksum
  | n + 1, i, basic_checksum =>
    checksum_loop data n (i + 1) ((basic_checksum + data.getD i 0) % 65536)

/-- The comparison part of `verify_upload_checksum`, after `basic_checksum` has
been summed. -/
def checksum_matches (data : List Nat) (basic_checksum : Nat) : Bool :=
  let mac := (data.getD 3 0 <<< 24) ||| (data.getD 4 0 <<< 16) ||| (data.getD 5 0 <<< 8) |||
    data.getD 6 0
  let advanced_checksum := basic_checksum
  let advanced_checksum := (advanced_checksum + ((mac >>> 24) &&& 0xFF)) % 65536
  let advanced_checksum := (advanced_checksum + ((mac >>> 16) &&& 0xFF)) % 65536
  let advanced_checksum := (advanced_checksum + ((mac >>> 8) &&& 0xFF)) % 65536
  let advanced_checksum := (advanced_checksum + (mac &&& 0xFF)) % 65536
  let stored_checksum := data.getD 125 0 &&& 0xFF
  let basic_check := (basic_checksum ^^^ 0xAA) &&& 0xFF
  let advanced_check := (advanced_checksum ^^^ 0xAA) &&& 0xFF
  let basic_match := decide (basic_check = stored_checksum)
  let advanced_match := decide (advanced_check = stored_checksum)
  basic_match || advanced_match

/-- Embeds `CommandReceiverSubs::verify_upload_checksum`. -/
def verify_upload_checksum (data : List Nat) (is_fast : Bool) : Bool :=
  if is_fast then
    checksum_matches data (checksum_loop data 120 5 0)
  else
    let version := data.getD 49 0 &&& 0xFF
    if version ≠ 0xBB then true
    else checksum_matches data (checksum_loop data 64 51 0)

/-- Sum of the bytes `data[lo] .. data[lo + n - 1]`. -/
def byte_sum (data : List Nat) (lo n : Nat) : Nat :=
  ((List.range n).map (fun k => data.getD (lo + k) 0)).sum

/-- The checksum base `S` of the specification: the byte sum modulo `2^16` over
offsets 5..124 in fast mode and 51..114 in slow mode. -/
def checksum_base (frame : List Nat) (is_fast : Bool) : Nat :=
  if is_fast then byte_sum frame 5 120 % 65536 else byte_sum frame 51 64 % 65536

/-! ## UploadManager and its helpers -/

/-- Embeds `LinkTiming::UPLOAD_MAX_RETRY_COUNT`. -/
def UPLOAD_MAX_RETRY_COUNT : Int := 10000

/-- Embeds `LinkTiming::UPLOAD_RETRY_TIMEOUT_MS`. -/
def UPLOAD_RETRY_TIMEOUT_MS : Int := 1000

/-- Embeds `LinkTiming::UPLOAD_BYTES_PER_SAMPLE`. -/
def UPLOAD_BYTES_PER_SAMPLE : Nat := 2

/-- Embeds `LinkTiming::UPLOAD_BYTES_PER_SEGMENT`. -/
def UPLOAD_BYTES_PER_SEGMENT : Nat := 64

/-- Embeds `class UploadTimeoutManager`: the two instants, in milliseconds of the
steady clock; 0 is the default-constructed `time_point`. -/
structure UploadTimeoutManager where
  session_start_time : Nat
  last_packet_time : Nat
deriving DecidableEq

/-- Embeds `class UploadStatistics`. -/
structure UploadStatistics where
  total_packets_received : Int
  total_packets_requested : Int
  checksum_errors : Int
deriving DecidableEq

/-- The fields of `CommandResponse` that `process_upload_response` reads. -/
structure UploadResponse where
  has_upload_data : Bool
  crc_valid : Bool
  is_fast_mode : Bool
  upload_segment_addr : Nat
  upload_data : SampleBlock
deriving DecidableEq

/-- Embeds `class UploadManager`. `triggering_response` holds the frame of the copied
response; `sent` lists the frames handed to `ts1x_core->send_command`, oldest
first. -/
structure UploadManager where
  current_state : UploadState
  current_macid : Nat
  upload_start_addr : Nat
  upload_length : Nat
  retry_count : Int
  max_retries : Int
  retry_timeout_ms : Int
  segment_tracker : UploadSegmentTracker
  timeout_manager : UploadTimeoutManager
  statistics : UploadStatistics
  triggering_response : Option (List Nat)
  sent : List (List Nat)
deriving DecidableEq

/-- Embeds `UploadCommandBuilder::build_full_upload_command`. -/
def build_full_upload_command (macid start_addr length : Nat) : List Nat :=
  let cmd_buffer := List.replicate 128 0x30
  let cmd_buffer := write_at cmd_buffer 0 [0x74, 0x53, 0x01, 0xff, 0xff, 0xff, 0xff, 0x01]
  let cmd_buffer := write_at cmd_buffer 13 (mac_bytes macid)
  let cmd_buffer := write_at cmd_buffer 17 (mac_bytes macid)
  let cmd_buffer := write_at cmd_buffer 45 [0x51]
  let start_segment := start_addr / UPLOAD_SAMPLES_PER_SEGMENT
  let cmd_buffer := write_at cmd_buffer 46 (snprintf_04x start_segment)
  let length_segments := length / UPLOAD_SAMPLES_PER_SEGMENT
  let cmd_buffer := write_at cmd_buffer 50 (snprintf_04x length_segments)
  let cmd_buffer := write_at cmd_buffer 126 [0x75, 0x50]
  cmd_buffer

namespace UploadManager

/-- Embeds `UploadManager::UploadManager`. -/
def new : UploadManager :=
  { current_state := UploadState.UPLOAD_IDLE
    current_macid := 0
    upload_start_addr := 0
    upload_length := 0
    retry_count := 0
    max_retries := UPLOAD_MAX_RETRY_COUNT
    retry_timeout_ms := UPLOAD_RETRY_TIMEOUT_MS
    segment_tracker := UploadSegmentTracker.new
    timeout_manager := { session_start_time := 0, last_packet_time := 0 }
    statistics := { total_packets_received := 0, total_packets_requested := 0, checksum_errors := 0 }
    triggering_response := none
    sent := [] }

/-- Embeds `UploadManager::transition_state` (the log lines are not modelled). -/
def transition_state (m : UploadManager) (new_state : UploadState) : UploadManager :=
  if new_state ≠ m.current_state then { m with current_state := new_state } else m

/-- Embeds `UploadManager::reset_packet_timer`, at clock reading `now`. -/
def reset_packet_timer (m : UploadManager) (now : Nat) : UploadManager :=
  { m with timeout_manager := { m.timeout_manager with last_packet_time := now } }

/-- Embeds `UploadManager::reset`. -/
def reset (m : UploadManager) : UploadManager :=
  let m := { m with
    segment_tracker := m.segment_tracker.reset
    timeout_manager := { session_start_time := 0, last_packet_time := 0 }
    statistics :=
      { total_packets_received := 0, total_packets_requested := 0, checksum_errors := 0 } }
  let m := m.transition_state UploadState.UPLOAD_IDLE
  { m with
    current_macid := 0
    upload_start_addr := 0
    upload_length := 0
    retry_count := 0
    triggering_response := none }

/-- Embeds `UploadManager::reset_for_retry`. -/
def reset_for_retry (m : UploadManager) : UploadManager :=
  let total_segments := m.segment_tracker.get_total_count
  let m := { m with segment_tracker := m.segment_tracker.reset }
  let m := { m with segment_tracker := m.segment_tracker.initialize_tracker total_segments }
  let m := { m with retry_count := m.retry_count + 1 }
  m.transition_state UploadState.UPLOAD_INIT

/-- Embeds `UploadManager::start_full_upload`, at clock reading `now`; `num_samples`
is a `uint32_t`, so the rounding-up sum wraps modulo `2^32`. -/
def start_full_upload (m : UploadManager) (macid start_addr num_samples : Nat)
    (triggering_resp : Option (List Nat)) (now : Nat) : Bool × UploadManager :=
  if m.current_state ≠ UploadState.UPLOAD_IDLE then (false, m)
  else
    let m := { m with
      current_macid := macid
      upload_start_addr := start_addr
      upload_length := num_samples }
    let total_segs : Int :=
      (((num_samples + UPLOAD_SAMPLES_PER_SEGMENT - 1) % 4294967296) /
        UPLOAD_SAMPLES_PER_SEGMENT : Nat)
    let m := { m with segment_tracker := m.segment_tracker.initialize_tracker total_segs }
    let m := { m with timeout_manager := { session_start_time := now, last_packet_time := now } }
    let m :=
      match triggering_resp with
      | some r => { m with triggering_response := some r }
      | none => m
    (true, m.transition_state UploadState.UPLOAD_INIT)

/-- Embeds `UploadManager::send_init_command_0x55`. -/
def send_init_command_0x55 (m : UploadManager) : Bool × UploadManager :=
  let start_segment : Int := 0
  let missing := m.segment_tracker.get_missing_segments
  let cmd := build_partial_upload_command m.current_macid start_segment missing
    m.segment_tracker.get_total_count
  let m := { m with sent := m.sent ++ [cmd.1] }
  let m := m.transition_state UploadState.UPLOAD_COMMAND_SENT
  let total_segs := m.segment_tracker.get_total_count
  let m := { m with statistics := { m.statistics with
    total_packets_requested := m.statistics.total_packets_requested + total_segs } }
  (true, m)

/-- Embeds `UploadManager::send_upload_command_0x51`. -/
def send_upload_command_0x51 (m : UploadManager) (start_addr length : Nat) :
    Bool × UploadManager :=
  let cmd := build_full_upload_command m.current_macid start_addr length
  let m := { m with sent := m.sent ++ [cmd] }
  let m := m.transition_state UploadState.UPLOAD_COMMAND_SENT
  let total_segs := m.segment_tracker.get_total_count
  let m := { m with statistics := { m.statistics with
    total_packets_requested := m.statistics.total_packets_requested + total_segs } }
  (true, m)

/-- Embeds `UploadManager::send_init_command`. -/
def send_init_command (m : UploadManager) : Bool × UploadManager :=
  if m.current_state ≠ UploadState.UPLOAD_INIT then (false, m)
  else if FORCE_PARTIAL_UPLOAD then m.send_init_command_0x55
  else m.send_upload_command_0x51 m.upload_start_addr m.upload_length

/-- Embeds `UploadManager::send_upload_command_0x55`. -/
def send_upload_command_0x55 (m : UploadManager) (start_addr : Nat) : Bool × UploadManager :=
  let missing := m.segment_tracker.get_missing_segments
  let start_segment : Int := (start_addr / UPLOAD_BYTES_PER_SEGMENT : Nat)
  let cmd := build_partial_upload_command m.current_macid start_segment missing
    m.segment_tracker.get_total_count
  let m := { m with sent := m.sent ++ [cmd.1] }
  let m := m.transition_state UploadState.UPLOAD_RETRY_PARTIAL
  let m := { m with retry_count := m.retry_count + 1 }
  (true, m)

/-- Embeds `UploadManager::send_partial_upload`, at clock reading `now`. -/
def send_partial_upload (m : UploadManager) (now : Nat) : Bool × UploadManager :=
  if m.segment_tracker.is_complete then (false, m)
  else
    match m.segment_tracker.get_missing_segments with
    | [] => (false, m)
    | first_missing :: rest =>
      let missing_count : Int := (first_missing :: rest).length
      let m := { m with statistics := { m.statistics with
        total_packets_requested := m.statistics.total_packets_requested + missing_count } }
      let m := m.reset_packet_timer now
      let first_missing_addr : Nat :=
        ((first_missing * UPLOAD_SAMPLES_PER_SEGMENT * UPLOAD_BYTES_PER_SAMPLE) %
          4294967296).toNat
      m.send_upload_command_0x55 first_missing_addr

/-- Embeds `UploadManager::process_upload_response`, at clock reading `now`. -/
def process_upload_response (m : UploadManager) (response : UploadResponse) (now : Nat) :
    Bool × UploadManager :=
  if !response.has_upload_data then (false, m)
  else
    let m := { m with statistics := { m.statistics with
      total_packets_received := m.statistics.total_packets_received + 1 } }
    if !response.crc_valid then
      (false, { m with statistics := { m.statistics with
        checksum_errors := m.statistics.checksum_errors + 1 } })
    else
      let segment_addr : Int := (response.upload_segment_addr % 65536 : Nat)
      let total_segments := m.segment_tracker.get_total_count
      if segment_addr ≥ total_segments then (true, m)
      else if m.segment_tracker.is_received segment_addr then (true, m)
      else
        let r := m.segment_tracker.mark_received segment_addr response.upload_data
        let m := { m with segment_tracker := r.2 }
        if r.1 then
          let m := m.reset_packet_timer now
          (true, m.transition_state UploadState.UPLOAD_RECEIVING)
        else (true, m)

/-- Embeds `get_received_segments`. -/
def get_received_segments (m : UploadManager) : Int := m.segment_tracker.get_received_count

/-- Embeds `get_total_segments`. -/
def get_total_segments (m : UploadManager) : Int := m.segment_tracker.get_total_count

/-- Embeds `get_state`. -/
def get_state (m : UploadManager) : UploadState := m.current_state

/-- Embeds `get_retry_count`. -/
def get_retry_count (m : UploadManager) : Int := m.retry_count

end UploadManager

/-- Representation invariant of the tracker: the vector has `total_segments`
entries and `segments_received` counts the entries whose flag is set. -/
def TrackerInv (t : UploadSegmentTracker) : Prop :=
  0 ≤ t.total_segments ∧ t.segments.length = t.total_segments.toNat ∧
    t.segments_received = ((t.segments.countP (fun s => s.received) : Nat) : Int)

/-- Effect of one `mark_received` call `c` on the stored segment `k`. -/
def store_call (k : Nat) (s : UploadSegment) (c : Int × SampleBlock) : UploadSegment :=
  if c.1 = (k : Int) ∧ s.received = false then { s with data := c.2, received := true } else s

/-! ## CommandProcessor: direction of a frame -/

/-- Embeds `enum PacketDirection`. -/
inductive PacketDirection where
  | BASE_TO_UNIT
  | UNIT_TO_BASE
  | UNKNOWN
deriving DecidableEq, Repr

/-- Embeds `BROADCAST_MAC`. -/
def BROADCAST_MAC : Nat := 0xFFFFFFFF

/-- The `typical_direction` that `CommandProcessor::get_command_info` finds in the
registry built by `init_command_registry`; `none` when the opcode is not
registered. -/
def get_command_info (command_code : Nat) : Option PacketDirection :=
  if command_code = 0x41 ∨ command_code = 0x61 then some PacketDirection.BASE_TO_UNIT
  else if command_code = 0x52 ∨ command_code = 0x72 then some PacketDirection.BASE_TO_UNIT
  else if command_code = 0x53 ∨ command_code = 0x73 then some PacketDirection.BASE_TO_UNIT
  else if command_code = 0x58 ∨ command_code = 0x78 then some PacketDirection.BASE_TO_UNIT
  else if command_code = 0x45 ∨ command_code = 0x65 then some PacketDirection.BASE_TO_UNIT
  else if command_code = 0x49 ∨ command_code = 0x69 then some PacketDirection.BASE_TO_UNIT
  else if command_code = 0x31 then some PacketDirection.UNIT_TO_BASE
  else if command_code = 0x33 then some PacketDirection.UNIT_TO_BASE
  else if command_code = 0x44 ∨ command_code = 0x64 then some PacketDirection.UNIT_TO_BASE
  else if command_code = 0x4B ∨ command_code = 0x6B then some PacketDirection.UNIT_TO_BASE
  else if command_code = 0x51 ∨ command_code = 0x71 then some PacketDirection.BASE_TO_UNIT
  else if command_code = 0x55 ∨ command_code = 0x75 then some PacketDirection.BASE_TO_UNIT
  else none

/-- The loop of `is_header_info_present` that looks for a byte other than
`0x30` at offsets `i .. i + n - 1`; true when all of them are padding. -/
def all_padding_loop (data : List Nat) : Nat → Nat → Bool
  | 0, _ => true
  | n + 1, i => if data.getD i 0 ≠ 0x30 then false else all_padding_loop data n (i + 1)

/-- Embeds `CommandProcessor::is_header_info_present`. -/
def is_header_info_present (data : List Nat) : Bool :=
  if data.getD 13 0 = 0xFF ∧ data.getD 14 0 = 0xFF ∧ data.getD 15 0 = 0xFF ∧
      data.getD 16 0 = 0xFF then false
  else if all_padding_loop data 32 13 then false
  else
    let marker := data.getD 15 0
    if marker = 0x30 ∨ marker = 0xFF then false else true

/-- The big-endian 32-bit word `(b0 << 24) | (b1 << 16) | (b2 << 8) | b3` read at
offset `i`. -/
def be32_at (data : List Nat) (i : Nat) : Nat :=
  (data.getD i 0 <<< 24) ||| (data.getD (i + 1) 0 <<< 16) ||| (data.getD (i + 2) 0 <<< 8) |||
    data.getD (i + 3) 0

/-- Embeds `CommandProcessor::determine_direction`. -/
def determine_direction (data : List Nat) (command_code : Nat) : PacketDirection :=
  let source_mac := be32_at data 3
  if source_mac = BROADCAST_MAC then PacketDirection.BASE_TO_UNIT
  else
    match get_command_info command_code with
    | some typical_direction => typical_direction
    | none =>
      if is_header_info_present data then PacketDirection.UNIT_TO_BASE
      else PacketDirection.UNKNOWN

/-- A frame as the decoder sees it: 128 entries, each a byte. -/
def IsFrame (data : List Nat) : Prop :=
  data.length = 128 ∧ ∀ b ∈ data, b < 256

/-! ## CRC-32 of the push-config body -/

/-- One pass of the inner loop body of both CRC routines on an unsigned type of
`bits` bits: `mask = -(crc & 1); crc = (crc >> 1) ^ (0xEDB88320 & mask);`. -/
def crc_shift (bits : Nat) (crc : Nat) : Nat :=
  let mask := (2 ^ bits - (crc &&& 1)) % 2 ^ bits
  (crc >>> 1) ^^^ (0xEDB88320 &&& mask)

/-- The outer loop body of both CRC routines: `crc = crc ^ byte;` followed by
the inner loop `for (j = 7; j >= 0; j--)`. -/
def crc_byte (bits : Nat) (crc byte : Nat) : Nat :=
  [7, 6, 5, 4, 3, 2, 1, 0].foldl (fun crc _j => crc_shift bits crc) (crc ^^^ byte)

/-- Bitwise complement `~x` on an unsigned type of `bits` bits. -/
def bit_not (bits : Nat) (x : Nat) : Nat := 2 ^ bits - 1 - x % 2 ^ bits

/-- Embeds `CommandReceiverSubs::calculate_crc32` on the `length` bytes
`message` (`uint32_t` arithmetic). -/
def calculate_crc32 (message : List Nat) : Nat :=
  bit_not 32 (message.foldl (crc_byte 32) 0xFFFFFFFF)

/-- Embeds `ConfigBroadcaster::CalculateCRC32`: the four bytes stored in
`crcout[0..3]`. Its variables are `unsigned long`, `ulong_bits` wide (64 on
LP64 Linux, 32 on a 32-bit target). -/
def CalculateCRC32 (ulong_bits : Nat) (message : List Nat) : List Nat :=
  let crc := message.foldl (crc_byte ulong_bits) 0xFFFFFFFF
  let crc := bit_not ulong_bits crc
  [(crc >>> 24) &&& 0xff, (crc >>> 16) &&& 0xff, (crc >>> 8) &&& 0xff, crc &&& 0xff]

/-- One bit step of the reflected CRC-32: shift right, and xor the polynomial
`0xEDB88320` in when the bit shifted out is 1. -/
def crc32_reference_shift (crc : Nat) : Nat :=
  if crc % 2 = 1 then (crc >>> 1) ^^^ 0xEDB88320 else crc >>> 1

/-- The reflected CRC-32 of the specification: polynomial `0xEDB88320`,
initial value `0xFFFFFFFF`, each byte xored into the low end and followed by
eight bit steps, final xor `0xFFFFFFFF`. -/
def crc32_reference (message : List Nat) : Nat :=
  (message.foldl (fun crc byte => crc32_reference_shift^[8] (crc ^^^ byte)) 0xFFFFFFFF) ^^^
    0xFFFFFFFF

/-! ## CommandTransmitter: make_command and make_erase_command -/

/-- Text that `printf` produces for `"%0<width>x"` and a 32-bit unsigned value:
lower-case hexadecimal, padded with zeros to at least `width` characters. -/
def hex_padded (width : Nat) (value : Nat) : List Nat :=
  let digits := hex_digits 8 (value % 4294967296) []
  List.replicate (width - digits.length) 48 ++ digits

/-- Embeds `CommandTransmitter::write_hex_ascii`: the first `num_chars`
characters of the `"%0*x"` text are stored from `offset` on. -/
def write_hex_ascii (buffer : List Nat) (offset : Nat) (value : Nat) (num_chars : Nat) :
    List Nat :=
  write_at buffer offset ((hex_padded num_chars value).take num_chars)

/-- The call `snprintf(&buf[offset], 9, "%08x", value)`: at most eight
characters are stored and a terminating NUL follows them. -/
def snprintf_08x_at (buf : List Nat) (offset : Nat) (value : Nat) : List Nat :=
  write_at buf offset ((hex_padded 8 value).take 8 ++ [0])

/-- The members of `struct tm` that `make_command` reads. -/
structure BrokenDownTime where
  tm_mon : Nat
  tm_mday : Nat
  tm_year : Nat
  tm_hour : Nat
  tm_min : Nat
  tm_sec : Nat
deriving DecidableEq, Repr

/-- A value of type `double` as far as comparisons see it: a finite value
(every finite double is a rational number), an infinity, or NaN. -/
inductive DoubleValue where
  | finite (value : ℚ)
  | pos_inf
  | neg_inf
  | nan
deriving DecidableEq, Repr

/-- The comparison `x > c` of a `double` with a finite constant; false for NaN. -/
def DoubleValue.gt_const (x : DoubleValue) (c : ℚ) : Bool :=
  match x with
  | DoubleValue.finite value => decide (value > c)
  | DoubleValue.pos_inf => true
  | DoubleValue.neg_inf => false
  | DoubleValue.nan => false

/-- The comparison `x < c` of a `double` with a finite constant; false for NaN. -/
def DoubleValue.lt_const (x : DoubleValue) (c : ℚ) : Bool :=
  match x with
  | DoubleValue.finite value => decide (value < c)
  | DoubleValue.pos_inf => false
  | DoubleValue.neg_inf => true
  | DoubleValue.nan => false

/-- The comparison `x <= c` of a `double` with a finite value; false for NaN. -/
def DoubleValue.le_const (x : DoubleValue) (c : ℚ) : Bool :=
  match x with
  | DoubleValue.finite value => decide (value ≤ c)
  | DoubleValue.pos_inf => false
  | DoubleValue.neg_inf => true
  | DoubleValue.nan => false

/-- The members of `struct Sampleset` that `make_command` and the sampleset
supervisor read. In `make_command` the `double` member `max_freq` enters only
through `(uint32_t)(log2(20000.0 / (2.0 * max_freq)) + 1.0 + 0.5)`; the value of
that floating-point expression is carried here as `decimation_rounded`.
`interval` is the sampling interval in seconds. -/
structure Sampleset where
  nodeid : Nat
  sampling_mask : Nat
  decimation_rounded : Nat
  resolution : Int
  ac_dc_flag : Nat
  interval : DoubleValue
deriving DecidableEq, Repr

/-- Embeds `CMD_SAMPLE_DATA`, the character `R`. -/
def CMD_SAMPLE_DATA : Nat := 0x52

/-- Embeds `CMD_SAMPLE_DATA_LC`, the character `r`. -/
def CMD_SAMPLE_DATA_LC : Nat := 0x72

/-- Embeds `CMD_ERASE_CFG`, the character `E`. -/
def CMD_ERASE_CFG : Nat := 0x45

/-- Embeds `CMD_DATA_RESPONSE`, the character `D`. -/
def CMD_DATA_RESPONSE : Nat := 0x44

/-- Embeds `CMD_ACK_INIT`, the character `1`. -/
def CMD_ACK_INIT : Nat := 0x31

/-- Embeds `CMD_DATA_UPLOAD`, the character `3`. -/
def CMD_DATA_UPLOAD : Nat := 0x33

/-- The `decimation` that `make_command` computes for a sampleset. -/
def sampleset_decimation (s : Sampleset) : Nat :=
  if s.ac_dc_flag = 0 then 1
  else
    let decimation := s.decimation_rounded
    let decimation := if decimation < 1 then 1 else decimation
    if decimation > 15 then 15 else decimation

/-- The `capture_segments` that `make_command` computes for a sampleset. -/
def sampleset_capture_segments (s : Sampleset) : Nat :=
  if s.ac_dc_flag = 0 then 1
  else if s.resolution > 0 then (((s.resolution + 15) / 16) % 4294967296).toNat
  else 100

/-- The `dc_control` that `make_command` computes for a sampleset. -/
def sampleset_dc_control (s : Sampleset) : Nat :=
  if s.ac_dc_flag = 0 then 0x00000001 else 0

/-- The word `combined = channel_mask | (decimation << 8) | (1 << 12)`. -/
def sampleset_combined (s : Sampleset) : Nat :=
  s.sampling_mask ||| (sampleset_decimation s <<< 8) ||| (1 <<< 12)

/-- The array `encoded_body[78]` that `make_command` fills for a sampleset. -/
def encode_sampleset_body (s : Sampleset) : List Nat :=
  let encoded_body := List.replicate 78 0x30
  let encoded_body := snprintf_08x_at encoded_body 0 (sampleset_capture_segments s)
  let encoded_body := snprintf_08x_at encoded_body 8 (sampleset_combined s)
  let encoded_body := snprintf_08x_at encoded_body 16 (sampleset_dc_control s)
  let encoded_body := snprintf_08x_at encoded_body 24 0
  let encoded_body := snprintf_08x_at encoded_body 32 0
  encoded_body

/-- The bytes `buf[off] .. buf[off + n - 1]`, as a copying loop reads them. -/
def bytes_at (buf : List Nat) (off n : Nat) : List Nat :=
  (List.range n).map (fun i => buf.getD (off + i) 0)

/-- The default body of `make_command` (no sampleset, no body data), written
into `output` from offset 46 to 123; `timeinfo` is what `localtime` returned. -/
def default_body (output : List Nat) (command : Nat) (timeinfo : Option BrokenDownTime) :
    List Nat :=
  let output := write_at output 46 (List.replicate 40 0x30)
  if command = CMD_SAMPLE_DATA ∨ command = CMD_SAMPLE_DATA_LC then
    let output := output.set 52 0x34
    let output := output.set 58 0x31
    let output := output.set 59 0x31
    let output := output.set 61 0x31
    let output := output.set 84 0x31
    let output := output.set 85 0x65
    let output :=
      match timeinfo with
      | some t =>
        let output := write_hex_ascii output 86 (t.tm_mon + 1) 2
        let output := write_hex_ascii output 88 t.tm_mday 2
        let output := write_hex_ascii output 90 (t.tm_year + 1900) 4
        let output := write_hex_ascii output 94 t.tm_hour 2
        let output := write_hex_ascii output 96 t.tm_min 2
        write_hex_ascii output 98 t.tm_sec 2
      | none => output
    write_at output 100 (List.replicate 24 0x30)
  else
    write_at output 86 (List.replicate 38 0x30)

/-- Embeds `CommandTransmitter::make_command` for a non-null `output`: the 128
bytes written (the function then returns true). `body_data` and `sampleset`
are `none` for null pointers; `timeinfo` is the result of `localtime`. -/
def make_command (command macid : Nat) (body_data : Option (List Nat))
    (sampleset : Option Sampleset) (timeinfo : Option BrokenDownTime) : List Nat :=
  let output := List.replicate 128 0x30
  let output := write_at output 0 [0x74, 0x53, 0x01, 0xff, 0xff, 0xff, 0xff, 0x01]
  let output := write_at output 8 (List.replicate 5 0x30)
  let output := write_at output 13 (mac_bytes macid)
  let output := write_at output 17 (mac_bytes macid)
  let output := write_at output 21 (List.replicate 24 0x30)
  let output := write_at output 45 [command &&& 0xff]
  let output :=
    match sampleset, body_data with
    | some s, body =>
      if command = CMD_SAMPLE_DATA ∨ command = CMD_SAMPLE_DATA_LC then
        write_at output 46 (encode_sampleset_body s)
      else
        match body with
        | some b => write_at output 46 (bytes_at b 0 78)
        | none => default_body output command timeinfo
    | none, some b => write_at output 46 (bytes_at b 0 78)
    | none, none => default_body output command timeinfo
  let output := output.set 124 0x30
  let output := output.set 125 0x30
  let output := output.set 126 0x75
  let output := output.set 127 0x50
  output

/-- Embeds `CommandTransmitter::make_erase_command` for a non-null `output`. -/
def make_erase_command (age : Nat) : List Nat :=
  let output := List.replicate 128 0x00
  let output := write_at output 0 [0x74, 0x53, 0x01, 0xff, 0xff, 0xff, 0xff, 0x01]
  let output := write_at output 8 (List.replicate 5 0x30)
  let output := write_at output 13 (List.replicate 8 0x30)
  let output := write_at output 21 (List.replicate 24 0x30)
  let output := write_at output 45 [CMD_ERASE_CFG]
  let output := write_at output 46 [(age &&& 0x3f) ||| 0xc0]
  let output := output.set 126 0x75
  let output := output.set 127 0x50
  output

/-! ## ConfigBroadcaster: the push-config frame -/

/-- Embeds `NEW_CONFIG_LENGTH`. -/
def NEW_CONFIG_LENGTH : Nat := 38

/-- Embeds `PARAM_SEND_WORDS`. -/
def PARAM_SEND_WORDS : Nat := 10

/-- Embeds `ConfigBroadcaster::BuildConfigPacket`: the 80 bytes of
`config_packet_long`, written one after the other. The four RSSI members of the
broadcaster are arguments; `ulong_bits` is the width of `unsigned long`. -/
def BuildConfigPacket (ulong_bits : Nat) (config_data : List Nat) (macid time_block : Nat)
    (rssi_threshold rssi_delay rssi_increment power_adjust : Nat) : List Nat :=
  let packet := bytes_at config_data 0 NEW_CONFIG_LENGTH
  let packet := packet ++ mac_bytes macid
  let packet := packet ++ [(time_block >>> 7) % 256, (time_block >>> 7) % 256]
  let crc32 := CalculateCRC32 ulong_bits packet
  let packet := packet ++ [crc32.getD 0 0, crc32.getD 1 0, crc32.getD 2 0, crc32.getD 3 0]
  let packet := packet ++ [0xfa, 0xde, rssi_threshold, rssi_delay, rssi_increment, power_adjust]
  packet ++ List.replicate (PARAM_SEND_WORDS * 8 - packet.length) 0

/-- Embeds `ConfigBroadcaster::BuildBroadcastCommand`: `none` when it returns
false, otherwise the 128 bytes of `cmd_buffer`, written one after the other. -/
def BuildBroadcastCommand (config_packet : List Nat) (packet_size : Nat) :
    Option (List Nat) :=
  if packet_size ≠ PARAM_SEND_WORDS * 8 then none
  else
    let cmd_buffer := [0x74, 0x53, 1, 0xff, 0xff, 0xff, 0xff]
    let cmd_buffer := cmd_buffer ++ List.replicate 6 0x30
    let cmd_buffer := cmd_buffer ++ List.replicate 32 0x30
    let cmd_buffer := cmd_buffer ++ [CMD_DATA_RESPONSE]
    let cmd_buffer := cmd_buffer ++ bytes_at config_packet 0 packet_size
    let cmd_buffer := cmd_buffer ++ [0x75, 0x50]
    if cmd_buffer.length ≠ 128 then none else some cmd_buffer

/-! ## CommandReceiver::parse_response -/

/-- The members of `struct CommandResponse` that this development follows.
Members that the constructor leaves indeterminate hold 0 here until the
decoder assigns them. -/
structure CommandResponse where
  data : List Nat
  packet_valid : Bool
  crc_valid : Bool
  hops : Nat
  source_macid : Nat
  unit_id : Nat
  direction : PacketDirection
  has_header_info : Bool
  header_data_control_bits : Nat
  header_macid : Nat
  header_descriptor : Nat
  descriptor_length_code : Nat
  descriptor_sample_length : Nat
  has_command_params : Bool
  command_params : List Nat
  sample_capture_segments : Nat
  sample_channel : Nat
  sample_decimation : Nat
  advanced_checksum : Bool
  sample_tach_delay : Nat
  sample_dc_control : Nat
  sample_wakeup_delay : Nat
  sample_bluewave_interval : Nat
  sample_length : Nat
  command_code : Nat
  command_hops : Nat
  command_macid : Nat
  command_count : Nat
  erase_age : Nat
  has_upload_data : Bool
  is_fast_mode : Bool
  upload_segment_addr : Nat
  upload_data : SampleBlock
  has_upload_partial_request : Bool
  upload_partial_start_addr : Nat
  upload_partial_segments : List Nat
  has_push_config : Bool
  config_packet : List Nat
  config_target_macid : Nat
  config_time_block : Nat
  config_crc32 : Nat
  config_crc_valid : Bool
  rssi_threshold : Nat
  rssi_delay : Nat
  rssi_increment : Nat
  power_adjust : Nat
deriving DecidableEq

/-- Embeds the constructor `CommandResponse()` together with the copy of the
128 frame bytes into `data`. -/
def CommandResponse.new (data : List Nat) : CommandResponse :=
  { data := data, packet_valid := false, crc_valid := false, hops := 0, source_macid := 0,
    unit_id := 0, direction := PacketDirection.UNKNOWN, has_header_info := false,
    header_data_control_bits := 0, header_macid := 0, header_descriptor := 0,
    descriptor_length_code := 0, descriptor_sample_length := 0,
    has_command_params := false, command_params := List.replicate 10 0,
    sample_capture_segments := 0, sample_channel := 0, sample_decimation := 0,
    advanced_checksum := false, sample_tach_delay := 0, sample_dc_control := 0,
    sample_wakeup_delay := 0, sample_bluewave_interval := 0, sample_length := 0,
    command_code := 0, command_hops := 0, command_macid := 0, command_count := 0,
    erase_age := 0, has_upload_data := false, is_fast_mode := false,
    upload_segment_addr := 0, upload_data := zero_block,
    has_upload_partial_request := false, upload_partial_start_addr := 0,
    upload_partial_segments := [], has_push_config := false,
    config_packet := List.replicate 38 0, config_target_macid := 0, config_time_block := 0,
    config_crc32 := 0, config_crc_valid := false, rssi_threshold := 0, rssi_delay := 0,
    rssi_increment := 0, power_adjust := 0 }

/-- One parameter of `parse_command_params`: the eight characters at `offset`,
NUL-terminated, read with `sscanf("%x")` into a `uint32_t` that starts at 0. -/
def parse_hex_param (data : List Nat) (offset : Nat) : Nat :=
  (sscanf_hex 32 (bytes_at data offset 8 ++ [0])).getD 0

/-- Embeds `CommandReceiverSubs::parse_command_params`. -/
def parse_command_params (response : CommandResponse) : CommandResponse :=
  if response.direction ≠ PacketDirection.BASE_TO_UNIT then response
  else
    let params := (List.range 10).map (fun i => parse_hex_param response.data (46 + i * 8))
    let response := { response with has_command_params := true, command_params := params }
    if response.command_code = 0x52 ∨ response.command_code = 0x72 then
      let combined := params.getD 1 0
      let capture := params.getD 0 0
      { response with
        sample_capture_segments := capture
        sample_channel := combined &&& 0xFF
        sample_decimation := (combined >>> 8) &&& 0x0F
        advanced_checksum := decide ((combined >>> 12) &&& 0x01 ≠ 0)
        sample_tach_delay := (combined >>> 16) &&& 0xFFFF
        sample_dc_control := params.getD 2 0
        sample_wakeup_delay := (params.getD 3 0 >>> 16) &&& 0xFFFF
        sample_bluewave_interval := params.getD 4 0
        sample_length := (capture * 16) % 4294967296 }
    else response

/-- Conversion of a value in `0 .. 65535` to `int16_t`. -/
def to_int16 (v : Int) : Int := if v % 65536 ≥ 32768 then v % 65536 - 65536 else v % 65536

/-- Loop variables of the fast-mode sample decoder. -/
structure FastDecodeState where
  samples : List Int
  sample_idx : Nat
  save_first : Int
  lcnt : Nat

/-- One iteration `i` of the fast-mode loop `for (int i = 0; i < 64; i++)` of
`parse_upload_data`. -/
def fast_decode_step (data : List Nat) (st : FastDecodeState) (i : Nat) : FastDecodeState :=
  if i &&& 0xf = 0 then
    { st with save_first := 0, sample_idx := st.sample_idx + 1 }
  else
    let ret : Nat := ((data.getD (5 + st.lcnt * 2) 0 <<< 8) &&& 0xff00) |||
      (data.getD (5 + st.lcnt * 2 + 1) 0 &&& 0xff)
    let save_first := if ret &&& 1 ≠ 0 then st.save_first + 0x8000 else st.save_first
    let ret := ret &&& 0xfffe
    let ret := if ret &&& 2 ≠ 0 then ret + 1 else ret
    let samples := st.samples.set st.sample_idx (to_int16 ((ret : Int) - 32768))
    let samples :=
      if i &&& 0xf = 0xf then samples.set (st.sample_idx - 15) (to_int16 (save_first - 32768))
      else samples
    { samples := samples, sample_idx := st.sample_idx + 1, save_first := save_first / 2,
      lcnt := st.lcnt + 1 }

/-- The 64 samples that the fast-mode loop leaves in `samples`. -/
def fast_decode (data : List Nat) : List Int :=
  ((List.range 64).foldl (fast_decode_step data)
    { samples := List.replicate 64 0, sample_idx := 0, save_first := 0, lcnt := 0 }).samples

/-- A list of 32 samples as a block: the first 32 entries, zeros where the list
is too short. -/
def block_of (l : List Int) : SampleBlock :=
  ⟨(List.range 32).map (fun i => l.getD i 0), by simp⟩

/-- Embeds `CommandReceiverSubs::parse_upload_data`. -/
def parse_upload_data (response : CommandResponse) : CommandResponse :=
  if response.command_code ≠ 0x33 then { response with has_upload_data := false }
  else
    let response := { response with is_fast_mode := decide (response.data.getD 2 0 = 0x80) }
    if !verify_upload_checksum response.data response.is_fast_mode then
      { response with has_upload_data := false, crc_valid := false }
    else if response.is_fast_mode then
      { response with
        upload_segment_addr := (response.data.getD 3 0 <<< 8) ||| response.data.getD 4 0
        upload_data := block_of (fast_decode response.data)
        has_upload_data := true }
    else if response.data.getD 45 0 ≠ 0x33 then { response with has_upload_data := false }
    else
      { response with
        upload_segment_addr := (response.data.getD 47 0 <<< 8) ||| response.data.getD 48 0
        upload_data := block_of ((List.range 32).map (fun i =>
          to_int16 (((response.data.getD (51 + i * 2) 0 <<< 8) |||
            response.data.getD (51 + i * 2 + 1) 0 : Nat) : Int)))
        has_upload_data := true }

/-- Embeds `CommandReceiverSubs::parse_push_config`. -/
def parse_push_config (response : CommandResponse) : CommandResponse :=
  if response.command_code ≠ 0x44 ∧ response.command_code ≠ 0x64 then
    { response with has_push_config := false }
  else if response.source_macid ≠ BROADCAST_MAC then
    { response with has_push_config := false }
  else
    let response := { response with
      config_packet := bytes_at response.data 46 38
      config_target_macid := be32_at response.data 84
      config_time_block := response.data.getD 88 0
      config_crc32 := be32_at response.data 90 }
    let calculated_crc := calculate_crc32 (bytes_at response.data 46 44)
    let response := { response with
      config_crc_valid := decide (calculated_crc = response.config_crc32) }
    let response :=
      if response.data.getD 94 0 = 0xfa ∧ response.data.getD 95 0 = 0xde then
        { response with
          rssi_threshold := response.data.getD 96 0
          rssi_delay := response.data.getD 97 0
          rssi_increment := response.data.getD 98 0
          power_adjust := response.data.getD 99 0 }
      else
        { response with
          rssi_threshold := 0
          rssi_delay := 0
          rssi_increment := 0
          power_adjust := 0 }
    { response with has_push_config := true }

/-- Embeds `CommandReceiver::parse_response` on the 128 bytes `data` that it
copies from the ring. -/
def parse_response (data : List Nat) : CommandResponse :=
  let response := CommandResponse.new data
  let response := { response with
    packet_valid := decide (data.getD 0 0 = 0x74 ∧ data.getD 1 0 = 0x53 ∧
      data.getD 126 0 = 0x75 ∧ data.getD 127 0 = 0x50)
    hops := data.getD 2 0
    source_macid := be32_at data 3
    command_code := data.getD 45 0 }
  let response := { response with
    direction := determine_direction data response.command_code }
  let response := { response with
    crc_valid :=
      if response.command_code = 0x33 then
        verify_upload_checksum data (decide (data.getD 2 0 = 0x80))
      else true }
  let response := { response with
    has_header_info := decide (response.direction = PacketDirection.UNIT_TO_BASE) &&
      is_header_info_present data }
  let response :=
    if response.has_header_info then
      { response with
        header_data_control_bits := data.getD 19 0
        header_macid := be32_at data 20
        header_descriptor := (data.getD 24 0 <<< 8) ||| data.getD 25 0
        descriptor_length_code := ((data.getD 24 0 <<< 8) ||| data.getD 25 0) &&& 0xFF
        descriptor_sample_length := ((((data.getD 24 0 <<< 8) ||| data.getD 25 0) &&& 0xFF) + 1)
          * 256
        unit_id := be32_at data 20 }
    else response
  let response := parse_command_params response
  let response := { response with
    command_hops := data.getD 46 0
    command_macid := be32_at data 47
    command_count := data.getD 55 0
    erase_age :=
      if response.command_code = 0x45 ∨ response.command_code = 0x65 then
        data.getD 46 0 &&& 0x3f
      else 0 }
  let response := parse_upload_data response
  let request := parse_upload_partial_request data
  let response := { response with
    has_upload_partial_request := request.has_upload_partial_request
    upload_partial_start_addr := request.upload_partial_start_addr
    upload_partial_segments := request.upload_partial_segments }
  parse_push_config response

/-- What the decoder reports for a frame sent by the base: markers valid, source
MAC `0xFFFFFFFF`, direction BASE_TO_UNIT and no header info. -/
def DecodesAsBaseFrame (frame : List Nat) : Prop :=
  (parse_response frame).packet_valid = true ∧
  (parse_response frame).source_macid = 0xFFFFFFFF ∧
  (parse_response frame).direction = PacketDirection.BASE_TO_UNIT ∧
  (parse_response frame).has_header_info = false

/-- The `m` low hexadecimal digits of `v`, most significant first, as
lower-case characters: the text of `"%0<m>x"` for a value below `16 ^ m`. -/
def hex_fixed : Nat → Nat → List Nat
  | 0, _ => []
  | m + 1, v => hex_fixed m (v / 16) ++ [hex_char (v % 16)]

/-! ## CTS1X::go_main and the receive ring

The constants `IBUF_MAX`, `IBUF_MASK` and `CLENG` come from
`buffer_constants.h`; the functions below take them as arguments. -/

/-- The receive ring of `CTS1X`: the buffer `ibuf` (bytes as unsigned values),
the write index `icnt` and the read index `ocnt`. -/
structure Ring where
  ibuf : List Nat
  icnt : Nat
  ocnt : Nat
deriving DecidableEq

/-- Embeds `CTS1X::get_ibuf_count`. -/
def get_ibuf_count (IBUF_MAX : Nat) (r : Ring) : Int :=
  let sv_delta : Int := (r.icnt : Int) - (r.ocnt : Int)
  if sv_delta < 0 then sv_delta + IBUF_MAX else sv_delta

/-- Embeds `Utility::make_pointer`. -/
def make_pointer (IBUF_MASK : Nat) (i1 i2 : Nat) : Nat := (i1 + i2) &&& IBUF_MASK

/-- Embeds `Utility::move_buffer`. -/
def move_buffer (IBUF_MASK : Nat) (r : Ring) (loc : Nat) : Ring :=
  { r with ocnt := (r.ocnt + loc) &&& IBUF_MASK }

/-- Embeds `Utility::is_valid_command_header`. -/
def is_valid_command_header (IBUF_MASK CLENG : Nat) (r : Ring) : Bool :=
  let start := r.ocnt
  if r.ibuf.getD (start &&& IBUF_MASK) 0 ≠ 0x74 then false
  else if r.ibuf.getD (make_pointer IBUF_MASK start 1) 0 ≠ 0x53 then false
  else if r.ibuf.getD (make_pointer IBUF_MASK start (CLENG - 2)) 0 ≠ 0x75 then false
  else if r.ibuf.getD (make_pointer IBUF_MASK start (CLENG - 1)) 0 ≠ 0x50 then false
  else true

/-- The copy loop at the head of `CommandReceiver::parse_response`:
`response.data[idx] = ibuf[(*ocnt + idx) & IBUF_MASK]` for `idx < 128`. -/
def read_frame (IBUF_MASK : Nat) (r : Ring) : List Nat :=
  (List.range 128).map (fun idx => r.ibuf.getD ((r.ocnt + idx) &&& IBUF_MASK) 0)

/-- Embeds `CTS1X::go_main` with a session manager attached: the ring afterwards
and the argument of the one call `session_mgr->process(...)` (`none` for
`nullptr`). -/
def go_main (IBUF_MAX IBUF_MASK CLENG : Nat) (r : Ring) : Ring × Option CommandResponse :=
  let sv_delta := get_ibuf_count IBUF_MAX r
  if sv_delta < CLENG then (r, none)
  else if is_valid_command_header IBUF_MASK CLENG r then
    let parsed_response := parse_response (read_frame IBUF_MASK r)
    let dispatched := if parsed_response.packet_valid then some parsed_response else none
    (move_buffer IBUF_MASK r CLENG, dispatched)
  else (move_buffer IBUF_MASK r 1, none)

/-! ## SessionManager::process and the upload states of UploadCoordinator

Every clock reading of one call of `process` is the same instant `now`
(milliseconds of the steady clock). Log lines, the alive file and
`Server_sleep_ms` have no effect on the members followed here. -/

/-- Embeds `enum SessionState`. -/
inductive SessionState where
  | STATE_IDLE
  | STATE_COMMAND_SEQUENCE
  | STATE_DATA_UPLOAD_INIT
  | STATE_DATA_UPLOAD_ACTIVE
  | STATE_DATA_UPLOAD_RETRY
  | STATE_DATA_UPLOAD_COMPLETE
  | STATE_ERROR
deriving DecidableEq, Repr

/-- Embeds `enum SessionResult`. -/
inductive SessionResult where
  | RESULT_PENDING
  | RESULT_SUCCESS
  | RESULT_NO_RESPONSE
  | RESULT_NO_DATA_READY
  | RESULT_ERROR
deriving DecidableEq, Repr

/-- Embeds `class SessionStateTracker`. -/
structure SessionStateTracker where
  current_state : SessionState
  current_result : SessionResult
deriving DecidableEq

/-- Embeds `SessionStateTracker::transition_state`. -/
def SessionStateTracker.transition_state (t : SessionStateTracker) (new_state : SessionState) :
    SessionStateTracker :=
  if new_state ≠ t.current_state then { t with current_state := new_state } else t

/-- Embeds `SessionStateTracker::set_result`. -/
def SessionStateTracker.set_result (t : SessionStateTracker) (result : SessionResult) :
    SessionStateTracker :=
  { t with current_result := result }

/-- Embeds `LinkTiming::UPLOAD_INIT_STATE_TIMEOUT_MS`. -/
def UPLOAD_INIT_STATE_TIMEOUT_MS : Int := 120

/-- Embeds `LinkTiming::UPLOAD_ACTIVE_STATE_TIMEOUT_MS`. -/
def UPLOAD_ACTIVE_STATE_TIMEOUT_MS : Int := 150

/-- Embeds `LinkTiming::UPLOAD_INITIAL_TIMEOUT_MS`. -/
def UPLOAD_INITIAL_TIMEOUT_MS : Int := 250

/-- Embeds `LinkTiming::UPLOAD_MIN_PACKET_TIMEOUT_MS`. -/
def UPLOAD_MIN_PACKET_TIMEOUT_MS : Int := 250

/-- Embeds `LinkTiming::UPLOAD_PACKET_TIMEOUT_NORMAL_MS`. -/
def UPLOAD_PACKET_TIMEOUT_NORMAL_MS : Int := 250

/-- Embeds `LinkTiming::UPLOAD_PACKET_TIMEOUT_HIGH_LOSS_MS`. -/
def UPLOAD_PACKET_TIMEOUT_HIGH_LOSS_MS : Int := 500

/-- Embeds `LinkTiming::UPLOAD_PACKET_INTERVAL_MS`. -/
def UPLOAD_PACKET_INTERVAL_MS : Int := 25

/-- Embeds `LinkTiming::UPLOAD_EXPECTED_RETRIES_PER_SEGMENT`. -/
def UPLOAD_EXPECTED_RETRIES_PER_SEGMENT : Int := 100

/-- Embeds `LinkTiming::UPLOAD_GLOBAL_TIMEOUT_MULTIPLIER`. -/
def UPLOAD_GLOBAL_TIMEOUT_MULTIPLIER : Int := 15

/-- Embeds `LinkTiming::UPLOAD_GLOBAL_TIMEOUT_MAX_MS`. -/
def UPLOAD_GLOBAL_TIMEOUT_MAX_MS : Int := 480000

/-- Embeds `LinkTiming::UPLOAD_SAMPLES_PER_DESCRIPTOR_UNIT`. -/
def UPLOAD_SAMPLES_PER_DESCRIPTOR_UNIT : Nat := 256

/-- Embeds `LinkTiming::UPLOAD_HIGH_COMPLETION_THRESHOLD`: the double nearest to
0.90, which is `8106479329266893 / 2 ^ 53`. -/
def UPLOAD_HIGH_COMPLETION_THRESHOLD : ℚ := 8106479329266893 / 9007199254740992

/-- Embeds `LinkTiming::UPLOAD_LOW_COMPLETION_THRESHOLD`, the double 0.50. -/
def UPLOAD_LOW_COMPLETION_THRESHOLD : ℚ := 1 / 2

/-- The quotient `(double)received / total` of two `int` values as the
comparisons with the two thresholds see it. A zero divisor gives an infinity of
the sign of `received`, or NaN. Otherwise the exact quotient stands for the
rounded one: a quotient of 32-bit integers that differs from 9/10 (or from 1/2)
differs from it by more than `2 ^ -35`, far more than the rounding error and
than the distance between 9/10 and the double nearest to it, so the rounded
quotient compares with each threshold as the exact quotient does. -/
def completion_rate_of (received total : Int) : DoubleValue :=
  if total = 0 then
    if received > 0 then DoubleValue.pos_inf
    else if received < 0 then DoubleValue.neg_inf
    else DoubleValue.nan
  else DoubleValue.finite ((received : ℚ) / (total : ℚ))

namespace UploadTimeoutManager

/-- Embeds `UploadTimeoutManager::get_ms_since_last_packet`, at clock reading
`now`. -/
def get_ms_since_last_packet (t : UploadTimeoutManager) (now : Nat) : Int :=
  if t.last_packet_time = 0 then 0 else (now : Int) - (t.last_packet_time : Int)

/-- Embeds `UploadTimeoutManager::get_ms_since_session_start`, at clock reading
`now`. -/
def get_ms_since_session_start (t : UploadTimeoutManager) (now : Nat) : Int :=
  if t.session_start_time = 0 then 0 else (now : Int) - (t.session_start_time : Int)

/-- Embeds `UploadTimeoutManager::get_adaptive_timeout_ms`. -/
def get_adaptive_timeout_ms (state : UploadState) (completion_rate : DoubleValue) : Int :=
  if state = UploadState.UPLOAD_COMMAND_SENT then UPLOAD_INITIAL_TIMEOUT_MS
  else
    let adaptive_timeout :=
      if completion_rate.gt_const UPLOAD_HIGH_COMPLETION_THRESHOLD then
        UPLOAD_PACKET_TIMEOUT_NORMAL_MS
      else if completion_rate.lt_const UPLOAD_LOW_COMPLETION_THRESHOLD then
        UPLOAD_PACKET_TIMEOUT_HIGH_LOSS_MS
      else UPLOAD_PACKET_TIMEOUT_NORMAL_MS
    if adaptive_timeout < UPLOAD_MIN_PACKET_TIMEOUT_MS then UPLOAD_MIN_PACKET_TIMEOUT_MS
    else adaptive_timeout

/-- Embeds `UploadTimeoutManager::get_expected_upload_time_ms`. -/
def get_expected_upload_time_ms (total_segments : Int) : Int :=
  total_segments * UPLOAD_PACKET_INTERVAL_MS * UPLOAD_EXPECTED_RETRIES_PER_SEGMENT

/-- Embeds `UploadTimeoutManager::get_global_timeout_ms`. -/
def get_global_timeout_ms (total_segments : Int) : Int :=
  let expected := get_expected_upload_time_ms total_segments
  let global_timeout := expected * UPLOAD_GLOBAL_TIMEOUT_MULTIPLIER
  min global_timeout UPLOAD_GLOBAL_TIMEOUT_MAX_MS

/-- Embeds `UploadTimeoutManager::check_global_timeout`, at clock reading `now`. -/
def check_global_timeout (t : UploadTimeoutManager) (total_segments : Int) (now : Nat) : Bool :=
  let elapsed := t.get_ms_since_session_start now
  let timeout := get_global_timeout_ms total_segments
  decide (elapsed > timeout)

end UploadTimeoutManager

namespace UploadManager

/-- Embeds `UploadManager::decode_data_length_from_descriptor`. -/
def decode_data_length_from_descriptor (descriptor : Nat) : Nat :=
  let low_byte := descriptor &&& 0xFF
  (low_byte + 1) * UPLOAD_SAMPLES_PER_DESCRIPTOR_UNIT

/-- Embeds `UploadManager::is_complete`. -/
def is_complete (m : UploadManager) : Bool := m.segment_tracker.is_complete

/-- Embeds `UploadManager::has_failed`. -/
def has_failed (m : UploadManager) : Bool := decide (m.retry_count ≥ m.max_retries)

/-- Embeds `UploadManager::check_global_timeout`, at clock reading `now`. -/
def check_global_timeout (m : UploadManager) (now : Nat) : Bool :=
  m.timeout_manager.check_global_timeout m.segment_tracker.get_total_count now

/-- Embeds `UploadManager::get_missing_segments` (the count). -/
def get_missing_segments (m : UploadManager) : Int := m.segment_tracker.get_missing_count

/-- Embeds `UploadManager::get_adaptive_timeout_ms`. -/
def get_adaptive_timeout_ms (m : UploadManager) : Int :=
  let completion_rate :=
    completion_rate_of m.segment_tracker.get_received_count m.segment_tracker.get_total_count
  UploadTimeoutManager.get_adaptive_timeout_ms m.current_state completion_rate

/-- Embeds `UploadManager::get_ms_since_last_packet`, at clock reading `now`. -/
def get_ms_since_last_packet (m : UploadManager) (now : Nat) : Int :=
  m.timeout_manager.get_ms_since_last_packet now

/-- Embeds `UploadManager::evaluate_retry_strategy` (the decision). -/
def evaluate_retry_strategy (m : UploadManager) : RetryDecision :=
  evaluate m.current_state m.segment_tracker.get_received_count
    m.segment_tracker.get_total_count m.retry_count m.max_retries

end UploadManager
/-! ## CommandSequenceManager

Instants are milliseconds of the steady clock; `last_send_time` is an `Int`
because `start_command_transmission` stores `now - delay_ms`. -/

/-- Embeds `LinkTiming::CMD_R_RETRY_DELAY_MS`. -/
def CMD_R_RETRY_DELAY_MS : Int := 1800

/-- Embeds `LinkTiming::CMD_R_MAX_ATTEMPTS`. -/
def CMD_R_MAX_ATTEMPTS : Int := 8

/-- Embeds `LinkTiming::CMD_SETTLING_DELAY_MS`. -/
def CMD_SETTLING_DELAY_MS : Int := 500

/-- Embeds `LinkTiming::SESSION_DEFAULT_DWELL_COUNT`. -/
def SESSION_DEFAULT_DWELL_COUNT : Int := 25

/-- Embeds the members of `class CommandSequenceManager`. -/
structure CommandSequenceManager where
  current_command : Nat
  secondary_command : Nat
  command_mask : Nat
  delay_ms : Int
  last_send_time : Int
  max_attempts : Int
  current_attempt : Int
  ack_received : Bool
  transmission_active : Bool
deriving DecidableEq

namespace CommandSequenceManager

/-- Embeds `CommandSequenceManager::CommandSequenceManager`; `last_send_time` is
the default-constructed `time_point`. -/
def new : CommandSequenceManager :=
  { current_command := 0
    secondary_command := 0
    command_mask := 0
    delay_ms := 0
    last_send_time := 0
    max_attempts := 0
    current_attempt := 0
    ack_received := false
    transmission_active := false }

/-- Embeds `CommandSequenceManager::start_command_transmission`, at clock
reading `now`. -/
def start_command_transmission (m : CommandSequenceManager) (command : Nat)
    (delay_ms max_attempts : Int) (secondary_command command_mask : Nat) (now : Nat) :
    CommandSequenceManager :=
  { m with
    current_command := command
    secondary_command := secondary_command
    command_mask := command_mask
    delay_ms := delay_ms
    max_attempts := max_attempts
    current_attempt := 0
    ack_received := false
    transmission_active := true
    last_send_time := (now : Int) - delay_ms }

/-- Embeds `CommandSequenceManager::is_transmission_complete`. -/
def is_transmission_complete (m : CommandSequenceManager) : Bool :=
  if !m.transmission_active then true
  else if m.ack_received then true
  else if m.current_attempt ≥ m.max_attempts then true
  else false

/-- Embeds `CommandSequenceManager::is_ready_to_send`, at clock reading `now`. -/
def is_ready_to_send (m : CommandSequenceManager) (now : Nat) : Bool :=
  if !m.transmission_active then false
  else if m.is_transmission_complete then false
  else
    let elapsed := (now : Int) - m.last_send_time
    decide (elapsed ≥ m.delay_ms)

/-- Embeds `CommandSequenceManager::get_command`: the mask bit of the current
attempt selects the secondary command (`current_attempt` counts up from 0). -/
def get_command (m : CommandSequenceManager) : Nat :=
  if m.secondary_command ≠ 0 ∧ m.command_mask ≠ 0 ∧ m.current_attempt < 32 then
    if m.command_mask &&& (1 <<< m.current_attempt.toNat) ≠ 0 then m.secondary_command
    else m.current_command
  else m.current_command

/-- Embeds `CommandSequenceManager::mark_command_sent`, at clock reading `now`. -/
def mark_command_sent (m : CommandSequenceManager) (now : Nat) : CommandSequenceManager :=
  if !m.transmission_active then m
  else
    { m with
      current_attempt := m.current_attempt + 1
      last_send_time := now }

/-- Embeds `CommandSequenceManager::record_ack_received`. -/
def record_ack_received (m : CommandSequenceManager) : CommandSequenceManager :=
  if !m.transmission_active then m else { m with ack_received := true }

/-- Embeds `CommandSequenceManager::reset`, which leaves `last_send_time` as it is. -/
def reset (m : CommandSequenceManager) : CommandSequenceManager :=
  { m with
    current_command := 0
    secondary_command := 0
    command_mask := 0
    delay_ms := 0
    max_attempts := 0
    current_attempt := 0
    ack_received := false
    transmission_active := false }

/-- Embeds `CommandSequenceManager::has_ack`. -/
def has_ack (m : CommandSequenceManager) : Bool := m.ack_received

/-- The states of a `CommandSequenceManager` reachable from construction by
calls of its four mutating methods. -/
inductive Reachable : CommandSequenceManager → Prop where
  | construct : Reachable new
  | start (m : CommandSequenceManager) (command : Nat) (delay_ms max_attempts : Int)
      (secondary_command command_mask now : Nat) : Reachable m →
      Reachable (m.start_command_transmission command delay_ms max_attempts
        secondary_command command_mask now)
  | sent (m : CommandSequenceManager) (now : Nat) : Reachable m →
      Reachable (m.mark_command_sent now)
  | ack (m : CommandSequenceManager) : Reachable m → Reachable m.record_ack_received
  | reset (m : CommandSequenceManager) : Reachable m → Reachable m.reset

end CommandSequenceManager

/-- Embeds the members of `class UploadCoordinator` other than the pointer to
the transmitter. -/
structure UploadCoordinator where
  upload_mgr : UploadManager
  pending_upload_response : CommandResponse
  pending_upload_response_valid : Bool
  pending_upload_data_length : Nat
  r_command_received_ack : Bool
deriving DecidableEq

/-! ## ConfigBroadcaster: the broadcast of the config files -/

/-- The members of `class ConfigBroadcaster` that the broadcast reads or
writes; `m_last_broadcast_time` is a `time_t`, in seconds. -/
structure ConfigBroadcaster where
  m_rssi_threshold : Nat
  m_rssi_delay : Nat
  m_rssi_increment : Nat
  m_power_adjust : Nat
  m_broadcast_interval_hours : Int
  m_last_broadcast_time : Int
deriving DecidableEq, Repr

/-- One `.config` file of the config directory as the broadcaster finds it:
`macid` is the number that `ExtractMacIdFromFilename` reads from its name,
`config_data` the 38 bytes of the buffer after `ReadConfigFile` (`none` when
the file cannot be opened). -/
structure ConfigFile where
  macid : Nat
  config_data : Option (List Nat)
deriving DecidableEq, Repr

namespace ConfigBroadcaster

/-- Embeds the constructor `ConfigBroadcaster()`. -/
def new : ConfigBroadcaster :=
  { m_rssi_threshold := 0
    m_rssi_delay := 0
    m_rssi_increment := 0
    m_power_adjust := 0
    m_broadcast_interval_hours := 8
    m_last_broadcast_time := 0 }

/-- Embeds `ConfigBroadcaster::Initialize`, at wall-clock reading
`current_time`; `directory_ok` tells whether the config directory exists or
could be created, which is the result of the call. -/
def Initialize (_b : ConfigBroadcaster)
    (rssi_threshold rssi_delay rssi_increment power_adjust : Nat)
    (broadcast_interval_hours : Int) (current_time : Int) (directory_ok : Bool) :
    Bool × ConfigBroadcaster :=
  (directory_ok,
    { m_rssi_threshold := rssi_threshold
      m_rssi_delay := rssi_delay
      m_rssi_increment := rssi_increment
      m_power_adjust := power_adjust
      m_broadcast_interval_hours := broadcast_interval_hours
      m_last_broadcast_time := current_time })

/-- Embeds `ConfigBroadcaster::IsTimeForPeriodicBroadcast`, at wall-clock
reading `current_time`. The quotient `difftime(...) / 3600.0` is taken exactly:
a quotient below an integer number of hours is at least `1 / 3600` below it, far
more than the rounding of a `double`. -/
def IsTimeForPeriodicBroadcast (b : ConfigBroadcaster) (current_time : Int) : Bool :=
  let hours_elapsed : ℚ := ((current_time - b.m_last_broadcast_time : Int) : ℚ) / 3600
  decide (hours_elapsed ≥ (b.m_broadcast_interval_hours : ℚ))

/-- Embeds `ConfigBroadcaster::ResetBroadcastTimer`, at wall-clock reading
`current_time`. -/
def ResetBroadcastTimer (b : ConfigBroadcaster) (current_time : Int) : ConfigBroadcaster :=
  { b with m_last_broadcast_time := current_time }

/-- Embeds `ConfigBroadcaster::BroadcastSingleConfig`: the frames handed to
`ts1x_core->send_command`, none when the file cannot be read or the command
cannot be built, else the same frame six times. `unsigned long` is taken 64
bits wide; `CalculateCRC32` yields the same bytes at 32 bits. -/
def BroadcastSingleConfig (b : ConfigBroadcaster) (file : ConfigFile) : List (List Nat) :=
  match file.config_data with
  | none => []
  | some config_data =>
    let time_block := 0
    let config_packet_long := BuildConfigPacket 64 config_data file.macid time_block
      b.m_rssi_threshold b.m_rssi_delay b.m_rssi_increment b.m_power_adjust
    match BuildBroadcastCommand config_packet_long (PARAM_SEND_WORDS * 8) with
    | none => []
    | some cmd_buffer => List.replicate 6 cmd_buffer

/-- Embeds `ConfigBroadcaster::BroadcastAllConfigs` for a non-null `ts1x_core`,
at wall-clock reading `current_time`: the broadcaster afterwards and the frames
handed to `ts1x_core->send_command`, file after file. -/
def BroadcastAllConfigs (b : ConfigBroadcaster) (current_time : Int)
    (config_files : List ConfigFile) : ConfigBroadcaster × List (List Nat) :=
  let b := b.ResetBroadcastTimer current_time
  (b, (config_files.map b.BroadcastSingleConfig).flatten)

end ConfigBroadcaster

/-- Embeds `enum UNIT_TYPE` of `UnitType.h`. -/
inductive UNIT_TYPE where
  | UNIT_TYPE_TS1X
  | UNIT_TYPE_CRONOS
  | UNIT_TYPE_MISTLX
  | UNIT_TYPE_ECHOBOX
  | UNIT_TYPE_STORMX
  | UNIT_TYPE_STORMXT
  | UNIT_TYPE_UNKNOWN
deriving DecidableEq, Repr

/-- Embeds `get_unit_type` on a `uint32_t` MAC. -/
def get_unit_type (macid : Nat) : UNIT_TYPE :=
  if macid &&& 0xfff00000 = 0x00b00000 then UNIT_TYPE.UNIT_TYPE_CRONOS
  else if macid &&& 0xff000000 = 0x00000000 then UNIT_TYPE.UNIT_TYPE_TS1X
  else if macid &&& 0xff000000 = 0xbb000000 then UNIT_TYPE.UNIT_TYPE_MISTLX
  else if macid &&& 0xff000000 = 0xbc000000 then UNIT_TYPE.UNIT_TYPE_ECHOBOX
  else
    let high_byte := macid &&& 0xff000000
    if high_byte = 0xbe000000 ∨ high_byte = 0xbf000000 then UNIT_TYPE.UNIT_TYPE_STORMXT
    else if high_byte = 0xba000000 then UNIT_TYPE.UNIT_TYPE_STORMX
    else UNIT_TYPE.UNIT_TYPE_UNKNOWN

/-- Embeds `is_echobox`. -/
def is_echobox (macid : Nat) : Bool :=
  decide (get_unit_type macid = UNIT_TYPE.UNIT_TYPE_ECHOBOX)

/-- Embeds `struct NodeInfo`. -/
structure NodeInfo where
  macid : Nat
  has_data_ready : Bool
deriving DecidableEq, Repr

/-- One call of `SessionManager::send_command`: the command character and the
MAC passed to `make_command`, and the instant of the call. The frame handed to
`ts1x_core->send_command` is `make_command command macid none none timeinfo`
for the local time `timeinfo` of the call. -/
structure SentCommand where
  command : Nat
  macid : Nat
  sent_at : Nat
deriving DecidableEq, Repr

/-- The members of `class SessionManager` that the embedded part of `process`
reads or writes: the monitor flag, the state tracker, the instant stored by
`timeout_tracker`, the upload coordinator, `current_macid`, the settling flag
and instant, the command sequence manager, the node list with its current
index (`nodelist_mgr`), `dwell_count` and `config_broadcast_enabled`; `sent`
lists the calls of `send_command`, oldest first. `last_load_attempt` is the
member of `nodelist_mgr`, in ms of the steady clock. Two fields stand for what
the session finds around it: `nodelist_file` is what opening the node list
file yields (`none` when no name is configured or the file cannot be opened,
else the numbers parsed from its lines), and `has_samplesets` tells whether
`g_sampleset_supervisor` exists and holds at least one sampleset. For the
config broadcasts the session holds `startup_broadcast_done`,
`config_erase_age` and the `config_broadcaster`; `transmitted` lists the frames
that `erase_old_config_files` and the broadcaster hand to
`ts1x_core->send_command`, oldest first. Two more fields stand for what the
broadcast finds around it: `wall_clock` is what `time(nullptr)` returns, and
`config_files` are the `.config` files of the config directory in the sorted
order of `GetConfigFiles`. -/
structure SessionManager where
  monitor_mode : Bool
  state_tracker : SessionStateTracker
  send_time : Nat
  upload_coord : UploadCoordinator
  current_macid : Nat
  awaiting_settling : Bool
  settling_start_time : Nat
  cmd_seq_mgr : CommandSequenceManager
  node_list : List NodeInfo
  current_node_index : Nat
  dwell_count : Int
  config_broadcast_enabled : Bool
  sent : List SentCommand
  nodelist_file : Option (List Nat)
  last_load_attempt : Nat
  has_samplesets : Bool
  startup_broadcast_done : Bool
  config_erase_age : Nat
  config_broadcaster : ConfigBroadcaster
  transmitted : List (List Nat)
  wall_clock : Int
  config_files : List ConfigFile
deriving DecidableEq

/-- The members of a decoded frame that `process_upload_response` reads. -/
def CommandResponse.to_upload_response (response : CommandResponse) : UploadResponse :=
  { has_upload_data := response.has_upload_data
    crc_valid := response.crc_valid
    is_fast_mode := response.is_fast_mode
    upload_segment_addr := response.upload_segment_addr
    upload_data := response.upload_data }

namespace UploadCoordinator

/-- Embeds `UploadCoordinator::has_pending_upload`. -/
def has_pending_upload (c : UploadCoordinator) : Bool := c.pending_upload_response_valid

/-- Embeds `UploadCoordinator::handle_r_command_response`: the coordinator and
the state tracker afterwards. -/
def handle_r_command_response (c : UploadCoordinator) (response : CommandResponse)
    (state_tracker : SessionStateTracker) : UploadCoordinator × SessionStateTracker :=
  if response.has_header_info then
    let c := { c with r_command_received_ack := true }
    if response.header_data_control_bits ≠ 0 then
      let c := { c with
        pending_upload_data_length :=
          UploadManager.decode_data_length_from_descriptor response.header_descriptor }
      let c := { c with
        pending_upload_response := response
        pending_upload_response_valid := true }
      (c, state_tracker.transition_state SessionState.STATE_DATA_UPLOAD_INIT)
    else (c, state_tracker)
  else (c, state_tracker)

/-- Embeds `UploadCoordinator::process_upload_init`, at clock reading `now`:
the coordinator, the state tracker and the instant of `timeout_tracker`
afterwards. -/
def process_upload_init (c : UploadCoordinator) (state_tracker : SessionStateTracker)
    (send_time : Nat) (current_macid : Nat) (now : Nat) :
    UploadCoordinator × SessionStateTracker × Nat :=
  if c.upload_mgr.get_state = UploadState.UPLOAD_IDLE then
    if !c.pending_upload_response_valid then
      (c, state_tracker.transition_state SessionState.STATE_ERROR, send_time)
    else
      let r := c.upload_mgr.start_full_upload current_macid 0 c.pending_upload_data_length
        (some c.pending_upload_response.data) now
      let c := { c with upload_mgr := r.2 }
      if r.1 then
        ({ c with pending_upload_response_valid := false }, state_tracker, now)
      else
        ({ c with pending_upload_response_valid := false },
          state_tracker.transition_state SessionState.STATE_ERROR, send_time)
  else
    let elapsed_ms : Int := (now : Int) - (send_time : Int)
    if elapsed_ms ≥ UPLOAD_INIT_STATE_TIMEOUT_MS then
      let r := c.upload_mgr.send_init_command
      let c := { c with upload_mgr := r.2 }
      if r.1 then
        (c, state_tracker.transition_state SessionState.STATE_DATA_UPLOAD_ACTIVE, now)
      else (c, state_tracker.transition_state SessionState.STATE_ERROR, send_time)
    else (c, state_tracker, send_time)

/-- Embeds `UploadCoordinator::evaluate_and_handle_timeout`, at clock reading
`now`. -/
def evaluate_and_handle_timeout (c : UploadCoordinator) (state_tracker : SessionStateTracker)
    (now : Nat) : UploadCoordinator × SessionStateTracker :=
  let adaptive_timeout := c.upload_mgr.get_adaptive_timeout_ms
  let ms_since_packet := c.upload_mgr.get_ms_since_last_packet now
  if ms_since_packet > adaptive_timeout then
    match c.upload_mgr.evaluate_retry_strategy with
    | RetryDecision.DECISION_RETRY_FULL =>
      if c.upload_mgr.get_retry_count ≥ c.upload_mgr.max_retries then
        (c, (state_tracker.transition_state SessionState.STATE_ERROR).set_result
          SessionResult.RESULT_ERROR)
      else
        let c := { c with upload_mgr := c.upload_mgr.reset_for_retry }
        let r := c.upload_mgr.send_init_command
        let c := { c with upload_mgr := r.2 }
        if !r.1 then (c, state_tracker.transition_state SessionState.STATE_ERROR)
        else (c, state_tracker)
    | RetryDecision.DECISION_RETRY_PARTIAL =>
      let r := c.upload_mgr.send_partial_upload now
      let c := { c with upload_mgr := r.2 }
      if !r.1 then (c, state_tracker.transition_state SessionState.STATE_ERROR)
      else (c, state_tracker.transition_state SessionState.STATE_DATA_UPLOAD_RETRY)
    | RetryDecision.DECISION_WAIT => (c, state_tracker)
  else (c, state_tracker)

/-- Embeds `UploadCoordinator::process_upload_active`, at clock reading `now`. -/
def process_upload_active (c : UploadCoordinator) (state_tracker : SessionStateTracker)
    (send_time : Nat) (now : Nat) : UploadCoordinator × SessionStateTracker :=
  if c.upload_mgr.is_complete then
    (c, state_tracker.transition_state SessionState.STATE_DATA_UPLOAD_COMPLETE)
  else if c.upload_mgr.has_failed then
    (c, state_tracker.transition_state SessionState.STATE_ERROR)
  else if c.upload_mgr.check_global_timeout now then
    (c, (state_tracker.transition_state SessionState.STATE_ERROR).set_result
      SessionResult.RESULT_ERROR)
  else if c.upload_mgr.get_state = UploadState.UPLOAD_COMMAND_SENT then
    let elapsed_ms : Int := (now : Int) - (send_time : Int)
    if elapsed_ms ≥ UPLOAD_ACTIVE_STATE_TIMEOUT_MS then
      let r := c.upload_mgr.send_partial_upload now
      let c := { c with upload_mgr := r.2 }
      if !r.1 then (c, state_tracker.transition_state SessionState.STATE_ERROR)
      else (c, state_tracker)
    else (c, state_tracker)
  else if c.upload_mgr.get_state = UploadState.UPLOAD_COMMAND_SENT ∨
      (c.upload_mgr.get_state = UploadState.UPLOAD_RECEIVING ∧
        c.upload_mgr.get_missing_segments > 0) then
    c.evaluate_and_handle_timeout state_tracker now
  else (c, state_tracker)

/-- Embeds `UploadCoordinator::process_upload_retry`, at clock reading `now`. -/
def process_upload_retry (c : UploadCoordinator) (state_tracker : SessionStateTracker)
    (now : Nat) : UploadCoordinator × SessionStateTracker :=
  if c.upload_mgr.is_complete then
    (c, state_tracker.transition_state SessionState.STATE_DATA_UPLOAD_COMPLETE)
  else if c.upload_mgr.has_failed then
    (c, (state_tracker.transition_state SessionState.STATE_ERROR).set_result
      SessionResult.RESULT_ERROR)
  else if c.upload_mgr.check_global_timeout now then
    (c, (state_tracker.transition_state SessionState.STATE_ERROR).set_result
      SessionResult.RESULT_ERROR)
  else if c.upload_mgr.get_state = UploadState.UPLOAD_RECEIVING then
    (c, state_tracker.transition_state SessionState.STATE_DATA_UPLOAD_ACTIVE)
  else
    let retry_timeout := c.upload_mgr.retry_timeout_ms
    if c.upload_mgr.get_ms_since_last_packet now > retry_timeout then
      if c.upload_mgr.get_retry_count ≥ c.upload_mgr.max_retries then
        (c, (state_tracker.transition_state SessionState.STATE_ERROR).set_result
          SessionResult.RESULT_ERROR)
      else
        let r := c.upload_mgr.send_partial_upload now
        let c := { c with upload_mgr := r.2 }
        if r.1 then (c, state_tracker)
        else
          (c, (state_tracker.transition_state SessionState.STATE_ERROR).set_result
            SessionResult.RESULT_ERROR)
    else (c, state_tracker)

end UploadCoordinator

namespace SessionManager

/-- Embeds `NodeListManager::has_nodes`. -/
def has_nodes (s : SessionManager) : Bool := !s.node_list.isEmpty

/-- Embeds `NodeListManager::has_current_node`. -/
def has_current_node (s : SessionManager) : Bool :=
  !s.node_list.isEmpty && decide (s.current_node_index < s.node_list.length)

/-- Embeds `NodeListManager::is_at_end`. -/
def is_at_end (s : SessionManager) : Bool :=
  s.node_list.isEmpty || decide (s.current_node_index ≥ s.node_list.length)

/-- Embeds `NodeListManager::get_current_macid`. -/
def get_current_macid (s : SessionManager) : Nat :=
  if !s.has_current_node then 0
  else
    match s.node_list[s.current_node_index]? with
    | some node => node.macid
    | none => 0

/-- Embeds `NodeListManager::move_to_next_node`. -/
def move_to_next_node (s : SessionManager) : SessionManager :=
  if !s.node_list.isEmpty then { s with current_node_index := s.current_node_index + 1 }
  else s

/-- Embeds `SessionManager::erase_old_config_files`: four erase frames, numbered
1 to 4 at offset 125, unless the config directory holds no config file. -/
def erase_old_config_files (s : SessionManager) (age : Nat) : SessionManager :=
  if s.config_files.isEmpty then s
  else
    { s with
      transmitted := s.transmitted ++
        (List.range 4).map (fun i => (make_erase_command age).set 125 (i + 1)) }

/-- Embeds `SessionManager::broadcast_config_files`. -/
def broadcast_config_files (s : SessionManager) : SessionManager :=
  if !s.config_broadcast_enabled then s
  else if !s.has_nodes then s
  else
    let s := s.erase_old_config_files s.config_erase_age
    let r := s.config_broadcaster.BroadcastAllConfigs s.wall_clock s.config_files
    { s with config_broadcaster := r.1, transmitted := s.transmitted ++ r.2 }

/-- Embeds `SessionManager::check_periodic_broadcast`. -/
def check_periodic_broadcast (s : SessionManager) : Bool :=
  if !s.config_broadcast_enabled then false
  else s.config_broadcaster.IsTimeForPeriodicBroadcast s.wall_clock

/-- The two blocks `Startup config broadcast` and `Periodic config broadcast`
that open the `IDLE` case of `process_state_machine`. -/
def idle_config_broadcasts (s : SessionManager) : SessionManager :=
  let s :=
    if s.config_broadcast_enabled && !s.startup_broadcast_done then
      { s.broadcast_config_files with startup_broadcast_done := true }
    else s
  if s.check_periodic_broadcast then s.broadcast_config_files else s

/-- Embeds `NodeListManager::LOAD_RETRY_INTERVAL_SECONDS`. -/
def LOAD_RETRY_INTERVAL_SECONDS : Int := 10

/-- Embeds `NodeListManager::load_node_list`, at clock reading `now`: without
a file the call returns before it touches any member; with a file the list is
replaced by the EchoBox entries, the index is reset and the instant is
stored. -/
def load_node_list (s : SessionManager) (now : Nat) : Bool × SessionManager :=
  match s.nodelist_file with
  | none => (false, s)
  | some macids =>
    let node_list := (macids.filter is_echobox).map (fun macid => NodeInfo.mk macid false)
    let s := { s with
      node_list := node_list
      current_node_index := 0
      last_load_attempt := now }
    (decide (s.node_list.length > 0), s)

/-- Embeds `NodeListManager::reload_node_list`. -/
def reload_node_list (s : SessionManager) (now : Nat) : Bool × SessionManager :=
  s.load_node_list now

/-- Embeds `NodeListManager::reset_to_first_node`. -/
def reset_to_first_node (s : SessionManager) : SessionManager :=
  { s with current_node_index := 0 }

/-- Embeds `NodeListManager::should_attempt_load`, at clock reading `now`;
`duration_cast<seconds>` truncates toward zero. -/
def should_attempt_load (s : SessionManager) (now : Nat) : Bool :=
  let elapsed : Int := Int.tdiv ((now : Int) - (s.last_load_attempt : Int)) 1000
  decide (elapsed ≥ LOAD_RETRY_INTERVAL_SECONDS)

/-- Embeds `NodeListManager::check_and_reload_if_at_end`, at clock reading
`now`. -/
def check_and_reload_if_at_end (s : SessionManager) (now : Nat) : Bool × SessionManager :=
  if s.is_at_end then
    let r := s.reload_node_list now
    if r.1 then (true, r.2.reset_to_first_node) else (false, r.2)
  else (true, s)

/-- Embeds `SessionManager::send_command`, at clock reading `now`
(`make_command` succeeds for the buffer on the stack). -/
def send_command (s : SessionManager) (now : Nat) : SessionManager :=
  let cmd := s.cmd_seq_mgr.get_command
  let s := { s with
    sent := s.sent ++ [SentCommand.mk cmd s.current_macid now] }
  { s with cmd_seq_mgr := s.cmd_seq_mgr.mark_command_sent now }

/-- The block `Process current node from nodelist` that ends the `IDLE` case of
`process_state_machine`: `current_macid` is read from the node list, the `R`
sequence is started, the state becomes `COMMAND_SEQUENCE` and the first
command is sent. -/
def poll_current_node (s : SessionManager) (now : Nat) : SessionManager :=
  let s := { s with current_macid := s.get_current_macid }
  let s := { s with
    cmd_seq_mgr := s.cmd_seq_mgr.start_command_transmission CMD_SAMPLE_DATA
      CMD_R_RETRY_DELAY_MS CMD_R_MAX_ATTEMPTS 0 0 now }
  let s := { s with awaiting_settling := false }
  let s := { s with
    state_tracker :=
      s.state_tracker.transition_state SessionState.STATE_COMMAND_SEQUENCE }
  s.send_command now

/-- The effect of `find_node_by_macid(macid)` followed by
`node->has_data_ready = true` on the first node with that MAC, if any. -/
def mark_data_ready : List NodeInfo → Nat → List NodeInfo
  | [], _ => []
  | node :: rest, macid =>
    if node.macid = macid then { node with has_data_ready := true } :: rest
    else node :: mark_data_ready rest macid

/-- The first part of `SessionManager::process`, up to the call of
`process_state_machine`: the handling of the response (`none` for `nullptr`),
at clock reading `now`. -/
def process_response (s : SessionManager) (response : Option CommandResponse) (now : Nat) :
    SessionManager :=
  if s.monitor_mode then s
  else
    match response with
    | none => s
    | some response =>
      let current_state := s.state_tracker.current_state
      if response.command_code = CMD_ACK_INIT then
        let r := s.upload_coord.handle_r_command_response response s.state_tracker
        let s := { s with upload_coord := r.1, state_tracker := r.2 }
        let s :=
          if current_state = SessionState.STATE_COMMAND_SEQUENCE then
            let s := { s with cmd_seq_mgr := s.cmd_seq_mgr.record_ack_received }
            if s.state_tracker.current_state = SessionState.STATE_DATA_UPLOAD_INIT then
              { s with awaiting_settling := false }
            else s
          else s
        if s.upload_coord.has_pending_upload then
          { s with
            node_list := mark_data_ready s.node_list response.source_macid
            current_macid := response.source_macid }
        else s
      else if current_state = SessionState.STATE_DATA_UPLOAD_ACTIVE ∨
          current_state = SessionState.STATE_DATA_UPLOAD_RETRY then
        if response.command_code = CMD_DATA_UPLOAD then
          let r := s.upload_coord.upload_mgr.process_upload_response
            response.to_upload_response now
          let s := { s with upload_coord := { s.upload_coord with upload_mgr := r.2 } }
          if s.upload_coord.upload_mgr.is_complete then
            { s with state_tracker :=
                s.state_tracker.transition_state SessionState.STATE_DATA_UPLOAD_COMPLETE }
          else s
        else s
      else s

/-- Embeds `SessionManager::process_state_machine`, at clock reading `now`.
The result is `none` where the case depends on the sampling of a sampleset,
which is not embedded here: in `IDLE` when samplesets exist while the node list
is empty or at its end; and in `DATA_UPLOAD_COMPLETE` and `ERROR`. The member
`sampleset_dwell_count`, which only those paths read, is not followed. -/
def process_state_machine (s : SessionManager) (now : Nat) : Option SessionManager :=
  match s.state_tracker.current_state with
  | SessionState.STATE_IDLE =>
    if !s.monitor_mode then
      let s := s.idle_config_broadcasts
      let s :=
        if !s.has_nodes then
          if s.should_attempt_load now then (s.load_node_list now).2 else s
        else s
      let has_nodelist := s.has_nodes
      let has_samplesets := s.has_samplesets
      if !has_nodelist && !has_samplesets then some s
      else if !has_nodelist && has_samplesets then none
      else if s.is_at_end then
        if has_samplesets then none
        else
          let s := (s.check_and_reload_if_at_end now).2
          if !s.has_nodes then some s
          else some (s.poll_current_node now)
      else some (s.poll_current_node now)
    else some s
  | SessionState.STATE_COMMAND_SEQUENCE =>
    if s.cmd_seq_mgr.is_transmission_complete then
      let s :=
        if !s.awaiting_settling then
          { s with
            awaiting_settling := true
            settling_start_time := now }
        else s
      let elapsed : Int := (now : Int) - (s.settling_start_time : Int)
      if elapsed ≥ CMD_SETTLING_DELAY_MS then
        let s := { s with awaiting_settling := false }
        let s := { s with cmd_seq_mgr := s.cmd_seq_mgr.reset }
        let s := { s with
          upload_coord := { s.upload_coord with upload_mgr := s.upload_coord.upload_mgr.reset } }
        let s := { s with dwell_count := 0 }
        let s := s.move_to_next_node
        some { s with
          state_tracker := s.state_tracker.transition_state SessionState.STATE_IDLE }
      else some s
    else if s.cmd_seq_mgr.is_ready_to_send now then some (s.send_command now)
    else some s
  | SessionState.STATE_DATA_UPLOAD_INIT =>
    let r := s.upload_coord.process_upload_init s.state_tracker s.send_time s.current_macid now
    some { s with upload_coord := r.1, state_tracker := r.2.1, send_time := r.2.2 }
  | SessionState.STATE_DATA_UPLOAD_ACTIVE =>
    let r := s.upload_coord.process_upload_active s.state_tracker s.send_time now
    some { s with upload_coord := r.1, state_tracker := r.2 }
  | SessionState.STATE_DATA_UPLOAD_RETRY =>
    let r := s.upload_coord.process_upload_retry s.state_tracker now
    some { s with upload_coord := r.1, state_tracker := r.2 }
  | _ => none

/-- Embeds `SessionManager::process`, at clock reading `now`: the handling of
the response followed by the state machine. -/
def process (s : SessionManager) (response : Option CommandResponse) (now : Nat) :
    Option SessionManager :=
  (s.process_response response now).process_state_machine now

/-- Successive calls of `process` from the main loop, one per entry of `ticks`
(the decoded frame, if any, and the clock reading). -/
def run (s : SessionManager) : List (Option CommandResponse × Nat) → Option SessionManager
  | [] => some s
  | tick :: rest =>
    match s.process tick.1 tick.2 with
    | some s1 => run s1 rest
    | none => none

end SessionManager
/-- Sample input: an ack-init (`'1'`) frame from unit `0x12345678` that
carries header info with `data_control_bits = 1` and descriptor `0x0003`. -/
def sample_ack_init_frame : List Nat :=
  [0x74, 0x53, 0x01, 0x12, 0x34, 0x56, 0x78] ++ List.replicate 8 0x30 ++ [0x01] ++
    List.replicate 3 0x30 ++ [0x01, 0x12, 0x34, 0x56, 0x78, 0x00, 0x03] ++
    List.replicate 19 0x30 ++ [0x31] ++ List.replicate 80 0x30 ++ [0x75, 0x50]

/-- Sample input: a session in `STATE_DATA_UPLOAD_ACTIVE` for node
`0x12345678`, which acknowledged the `R` poll sent at instant 800, 100 ms after
`process_upload_init` started a 1024-sample upload at instant 900 and sent the
init command at instant 1000. -/
def sample_upload_session : SessionManager :=
  { monitor_mode := false
    state_tracker :=
      { current_state := SessionState.STATE_DATA_UPLOAD_ACTIVE
        current_result := SessionResult.RESULT_PENDING }
    send_time := 1000
    upload_coord :=
      { upload_mgr :=
          ((UploadManager.new.start_full_upload 0x12345678 0 1024
            (some sample_ack_init_frame) 900).2.send_init_command).2
        pending_upload_response := parse_response sample_ack_init_frame
        pending_upload_response_valid := false
        pending_upload_data_length := 1024
        r_command_received_ack := true }
    current_macid := 0x12345678
    awaiting_settling := false
    settling_start_time := 0
    cmd_seq_mgr :=
      ((CommandSequenceManager.new.start_command_transmission CMD_SAMPLE_DATA
        CMD_R_RETRY_DELAY_MS CMD_R_MAX_ATTEMPTS 0 0 800).mark_command_sent
          800).record_ack_received
    node_list := [{ macid := 0x12345678, has_data_ready := true }]
    current_node_index := 0
    dwell_count := 0
    config_broadcast_enabled := false
    sent := [{ command := CMD_SAMPLE_DATA, macid := 0x12345678, sent_at := 800 }]
    nodelist_file := none
    last_load_attempt := 0
    has_samplesets := false
    startup_broadcast_done := false
    config_erase_age := 24
    config_broadcaster := ConfigBroadcaster.new
    transmitted := []
    wall_clock := 0
    config_files := [] }

/-! ## decode_descriptor and the sample rate of the data file -/

/-- The members of `CommandResponse` that `decode_descriptor` assigns. -/
structure DescriptorFields where
  descriptor_rms_only : Bool
  descriptor_sample_rate : Nat
  descriptor_channel_mask : Nat
  descriptor_length_code : Nat
  descriptor_sample_length : Nat
  descriptor_sample_rate_str : String
deriving DecidableEq

/-- Embeds `CommandReceiverSubs::decode_descriptor` for a response with header
info, on `descriptor = response.header_info.descriptor`. -/
def decode_descriptor (descriptor : Nat) : DescriptorFields :=
  let descriptor_sample_rate := (descriptor >>> 12) &&& 0x07
  let descriptor_length_code := descriptor &&& 0xFF
  { descriptor_rms_only := decide (descriptor &&& 0x8000 ≠ 0)
    descriptor_sample_rate := descriptor_sample_rate
    descriptor_channel_mask := (descriptor >>> 8) &&& 0x0F
    descriptor_length_code := descriptor_length_code
    descriptor_sample_length := (descriptor_length_code + 1) * 256
    descriptor_sample_rate_str :=
      if descriptor_sample_rate = 0 then "20.0 kHz"
      else if descriptor_sample_rate = 1 then "10.0 kHz"
      else if descriptor_sample_rate = 2 then "5.0 kHz"
      else if descriptor_sample_rate = 3 then "2.5 kHz"
      else if descriptor_sample_rate = 4 then "1.25 kHz"
      else if descriptor_sample_rate = 5 then "625 Hz"
      else if descriptor_sample_rate = 6 then "312.5 Hz"
      else if descriptor_sample_rate = 7 then "156.25 Hz"
      else "Unknown" }

/-- Embeds the table `SAMPLE_RATE_MAP` of `DataFileWriter.cpp` (each entry is a
double with an integer value). -/
def SAMPLE_RATE_MAP : List ℚ := [20000, 10000, 5000, 2500, 1250, 625, 312, 156]

/-- The `sample_rate` that `write_data_file` prints after `;FSampleRate` for
`rate_code = response->descriptor_sample_rate`; `none` when it returns the
empty string for an invalid code. -/
def data_file_sample_rate (rate_code : Nat) : Option ℚ :=
  if rate_code < 8 then some (SAMPLE_RATE_MAP.getD rate_code 0) else none

/-! ## Construction of the session -/

/-- Embeds `UploadCoordinator::UploadCoordinator`. -/
def UploadCoordinator.new : UploadCoordinator :=
  { upload_mgr := UploadManager.new
    pending_upload_response := CommandResponse.new (List.replicate 128 0)
    pending_upload_response_valid := false
    pending_upload_data_length := 0
    r_command_received_ack := false }

/-- Embeds `SessionManager::SessionManager`, at clock reading `now` (the
constructor of `timeout_tracker` stores it), where no node list file can be
opened, no sampleset and no config file exists and the wall clock reads 0;
`last_load_attempt` is the epoch of the steady clock. -/
def SessionManager.new (now : Nat) : SessionManager :=
  { monitor_mode := false
    state_tracker :=
      { current_state := SessionState.STATE_IDLE
        current_result := SessionResult.RESULT_PENDING }
    send_time := now
    upload_coord := UploadCoordinator.new
    current_macid := 0
    awaiting_settling := false
    settling_start_time := 0
    cmd_seq_mgr := CommandSequenceManager.new
    node_list := []
    current_node_index := 0
    dwell_count := 0
    config_broadcast_enabled := false
    sent := []
    nodelist_file := none
    last_load_attempt := 0
    has_samplesets := false
    startup_broadcast_done := false
    config_erase_age := 24
    config_broadcaster := ConfigBroadcaster.new
    transmitted := []
    wall_clock := 0
    config_files := [] }

/-- Embeds `SessionManager::set_monitor_mode`. -/
def SessionManager.set_monitor_mode (s : SessionManager) (enable : Bool) : SessionManager :=
  { s with monitor_mode := enable }

/-- Embeds `SessionManager::initialize_config_broadcaster`; `initialized` is the
result of `ConfigBroadcaster::Initialize`, which tells whether the config
directory exists or could be created. -/
def SessionManager.initialize_config_broadcaster (s : SessionManager)
    (rssi_threshold rssi_delay rssi_increment power_adjust : Nat)
    (broadcast_interval_hours : Int) (initialized : Bool) : SessionManager :=
  let r := s.config_broadcaster.Initialize rssi_threshold rssi_delay rssi_increment
    power_adjust broadcast_interval_hours s.wall_clock initialized
  if r.1 then { s with config_broadcaster := r.2, config_broadcast_enabled := true }
  else { s with config_broadcaster := r.2, config_broadcast_enabled := false }

/-! ## The poll of one node: states of the session between the sends -/

/-- Calls of `process` from the main loop, one per entry of `ticks`, up to and
including the first call after which the session is in `STATE_IDLE`. -/
def SessionManager.run_until_idle (s : SessionManager) :
    List (Option CommandResponse × Nat) → Option SessionManager
  | [] => some s
  | tick :: rest =>
    match s.process tick.1 tick.2 with
    | some s1 =>
      if s1.state_tracker.current_state = SessionState.STATE_IDLE then some s1
      else run_until_idle s1 rest
    | none => none

/-- The command sequence manager `k` sends into an `R` poll whose last send
was at instant `last`, with no acknowledgement. -/
def polling_sequence (k : Nat) (last : Nat) : CommandSequenceManager :=
  { current_command := CMD_SAMPLE_DATA
    secondary_command := 0
    command_mask := 0
    delay_ms := CMD_R_RETRY_DELAY_MS
    last_send_time := last
    max_attempts := CMD_R_MAX_ATTEMPTS
    current_attempt := k
    ack_received := false
    transmission_active := true }

/-- The session that left `s0` to poll the current node, after the sends at the
instants `sends`; `settling` is the instant at which the settling delay
started, if it has. -/
def polling_session (s0 : SessionManager) (sends : List Nat) (settling : Option Nat) :
    SessionManager :=
  { s0 with
    current_macid := s0.get_current_macid
    cmd_seq_mgr := polling_sequence sends.length (sends.getLastD 0)
    awaiting_settling := settling.isSome
    settling_start_time := settling.getD s0.settling_start_time
    state_tracker :=
      { s0.state_tracker with current_state := SessionState.STATE_COMMAND_SEQUENCE }
    sent := s0.sent ++ sends.map (SentCommand.mk CMD_SAMPLE_DATA s0.get_current_macid) }

/-- The session back in the state of `s0` after the poll of the current node
with sends at the instants `sends` and the settling delay started at
`settling`: sequencer and upload manager reset, dwell counter zero, node index
advanced by one. -/
def settled_session (s0 : SessionManager) (sends : List Nat) (settling : Nat) :
    SessionManager :=
  { s0 with
    current_macid := s0.get_current_macid
    cmd_seq_mgr := (polling_sequence sends.length (sends.getLastD 0)).reset
    awaiting_settling := false
    settling_start_time := settling
    upload_coord := { s0.upload_coord with upload_mgr := s0.upload_coord.upload_mgr.reset }
    dwell_count := 0
    current_node_index := s0.current_node_index + 1
    sent := s0.sent ++ sends.map (SentCommand.mk CMD_SAMPLE_DATA s0.get_current_macid) }

/-- Sample input: the session constructed at instant 0 with the two nodes
`0x11111111` and `0x22222222` loaded and the first one current. -/
def sample_idle_session : SessionManager :=
  { SessionManager.new 0 with
    node_list :=
      [{ macid := 0x11111111, has_data_ready := false },
        { macid := 0x22222222, has_data_ready := false }] }

/-- Sample input: the session `sample_idle_session` after
`initialize_config_broadcaster` succeeded (interval 8 hours), with one config
file for unit `0xbbe01aae` in the config directory. -/
def sample_broadcast_session : SessionManager :=
  { sample_idle_session.initialize_config_broadcaster 0xB0 5 2 0 8 true with
    config_files := [{ macid := 0xbbe01aae, config_data := some (List.replicate 38 0x11) }] }

/-! ## SamplesetSupervisor::get_sampleset

`now` is the reading of `std::time(nullptr)`, in seconds. -/

/-- The members of `class SamplesetSupervisor` that `get_sampleset` reads or
writes. `sample_times_` stands for the map of the database manager composed
with `generateKey`: the timestamp stored under a sampleset's key, if the map
has an entry for it. -/
structure SamplesetSupervisor where
  samplesets_ : List Sampleset
  initialized_ : Bool
  current_index_ : Nat
  sample_times_ : Sampleset → Option Int

namespace SamplesetSupervisor

/-- Embeds `SamplesetDataManager::getLastSampleTime`. -/
def getLastSampleTime (v : SamplesetSupervisor) (sampleset : Sampleset) : Int :=
  match v.sample_times_ sampleset with
  | some timestamp => timestamp
  | none => 0

/-- Embeds `SamplesetSupervisor::is_due_for_sampling` (`db_manager_` is set by
the constructor); `difftime` of two `time_t` values is their exact difference
as long as it is below `2 ^ 53`. -/
def is_due_for_sampling (v : SamplesetSupervisor) (sampleset : Sampleset) (now : Int) : Bool :=
  let last_sample := v.getLastSampleTime sampleset
  if last_sample = 0 then true
  else
    let elapsed : ℚ := ((now - last_sample : Int) : ℚ)
    sampleset.interval.le_const elapsed

/-- The loop `for (i = 0; i < sampleset_count; i++)` of `get_sampleset` with `n`
iterations left: the index of the returned sampleset (`none` for `nullptr`)
and the supervisor afterwards. The result is `none` when `samplesets_` is read
out of range. -/
def get_sampleset_loop (v : SamplesetSupervisor) (now : Int) :
    Nat → Nat → Option (Option Nat × SamplesetSupervisor)
  | 0, _ => some (none, v)
  | n + 1, temp_index =>
    match v.samplesets_[temp_index]? with
    | none => none
    | some sampleset =>
      if v.is_due_for_sampling sampleset now then
        some (some temp_index,
          { v with current_index_ := (temp_index + 1) % v.samplesets_.length })
      else get_sampleset_loop v now n ((temp_index + 1) % v.samplesets_.length)

/-- Embeds `SamplesetSupervisor::get_sampleset`: the index of the returned
sampleset (`none` for `nullptr`) and the supervisor afterwards; `none` when
`samplesets_` is read out of range. -/
def get_sampleset (v : SamplesetSupervisor) (now : Int) :
    Option (Option Nat × SamplesetSupervisor) :=
  if !v.initialized_ || v.samplesets_.isEmpty then some (none, v)
  else if v.samplesets_.length = 1 then
    match v.samplesets_[0]? with
    | none => none
    | some sampleset =>
      if v.is_due_for_sampling sampleset now then some (some 0, v) else some (none, v)
  else get_sampleset_loop v now v.samplesets_.length v.current_index_

/-- Whether the sampleset at position `k` is due. -/
def due_at (v : SamplesetSupervisor) (now : Int) (k : Nat) : Bool :=
  match v.samplesets_[k]? with
  | none => false
  | some sampleset => v.is_due_for_sampling sampleset now

end SamplesetSupervisor

/-- Sample input: an initialised supervisor with two samplesets at index 0. The
database holds timestamp 0 for the first one, whose interval is 2000000000 s,
and timestamp 1700000000 for the second one, whose interval is 3600 s. -/
def sample_supervisor : SamplesetSupervisor :=
  { samplesets_ :=
      [{ nodeid := 0x11111111, sampling_mask := 1, decimation_rounded := 1, resolution := 0,
         ac_dc_flag := 0, interval := DoubleValue.finite 2000000000 },
       { nodeid := 0x22222222, sampling_mask := 1, decimation_rounded := 1, resolution := 0,
         ac_dc_flag := 0, interval := DoubleValue.finite 3600 }]
    initialized_ := true
    current_index_ := 0
    sample_times_ := fun s => if s.nodeid = 0x11111111 then some 0 else some 1700000000 }

/-! ## The fast-mode decoder loop and the remaining fields of parse_response -/

/-- The loop variables of the fast-mode decoder of `parse_upload_data` when
iteration `i` starts: iterations `0 .. i - 1` have run. -/
def fast_decode_state (data : List Nat) (i : Nat) : FastDecodeState :=
  (List.range i).foldl (fast_decode_step data)
    { samples := List.replicate 64 0, sample_idx := 0, save_first := 0, lcnt := 0 }

/-- The word `ret` that an iteration reads at `data[5 + lcnt * 2]`,
`data[5 + lcnt * 2 + 1]`, before its low bit is cleared. -/
def fast_decode_word (data : List Nat) (lcnt : Nat) : Nat :=
  ((data.getD (5 + lcnt * 2) 0 <<< 8) &&& 0xff00) ||| (data.getD (5 + lcnt * 2 + 1) 0 &&& 0xff)

/-- The `int` value `ret` of an iteration after `ret &= 0xfffe` and the
dithering `if (ret & 2) ret++`; the iteration stores `ret - 32768`. -/
def fast_decode_ret (data : List Nat) (lcnt : Nat) : Nat :=
  if (fast_decode_word data lcnt &&& 0xfffe) &&& 2 ≠ 0 then
    (fast_decode_word data lcnt &&& 0xfffe) + 1
  else fast_decode_word data lcnt &&& 0xfffe

/-- The `int` value `save_first` of an iteration after
`if (ret & 1) save_first += 0x8000`; the last iteration of a group stores
`save_first - 32768`. -/
def fast_decode_save_first (data : List Nat) (st : FastDecodeState) : Int :=
  if fast_decode_word data st.lcnt &&& 1 ≠ 0 then st.save_first + 0x8000 else st.save_first

/-- The first part of `CommandReceiver::parse_response`, up to the call of
`parse_command_params`: the copy of the frame, the markers, the basic header,
the direction, the checksum flag and the header info. -/
def parse_response_header (data : List Nat) : CommandResponse :=
  let response := CommandResponse.new data
  let response := { response with
    packet_valid := decide (data.getD 0 0 = 0x74 ∧ data.getD 1 0 = 0x53 ∧
      data.getD 126 0 = 0x75 ∧ data.getD 127 0 = 0x50)
    hops := data.getD 2 0
    source_macid := be32_at data 3
    command_code := data.getD 45 0 }
  let response := { response with
    direction := determine_direction data response.command_code }
  let response := { response with
    crc_valid :=
      if response.command_code = 0x33 then
        verify_upload_checksum data (decide (data.getD 2 0 = 0x80))
      else true }
  let response := { response with
    has_header_info := decide (response.direction = PacketDirection.UNIT_TO_BASE) &&
      is_header_info_present data }
  if response.has_header_info then
    { response with
      header_data_control_bits := data.getD 19 0
      header_macid := be32_at data 20
      header_descriptor := (data.getD 24 0 <<< 8) ||| data.getD 25 0
      descriptor_length_code := ((data.getD 24 0 <<< 8) ||| data.getD 25 0) &&& 0xFF
      descriptor_sample_length := ((((data.getD 24 0 <<< 8) ||| data.getD 25 0) &&& 0xFF) + 1)
        * 256
      unit_id := be32_at data 20 }
  else response

/-- The command fields that `parse_response` reads between the calls of
`parse_command_params` and `parse_upload_data`. -/
def parse_command_fields (data : List Nat) (response : CommandResponse) : CommandResponse :=
  { response with
    command_hops := data.getD 46 0
    command_macid := be32_at data 47
    command_count := data.getD 55 0
    erase_age :=
      if response.command_code = 0x45 ∨ response.command_code = 0x65 then
        data.getD 46 0 &&& 0x3f
      else 0 }

/-- Embeds `struct PacketTime`. -/
structure PacketTime where
  year : Nat
  month : Nat
  day : Nat
  hour : Nat
  min : Nat
  sec : Nat
deriving DecidableEq, Repr

/-- Embeds `struct HeaderInfo`. -/
structure HeaderInfo where
  reserved1 : Nat
  reserved2 : Nat
  marker : Nat
  delta : Nat
  data_control_bits : Nat
  macid : Nat
  descriptor : Nat
  dataset_pi_time : PacketTime
  current_mistlx_time : Nat
  data_collection_time : Nat
  battery : Nat
  temperature : Nat
  rssi : Nat
deriving DecidableEq, Repr

/-- The member `header_info` that `parse_response` fills from offsets 13..44
when `has_header_info` holds. -/
def parse_header_info (data : List Nat) : HeaderInfo :=
  { reserved1 := data.getD 13 0
    reserved2 := data.getD 14 0
    marker := data.getD 15 0
    delta := (data.getD 16 0 <<< 16) ||| (data.getD 17 0 <<< 8) ||| data.getD 18 0
    data_control_bits := data.getD 19 0
    macid := be32_at data 20
    descriptor := (data.getD 24 0 <<< 8) ||| data.getD 25 0
    dataset_pi_time :=
      { year := (data.getD 26 0 <<< 8) ||| data.getD 27 0
        month := data.getD 28 0
        day := data.getD 29 0
        hour := data.getD 30 0
        min := data.getD 31 0
        sec := data.getD 32 0 }
    current_mistlx_time := be32_at data 33
    data_collection_time := be32_at data 37
    battery := data.getD 41 0
    temperature := (data.getD 42 0 <<< 8) ||| data.getD 43 0
    rssi := data.getD 44 0 }

/-- The members that the last part of `parse_response` writes: the version
string (`char version[11]`), the RSSI and firmware bytes, the three 16-entry
word arrays and the session fields. -/
structure UnitFields where
  version : List Nat
  rssi_value : Nat
  ambient_rssi : Nat
  ram_corruption_reset_count : Nat
  firmware : Nat
  on_deck_crc : Nat
  buf_data : List Nat
  buf_spread : List Nat
  buf_tach : List Nat
  session_id_command : Nat
  fips_status : Nat
deriving DecidableEq, Repr

/-- The two loops that fill one of the 16-entry word arrays: entries 0..7 are
the big-endian words at `base`, `base + 2`, ..., entries 8..15 are zeroed. -/
def parse_buf_words (data : List Nat) (base : Nat) : List Nat :=
  (List.range' 8 8).foldl (fun buf i => buf.set i 0)
    ((List.range 8).foldl
      (fun buf i => buf.set i ((data.getD (base + i * 2) 0 <<< 8) ||| data.getD (base + i * 2 + 1) 0))
      (List.replicate 16 0))

/-- The last part of `CommandReceiver::parse_response`: the response fields of
a UNIT_TO_BASE packet, the defaults otherwise. The arrays start from the zeros
that the constructor leaves in them. -/
def parse_unit_fields (data : List Nat) (direction : PacketDirection) : UnitFields :=
  if direction = PacketDirection.UNIT_TO_BASE then
    { version :=
        ((List.range 10).foldl (fun version i => version.set i (data.getD (45 + 11 + i) 0))
          (List.replicate 11 0)).set 10 0
      rssi_value := data.getD (45 + 21) 0
      ambient_rssi := data.getD (45 + 22) 0
      ram_corruption_reset_count := data.getD (45 + 23) 0
      firmware := data.getD (45 + 24) 0
      on_deck_crc := be32_at data (45 + 25)
      buf_data := parse_buf_words data 74
      buf_spread := parse_buf_words data 90
      buf_tach := parse_buf_words data 106
      session_id_command := (data.getD 123 0 <<< 8) ||| data.getD 124 0
      fips_status := data.getD 125 0 }
  else
    { version := List.replicate 11 0
      rssi_value := 0
      ambient_rssi := 0
      ram_corruption_reset_count := 0
      firmware := 0
      on_deck_crc := 0
      buf_data := List.replicate 16 0
      buf_spread := List.replicate 16 0
      buf_tach := List.replicate 16 0
      session_id_command := 0
      fips_status := 0 }

/-- Sample input: a fast-mode upload frame (`data[2] = 0x80`) for segment
address 7 whose packed words are zero except word 20 (offsets 45, 46), which
is `0x3355`, and the bytes 1, 2 at offsets 75, 76; offset 125 holds the basic
checksum `0x8B ^ 0xAA`. -/
def sample_fast_upload_frame : List Nat :=
  [0x74, 0x53, 0x80, 0x00, 0x07] ++ List.replicate 40 0 ++ [0x33, 0x55] ++
    List.replicate 28 0 ++ [1, 2] ++ List.replicate 48 0 ++ [0x21, 0x75, 0x50]

/-- Sample input: the frame `sample_fast_upload_frame` with the bytes at
offsets 75 and 76 exchanged, which leaves the checksum unchanged. -/
def sample_fast_upload_frame_swapped : List Nat :=
  [0x74, 0x53, 0x80, 0x00, 0x07] ++ List.replicate 40 0 ++ [0x33, 0x55] ++
    List.replicate 28 0 ++ [2, 1] ++ List.replicate 48 0 ++ [0x21, 0x75, 0x50]

/-! ## SamplesetSupervisor: initialisation and reload -/

namespace SamplesetSupervisor

/-- Embeds the constructor `SamplesetSupervisor(...)`: no samplesets, an empty
database, not initialised, index 0. -/
def new : SamplesetSupervisor :=
  { samplesets_ := [], initialized_ := false, current_index_ := 0, sample_times_ := fun _ => none }

/-- Embeds `SamplesetSupervisor::load_and_generate`. `generated` is what the
configuration file yields: `none` when `readTs1xSamplingFile` returns no
channel, else the list that `createSamplesets` builds from the channels. -/
def load_and_generate (v : SamplesetSupervisor) (generated : Option (List Sampleset)) :
    Bool × SamplesetSupervisor :=
  match generated with
  | none => (false, v)
  | some new_samplesets =>
    if new_samplesets.isEmpty then (false, v)
    else (true, { v with samplesets_ := new_samplesets })

/-- Embeds `SamplesetSupervisor::init_index`. -/
def init_index (v : SamplesetSupervisor) : SamplesetSupervisor :=
  { v with current_index_ := 0 }

/-- Embeds `SamplesetSupervisor::initialize` (a reserved word here). `loaded` is the database that
`db_manager_->initialize()` reads (`none` when it fails), `generated` the
outcome of the configuration file, `populated` the database after
`populate_database_from_channels` and `refresh`. -/
def initialize_supervisor (v : SamplesetSupervisor) (loaded : Option (Sampleset → Option Int))
    (generated : Option (List Sampleset)) (populated : Sampleset → Option Int) :
    Bool × SamplesetSupervisor :=
  match loaded with
  | none => (false, v)
  | some database =>
    let v := { v with sample_times_ := database }
    let loaded_ok := v.load_and_generate generated
    if !loaded_ok.1 then (false, loaded_ok.2)
    else
      let v := { loaded_ok.2 with sample_times_ := populated }
      let v := { v with initialized_ := true }
      (true, v.init_index)

/-- Embeds `SamplesetSupervisor::reload_configuration`; `generated` and
`populated` as for `initialize_supervisor`. -/
def reload_configuration (v : SamplesetSupervisor) (generated : Option (List Sampleset))
    (populated : Sampleset → Option Int) : Bool × SamplesetSupervisor :=
  let loaded_ok := v.load_and_generate generated
  if !loaded_ok.1 then (false, loaded_ok.2)
  else (true, { loaded_ok.2 with sample_times_ := populated })

end SamplesetSupervisor

/-- Sample input: a sampleset of node `nodeid` with interval 3600 s. -/
def sample_sampleset (nodeid : Nat) : Sampleset :=
  { nodeid := nodeid, sampling_mask := 1, decimation_rounded := 1, resolution := 0,
    ac_dc_flag := 0, interval := DoubleValue.finite 3600 }

/-- Sample input: a supervisor initialised with three samplesets and an empty
database, after two calls of `get_sampleset` at instant 1700000000. -/
def sample_supervisor_at_2 : Option SamplesetSupervisor :=
  (((SamplesetSupervisor.new.initialize_supervisor (some (fun _ => none))
      (some [sample_sampleset 1, sample_sampleset 2, sample_sampleset 3])
      (fun _ => none)).2.get_sampleset 1700000000).bind
    (fun r => r.2.get_sampleset 1700000000)).map (fun r => r.2)

/-! ## The node list at the end of a round -/

/-- Sample input: the session constructed at instant 0 whose node list file
holds the single EchoBox node `0xbc000001`, run through the load of the list
at 10000 ms, the eight unanswered `R` polls of that node and the settling
delay, which ends at 24900 ms with the index past the only entry. -/
def sample_polled_session : Option SessionManager :=
  ({ SessionManager.new 0 with nodelist_file := some [0xbc000001] }).run
    [(none, 10000), (none, 11800), (none, 13600), (none, 15400), (none, 17200),
      (none, 19000), (none, 20800), (none, 22600), (none, 24400), (none, 24900)]

/-! # Theorems -/

theorem bit_iteration_cur (m : List Int) (t : Int) (s : MaskState) (bit : Nat) :
    (bit_iteration m t s bit).current_segment = s.current_segment + 1 := by
  unfold bit_iteration
  split
  · rfl
  · split <;> rfl

theorem bit_iteration_testBit (m : List Int) (t : Int) (s : MaskState) (bit q : Nat) :
    (bit_iteration m t s bit).byte_value.testBit q =
      (s.byte_value.testBit q || (requested m t s.current_segment && decide (bit = q))) := by
  unfold bit_iteration requested
  by_cases h1 : s.current_segment ≥ t
  · have h1' : ¬ s.current_segment < t := not_lt.mpr h1
    simp [h1, h1']
  · have h1' : s.current_segment < t := not_le.mp h1
    by_cases h2 : s.current_segment ∈ m
    · simp [h1, h1', h2, Nat.testBit_or, Nat.one_shiftLeft, Nat.testBit_two_pow]
    · simp [h1, h1', h2]

theorem bit_iteration_used (m : List Int) (t : Int) (s : MaskState) (bit : Nat) :
    (bit_iteration m t s bit).total_segments_used =
      s.total_segments_used + (if requested m t s.current_segment then 1 else 0) := by
  unfold bit_iteration requested
  by_cases h1 : s.current_segment ≥ t
  · have h1' : ¬ s.current_segment < t := not_lt.mpr h1
    simp [h1, h1']
  · have h1' : s.current_segment < t := not_le.mp h1
    by_cases h2 : s.current_segment ∈ m
    · simp [h1, h1', h2]
    · simp [h1, h1', h2]

theorem byte_bits_cur (m : List Int) (t c u : Int) :
    (byte_bits m t c u).current_segment = c + 7 := by
  simp only [byte_bits, List.foldl, bit_iteration_cur]
  omega

theorem testBit_one_eq (q : Nat) : Nat.testBit 1 q = decide (q = 0) := by
  have h := @Nat.testBit_two_pow 0 q
  rw [pow_zero] at h
  rw [h]
  by_cases hq : q = 0
  · simp [hq]
  · have hq' : ¬ (0 = q) := fun e => hq e.symm
    simp [hq, hq']

theorem byte_bits_testBit_zero (m : List Int) (t c u : Int) :
    (byte_bits m t c u).byte_value.testBit 0 = true := by
  simp only [byte_bits, List.foldl, bit_iteration_testBit, testBit_one_eq]
  simp

theorem byte_bits_testBit (m : List Int) (t c u : Int) (p : Nat) (h1 : 1 ≤ p) (h7 : p ≤ 7) :
    (byte_bits m t c u).byte_value.testBit p = requested m t (c + (7 - (p : Int))) := by
  interval_cases p <;>
    simp only [byte_bits, List.foldl, bit_iteration_testBit, bit_iteration_cur, testBit_one_eq,
      add_assoc] <;>
    simp

theorem requestedCount_seven (m : List Int) (t c : Int) :
    (requestedCount m t c 7 : Int) =
      (if requested m t c then 1 else 0) + (if requested m t (c + 1) then 1 else 0) +
      (if requested m t (c + 2) then 1 else 0) + (if requested m t (c + 3) then 1 else 0) +
      (if requested m t (c + 4) then 1 else 0) + (if requested m t (c + 5) then 1 else 0) +
      (if requested m t (c + 6) then 1 else 0) := by
  have hr : List.range 7 = [0, 1, 2, 3, 4, 5, 6] := rfl
  unfold requestedCount
  rw [hr]
  simp only [List.countP_cons, List.countP_nil]
  push_cast
  simp only [add_zero, zero_add]
  ring

theorem byte_bits_used (m : List Int) (t c u : Int) :
    (byte_bits m t c u).total_segments_used = u + (requestedCount m t c 7 : Int) := by
  rw [requestedCount_seven]
  simp only [byte_bits, List.foldl, bit_iteration_used, bit_iteration_cur, add_assoc]
  norm_num

theorem byte_bits_testBit_high (m : List Int) (t c u : Int) (q : Nat) (h : 8 ≤ q) :
    (byte_bits m t c u).byte_value.testBit q = false := by
  have e0 : ¬ (q = 0) := by omega
  have e1 : ¬ (1 = q) := by omega
  have e2 : ¬ (2 = q) := by omega
  have e3 : ¬ (3 = q) := by omega
  have e4 : ¬ (4 = q) := by omega
  have e5 : ¬ (5 = q) := by omega
  have e6 : ¬ (6 = q) := by omega
  have e7 : ¬ (7 = q) := by omega
  simp only [byte_bits, List.foldl, bit_iteration_testBit, testBit_one_eq]
  simp [e0, e1, e2, e3, e4, e5, e6, e7]

theorem byte_bits_lt (m : List Int) (t c u : Int) : (byte_bits m t c u).byte_value < 256 := by
  have h := Nat.lt_pow_two_of_testBit (n := 8) (byte_bits m t c u).byte_value
    (fun i hi => byte_bits_testBit_high m t c u i hi)
  simpa using h

theorem requested_past (m : List Int) (t c : Int) (h : c ≥ t) : requested m t c = false := by
  unfold requested
  have h' : ¬ c < t := not_lt.mpr h
  simp [h']

theorem requestedCount_add (m : List Int) (t c : Int) (a b : Nat) :
    requestedCount m t c (a + b) = requestedCount m t c a + requestedCount m t (c + a) b := by
  unfold requestedCount
  rw [List.range_add, List.countP_append, List.countP_map]
  congr 1
  apply List.countP_congr
  intro x _
  simp [Function.comp, add_assoc]

theorem requestedCount_past (m : List Int) (t c : Int) (n : Nat) (h : c ≥ t) :
    requestedCount m t c n = 0 := by
  unfold requestedCount
  rw [List.countP_eq_zero]
  intro a _
  have hp : requested m t (c + (a : Int)) = false :=
    requested_past m t _ (by have := Int.natCast_nonneg a; omega)
  simp [hp]

theorem goodByte_byte_bits (m : List Int) (t c u : Int) :
    GoodByte m t c (byte_bits m t c u).byte_value :=
  ⟨byte_bits_testBit_zero m t c u, byte_bits_lt m t c u,
    fun p h1 h7 => byte_bits_testBit m t c u p h1 h7⟩

theorem goodByte_one (m : List Int) (t c : Int) (h : c ≥ t) : GoodByte m t c 1 := by
  refine ⟨by decide, by decide, ?_⟩
  intro p h1 h7
  rw [requested_past m t _ (by omega), testBit_one_eq]
  have e0 : ¬ (p = 0) := by omega
  simp [e0]

theorem fill_remaining_id : ∀ (n r : Nat) (bm : List Nat),
    (∀ b, r ≤ b → b < r + n → bm[b]? = some 1) → fill_remaining n r bm = bm
  | 0, _, _, _ => rfl
  | n + 1, r, bm, h => by
    have hset : bm.set r 1 = bm := by
      apply List.ext_getElem?
      intro j
      by_cases hj : r = j
      · subst hj
        have hr := h r (le_refl _) (by omega)
        have hlen : r < bm.length := by
          by_contra hc
          rw [List.getElem?_eq_none (by omega)] at hr
          cases hr
        rw [List.getElem?_set_self hlen, hr]
      · rw [List.getElem?_set_ne hj]
    show fill_remaining n (r + 1) (bm.set r 1) = bm
    rw [hset]
    exact fill_remaining_id n (r + 1) bm (fun b h1 h2 => h b (by omega) (by omega))

theorem mask_loop_spec (m : List Int) (t start : Int) : ∀ (n i : Nat) (bm : List Nat) (u : Int),
    n + i = 76 → bm.length = 76 → (∀ b, i ≤ b → b < 76 → bm[b]? = some 1) →
    (mask_loop m t n i bm (start + 7 * (i : Int)) u).1.length = 76 ∧
    (∀ b, b < i → (mask_loop m t n i bm (start + 7 * (i : Int)) u).1[b]? = bm[b]?) ∧
    (∀ b, i ≤ b → b < 76 → ∃ v,
      (mask_loop m t n i bm (start + 7 * (i : Int)) u).1[b]? = some v ∧
        GoodByte m t (start + 7 * (b : Int)) v) ∧
    (mask_loop m t n i bm (start + 7 * (i : Int)) u).2 =
      u + (requestedCount m t (start + 7 * (i : Int)) (7 * n) : Int)
  | 0, i, bm, u, hn, hlen, _ => by
    refine ⟨hlen, fun _ _ => rfl, ?_, ?_⟩
    · intro b h1 h2
      omega
    · simp [mask_loop, requestedCount]
  | n + 1, i, bm, u, hn, hlen, hones => by
    have hi : i < 76 := by omega
    have hcur := byte_bits_cur m t (start + 7 * (i : Int)) u
    have hused := byte_bits_used m t (start + 7 * (i : Int)) u
    have hsplit : requestedCount m t (start + 7 * (i : Int)) (7 * (n + 1)) =
        requestedCount m t (start + 7 * (i : Int)) 7 +
          requestedCount m t (start + 7 * (i : Int) + 7) (7 * n) := by
      have h := requestedCount_add m t (start + 7 * (i : Int)) 7 (7 * n)
      have e : 7 * (n + 1) = 7 + 7 * n := by ring
      rw [e, h]
      rfl
    have hlen1 : (bm.set i (byte_bits m t (start + 7 * (i : Int)) u).byte_value).length = 76 := by
      rw [List.length_set]
      exact hlen
    have hones1 : ∀ b, i + 1 ≤ b → b < 76 →
        (bm.set i (byte_bits m t (start + 7 * (i : Int)) u).byte_value)[b]? = some 1 := by
      intro b h1 h2
      rw [List.getElem?_set_ne (by omega)]
      exact hones b (by omega) h2
    have hself : (bm.set i (byte_bits m t (start + 7 * (i : Int)) u).byte_value)[i]? =
        some (byte_bits m t (start + 7 * (i : Int)) u).byte_value :=
      List.getElem?_set_self (by omega)
    by_cases hbrk : (byte_bits m t (start + 7 * (i : Int)) u).current_segment ≥ t
    · have hr : mask_loop m t (n + 1) i bm (start + 7 * (i : Int)) u =
          (bm.set i (byte_bits m t (start + 7 * (i : Int)) u).byte_value,
            (byte_bits m t (start + 7 * (i : Int)) u).total_segments_used) := by
        simp only [mask_loop, hbrk, if_true]
        rw [fill_remaining_id n (i + 1) _ (fun b h1 h2 => hones1 b h1 (by omega))]
      rw [hr]
      rw [hcur] at hbrk
      refine ⟨hlen1, ?_, ?_, ?_⟩
      · intro b hb
        exact List.getElem?_set_ne (by omega)
      · intro b h1 h2
        by_cases hbi : b = i
        · subst hbi
          exact ⟨_, hself, goodByte_byte_bits m t _ u⟩
        · refine ⟨1, hones1 b (by omega) h2, goodByte_one m t _ ?_⟩
          have : (i : Int) + 1 ≤ (b : Int) := by omega
          omega
      · show (byte_bits m t (start + 7 * (i : Int)) u).total_segments_used = _
        rw [hused, hsplit, requestedCount_past m t _ (7 * n) hbrk]
        simp
    · have hr : mask_loop m t (n + 1) i bm (start + 7 * (i : Int)) u =
          mask_loop m t n (i + 1)
            (bm.set i (byte_bits m t (start + 7 * (i : Int)) u).byte_value)
            (start + 7 * ((i + 1 : Nat) : Int))
            (byte_bits m t (start + 7 * (i : Int)) u).total_segments_used := by
        simp only [mask_loop, hbrk, if_false]
        rw [hcur]
        congr 1
        push_cast
        ring
      rw [hr]
      obtain ⟨ih1, ih2, ih3, ih4⟩ := mask_loop_spec m t start n (i + 1)
        (bm.set i (byte_bits m t (start + 7 * (i : Int)) u).byte_value)
        (byte_bits m t (start + 7 * (i : Int)) u).total_segments_used
        (by omega) hlen1 hones1
      refine ⟨ih1, ?_, ?_, ?_⟩
      · intro b hb
        rw [ih2 b (by omega)]
        exact List.getElem?_set_ne (by omega)
      · intro b h1 h2
        by_cases hbi : b = i
        · subst hbi
          refine ⟨_, ?_, goodByte_byte_bits m t _ u⟩
          rw [ih2 b (by omega)]
          exact hself
        · exact ih3 b (by omega) h2
      · rw [ih4, hused, hsplit]
        have e : start + 7 * ((i + 1 : Nat) : Int) = start + 7 * (i : Int) + 7 := by
          push_cast
          ring
        rw [e]
        push_cast
        ring

theorem build_segment_bitmask_bytes (start total : Int) (missing : List Int) (b : Nat)
    (hb : b < 76) :
    GoodByte missing total (start + 7 * (b : Int))
      ((build_segment_bitmask start missing total).1.getD b 0) := by
  have h := mask_loop_spec missing total start 76 0 (List.replicate 76 1) 0 rfl
    (by simp) (by
      intro b _ hb
      rw [List.getElem?_replicate]
      simp [hb])
  simp only [Nat.cast_zero, mul_zero, add_zero] at h
  obtain ⟨v, hv, hg⟩ := h.2.2.1 b (Nat.zero_le b) hb
  unfold build_segment_bitmask
  rw [List.getD_eq_getElem?_getD, hv]
  exact hg

theorem build_segment_bitmask_count (start total : Int) (missing : List Int) :
    (build_segment_bitmask start missing total).2 = (requestedCount missing total start 532 : Int) := by
  have h := mask_loop_spec missing total start 76 0 (List.replicate 76 1) 0 rfl
    (by simp) (by
      intro b _ hb
      rw [List.getElem?_replicate]
      simp [hb])
  simp only [Nat.cast_zero, mul_zero, add_zero] at h
  unfold build_segment_bitmask
  rw [h.2.2.2]
  simp

/-- C2: the 76-byte bitmap written by `build_segment_bitmask` has bit 0 of every
byte set; for every byte `b` in 0..75 and bit `p` in 7..1, bit `p` of byte `b` is
set exactly when the segment `start + 7*b + (7-p)` is below `total` and occurs in
`missing`; and the returned count is the number of set segment bits. This holds
for all integers `start` and `total`, in particular for the non-negative ones. -/
theorem build_segment_bitmask_correct (start total : Int) (missing : List Int) :
    (build_segment_bitmask start missing total).1.length = 76 ∧
    (∀ b : Nat, b < 76 →
      ((build_segment_bitmask start missing total).1.getD b 0) < 256 ∧
      ((build_segment_bitmask start missing total).1.getD b 0).testBit 0 = true) ∧
    (∀ b p : Nat, b < 76 → 1 ≤ p → p ≤ 7 →
      (((build_segment_bitmask start missing total).1.getD b 0).testBit p = true ↔
        (start + 7 * (b : Int) + (7 - (p : Int)) < total ∧
          start + 7 * (b : Int) + (7 - (p : Int)) ∈ missing))) ∧
    (build_segment_bitmask start missing total).2 =
      ((List.countP
        (fun k : Nat =>
          ((build_segment_bitmask start missing total).1.getD (k / 7) 0).testBit (7 - k % 7))
        (List.range 532) : Nat) : Int) := by
  refine ⟨?_, ?_, ?_, ?_⟩
  · have h := mask_loop_spec missing total start 76 0 (List.replicate 76 1) 0 rfl
      (by simp) (by
        intro b _ hb
        rw [List.getElem?_replicate]
        simp [hb])
    simp only [Nat.cast_zero, mul_zero, add_zero] at h
    exact h.1
  · intro b hb
    have h := build_segment_bitmask_bytes start total missing b hb
    exact ⟨h.2.1, h.1⟩
  · intro b p hb h1 h7
    have h := build_segment_bitmask_bytes start total missing b hb
    generalize (build_segment_bitmask start missing total).1.getD b 0 = v at h ⊢
    rw [h.2.2 p h1 h7]
    simp only [requested, Bool.and_eq_true, decide_eq_true_eq]
  · rw [build_segment_bitmask_count]
    refine congrArg (fun n : Nat => (n : Int)) ?_
    unfold requestedCount
    apply List.countP_congr
    intro k hk
    have hk' : k < 532 := List.mem_range.mp hk
    have hb : k / 7 < 76 := by omega
    have h := build_segment_bitmask_bytes start total missing (k / 7) hb
    generalize (build_segment_bitmask start missing total).1.getD (k / 7) 0 = v at h ⊢
    rw [h.2.2 (7 - k % 7) (by omega) (by omega)]
    have e : start + 7 * ((k / 7 : Nat) : Int) + (7 - ((7 - k % 7 : Nat) : Int)) = start + (k : Int) := by
      omega
    rw [e]

/-! ## UploadManager: frame effects -/

/-- C6: a checksum-valid upload-data response whose segment index is at least
`total_count` makes `process_upload_response` return true and leaves the segment
tracker (received count and every stored segment), the upload state, the retry
counter and the last-packet instant unchanged. -/
theorem process_upload_response_out_of_range (m : UploadManager) (r : UploadResponse)
    (now : Nat) (hdata : r.has_upload_data = true) (hcrc : r.crc_valid = true)
    (haddr : r.upload_segment_addr < 65536)
    (hrange : (r.upload_segment_addr : Int) ≥ m.segment_tracker.get_total_count) :
    (m.process_upload_response r now).1 = true ∧
    (m.process_upload_response r now).2.segment_tracker = m.segment_tracker ∧
    (m.process_upload_response r now).2.get_received_segments = m.get_received_segments ∧
    (m.process_upload_response r now).2.current_state = m.current_state ∧
    (m.process_upload_response r now).2.retry_count = m.retry_count ∧
    (m.process_upload_response r now).2.timeout_manager.last_packet_time =
      m.timeout_manager.last_packet_time := by
  have hmod : r.upload_segment_addr % 65536 = r.upload_segment_addr := Nat.mod_eq_of_lt haddr
  have hres : m.process_upload_response r now =
      (true, { m with statistics := { m.statistics with
        total_packets_received := m.statistics.total_packets_received + 1 } }) := by
    unfold UploadManager.process_upload_response
    simp only [hdata, hcrc, hmod]
    simp only [Bool.not_true, Bool.false_eq_true, if_false]
    rw [if_pos hrange]
  rw [hres]
  exact ⟨rfl, rfl, rfl, rfl, rfl, rfl⟩

/-- A session of four segments receiving a frame for segment index 4. -/
theorem process_upload_response_out_of_range_witness :
    (UploadManager.new.start_full_upload 0x11223344 0 128 none 7).2.segment_tracker.get_total_count
        = 4 ∧
    ((UploadManager.new.start_full_upload 0x11223344 0 128 none 7).2.process_upload_response
        ⟨true, true, false, 4, zero_block⟩ 9).1 = true ∧
    ((UploadManager.new.start_full_upload 0x11223344 0 128 none 7).2.process_upload_response
        ⟨true, true, false, 4, zero_block⟩ 9).2.timeout_manager.last_packet_time = 7 :=
  ⟨by decide,
    (process_upload_response_out_of_range
      (UploadManager.new.start_full_upload 0x11223344 0 128 none 7).2
      ⟨true, true, false, 4, zero_block⟩ 9 rfl rfl (by decide) (by decide)).1,
    ((process_upload_response_out_of_range
      (UploadManager.new.start_full_upload 0x11223344 0 128 none 7).2
      ⟨true, true, false, 4, zero_block⟩ 9 rfl rfl (by decide) (by decide)).2.2.2.2.2).trans
      (by decide)⟩

/-- C7 fails on the code: from the freshly constructed (idle) manager,
`start_full_upload` with a sample count of 0 returns true and the manager enters
`UPLOAD_INIT`, with `total_count = 0`. -/
theorem start_full_upload_zero_accepted :
    (UploadManager.new.start_full_upload 0x11223344 0 0 none 7).1 = true ∧
    (UploadManager.new.start_full_upload 0x11223344 0 0 none 7).2.get_state =
      UploadState.UPLOAD_INIT ∧
    (UploadManager.new.start_full_upload 0x11223344 0 0 none 7).2.get_total_segments = 0 := by
  decide

/-- C7 as amended: `start_full_upload` with a sample count of 0, called on an
idle manager, accepts the session: it returns true, the tracker holds
`total_count = 0` with nothing received, and the manager is in `UPLOAD_INIT`;
such a session is never complete. The only refusal is for a manager that is not
idle: then it returns false and changes nothing. -/
theorem start_full_upload_zero (m : UploadManager) (macid start_addr : Nat)
    (trig : Option (List Nat)) (now : Nat) :
    (m.current_state = UploadState.UPLOAD_IDLE →
      (m.start_full_upload macid start_addr 0 trig now).1 = true ∧
      (m.start_full_upload macid start_addr 0 trig now).2.get_state = UploadState.UPLOAD_INIT ∧
      (m.start_full_upload macid start_addr 0 trig now).2.get_total_segments = 0 ∧
      (m.start_full_upload macid start_addr 0 trig now).2.get_received_segments = 0 ∧
      (m.start_full_upload macid start_addr 0 trig now).2.segment_tracker.is_complete = false) ∧
    (m.current_state ≠ UploadState.UPLOAD_IDLE →
      m.start_full_upload macid start_addr 0 trig now = (false, m)) := by
  constructor
  · intro hidle
    unfold UploadManager.start_full_upload
    cases trig <;>
      simp [hidle, UploadManager.transition_state, UploadManager.get_state,
        UploadManager.get_total_segments, UploadManager.get_received_segments,
        UploadSegmentTracker.initialize_tracker, UploadSegmentTracker.reset,
        UploadSegmentTracker.get_total_count, UploadSegmentTracker.get_received_count,
        UploadSegmentTracker.is_complete, UPLOAD_SAMPLES_PER_SEGMENT]
  · intro hbusy
    unfold UploadManager.start_full_upload
    rw [if_pos hbusy]

/-- The amended C7 at the freshly constructed manager. -/
theorem start_full_upload_zero_witness :
    UploadManager.new.current_state = UploadState.UPLOAD_IDLE ∧
    (UploadManager.new.start_full_upload 5 0 0 none 3).1 = true :=
  ⟨rfl, ((start_full_upload_zero UploadManager.new 5 0 none 3).1 rfl).1⟩

/-! ## UploadRetryStrategy -/

/-- C9 fails on the code: for a 40-segment upload in state RECEIVING with one
segment received, `evaluate` does not return RETRY_FULL; it returns
RETRY_PARTIAL. -/
theorem evaluate_forty_one_not_full :
    evaluate UploadState.UPLOAD_RECEIVING 1 40 0 10000 ≠ RetryDecision.DECISION_RETRY_FULL ∧
    evaluate UploadState.UPLOAD_RECEIVING 1 40 0 10000 = RetryDecision.DECISION_RETRY_PARTIAL := by
  decide

/-- C9 as amended: for a 40-segment upload in state RECEIVING with exactly one
segment received, `evaluate` returns RETRY_PARTIAL through branch 4 (normal
partial upload), whatever the retry counters are: the expected packet count is
2, and 1 is not below a tenth of it. -/
theorem evaluate_forty_one (retry_count max_retries : Int) :
    calculate_expected_packets 40 = 2 ∧
    evaluate UploadState.UPLOAD_RECEIVING 1 40 retry_count max_retries =
      RetryDecision.DECISION_RETRY_PARTIAL ∧
    evaluate_branch UploadState.UPLOAD_RECEIVING 1 40 = 4 := by
  refine ⟨by decide, ?_, by decide⟩
  unfold evaluate
  decide

/-- C8 fails on the code: with 219 segments of which 1 is received in state
RECEIVING, the exact thresholds give RETRY_FULL (1 < 0.10 * 0.05 * 219 = 1.095)
while `evaluate` returns RETRY_PARTIAL (its expected count is 10, and 1 is not
below 1.0). -/
theorem evaluate_differs_from_exact_rules :
    (0 : Int) ≤ 1 ∧ (1 : Int) ≤ 219 ∧
    spec_evaluate UploadState.UPLOAD_RECEIVING 1 219 = RetryDecision.DECISION_RETRY_FULL ∧
    evaluate UploadState.UPLOAD_RECEIVING 1 219 0 10000 = RetryDecision.DECISION_RETRY_PARTIAL := by
  refine ⟨by decide, by decide, ?_, by decide⟩
  unfold spec_evaluate
  norm_num

theorem tdiv_eq_ediv_of_nonneg (a b : Int) (ha : 0 ≤ a) (hb : 0 ≤ b) : Int.tdiv a b = a / b :=
  Int.tdiv_eq_ediv ha hb

theorem floor_five_percent (total : Int) : ⌊(5 / 100 : ℚ) * (total : ℚ)⌋ = total / 20 := by
  have h : (5 / 100 : ℚ) * (total : ℚ) = (total : ℚ) / ((20 : Int) : ℚ) := by
    push_cast
    ring
  rw [h]
  exact Rat.floor_intCast_div_natCast total 20

/-- C8 as amended: for all `0 <= received <= total` and every upload state,
`evaluate` returns the decision of the five rules evaluated top to bottom with
`missing = total - received`, where the rule-2 threshold is
`0.10 * floor(0.05 * total)` (the expected packet count is truncated to an
integer first) and the rule-3 threshold is the exact `0.80 * total`. -/
theorem evaluate_eq_truncated_rules (state : UploadState) (received total retry_count
    max_retries : Int) (h0 : 0 ≤ received) (hle : received ≤ total) :
    evaluate state received total retry_count max_retries =
      spec_evaluate_truncated state received total := by
  have ht : 0 ≤ total := le_trans h0 hle
  have hexp : calculate_expected_packets total = total / 20 :=
    tdiv_eq_ediv_of_nonneg total 20 ht (by decide)
  have h80 : Int.tdiv (4 * total) 5 = 4 * total / 5 :=
    tdiv_eq_ediv_of_nonneg (4 * total) 5 (by omega) (by decide)
  have e2 : ((received : ℚ) < (10 / 100 : ℚ) * ((⌊(5 / 100 : ℚ) * (total : ℚ)⌋ : Int) : ℚ)) ↔
      10 * received < total / 20 := by
    rw [floor_five_percent]
    constructor
    · intro h
      have h' : ((10 * received : Int) : ℚ) < ((total / 20 : Int) : ℚ) := by
        push_cast
        linarith
      exact_mod_cast h'
    · intro h
      have h' : ((10 * received : Int) : ℚ) < ((total / 20 : Int) : ℚ) := by exact_mod_cast h
      push_cast at h'
      linarith
  have e3 : (((total - received : Int) : ℚ) > (80 / 100 : ℚ) * (total : ℚ)) ↔
      total - received > 4 * total / 5 := by
    constructor
    · intro h
      have h' : ((4 * total : Int) : ℚ) < ((5 * (total - received) : Int) : ℚ) := by
        push_cast
        push_cast at h
        linarith
      have h'' : 4 * total < 5 * (total - received) := by exact_mod_cast h'
      omega
    · intro h
      have h'' : 4 * total < 5 * (total - received) := by omega
      have h' : ((4 * total : Int) : ℚ) < ((5 * (total - received) : Int) : ℚ) := by
        exact_mod_cast h''
      push_cast at h'
      push_cast
      linarith
  unfold evaluate spec_evaluate_truncated
  simp only [hexp, h80, e2, e3, MAX_SEGMENTS_PER_0X55, gt_iff_lt]

/-- The amended C8 at 219 segments with one received. -/
theorem evaluate_eq_truncated_rules_witness :
    (0 : Int) ≤ 1 ∧ (1 : Int) ≤ 219 ∧
    evaluate UploadState.UPLOAD_RECEIVING 1 219 0 10000 =
      spec_evaluate_truncated UploadState.UPLOAD_RECEIVING 1 219 :=
  ⟨by decide, by decide,
    evaluate_eq_truncated_rules UploadState.UPLOAD_RECEIVING 1 219 0 10000 (by decide)
      (by decide)⟩

/-! ## Received count across upload-manager operations -/

theorem mark_received_count_le (t : UploadSegmentTracker) (i : Int) (d : SampleBlock) :
    t.segments_received ≤ (t.mark_received i d).2.segments_received ∧
    (t.mark_received i d).2.segments_received ≤ t.segments_received + 1 := by
  unfold UploadSegmentTracker.mark_received
  split
  · simp
  · split <;> simp

theorem transition_state_tracker (m : UploadManager) (st : UploadState) :
    (m.transition_state st).segment_tracker = m.segment_tracker := by
  unfold UploadManager.transition_state
  split <;> rfl

theorem send_init_command_tracker (m : UploadManager) :
    m.send_init_command.2.segment_tracker = m.segment_tracker := by
  unfold UploadManager.send_init_command
  split
  · rfl
  · split
    · simp only [UploadManager.send_init_command_0x55, transition_state_tracker]
    · simp only [UploadManager.send_upload_command_0x51, transition_state_tracker]

theorem send_partial_upload_tracker (m : UploadManager) (now : Nat) :
    (m.send_partial_upload now).2.segment_tracker = m.segment_tracker := by
  unfold UploadManager.send_partial_upload
  split
  · rfl
  · split
    · rfl
    · simp only [UploadManager.send_upload_command_0x55, transition_state_tracker,
        UploadManager.reset_packet_timer]

theorem process_upload_response_count (m : UploadManager) (r : UploadResponse) (now : Nat) :
    m.get_received_segments ≤ (m.process_upload_response r now).2.get_received_segments := by
  have hm := mark_received_count_le m.segment_tracker
    ((r.upload_segment_addr % 65536 : Nat) : Int) r.upload_data
  unfold UploadManager.process_upload_response UploadManager.get_received_segments
    UploadSegmentTracker.get_received_count
  dsimp only
  split
  · exact le_refl _
  · split
    · exact le_refl _
    · split
      · exact le_refl _
      · split
        · exact le_refl _
        · split
          · simp only [transition_state_tracker, UploadManager.reset_packet_timer]
            exact hm.1
          · exact hm.1

/-- C4 fails on the code: in a 40-segment session, after the init command and
one received segment the received count is 1, and `reset_for_retry` brings it
back to 0. -/
theorem reset_for_retry_decreases_received :
    (((UploadManager.new.start_full_upload 0x11223344 0 1280 none 7).2.send_init_command.2
      ).process_upload_response ⟨true, true, false, 0, zero_block⟩ 9).2.get_received_segments
        = 1 ∧
    (((UploadManager.new.start_full_upload 0x11223344 0 1280 none 7).2.send_init_command.2
      ).process_upload_response ⟨true, true, false, 0, zero_block⟩ 9
      ).2.reset_for_retry.get_received_segments = 0 := by
  decide

/-- C4 as amended: `get_received_segments()` never decreases across
`send_init_command`, `send_partial_upload` and `process_upload_response`;
`reset_for_retry` sets it to 0 and keeps `total_count`. -/
theorem received_segments_monotone (m : UploadManager) (r : UploadResponse) (now : Nat) :
    m.get_received_segments ≤ m.send_init_command.2.get_received_segments ∧
    m.get_received_segments ≤ (m.send_partial_upload now).2.get_received_segments ∧
    m.get_received_segments ≤ (m.process_upload_response r now).2.get_received_segments ∧
    m.reset_for_retry.get_received_segments = 0 ∧
    m.reset_for_retry.get_total_segments = m.get_total_segments := by
  refine ⟨?_, ?_, process_upload_response_count m r now, ?_, ?_⟩
  · unfold UploadManager.get_received_segments
    rw [send_init_command_tracker]
  · unfold UploadManager.get_received_segments
    rw [send_partial_upload_tracker]
  · unfold UploadManager.get_received_segments UploadManager.reset_for_retry
    rw [transition_state_tracker]
    rfl
  · unfold UploadManager.get_total_segments UploadManager.reset_for_retry
    rw [transition_state_tracker]
    rfl

/-! ## verify_upload_checksum -/

theorem byte_sum_succ (data : List Nat) (lo n : Nat) :
    byte_sum data lo (n + 1) = data.getD lo 0 + byte_sum data (lo + 1) n := by
  unfold byte_sum
  rw [List.range_succ_eq_map, List.map_cons, List.sum_cons, List.map_map]
  congr 2
  apply List.map_congr_left
  intro k _
  simp only [Function.comp, Nat.succ_eq_add_one]
  congr 1
  omega

theorem checksum_loop_eq (data : List Nat) : ∀ (n i acc : Nat),
    checksum_loop data n i acc = (acc + byte_sum data i n) % 65536 % 65536 ∨
    checksum_loop data n i acc = acc ∧ n = 0
  | 0, _, _ => Or.inr ⟨rfl, rfl⟩
  | n + 1, i, acc => by
    left
    show checksum_loop data n (i + 1) ((acc + data.getD i 0) % 65536) = _
    rw [byte_sum_succ]
    rcases checksum_loop_eq data n (i + 1) ((acc + data.getD i 0) % 65536) with h | ⟨h, hn⟩
    · rw [h]
      omega
    · rw [h, hn]
      simp [byte_sum]

theorem checksum_loop_sum (data : List Nat) (n i : Nat) (hn : 0 < n) :
    checksum_loop data n i 0 = byte_sum data i n % 65536 := by
  rcases checksum_loop_eq data n i 0 with h | ⟨_, h0⟩
  · rw [h]
    omega
  · omega

theorem and_255_eq_mod (x : Nat) : x &&& 0xFF = x % 256 :=
  Nat.and_pow_two_sub_one_eq_mod x 8

theorem mac_word_value (a b c d : Nat) (_ha : a < 256) (hb : b < 256) (hc : c < 256)
    (hd : d < 256) :
    (a <<< 24) ||| (b <<< 16) ||| (c <<< 8) ||| d = 2 ^ 24 * a + 2 ^ 16 * b + 2 ^ 8 * c + d := by
  have h1 : 2 ^ 8 * c + d = 2 ^ 8 * c ||| d := Nat.mul_add_lt_is_or (by omega) c
  have h2 : 2 ^ 16 * b + (2 ^ 8 * c + d) = 2 ^ 16 * b ||| (2 ^ 8 * c + d) :=
    Nat.mul_add_lt_is_or (by omega) b
  have h3 : 2 ^ 24 * a + (2 ^ 16 * b + (2 ^ 8 * c + d)) =
      2 ^ 24 * a ||| (2 ^ 16 * b + (2 ^ 8 * c + d)) := Nat.mul_add_lt_is_or (by omega) a
  rw [Nat.shiftLeft_eq, Nat.shiftLeft_eq, Nat.shiftLeft_eq, Nat.lor_assoc, Nat.lor_assoc,
    Nat.mul_comm a, Nat.mul_comm b, Nat.mul_comm c, ← h1, ← h2, ← h3]
  ring

theorem mac_byte_sum (s a b c d : Nat) (ha : a < 256) (hb : b < 256) (hc : c < 256) (hd : d < 256) :
   ((((s + ((2 ^ 24 * a + 2 ^ 16 * b + 2 ^ 8 * c + d) >>> 24 &&& 0xFF)) % 65536 +
      ((2 ^ 24 * a + 2 ^ 16 * b + 2 ^ 8 * c + d) >>> 16 &&& 0xFF)) % 65536 +
      ((2 ^ 24 * a + 2 ^ 16 * b + 2 ^ 8 * c + d) >>> 8 &&& 0xFF)) % 65536 +
      ((2 ^ 24 * a + 2 ^ 16 * b + 2 ^ 8 * c + d) &&& 0xFF)) % 65536 =
      (s + a + b + c + d) % 65536 := by
  have e3 : (2 ^ 24 * a + 2 ^ 16 * b + 2 ^ 8 * c + d) >>> 24 &&& 0xFF = a := by
    rw [and_255_eq_mod, Nat.shiftRight_eq_div_pow]
    have h : (2 ^ 24 * a + 2 ^ 16 * b + 2 ^ 8 * c + d) / 2 ^ 24 = a := by omega
    rw [h]
    omega
  have e4 : (2 ^ 24 * a + 2 ^ 16 * b + 2 ^ 8 * c + d) >>> 16 &&& 0xFF = b := by
    rw [and_255_eq_mod, Nat.shiftRight_eq_div_pow]
    have h : (2 ^ 24 * a + 2 ^ 16 * b + 2 ^ 8 * c + d) / 2 ^ 16 = 256 * a + b := by omega
    rw [h]
    omega
  have e5 : (2 ^ 24 * a + 2 ^ 16 * b + 2 ^ 8 * c + d) >>> 8 &&& 0xFF = c := by
    rw [and_255_eq_mod, Nat.shiftRight_eq_div_pow]
    have h : (2 ^ 24 * a + 2 ^ 16 * b + 2 ^ 8 * c + d) / 2 ^ 8 = 65536 * a + 256 * b + c := by
      omega
    rw [h]
    omega
  have e6 : (2 ^ 24 * a + 2 ^ 16 * b + 2 ^ 8 * c + d) &&& 0xFF = d := by
    rw [and_255_eq_mod]
    omega
  rw [e3, e4, e5, e6]
  omega

theorem xor_low_byte (x y : Nat) : ((x % 65536) ^^^ y) &&& 0xFF = (x ^^^ y) &&& 0xFF := by
  apply Nat.eq_of_testBit_eq
  intro i
  have h255 : (0xFF : Nat).testBit i = decide (i < 8) := Nat.testBit_two_pow_sub_one 8 i
  have hmod : (x % 65536).testBit i = (decide (i < 16) && x.testBit i) :=
    Nat.testBit_mod_two_pow x 16 i
  rw [Nat.testBit_and, Nat.testBit_and, Nat.testBit_xor, Nat.testBit_xor, h255, hmod]
  by_cases h8 : i < 8
  · have h16 : i < 16 := by omega
    simp [h8, h16]
  · simp [h8]

theorem checksum_matches_iff (data : List Nat) (s : Nat)
    (hbytes : ∀ i, data.getD i 0 < 256) :
    checksum_matches data s = true ↔
      (data.getD 125 0 = (s ^^^ 0xAA) &&& 0xFF ∨
        data.getD 125 0 =
          ((s + data.getD 3 0 + data.getD 4 0 + data.getD 5 0 + data.getD 6 0) ^^^ 0xAA)
            &&& 0xFF) := by
  have h3 := hbytes 3
  have h4 := hbytes 4
  have h5 := hbytes 5
  have h6 := hbytes 6
  have h125 := hbytes 125
  have hmac := mac_word_value _ _ _ _ h3 h4 h5 h6
  have hstored : data.getD 125 0 &&& 0xFF = data.getD 125 0 := by
    rw [and_255_eq_mod]
    exact Nat.mod_eq_of_lt h125
  have hadv := mac_byte_sum s _ _ _ _ h3 h4 h5 h6
  unfold checksum_matches
  simp only [hmac, hadv, hstored, xor_low_byte, Bool.or_eq_true, decide_eq_true_eq]
  constructor
  · rintro (h | h)
    · exact Or.inl h.symm
    · exact Or.inr h.symm
  · rintro (h | h)
    · exact Or.inl h.symm
    · exact Or.inr h.symm

/-- C10: for a 128-byte frame, `verify_upload_checksum(frame, is_fast)` is true
exactly when (slow mode and `frame[49] != 0xBB`), or `frame[125]` equals
`(S xor 0xAA) & 0xFF`, or `frame[125]` equals
`((S + frame[3] + frame[4] + frame[5] + frame[6]) xor 0xAA) & 0xFF`, where `S`
is the sum modulo `2^16` of bytes 5..124 in fast mode and 51..114 in slow
mode. -/
theorem verify_upload_checksum_iff (frame : List Nat) (is_fast : Bool)
    (hlen : frame.length = 128) (hbytes : ∀ b ∈ frame, b < 256) :
    verify_upload_checksum frame is_fast = true ↔
      ((is_fast = false ∧ frame.getD 49 0 ≠ 0xBB) ∨
        frame.getD 125 0 = (checksum_base frame is_fast ^^^ 0xAA) &&& 0xFF ∨
        frame.getD 125 0 =
          ((checksum_base frame is_fast + frame.getD 3 0 + frame.getD 4 0 + frame.getD 5 0 +
            frame.getD 6 0) ^^^ 0xAA) &&& 0xFF) := by
  have hb : ∀ i, frame.getD i 0 < 256 := by
    intro i
    rw [List.getD_eq_getElem?_getD]
    by_cases hi : i < frame.length
    · rw [List.getElem?_eq_getElem hi]
      exact hbytes _ (List.getElem_mem hi)
    · rw [List.getElem?_eq_none (by omega)]
      decide
  have _ := hlen
  cases is_fast
  · have hv : frame.getD 49 0 &&& 0xFF = frame.getD 49 0 := by
      rw [and_255_eq_mod]
      exact Nat.mod_eq_of_lt (hb 49)
    have key := checksum_matches_iff frame (byte_sum frame 51 64 % 65536) hb
    have hver : verify_upload_checksum frame false =
        (if frame.getD 49 0 ≠ 0xBB then true
          else checksum_matches frame (byte_sum frame 51 64 % 65536)) := by
      unfold verify_upload_checksum
      simp only [Bool.false_eq_true, if_false, hv]
      rw [checksum_loop_sum frame 64 51 (by decide)]
    have hbase : checksum_base frame false = byte_sum frame 51 64 % 65536 := rfl
    rw [hver, hbase]
    by_cases h49 : frame.getD 49 0 = 0xBB
    · rw [if_neg (fun h => h h49), key]
      constructor
      · intro h
        exact Or.inr h
      · rintro (⟨_, h⟩ | h)
        · exact absurd h49 h
        · exact h
    · rw [if_pos h49]
      exact ⟨fun _ => Or.inl ⟨rfl, h49⟩, fun _ => rfl⟩
  · have key := checksum_matches_iff frame (byte_sum frame 5 120 % 65536) hb
    have hver : verify_upload_checksum frame true =
        checksum_matches frame (byte_sum frame 5 120 % 65536) := by
      unfold verify_upload_checksum
      simp only [if_true]
      rw [checksum_loop_sum frame 120 5 (by decide)]
    have hbase : checksum_base frame true = byte_sum frame 5 120 % 65536 := rfl
    rw [hver, hbase, key]
    constructor
    · intro h
      exact Or.inr h
    · rintro (⟨h, _⟩ | h)
      · cases h
      · exact h

/-- C10 at a fast-mode frame of zeros whose checksum byte is `0xAA`. -/
theorem verify_upload_checksum_iff_witness :
    (List.replicate 125 0 ++ [0xAA, 0, 0]).length = 128 ∧
    verify_upload_checksum (List.replicate 125 0 ++ [0xAA, 0, 0]) true = true :=
  ⟨by decide,
    (verify_upload_checksum_iff (List.replicate 125 0 ++ [0xAA, 0, 0]) true (by decide)
      (by decide)).mpr (Or.inr (Or.inl (by decide)))⟩

/-! ## UploadSegmentTracker invariants -/

theorem map_getD_range {α : Type} (l : List α) (d : α) :
    List.map (fun i => l.getD i d) (List.range l.length) = l := by
  apply List.ext_getElem?
  intro n
  rw [List.getElem?_map]
  by_cases hn : n < l.length
  · rw [List.getElem?_range hn, List.getElem?_eq_getElem hn]
    simp only [Option.map_some']
    rw [List.getD_eq_getElem l d hn]
  · rw [List.getElem?_eq_none (by simpa using hn), List.getElem?_eq_none (by omega)]
    rfl

theorem countP_range_getD {α : Type} (l : List α) (d : α) (q : α → Bool) :
    List.countP (fun i => q (l.getD i d)) (List.range l.length) = List.countP q l := by
  have h := List.countP_map q (fun i => l.getD i d) (List.range l.length)
  rw [map_getD_range] at h
  rw [h]
  rfl

theorem trackerInv_new : TrackerInv UploadSegmentTracker.new :=
  ⟨le_refl _, rfl, rfl⟩

theorem trackerInv_reset (t : UploadSegmentTracker) : TrackerInv t.reset :=
  ⟨le_refl _, rfl, rfl⟩

theorem trackerInv_initialize (t : UploadSegmentTracker) (n : Int) (hn : 0 ≤ n) :
    TrackerInv (t.initialize_tracker n) := by
  refine ⟨hn, ?_, ?_⟩
  · simp [UploadSegmentTracker.initialize_tracker]
  · have hz : List.countP (fun s : UploadSegment => s.received)
        (List.map UploadSegment.new (List.range n.toNat)) = 0 := by
      rw [List.countP_eq_zero]
      intro a ha
      obtain ⟨i, _, rfl⟩ := List.mem_map.mp ha
      simp [UploadSegment.new]
    show (0 : Int) = ((List.countP (fun s : UploadSegment => s.received)
      (List.map UploadSegment.new (List.range n.toNat)) : Nat) : Int)
    rw [hz]
    rfl

theorem segment_at_eq (t : UploadSegmentTracker) (i : Int) (h : i.toNat < t.segments.length) :
    t.segment_at i = t.segments[i.toNat] := by
  unfold UploadSegmentTracker.segment_at
  exact List.getD_eq_getElem _ _ h

theorem trackerInv_mark (t : UploadSegmentTracker) (i : Int) (d : SampleBlock)
    (hinv : TrackerInv t) : TrackerInv (t.mark_received i d).2 := by
  obtain ⟨h0, hlen, hcnt⟩ := hinv
  unfold UploadSegmentTracker.mark_received
  split
  · exact ⟨h0, hlen, hcnt⟩
  · rename_i hrange
    split
    · exact ⟨h0, hlen, hcnt⟩
    · rename_i hrecv
      have hidx : i.toNat < t.segments.length := by omega
      have hseg := segment_at_eq t i hidx
      refine ⟨h0, ?_, ?_⟩
      · simp only [List.length_set]
        exact hlen
      · simp only
        rw [List.countP_set _ _ _ _ hidx, hcnt]
        rw [hseg] at hrecv
        simp only [hrecv, if_false, if_true, Nat.sub_zero]
        push_cast
        rfl

theorem reachable_inv (t : UploadSegmentTracker) (h : UploadSegmentTracker.Reachable t) :
    TrackerInv t := by
  induction h with
  | construct => exact trackerInv_new
  | init t n _ hn _ => exact trackerInv_initialize t n hn
  | mark t i d _ ih => exact trackerInv_mark t i d ih
  | clear t _ _ => exact trackerInv_reset t

theorem missing_length (t : UploadSegmentTracker) (hinv : TrackerInv t) :
    (t.get_missing_segments.length : Int) = t.total_segments - t.segments_received := by
  obtain ⟨h0, hlen, hcnt⟩ := hinv
  unfold UploadSegmentTracker.get_missing_segments
  rw [List.length_map, ← List.countP_eq_length_filter, ← hlen]
  have hc : List.countP (fun i : Nat => !(t.segment_at (i : Int)).received)
      (List.range t.segments.length) =
      List.countP (fun i : Nat => !(t.segments.getD i (UploadSegment.new 0)).received)
        (List.range t.segments.length) := by
    apply List.countP_congr
    intro i _
    simp [UploadSegmentTracker.segment_at]
  rw [hc, countP_range_getD t.segments (UploadSegment.new 0) (fun s => !s.received)]
  have hsplit := List.length_eq_countP_add_countP (fun s : UploadSegment => s.received) t.segments
  have hnot : List.countP (fun a : UploadSegment => decide ¬(a.received = true)) t.segments =
      List.countP (fun s : UploadSegment => !s.received) t.segments := by
    apply List.countP_congr
    intro a _
    cases a.received <;> simp
  rw [hnot] at hsplit
  rw [hcnt]
  have htot : (t.total_segments.toNat : Int) = t.total_segments := Int.toNat_of_nonneg h0
  omega

theorem missing_mem (t : UploadSegmentTracker) (hinv : TrackerInv t) (x : Int) :
    x ∈ t.get_missing_segments ↔
      (0 ≤ x ∧ x < t.total_segments ∧ t.is_received x = false) := by
  obtain ⟨h0, _, _⟩ := hinv
  unfold UploadSegmentTracker.get_missing_segments UploadSegmentTracker.is_received
  rw [List.mem_map]
  constructor
  · rintro ⟨i, hi, rfl⟩
    rw [List.mem_filter, List.mem_range] at hi
    obtain ⟨hlt, hflag⟩ := hi
    have hx : (i : Int) < t.total_segments := by omega
    refine ⟨Int.natCast_nonneg i, hx, ?_⟩
    have hnr : ¬ ((i : Int) < 0 ∨ (i : Int) ≥ t.total_segments) := by omega
    rw [if_neg hnr]
    simpa using hflag
  · rintro ⟨hx0, hxt, hflag⟩
    have hnr : ¬ (x < 0 ∨ x ≥ t.total_segments) := by omega
    rw [if_neg hnr] at hflag
    refine ⟨x.toNat, ?_, Int.toNat_of_nonneg hx0⟩
    rw [List.mem_filter, List.mem_range]
    refine ⟨by omega, ?_⟩
    rw [Int.toNat_of_nonneg hx0, hflag]
    rfl

theorem missing_sorted (t : UploadSegmentTracker) :
    List.Pairwise (fun a b : Int => a < b) t.get_missing_segments := by
  unfold UploadSegmentTracker.get_missing_segments
  apply List.Pairwise.map (fun (i : Nat) => (i : Int)) (R := fun a b : Nat => a < b)
  · intro a b hab
    exact Int.ofNat_lt.mpr hab
  · exact List.Pairwise.filter _ (List.pairwise_lt_range _)

/-- C5: in every state of the tracker reachable through `initialize(n)` with
`n >= 0`, `mark_received` and `reset`: `0 <= received_count <= total_count`,
`received_count` is the number of segments whose received flag is set, and
`get_missing_segments()` is the strictly increasing list of exactly the
unreceived indices, of length `total_count - received_count`. -/
theorem tracker_invariants (t : UploadSegmentTracker)
    (h : UploadSegmentTracker.Reachable t) :
    0 ≤ t.get_received_count ∧ t.get_received_count ≤ t.get_total_count ∧
    t.segments.length = t.get_total_count.toNat ∧
    t.get_received_count = ((t.segments.countP (fun s => s.received) : Nat) : Int) ∧
    List.Pairwise (fun a b : Int => a < b) t.get_missing_segments ∧
    (∀ x : Int, x ∈ t.get_missing_segments ↔
      (0 ≤ x ∧ x < t.get_total_count ∧ t.is_received x = false)) ∧
    (t.get_missing_segments.length : Int) = t.get_total_count - t.get_received_count := by
  have hinv := reachable_inv t h
  have hlen := missing_length t hinv
  obtain ⟨h0, hl, hcnt⟩ := hinv
  unfold UploadSegmentTracker.get_received_count UploadSegmentTracker.get_total_count
  have hle : List.countP (fun s : UploadSegment => s.received) t.segments ≤ t.segments.length :=
    List.countP_le_length _
  refine ⟨?_, ?_, hl, hcnt, missing_sorted t, missing_mem t ⟨h0, hl, hcnt⟩, hlen⟩
  · rw [hcnt]
    exact Int.natCast_nonneg _
  · rw [hcnt]
    have htot : (t.total_segments.toNat : Int) = t.total_segments := Int.toNat_of_nonneg h0
    omega

/-- C5 at the tracker initialised for three segments after segment 1 arrived. -/
theorem tracker_invariants_witness :
    UploadSegmentTracker.Reachable
      ((UploadSegmentTracker.new.initialize_tracker 3).mark_received 1 zero_block).2 ∧
    (((UploadSegmentTracker.new.initialize_tracker 3).mark_received 1
      zero_block).2.get_missing_segments.length : Int) =
      ((UploadSegmentTracker.new.initialize_tracker 3).mark_received 1
        zero_block).2.get_total_count -
      ((UploadSegmentTracker.new.initialize_tracker 3).mark_received 1
        zero_block).2.get_received_count :=
  ⟨UploadSegmentTracker.Reachable.mark _ 1 zero_block
      (UploadSegmentTracker.Reachable.init _ 3 UploadSegmentTracker.Reachable.construct
        (by decide)),
    (tracker_invariants _
      (UploadSegmentTracker.Reachable.mark _ 1 zero_block
        (UploadSegmentTracker.Reachable.init _ 3 UploadSegmentTracker.Reachable.construct
          (by decide)))).2.2.2.2.2.2⟩

/-! ## Segment storage: first write wins -/

theorem mark_received_total (t : UploadSegmentTracker) (i : Int) (d : SampleBlock) :
    (t.mark_received i d).2.total_segments = t.total_segments ∧
    (t.mark_received i d).2.segments.length = t.segments.length := by
  unfold UploadSegmentTracker.mark_received
  split
  · exact ⟨rfl, rfl⟩
  · split
    · exact ⟨rfl, rfl⟩
    · exact ⟨rfl, List.length_set _ _ _⟩

theorem mark_received_segment (t : UploadSegmentTracker) (i : Int) (d : SampleBlock)
    (hlen : t.segments.length = t.total_segments.toNat) (k : Nat) (hk : k < t.segments.length) :
    (t.mark_received i d).2.segments.getD k (UploadSegment.new 0) =
      store_call k (t.segments.getD k (UploadSegment.new 0)) (i, d) := by
  unfold UploadSegmentTracker.mark_received store_call
  by_cases hrange : i < 0 ∨ i ≥ t.total_segments
  · rw [if_pos hrange]
    have hne : ¬ (i = (k : Int)) := by omega
    simp [hne]
  · rw [if_neg hrange]
    have hidx : i.toNat < t.segments.length := by omega
    by_cases hik : i = (k : Int)
    · have hkidx : i.toNat = k := by omega
      have hseg : t.segment_at i = t.segments.getD k (UploadSegment.new 0) := by
        unfold UploadSegmentTracker.segment_at
        rw [hkidx]
      rw [hseg]
      by_cases hr : (t.segments.getD k (UploadSegment.new 0)).received = true
      · have hnot : ¬ (i = (k : Int) ∧
            (t.segments.getD k (UploadSegment.new 0)).received = false) := by
          rw [hr]
          exact fun h => Bool.noConfusion h.2
        rw [if_pos hr, if_neg hnot]
      · have hr' : (t.segments.getD k (UploadSegment.new 0)).received = false := by
          simpa using hr
        rw [if_neg hr, if_pos ⟨hik, hr'⟩]
        show (t.segments.set i.toNat _).getD k (UploadSegment.new 0) = _
        rw [hkidx, List.getD_eq_getElem?_getD, List.getElem?_set_self hk]
        rfl
    · have hkidx : i.toNat ≠ k := by omega
      have hstay : ∀ a : UploadSegment,
          (t.segments.set i.toNat a).getD k (UploadSegment.new 0) =
            t.segments.getD k (UploadSegment.new 0) := by
        intro a
        rw [List.getD_eq_getElem?_getD, List.getD_eq_getElem?_getD, List.getElem?_set_ne hkidx]
      split
      · simp [hik]
      · simp only [hik, false_and, if_false]
        exact hstay _

theorem mark_all_total (calls : List (Int × SampleBlock)) : ∀ t : UploadSegmentTracker,
    (t.mark_all calls).total_segments = t.total_segments ∧
    (t.mark_all calls).segments.length = t.segments.length := by
  induction calls with
  | nil => intro t; exact ⟨rfl, rfl⟩
  | cons c cs ih =>
    intro t
    have h1 := mark_received_total t c.1 c.2
    have h2 := ih (t.mark_received c.1 c.2).2
    show ((t.mark_received c.1 c.2).2.mark_all cs).total_segments = _ ∧
      ((t.mark_received c.1 c.2).2.mark_all cs).segments.length = _
    rw [h2.1, h2.2, h1.1, h1.2]
    exact ⟨rfl, rfl⟩

theorem mark_all_segment (calls : List (Int × SampleBlock)) (k : Nat) :
    ∀ t : UploadSegmentTracker, t.segments.length = t.total_segments.toNat →
      k < t.segments.length →
      (t.mark_all calls).segments.getD k (UploadSegment.new 0) =
        calls.foldl (store_call k) (t.segments.getD k (UploadSegment.new 0)) := by
  induction calls with
  | nil => intro t _ _; rfl
  | cons c cs ih =>
    intro t hlen hk
    have h1 := mark_received_total t c.1 c.2
    have hstep := mark_received_segment t c.1 c.2 hlen k hk
    have h2 := ih (t.mark_received c.1 c.2).2 (by rw [h1.1, h1.2]; exact hlen)
      (by rw [h1.2]; exact hk)
    show ((t.mark_received c.1 c.2).2.mark_all cs).segments.getD k (UploadSegment.new 0) =
      cs.foldl (store_call k) (store_call k (t.segments.getD k (UploadSegment.new 0)) c)
    rw [h2, hstep]

theorem store_calls_received (k : Nat) (calls : List (Int × SampleBlock)) :
    ∀ s : UploadSegment, s.received = true → calls.foldl (store_call k) s = s := by
  induction calls with
  | nil => intro s _; rfl
  | cons c cs ih =>
    intro s hs
    have hstep : store_call k s c = s := by
      unfold store_call
      simp [hs]
    show cs.foldl (store_call k) (store_call k s c) = s
    rw [hstep]
    exact ih s hs

theorem store_calls_data (k : Nat) (calls : List (Int × SampleBlock)) :
    ∀ s : UploadSegment, s.received = false →
      (calls.foldl (store_call k) s).data =
        (match calls.find? (fun c => decide (c.1 = (k : Int))) with
          | some c => c.2
          | none => s.data) := by
  induction calls with
  | nil => intro s _; rfl
  | cons c cs ih =>
    intro s hs
    show (cs.foldl (store_call k) (store_call k s c)).data = _
    by_cases hc : c.1 = (k : Int)
    · have hstep : store_call k s c = { s with data := c.2, received := true } := by
        unfold store_call
        simp [hc, hs]
      rw [hstep, store_calls_received k cs _ rfl]
      simp [List.find?_cons, hc]
    · have hstep : store_call k s c = s := by
        unfold store_call
        simp [hc]
      rw [hstep, ih s hs]
      simp [List.find?_cons, hc]

theorem foldl_append_data (l : List UploadSegment) : ∀ acc : List Int,
    l.foldl (fun result segment => result ++ segment.data.val) acc =
      acc ++ (l.map (fun s => s.data.val)).flatten := by
  induction l with
  | nil => intro acc; simp
  | cons a l ih =>
    intro acc
    show l.foldl (fun result segment => result ++ segment.data.val) (acc ++ a.data.val) = _
    rw [ih, List.map_cons, List.flatten_cons, List.append_assoc]

theorem get_all_data_eq (t : UploadSegmentTracker) :
    t.get_all_data = (t.segments.map (fun s => s.data.val)).flatten := by
  unfold UploadSegmentTracker.get_all_data
  rw [foldl_append_data]
  rfl

theorem flatten_length_blocks (L : List (List Int)) (h : ∀ l ∈ L, l.length = 32) :
    L.flatten.length = 32 * L.length := by
  induction L with
  | nil => rfl
  | cons a L ih =>
    rw [List.flatten_cons, List.length_append, List.length_cons,
      ih (fun l hl => h l (List.mem_cons_of_mem _ hl)), h a (List.mem_cons_self _ _)]
    ring

theorem flatten_getD_blocks (L : List (List Int)) (h : ∀ l ∈ L, l.length = 32) :
    ∀ i j : Nat, i < L.length → j < 32 →
      L.flatten.getD (32 * i + j) 0 = (L.getD i []).getD j 0 := by
  induction L with
  | nil => intro i j hi _; exact absurd hi (Nat.not_lt_zero _)
  | cons a L ih =>
    intro i j hi hj
    have ha : a.length = 32 := h a (List.mem_cons_self _ _)
    rw [List.flatten_cons, List.getD_eq_getElem?_getD]
    cases i with
    | zero =>
      rw [List.getElem?_append_left (by omega)]
      simp [List.getD_eq_getElem?_getD]
    | succ i =>
      rw [List.getElem?_append_right (by omega), ha]
      have e : 32 * (i + 1) + j - 32 = 32 * i + j := by omega
      rw [e, ← List.getD_eq_getElem?_getD,
        ih (fun l hl => h l (List.mem_cons_of_mem _ hl)) i j (by simpa using hi) hj]
      simp

theorem initialize_segments (t0 : UploadSegmentTracker) (n : Int) :
    (t0.initialize_tracker n).segments.length = (t0.initialize_tracker n).total_segments.toNat ∧
    (t0.initialize_tracker n).segments.length = n.toNat ∧
    ∀ k, k < n.toNat →
      (t0.initialize_tracker n).segments.getD k (UploadSegment.new 0) = UploadSegment.new k := by
  refine ⟨by simp [UploadSegmentTracker.initialize_tracker],
    by simp [UploadSegmentTracker.initialize_tracker], ?_⟩
  intro k hk
  show (List.map UploadSegment.new (List.range n.toNat)).getD k (UploadSegment.new 0) = _
  rw [List.getD_eq_getElem?_getD, List.getElem?_map, List.getElem?_range hk]
  rfl

theorem stored_data (t0 : UploadSegmentTracker) (n : Int) (calls : List (Int × SampleBlock))
    (k : Nat) (hk : k < n.toNat) :
    (((t0.initialize_tracker n).mark_all calls).segments.getD k (UploadSegment.new 0)).data =
      first_samples calls (k : Int) := by
  obtain ⟨h1, h2, h3⟩ := initialize_segments t0 n
  rw [mark_all_segment calls k _ h1 (by omega), h3 k hk, store_calls_data k calls _ rfl]
  rfl

theorem all_data_blocks (t0 : UploadSegmentTracker) (n : Int)
    (calls : List (Int × SampleBlock)) :
    ((t0.initialize_tracker n).mark_all calls).get_all_data =
      ((List.range n.toNat).map (fun i : Nat => (first_samples calls (i : Int)).val)).flatten := by
  rw [get_all_data_eq]
  congr 1
  obtain ⟨_, h2, _⟩ := initialize_segments t0 n
  have hlen : ((t0.initialize_tracker n).mark_all calls).segments.length = n.toNat := by
    rw [(mark_all_total calls _).2, h2]
  apply List.ext_getElem?
  intro k
  rw [List.getElem?_map, List.getElem?_map]
  by_cases hk : k < n.toNat
  · rw [List.getElem?_range hk, List.getElem?_eq_getElem (by omega)]
    simp only [Option.map_some']
    rw [← stored_data t0 n calls k hk, List.getD_eq_getElem _ _ (by omega)]
  · rw [List.getElem?_eq_none (by omega), List.getElem?_eq_none (by simpa using hk)]
    rfl

theorem mark_received_twice (t : UploadSegmentTracker) (i : Int) (d1 d2 : SampleBlock)
    (hlen : t.segments.length = t.total_segments.toNat) :
    (t.mark_received i d1).2.mark_received i d2 = (false, (t.mark_received i d1).2) := by
  by_cases hrange : i < 0 ∨ i ≥ t.total_segments
  · have h1 : t.mark_received i d1 = (false, t) := by
      unfold UploadSegmentTracker.mark_received
      rw [if_pos hrange]
    rw [h1]
    unfold UploadSegmentTracker.mark_received
    rw [if_pos hrange]
  · by_cases hr : (t.segment_at i).received = true
    · have h1 : t.mark_received i d1 = (false, t) := by
        unfold UploadSegmentTracker.mark_received
        rw [if_neg hrange, if_pos hr]
      rw [h1]
      unfold UploadSegmentTracker.mark_received
      rw [if_neg hrange, if_pos hr]
    · have hidx : i.toNat < t.segments.length := by omega
      have h1 : t.mark_received i d1 = (true,
          { t with
            segments := t.segments.set i.toNat
              { (t.segment_at i) with data := d1, received := true }
            segments_received := t.segments_received + 1 }) := by
        unfold UploadSegmentTracker.mark_received
        rw [if_neg hrange, if_neg hr]
      rw [h1]
      unfold UploadSegmentTracker.mark_received
      have hrange' : ¬ (i < 0 ∨ i ≥ t.total_segments) := hrange
      simp only [hrange', if_false]
      have hnow : (UploadSegmentTracker.segment_at
          { segments := t.segments.set i.toNat
              { (t.segment_at i) with data := d1, received := true }
            total_segments := t.total_segments
            segments_received := t.segments_received + 1 } i).received = true := by
        unfold UploadSegmentTracker.segment_at
        simp only
        rw [List.getD_eq_getElem?_getD, List.getElem?_set_self hidx]
        rfl
      rw [if_pos hnow]

theorem first_samples_perm (calls calls' : List (Int × SampleBlock)) (hp : calls'.Perm calls)
    (hnd : (calls.map Prod.fst).Nodup) (i : Int) :
    first_samples calls' i = first_samples calls i := by
  unfold first_samples
  cases h : calls.find? (fun c => decide (c.1 = i)) with
  | none =>
    have hnone : calls'.find? (fun c => decide (c.1 = i)) = none := by
      rw [List.find?_eq_none] at h ⊢
      intro x hx
      exact h x (hp.mem_iff.mp hx)
    rw [hnone]
  | some c =>
    have hc := List.mem_of_find?_eq_some h
    have hci := List.find?_some h
    cases h' : calls'.find? (fun c => decide (c.1 = i)) with
    | none =>
      rw [List.find?_eq_none] at h'
      exact absurd hci (h' c (hp.mem_iff.mpr hc))
    | some c' =>
      have hc' := hp.mem_iff.mp (List.mem_of_find?_eq_some h')
      have hci' := List.find?_some h'
      have hfst : c'.1 = c.1 := by
        have e1 : c'.1 = i := by simpa using hci'
        have e2 : c.1 = i := by simpa using hci
        rw [e1, e2]
      have heq : c' = c := List.inj_on_of_nodup_map hnd hc' hc hfst
      rw [heq]

/-- C3: after `initialize(n)` and any sequence of `mark_received` calls,
`get_all_data()` has length `32 * n` and consists, for every `i < n`, of the
samples of the first call for index `i` at positions `32i .. 32i+31` (zeros when
there was none); a second `mark_received` with the same index returns false and
leaves the tracker (stored samples and received count) unchanged; and when the
indices of the calls are pairwise distinct the final data does not depend on the
order of the calls. -/
theorem segment_storage_first_write_wins (t0 : UploadSegmentTracker) (n : Int)
    (calls : List (Int × SampleBlock)) :
    ((t0.initialize_tracker n).mark_all calls).get_all_data.length = 32 * n.toNat ∧
    ((t0.initialize_tracker n).mark_all calls).get_all_data =
      ((List.range n.toNat).map
        (fun i : Nat => (first_samples calls (i : Int)).val)).flatten ∧
    (∀ i j : Nat, (i : Int) < n → j < 32 →
      ((t0.initialize_tracker n).mark_all calls).get_all_data.getD (32 * i + j) 0 =
        (first_samples calls (i : Int)).val.getD j 0) ∧
    (∀ (i : Int) (d1 d2 : SampleBlock),
      (((t0.initialize_tracker n).mark_all calls).mark_received i d1).2.mark_received i d2 =
        (false, (((t0.initialize_tracker n).mark_all calls).mark_received i d1).2)) ∧
    (∀ calls' : List (Int × SampleBlock), calls'.Perm calls → (calls.map Prod.fst).Nodup →
      ((t0.initialize_tracker n).mark_all calls').get_all_data =
        ((t0.initialize_tracker n).mark_all calls).get_all_data) := by
  have hblocks : ∀ l ∈ (List.range n.toNat).map
      (fun i : Nat => (first_samples calls (i : Int)).val), l.length = 32 := by
    intro l hl
    obtain ⟨i, _, rfl⟩ := List.mem_map.mp hl
    exact (first_samples calls (i : Int)).property
  refine ⟨?_, all_data_blocks t0 n calls, ?_, ?_, ?_⟩
  · rw [all_data_blocks, flatten_length_blocks _ hblocks, List.length_map, List.length_range]
  · intro i j hi hj
    have hk : i < n.toNat := by omega
    have hget : ((List.range n.toNat).map
        (fun i : Nat => (first_samples calls (i : Int)).val)).getD i [] =
        (first_samples calls (i : Int)).val := by
      rw [List.getD_eq_getElem?_getD, List.getElem?_map, List.getElem?_range hk]
      rfl
    rw [all_data_blocks, flatten_getD_blocks _ hblocks i j (by simpa using hk) hj, hget]
  · intro i d1 d2
    obtain ⟨h1, _, _⟩ := initialize_segments t0 n
    have ht := mark_all_total calls (t0.initialize_tracker n)
    exact mark_received_twice _ i d1 d2 (by rw [ht.1, ht.2]; exact h1)
  · intro calls' hp hnd
    rw [all_data_blocks, all_data_blocks]
    congr 1
    apply List.map_congr_left
    intro i _
    rw [first_samples_perm calls calls' hp hnd]

/-! ## The 0x55 frame read back by the receiver -/

/-- C1, evaluated on the code: for `total = 4` with segments 1 and 2 missing the
builder chooses start segment 1 and writes it as `"0001"` before a bitmap whose
first byte is `0b11000001`; `parse_upload_partial_request` reads that frame back
as start address 32 (segment 1) and the segment list `[0, 1]`. The decoded
numbers are offsets inside the window, so the decoded set `{0, 1}` is not the
requested set `{1, 2}`: segment 0 is decoded although it is not missing, and the
missing segment 2 is not decoded. -/
theorem partial_request_decodes_window_offsets :
    find_optimal_start_segment [1, 2] 4 UPLOAD_MAX_SEGMENTS_PER_0X55 = 1 ∧
    ((build_partial_upload_command 0x11223344 1 [1, 2] 4).1.drop 45).take 6 =
      [0x55, 0x30, 0x30, 0x30, 0x31, 0xC1] ∧
    parse_upload_partial_request (build_partial_upload_command 0x11223344 1 [1, 2] 4).1 =
      { has_upload_partial_request := true
        upload_partial_start_addr := 32
        upload_partial_segments := [0, 1] } ∧
    (0 ∈ (parse_upload_partial_request
        (build_partial_upload_command 0x11223344 1 [1, 2] 4).1).upload_partial_segments ∧
      (0 : Int) ∉ [1, 2]) ∧
    (2 ∉ (parse_upload_partial_request
        (build_partial_upload_command 0x11223344 1 [1, 2] 4).1).upload_partial_segments ∧
      (2 : Int) ∈ [1, 2]) := by
  decide

/-! ## determine_direction -/

theorem frame_byte_lt (data : List Nat) (h : IsFrame data) (i : Nat) : data.getD i 0 < 256 := by
  rw [List.getD_eq_getElem?_getD]
  by_cases hi : i < data.length
  · rw [List.getElem?_eq_getElem hi]
    exact h.2 _ (List.getElem_mem hi)
  · rw [List.getElem?_eq_none (by omega)]
    decide

theorem be32_at_value (data : List Nat) (h : IsFrame data) (i : Nat) :
    be32_at data i = 2 ^ 24 * data.getD i 0 + 2 ^ 16 * data.getD (i + 1) 0 +
      2 ^ 8 * data.getD (i + 2) 0 + data.getD (i + 3) 0 :=
  mac_word_value _ _ _ _ (frame_byte_lt data h i) (frame_byte_lt data h (i + 1))
    (frame_byte_lt data h (i + 2)) (frame_byte_lt data h (i + 3))

theorem be32_at_broadcast_iff (data : List Nat) (h : IsFrame data) (i : Nat) :
    be32_at data i = BROADCAST_MAC ↔
      (data.getD i 0 = 0xFF ∧ data.getD (i + 1) 0 = 0xFF ∧ data.getD (i + 2) 0 = 0xFF ∧
        data.getD (i + 3) 0 = 0xFF) := by
  have h0 := frame_byte_lt data h i
  have h1 := frame_byte_lt data h (i + 1)
  have h2 := frame_byte_lt data h (i + 2)
  have h3 := frame_byte_lt data h (i + 3)
  rw [be32_at_value data h i]
  unfold BROADCAST_MAC
  constructor
  · intro e
    omega
  · rintro ⟨e0, e1, e2, e3⟩
    rw [e0, e1, e2, e3]
    rfl

theorem all_padding_loop_iff (data : List Nat) :
    ∀ n i, all_padding_loop data n i = true ↔ ∀ k, k < n → data.getD (i + k) 0 = 0x30 := by
  intro n
  induction n with
  | zero =>
    intro i
    constructor
    · intro _ k hk
      omega
    · intro _
      rfl
  | succ n ih =>
    intro i
    unfold all_padding_loop
    by_cases h : data.getD i 0 = 0x30
    · rw [if_neg (fun hne => hne h), ih (i + 1)]
      constructor
      · intro hall k hk
        rcases Nat.eq_zero_or_pos k with h0 | hpos
        · rw [h0]; exact h
        · have := hall (k - 1) (by omega)
          rw [show i + 1 + (k - 1) = i + k by omega] at this
          exact this
      · intro hall k hk
        have := hall (k + 1) (by omega)
        rw [show i + (k + 1) = i + 1 + k by omega] at this
        exact this
    · rw [if_pos h]
      constructor
      · intro hf
        exact absurd hf (by decide)
      · intro hall
        exact absurd (hall 0 (by omega)) h

theorem is_header_info_present_iff (data : List Nat) :
    is_header_info_present data = true ↔
      (¬ (data.getD 13 0 = 0xFF ∧ data.getD 14 0 = 0xFF ∧ data.getD 15 0 = 0xFF ∧
          data.getD 16 0 = 0xFF) ∧
        ¬ (∀ i, 13 ≤ i → i ≤ 44 → data.getD i 0 = 0x30) ∧
        data.getD 15 0 ≠ 0x30 ∧ data.getD 15 0 ≠ 0xFF) := by
  have hpad : all_padding_loop data 32 13 = true ↔
      ∀ i, 13 ≤ i → i ≤ 44 → data.getD i 0 = 0x30 := by
    rw [all_padding_loop_iff]
    constructor
    · intro h i h1 h2
      have := h (i - 13) (by omega)
      rw [show 13 + (i - 13) = i by omega] at this
      exact this
    · intro h k hk
      exact h (13 + k) (by omega) (by omega)
  unfold is_header_info_present
  by_cases hff : data.getD 13 0 = 0xFF ∧ data.getD 14 0 = 0xFF ∧ data.getD 15 0 = 0xFF ∧
      data.getD 16 0 = 0xFF
  · rw [if_pos hff]
    constructor
    · intro h; exact absurd h (by decide)
    · intro h; exact absurd hff h.1
  · rw [if_neg hff]
    by_cases hp : all_padding_loop data 32 13 = true
    · rw [if_pos hp]
      constructor
      · intro h; exact absurd h (by decide)
      · intro h; exact absurd (hpad.mp hp) h.2.1
    · rw [if_neg hp]
      dsimp only
      by_cases hm : data.getD 15 0 = 0x30 ∨ data.getD 15 0 = 0xFF
      · rw [if_pos hm]
        constructor
        · intro h; exact absurd h (by decide)
        · intro h
          rcases hm with e | e
          · exact absurd e h.2.2.1
          · exact absurd e h.2.2.2
      · rw [if_neg hm]
        constructor
        · intro _
          exact ⟨hff, fun hall => hp (hpad.mpr hall), fun e => hm (Or.inl e),
            fun e => hm (Or.inr e)⟩
        · intro _; rfl

theorem is_header_info_present_iff_marker (data : List Nat) :
    is_header_info_present data = true ↔ (data.getD 15 0 ≠ 0x30 ∧ data.getD 15 0 ≠ 0xFF) := by
  rw [is_header_info_present_iff]
  constructor
  · intro h; exact ⟨h.2.2.1, h.2.2.2⟩
  · intro h
    exact ⟨fun hff => h.2 hff.2.2.1, fun hall => h.1 (hall 15 (by decide) (by decide)), h.1, h.2⟩

theorem get_command_info_none_of_unregistered (command_code : Nat)
    (h1 : command_code ∉ [0x41, 0x61, 0x52, 0x72, 0x53, 0x73, 0x58, 0x78, 0x45, 0x65, 0x49,
      0x69, 0x51, 0x71, 0x55, 0x75])
    (h2 : command_code ∉ [0x31, 0x33, 0x44, 0x64, 0x4B, 0x6B]) :
    get_command_info command_code = none := by
  simp only [List.mem_cons, List.mem_singleton, List.not_mem_nil, or_false, not_or] at h1 h2
  unfold get_command_info
  simp only [h1, h2, or_self, if_false]

/-- C19 fails on the code: a frame whose source-MAC slot is `00 00 00 00` and
whose opcode is `'R'` is classified BASE_TO_UNIT through the command registry,
and a frame with an unregistered opcode (`'Z'`) and an all-padding header is
classified UNKNOWN, not UNIT_TO_BASE. -/
theorem determine_direction_not_mac_only :
    be32_at (List.replicate 128 0) 3 ≠ BROADCAST_MAC ∧
    determine_direction (List.replicate 128 0) 0x52 = PacketDirection.BASE_TO_UNIT ∧
    be32_at (List.replicate 128 0x30) 3 ≠ BROADCAST_MAC ∧
    determine_direction (List.replicate 128 0x30) 0x5A = PacketDirection.UNKNOWN := by
  decide

/-- C19 as amended: for every 128-byte frame and opcode, `determine_direction`
returns BASE_TO_UNIT whenever the source-MAC slot (bytes 3..6) is `0xFFFFFFFF`;
otherwise it returns the registry direction of a registered opcode
(BASE_TO_UNIT for A, R, S, X, E, I, Q, U in either case, UNIT_TO_BASE for
`'1'`, `'3'`, D, d, K, k), and for an unregistered opcode UNIT_TO_BASE when
the header test of `is_header_info_present` passes -- bytes 13..16 are not all
`0xFF`, bytes 13..44 are not all `0x30`, and byte 15 is neither `0x30` nor
`0xFF` -- and UNKNOWN when it does not; the three parts of the test hold
together exactly when byte 15 is neither `0x30` nor `0xFF`. -/
theorem determine_direction_cases (data : List Nat) (command_code : Nat)
    (h : IsFrame data) :
    ((data.getD 3 0 = 0xFF ∧ data.getD 4 0 = 0xFF ∧ data.getD 5 0 = 0xFF ∧
        data.getD 6 0 = 0xFF) →
      determine_direction data command_code = PacketDirection.BASE_TO_UNIT) ∧
    (¬ (data.getD 3 0 = 0xFF ∧ data.getD 4 0 = 0xFF ∧ data.getD 5 0 = 0xFF ∧
        data.getD 6 0 = 0xFF) →
      (command_code ∈ [0x41, 0x61, 0x52, 0x72, 0x53, 0x73, 0x58, 0x78, 0x45, 0x65, 0x49, 0x69,
          0x51, 0x71, 0x55, 0x75] →
        determine_direction data command_code = PacketDirection.BASE_TO_UNIT) ∧
      (command_code ∈ [0x31, 0x33, 0x44, 0x64, 0x4B, 0x6B] →
        determine_direction data command_code = PacketDirection.UNIT_TO_BASE) ∧
      (command_code ∉ [0x41, 0x61, 0x52, 0x72, 0x53, 0x73, 0x58, 0x78, 0x45, 0x65, 0x49, 0x69,
          0x51, 0x71, 0x55, 0x75] →
        command_code ∉ [0x31, 0x33, 0x44, 0x64, 0x4B, 0x6B] →
        ((¬ (data.getD 13 0 = 0xFF ∧ data.getD 14 0 = 0xFF ∧ data.getD 15 0 = 0xFF ∧
              data.getD 16 0 = 0xFF) ∧
            ¬ (∀ i, 13 ≤ i → i ≤ 44 → data.getD i 0 = 0x30) ∧
            data.getD 15 0 ≠ 0x30 ∧ data.getD 15 0 ≠ 0xFF) →
          determine_direction data command_code = PacketDirection.UNIT_TO_BASE) ∧
        (¬ (¬ (data.getD 13 0 = 0xFF ∧ data.getD 14 0 = 0xFF ∧ data.getD 15 0 = 0xFF ∧
              data.getD 16 0 = 0xFF) ∧
            ¬ (∀ i, 13 ≤ i → i ≤ 44 → data.getD i 0 = 0x30) ∧
            data.getD 15 0 ≠ 0x30 ∧ data.getD 15 0 ≠ 0xFF) →
          determine_direction data command_code = PacketDirection.UNKNOWN))) ∧
    ((¬ (data.getD 13 0 = 0xFF ∧ data.getD 14 0 = 0xFF ∧ data.getD 15 0 = 0xFF ∧
          data.getD 16 0 = 0xFF) ∧
        ¬ (∀ i, 13 ≤ i → i ≤ 44 → data.getD i 0 = 0x30) ∧
        data.getD 15 0 ≠ 0x30 ∧ data.getD 15 0 ≠ 0xFF) ↔
      (data.getD 15 0 ≠ 0x30 ∧ data.getD 15 0 ≠ 0xFF)) := by
  have hb := be32_at_broadcast_iff data h 3
  refine ⟨?_, ?_, ?_⟩
  · intro hmac
    unfold determine_direction
    simp only [hb.mpr hmac, if_true]
  · intro hmac
    have hne : ¬ be32_at data 3 = BROADCAST_MAC := fun e => hmac (hb.mp e)
    refine ⟨?_, ?_, ?_⟩
    · intro hc
      unfold determine_direction
      simp only [hne, if_false]
      simp only [List.mem_cons, List.mem_singleton, List.not_mem_nil, or_false] at hc
      rcases hc with e | e | e | e | e | e | e | e | e | e | e | e | e | e | e | e <;>
        (subst e; rfl)
    · intro hc
      unfold determine_direction
      simp only [hne, if_false]
      simp only [List.mem_cons, List.mem_singleton, List.not_mem_nil, or_false] at hc
      rcases hc with e | e | e | e | e | e <;> (subst e; rfl)
    · intro h1 h2
      have hnone := get_command_info_none_of_unregistered command_code h1 h2
      constructor
      · intro htest
        unfold determine_direction
        simp only [hne, if_false, hnone]
        rw [if_pos ((is_header_info_present_iff data).mpr htest)]
      · intro htest
        unfold determine_direction
        simp only [hne, if_false, hnone]
        rw [if_neg (fun hp => htest ((is_header_info_present_iff data).mp hp))]
  · rw [← is_header_info_present_iff, is_header_info_present_iff_marker]

/-- The amended C19 at three frames: zeros with opcode `'R'` (registry:
BASE_TO_UNIT); all `0x30` except byte 7 = `0x01`, opcode `'Z'` (unregistered,
header test fails: UNKNOWN); all `0x30` except byte 15 = `0x01`, opcode `'Z'`
(header test passes: UNIT_TO_BASE). -/
theorem determine_direction_cases_witness :
    IsFrame (List.replicate 128 0) ∧
    determine_direction (List.replicate 128 0) 0x52 = PacketDirection.BASE_TO_UNIT ∧
    IsFrame ((List.replicate 128 0x30).set 7 0x01) ∧
    determine_direction ((List.replicate 128 0x30).set 7 0x01) 0x5A = PacketDirection.UNKNOWN ∧
    IsFrame ((List.replicate 128 0x30).set 15 0x01) ∧
    determine_direction ((List.replicate 128 0x30).set 15 0x01) 0x5A =
      PacketDirection.UNIT_TO_BASE :=
  ⟨⟨by decide, by decide⟩,
    ((determine_direction_cases (List.replicate 128 0) 0x52
      ⟨by decide, by decide⟩).2.1 (by decide)).1 (by decide),
    ⟨by decide, by decide⟩,
    (((determine_direction_cases ((List.replicate 128 0x30).set 7 0x01) 0x5A
      ⟨by decide, by decide⟩).2.1 (by decide)).2.2 (by decide) (by decide)).2
        (fun htest => htest.2.2.1 (by decide)),
    ⟨by decide, by decide⟩,
    (((determine_direction_cases ((List.replicate 128 0x30).set 15 0x01) 0x5A
      ⟨by decide, by decide⟩).2.1 (by decide)).2.2 (by decide) (by decide)).1
        ⟨by decide, fun hall => absurd (hall 15 (by decide) (by decide)) (by decide),
          by decide, by decide⟩⟩

/-! ## CRC-32 -/

theorem crc_shift_eq_reference (bits : Nat) (hb : bits = 32 ∨ bits = 64) (crc : Nat) :
    crc_shift bits crc = crc32_reference_shift crc := by
  have hand : crc &&& 1 = crc % 2 := Nat.and_pow_two_sub_one_eq_mod crc 1
  unfold crc_shift crc32_reference_shift
  simp only [hand]
  rcases Nat.mod_two_eq_zero_or_one crc with h0 | h1
  · rw [h0]
    have hm : (2 ^ bits - 0) % 2 ^ bits = 0 := by
      rw [Nat.sub_zero, Nat.mod_self]
    rw [hm, Nat.and_zero, Nat.xor_zero, if_neg (by decide)]
  · rw [h1, if_pos rfl]
    rcases hb with hb | hb <;> subst hb <;> rfl

theorem crc_byte_eq_reference (bits : Nat) (hb : bits = 32 ∨ bits = 64) (crc byte : Nat) :
    crc_byte bits crc byte = crc32_reference_shift^[8] (crc ^^^ byte) := by
  unfold crc_byte
  simp only [List.foldl, crc_shift_eq_reference bits hb, Function.iterate_succ,
    Function.iterate_zero, Function.comp, id]

theorem crc_fold_eq_reference (bits : Nat) (hb : bits = 32 ∨ bits = 64) (message : List Nat) :
    ∀ crc : Nat, message.foldl (crc_byte bits) crc =
      message.foldl (fun crc byte => crc32_reference_shift^[8] (crc ^^^ byte)) crc := by
  induction message with
  | nil => intro crc; rfl
  | cons b bs ih =>
    intro crc
    simp only [List.foldl]
    rw [crc_byte_eq_reference bits hb, ih]

theorem crc32_reference_shift_lt (crc : Nat) (h : crc < 2 ^ 32) :
    crc32_reference_shift crc < 2 ^ 32 := by
  have hs : crc >>> 1 < 2 ^ 32 := by
    rw [Nat.shiftRight_eq_div_pow]
    omega
  unfold crc32_reference_shift
  split
  · exact Nat.xor_lt_two_pow hs (by decide)
  · exact hs

theorem crc32_reference_iterate_lt (n : Nat) : ∀ crc : Nat, crc < 2 ^ 32 →
    crc32_reference_shift^[n] crc < 2 ^ 32 := by
  induction n with
  | zero => intro crc h; exact h
  | succ n ih =>
    intro crc h
    rw [Function.iterate_succ_apply]
    exact ih _ (crc32_reference_shift_lt crc h)

theorem crc_reference_fold_lt (message : List Nat) (hbytes : ∀ b ∈ message, b < 256) :
    ∀ crc : Nat, crc < 2 ^ 32 →
      message.foldl (fun crc byte => crc32_reference_shift^[8] (crc ^^^ byte)) crc < 2 ^ 32 := by
  induction message with
  | nil => intro crc h; exact h
  | cons b bs ih =>
    intro crc h
    simp only [List.foldl]
    apply ih (fun x hx => hbytes x (List.mem_cons_of_mem _ hx))
    apply crc32_reference_iterate_lt
    have hb : b < 2 ^ 32 := by
      have := hbytes b (List.mem_cons_self _ _)
      omega
    exact Nat.xor_lt_two_pow h hb

theorem xor_ones_eq_sub (x : Nat) (h : x < 2 ^ 32) : x ^^^ 0xFFFFFFFF = 2 ^ 32 - 1 - x := by
  apply Nat.eq_of_testBit_eq
  intro i
  have hones : (0xFFFFFFFF : Nat).testBit i = decide (i < 32) :=
    Nat.testBit_two_pow_sub_one 32 i
  have hsub : 2 ^ 32 - 1 - x = 2 ^ 32 - (x + 1) := by omega
  rw [Nat.testBit_xor, hones, hsub, Nat.testBit_two_pow_sub_succ h]
  by_cases hi : i < 32
  · simp [hi]
  · have hx : x.testBit i = false :=
      Nat.testBit_lt_two_pow (lt_of_lt_of_le h (Nat.pow_le_pow_right (by decide) (by omega)))
    simp [hi, hx]

theorem be32_of_word_bytes (c : Nat) :
    be32_at [(c >>> 24) &&& 0xff, (c >>> 16) &&& 0xff, (c >>> 8) &&& 0xff, c &&& 0xff] 0 =
      c % 2 ^ 32 := by
  have e0 : (c >>> 24) &&& 0xff = c / 2 ^ 24 % 256 := by
    rw [and_255_eq_mod, Nat.shiftRight_eq_div_pow]
  have e1 : (c >>> 16) &&& 0xff = c / 2 ^ 16 % 256 := by
    rw [and_255_eq_mod, Nat.shiftRight_eq_div_pow]
  have e2 : (c >>> 8) &&& 0xff = c / 2 ^ 8 % 256 := by
    rw [and_255_eq_mod, Nat.shiftRight_eq_div_pow]
  have e3 : c &&& 0xff = c % 256 := and_255_eq_mod c
  unfold be32_at
  simp only [List.getD_cons_zero, List.getD_cons_succ, Nat.zero_add]
  rw [mac_word_value _ _ _ _ (by rw [e0]; omega) (by rw [e1]; omega) (by rw [e2]; omega)
    (by rw [e3]; omega), e0, e1, e2, e3]
  omega

/-- C13: for every byte string, `CommandReceiverSubs::calculate_crc32` and
`ConfigBroadcaster::CalculateCRC32` (its four output bytes read as a big-endian
32-bit value, for a 32-bit and for a 64-bit `unsigned long`) both equal the
reflected CRC-32 with polynomial `0xEDB88320`, initial value `0xFFFFFFFF` and
final xor `0xFFFFFFFF`; on the nine ASCII bytes "123456789" both give
`0xCBF43926`. -/
theorem crc32_implementations_agree (message : List Nat) (hbytes : ∀ b ∈ message, b < 256) :
    calculate_crc32 message = crc32_reference message ∧
    be32_at (CalculateCRC32 32 message) 0 = crc32_reference message ∧
    be32_at (CalculateCRC32 64 message) 0 = crc32_reference message ∧
    calculate_crc32 [0x31, 0x32, 0x33, 0x34, 0x35, 0x36, 0x37, 0x38, 0x39] = 0xCBF43926 ∧
    be32_at (CalculateCRC32 64 [0x31, 0x32, 0x33, 0x34, 0x35, 0x36, 0x37, 0x38, 0x39]) 0 =
      0xCBF43926 ∧
    be32_at (CalculateCRC32 32 [0x31, 0x32, 0x33, 0x34, 0x35, 0x36, 0x37, 0x38, 0x39]) 0 =
      0xCBF43926 := by
  have hlt := crc_reference_fold_lt message hbytes 0xFFFFFFFF (by decide)
  have h32 := crc_fold_eq_reference 32 (Or.inl rfl) message 0xFFFFFFFF
  have h64 := crc_fold_eq_reference 64 (Or.inr rfl) message 0xFFFFFFFF
  have href : crc32_reference message =
      2 ^ 32 - 1 - message.foldl
        (fun crc byte => crc32_reference_shift^[8] (crc ^^^ byte)) 0xFFFFFFFF := by
    unfold crc32_reference
    exact xor_ones_eq_sub _ hlt
  refine ⟨?_, ?_, ?_, by decide, by decide, by decide⟩
  · unfold calculate_crc32 bit_not
    rw [h32, href]
    omega
  · unfold CalculateCRC32
    simp only []
    rw [be32_of_word_bytes, h32, href]
    unfold bit_not
    omega
  · unfold CalculateCRC32
    simp only []
    rw [be32_of_word_bytes, h64, href]
    unfold bit_not
    omega

/-- C13 at the check string "123456789". -/
theorem crc32_implementations_agree_witness :
    calculate_crc32 [0x31, 0x32, 0x33, 0x34, 0x35, 0x36, 0x37, 0x38, 0x39] =
      crc32_reference [0x31, 0x32, 0x33, 0x34, 0x35, 0x36, 0x37, 0x38, 0x39] ∧
    crc32_reference [0x31, 0x32, 0x33, 0x34, 0x35, 0x36, 0x37, 0x38, 0x39] = 0xCBF43926 :=
  ⟨(crc32_implementations_agree [0x31, 0x32, 0x33, 0x34, 0x35, 0x36, 0x37, 0x38, 0x39]
      (by decide)).1, by decide⟩

/-! ## Frame stores and the decoder's projections -/

theorem length_write_at (bytes : List Nat) (buf : List Nat) (idx : Nat) :
    (write_at buf idx bytes).length = buf.length := by
  induction bytes generalizing buf idx with
  | nil => rfl
  | cons b rest ih =>
    show (write_at (buf.set idx b) (idx + 1) rest).length = buf.length
    rw [ih, List.length_set]

theorem getD_set_eq (buf : List Nat) (idx b i : Nat) :
    (buf.set idx b).getD i 0 = if idx = i ∧ i < buf.length then b else buf.getD i 0 := by
  rw [List.getD_eq_getElem?_getD, List.getD_eq_getElem?_getD]
  by_cases h : idx = i
  · subst h
    by_cases hl : idx < buf.length
    · rw [List.getElem?_set_self hl, if_pos ⟨rfl, hl⟩]
      rfl
    · rw [if_neg (fun c => hl c.2)]
      rw [List.getElem?_eq_none (by rw [List.length_set]; omega),
        List.getElem?_eq_none (by omega)]
  · rw [List.getElem?_set_ne h, if_neg (fun c => h c.1)]

theorem getD_write_at (bytes : List Nat) (buf : List Nat) (idx i : Nat) :
    (write_at buf idx bytes).getD i 0 =
      if idx ≤ i ∧ i < idx + bytes.length ∧ i < buf.length then bytes.getD (i - idx) 0
      else buf.getD i 0 := by
  induction bytes generalizing buf idx with
  | nil =>
    show buf.getD i 0 = _
    rw [if_neg]
    simp only [List.length_nil]
    omega
  | cons b rest ih =>
    show (write_at (buf.set idx b) (idx + 1) rest).getD i 0 = _
    rw [ih, List.length_set, getD_set_eq]
    simp only [List.length_cons]
    by_cases h1 : idx + 1 ≤ i ∧ i < idx + 1 + rest.length ∧ i < buf.length
    · rw [if_pos h1, if_pos ⟨by omega, by omega, h1.2.2⟩]
      obtain ⟨k, hk⟩ : ∃ k, i - idx = k + 1 := ⟨i - idx - 1, by omega⟩
      rw [hk, show i - (idx + 1) = k by omega]
      rfl
    · rw [if_neg h1]
      by_cases h2 : idx = i ∧ i < buf.length
      · rw [if_pos h2, if_pos ⟨by omega, by omega, h2.2⟩, show i - idx = 0 by omega]
        rfl
      · rw [if_neg h2, if_neg]
        omega

theorem getD_replicate_eq (n v i : Nat) :
    (List.replicate n v).getD i 0 = if i < n then v else 0 := by
  rw [List.getD_eq_getElem?_getD]
  by_cases h : i < n
  · rw [if_pos h, List.getElem?_eq_getElem (by rw [List.length_replicate]; exact h)]
    simp
  · rw [if_neg h, List.getElem?_eq_none (by rw [List.length_replicate]; omega)]
    rfl

theorem length_bytes_at (buf : List Nat) (off n : Nat) : (bytes_at buf off n).length = n := by
  unfold bytes_at
  rw [List.length_map, List.length_range]

theorem getD_bytes_at (buf : List Nat) (off n i : Nat) :
    (bytes_at buf off n).getD i 0 = if i < n then buf.getD (off + i) 0 else 0 := by
  unfold bytes_at
  rw [List.getD_eq_getElem?_getD, List.getElem?_map]
  by_cases h : i < n
  · rw [if_pos h, List.getElem?_range h]
    rfl
  · rw [if_neg h, List.getElem?_eq_none (by rw [List.length_range]; omega)]
    rfl

theorem length_mac_bytes (macid : Nat) : (mac_bytes macid).length = 4 := rfl

theorem parse_command_params_keeps (r : CommandResponse) :
    (parse_command_params r).data = r.data ∧
    (parse_command_params r).packet_valid = r.packet_valid ∧
    (parse_command_params r).source_macid = r.source_macid ∧
    (parse_command_params r).direction = r.direction ∧
    (parse_command_params r).has_header_info = r.has_header_info ∧
    (parse_command_params r).command_code = r.command_code := by
  unfold parse_command_params
  split
  · exact ⟨rfl, rfl, rfl, rfl, rfl, rfl⟩
  · dsimp only
    split <;> exact ⟨rfl, rfl, rfl, rfl, rfl, rfl⟩

theorem parse_upload_data_keeps (r : CommandResponse) :
    (parse_upload_data r).data = r.data ∧
    (parse_upload_data r).packet_valid = r.packet_valid ∧
    (parse_upload_data r).source_macid = r.source_macid ∧
    (parse_upload_data r).direction = r.direction ∧
    (parse_upload_data r).has_header_info = r.has_header_info ∧
    (parse_upload_data r).command_code = r.command_code ∧
    (parse_upload_data r).command_macid = r.command_macid ∧
    (parse_upload_data r).has_command_params = r.has_command_params ∧
    (parse_upload_data r).command_params = r.command_params ∧
    (parse_upload_data r).sample_capture_segments = r.sample_capture_segments ∧
    (parse_upload_data r).sample_channel = r.sample_channel ∧
    (parse_upload_data r).sample_decimation = r.sample_decimation ∧
    (parse_upload_data r).advanced_checksum = r.advanced_checksum ∧
    (parse_upload_data r).sample_tach_delay = r.sample_tach_delay ∧
    (parse_upload_data r).sample_dc_control = r.sample_dc_control ∧
    (parse_upload_data r).sample_wakeup_delay = r.sample_wakeup_delay := by
  unfold parse_upload_data
  split
  · exact ⟨rfl, rfl, rfl, rfl, rfl, rfl, rfl, rfl, rfl, rfl, rfl, rfl, rfl, rfl, rfl, rfl⟩
  · dsimp only
    split
    · exact ⟨rfl, rfl, rfl, rfl, rfl, rfl, rfl, rfl, rfl, rfl, rfl, rfl, rfl, rfl, rfl, rfl⟩
    · split
      · exact ⟨rfl, rfl, rfl, rfl, rfl, rfl, rfl, rfl, rfl, rfl, rfl, rfl, rfl, rfl, rfl, rfl⟩
      · split <;>
          exact ⟨rfl, rfl, rfl, rfl, rfl, rfl, rfl, rfl, rfl, rfl, rfl, rfl, rfl, rfl, rfl, rfl⟩

theorem parse_push_config_keeps (r : CommandResponse) :
    (parse_push_config r).data = r.data ∧
    (parse_push_config r).packet_valid = r.packet_valid ∧
    (parse_push_config r).source_macid = r.source_macid ∧
    (parse_push_config r).direction = r.direction ∧
    (parse_push_config r).has_header_info = r.has_header_info ∧
    (parse_push_config r).command_code = r.command_code ∧
    (parse_push_config r).command_macid = r.command_macid ∧
    (parse_push_config r).has_command_params = r.has_command_params ∧
    (parse_push_config r).command_params = r.command_params ∧
    (parse_push_config r).sample_capture_segments = r.sample_capture_segments ∧
    (parse_push_config r).sample_channel = r.sample_channel ∧
    (parse_push_config r).sample_decimation = r.sample_decimation ∧
    (parse_push_config r).advanced_checksum = r.advanced_checksum ∧
    (parse_push_config r).sample_tach_delay = r.sample_tach_delay ∧
    (parse_push_config r).sample_dc_control = r.sample_dc_control ∧
    (parse_push_config r).sample_wakeup_delay = r.sample_wakeup_delay := by
  unfold parse_push_config
  split
  · exact ⟨rfl, rfl, rfl, rfl, rfl, rfl, rfl, rfl, rfl, rfl, rfl, rfl, rfl, rfl, rfl, rfl⟩
  · split
    · exact ⟨rfl, rfl, rfl, rfl, rfl, rfl, rfl, rfl, rfl, rfl, rfl, rfl, rfl, rfl, rfl, rfl⟩
    · dsimp only
      split <;>
        exact ⟨rfl, rfl, rfl, rfl, rfl, rfl, rfl, rfl, rfl, rfl, rfl, rfl, rfl, rfl, rfl, rfl⟩

/-- What `parse_response` leaves in the members that identify a frame. -/
theorem parse_response_fields (data : List Nat) :
    (parse_response data).data = data ∧
    (parse_response data).packet_valid =
      decide (data.getD 0 0 = 0x74 ∧ data.getD 1 0 = 0x53 ∧
        data.getD 126 0 = 0x75 ∧ data.getD 127 0 = 0x50) ∧
    (parse_response data).source_macid = be32_at data 3 ∧
    (parse_response data).command_code = data.getD 45 0 ∧
    (parse_response data).direction = determine_direction data (data.getD 45 0) ∧
    (parse_response data).has_header_info =
      (decide (determine_direction data (data.getD 45 0) = PacketDirection.UNIT_TO_BASE) &&
        is_header_info_present data) ∧
    (parse_response data).command_macid = be32_at data 47 := by
  unfold parse_response
  dsimp only
  refine ⟨?_, ?_, ?_, ?_, ?_, ?_, ?_⟩
  · rw [(parse_push_config_keeps _).1]
    dsimp only
    rw [(parse_upload_data_keeps _).1]
    dsimp only
    rw [(parse_command_params_keeps _).1]
    split <;> rfl
  · rw [(parse_push_config_keeps _).2.1]
    dsimp only
    rw [(parse_upload_data_keeps _).2.1]
    dsimp only
    rw [(parse_command_params_keeps _).2.1]
    split <;> rfl
  · rw [(parse_push_config_keeps _).2.2.1]
    dsimp only
    rw [(parse_upload_data_keeps _).2.2.1]
    dsimp only
    rw [(parse_command_params_keeps _).2.2.1]
    split <;> rfl
  · rw [(parse_push_config_keeps _).2.2.2.2.2.1]
    dsimp only
    rw [(parse_upload_data_keeps _).2.2.2.2.2.1]
    dsimp only
    rw [(parse_command_params_keeps _).2.2.2.2.2]
    split <;> rfl
  · rw [(parse_push_config_keeps _).2.2.2.1]
    dsimp only
    rw [(parse_upload_data_keeps _).2.2.2.1]
    dsimp only
    rw [(parse_command_params_keeps _).2.2.2.1]
    split <;> rfl
  · rw [(parse_push_config_keeps _).2.2.2.2.1]
    dsimp only
    rw [(parse_upload_data_keeps _).2.2.2.2.1]
    dsimp only
    rw [(parse_command_params_keeps _).2.2.2.2.1]
    split <;> rfl
  · rw [(parse_push_config_keeps _).2.2.2.2.2.2.1]
    dsimp only
    rw [(parse_upload_data_keeps _).2.2.2.2.2.2.1]
theorem length_default_body (output : List Nat) (command : Nat) (t : Option BrokenDownTime) :
    (default_body output command t).length = output.length := by
  unfold default_body
  dsimp only
  split
  · cases t <;>
      simp only [write_hex_ascii, length_write_at, List.length_set]
  · simp only [length_write_at]

theorem getD_default_body_low (output : List Nat) (command : Nat) (t : Option BrokenDownTime)
    (i : Nat) (hi : i < 46) :
    (default_body output command t).getD i 0 = output.getD i 0 := by
  unfold default_body
  dsimp only
  split
  · cases t <;>
      simp only [write_hex_ascii, getD_write_at, getD_set_eq, length_write_at, List.length_set] <;>
      repeat (rw [if_neg (by omega)])
  · simp only [getD_write_at, length_write_at]
    repeat (rw [if_neg (by omega)])

theorem length_make_command (command macid : Nat) (body_data : Option (List Nat))
    (sampleset : Option Sampleset) (timeinfo : Option BrokenDownTime) :
    (make_command command macid body_data sampleset timeinfo).length = 128 := by
  unfold make_command
  dsimp only
  simp only [List.length_set]
  split
  · split
    · simp only [length_write_at, List.length_replicate]
    · split
      · simp only [length_write_at, List.length_replicate]
      · simp only [length_default_body, length_write_at, List.length_replicate]
  · simp only [length_write_at, List.length_replicate]
  · simp only [length_default_body, length_write_at, List.length_replicate]
theorem getD_make_command_low (command macid : Nat) (body_data : Option (List Nat))
    (sampleset : Option Sampleset) (timeinfo : Option BrokenDownTime) (i : Nat) (hi : i < 46) :
    (make_command command macid body_data sampleset timeinfo).getD i 0 =
      (write_at (write_at (write_at (write_at (write_at (write_at (List.replicate 128 0x30)
        0 [0x74, 0x53, 0x01, 0xff, 0xff, 0xff, 0xff, 0x01]) 8 (List.replicate 5 0x30))
        13 (mac_bytes macid)) 17 (mac_bytes macid)) 21 (List.replicate 24 0x30))
        45 [command &&& 0xff]).getD i 0 := by
  unfold make_command
  dsimp only
  simp only [getD_set_eq]
  rw [if_neg (by omega), if_neg (by omega), if_neg (by omega), if_neg (by omega)]
  split
  · split
    · rw [getD_write_at, if_neg (by omega)]
    · split
      · rw [getD_write_at, if_neg (by omega)]
      · rw [getD_default_body_low _ _ _ _ hi]
  · rw [getD_write_at, if_neg (by omega)]
  · rw [getD_default_body_low _ _ _ _ hi]

theorem getD_make_command_tail (command macid : Nat) (body_data : Option (List Nat))
    (sampleset : Option Sampleset) (timeinfo : Option BrokenDownTime) :
    (make_command command macid body_data sampleset timeinfo).getD 124 0 = 0x30 ∧
    (make_command command macid body_data sampleset timeinfo).getD 125 0 = 0x30 ∧
    (make_command command macid body_data sampleset timeinfo).getD 126 0 = 0x75 ∧
    (make_command command macid body_data sampleset timeinfo).getD 127 0 = 0x50 := by
  have hl := length_make_command command macid body_data sampleset timeinfo
  unfold make_command at hl ⊢
  dsimp only at hl ⊢
  simp only [List.length_set] at hl
  simp only [getD_set_eq, List.length_set, hl]
  simp

theorem getD_make_command_head (command macid : Nat) (body_data : Option (List Nat))
    (sampleset : Option Sampleset) (timeinfo : Option BrokenDownTime) :
    (make_command command macid body_data sampleset timeinfo).getD 0 0 = 0x74 ∧
    (make_command command macid body_data sampleset timeinfo).getD 1 0 = 0x53 ∧
    (make_command command macid body_data sampleset timeinfo).getD 3 0 = 0xff ∧
    (make_command command macid body_data sampleset timeinfo).getD 4 0 = 0xff ∧
    (make_command command macid body_data sampleset timeinfo).getD 5 0 = 0xff ∧
    (make_command command macid body_data sampleset timeinfo).getD 6 0 = 0xff ∧
    (make_command command macid body_data sampleset timeinfo).getD 45 0 = command &&& 0xff := by
  refine ⟨?_, ?_, ?_, ?_, ?_, ?_, ?_⟩ <;>
    (rw [getD_make_command_low _ _ _ _ _ _ (by omega)]
     simp only [getD_write_at, length_write_at, getD_replicate_eq, List.length_replicate,
       List.length_cons, List.length_nil, length_mac_bytes]
     simp)
theorem decodes_as_base_frame_of_markers (f : List Nat)
    (h0 : f.getD 0 0 = 0x74) (h1 : f.getD 1 0 = 0x53)
    (h3 : f.getD 3 0 = 0xff) (h4 : f.getD 4 0 = 0xff) (h5 : f.getD 5 0 = 0xff)
    (h6 : f.getD 6 0 = 0xff) (h126 : f.getD 126 0 = 0x75) (h127 : f.getD 127 0 = 0x50) :
    DecodesAsBaseFrame f := by
  have hmac : be32_at f 3 = BROADCAST_MAC := by
    unfold be32_at
    rw [h3, h4, h5, h6]
    rfl
  have hdir : determine_direction f (f.getD 45 0) = PacketDirection.BASE_TO_UNIT := by
    unfold determine_direction
    simp only [hmac, if_true]
  obtain ⟨-, hv, hs, -, hd, hh, -⟩ := parse_response_fields f
  refine ⟨?_, ?_, ?_, ?_⟩
  · rw [hv, h0, h1, h126, h127]
    rfl
  · rw [hs, hmac]
    rfl
  · rw [hd, hdir]
  · rw [hh, hdir]
    rfl

theorem make_erase_command_markers (age : Nat) :
    (make_erase_command age).getD 0 0 = 0x74 ∧ (make_erase_command age).getD 1 0 = 0x53 ∧
    (make_erase_command age).getD 3 0 = 0xff ∧ (make_erase_command age).getD 4 0 = 0xff ∧
    (make_erase_command age).getD 5 0 = 0xff ∧ (make_erase_command age).getD 6 0 = 0xff ∧
    (make_erase_command age).getD 126 0 = 0x75 ∧ (make_erase_command age).getD 127 0 = 0x50 := by
  unfold make_erase_command
  dsimp only
  simp only [getD_set_eq, List.length_set, getD_write_at, length_write_at, getD_replicate_eq,
    List.length_replicate, List.length_cons, List.length_nil]
  simp

theorem build_full_upload_command_markers (macid start_addr length : Nat) :
    (build_full_upload_command macid start_addr length).getD 0 0 = 0x74 ∧
    (build_full_upload_command macid start_addr length).getD 1 0 = 0x53 ∧
    (build_full_upload_command macid start_addr length).getD 3 0 = 0xff ∧
    (build_full_upload_command macid start_addr length).getD 4 0 = 0xff ∧
    (build_full_upload_command macid start_addr length).getD 5 0 = 0xff ∧
    (build_full_upload_command macid start_addr length).getD 6 0 = 0xff ∧
    (build_full_upload_command macid start_addr length).getD 126 0 = 0x75 ∧
    (build_full_upload_command macid start_addr length).getD 127 0 = 0x50 := by
  unfold build_full_upload_command
  dsimp only
  generalize snprintf_04x _ = a
  generalize snprintf_04x _ = b
  simp only [getD_write_at, length_write_at, getD_replicate_eq,
    List.length_replicate, List.length_cons, List.length_nil, length_mac_bytes]
  simp

theorem build_partial_upload_command_markers (macid : Nat) (start_segment : Int)
    (missing_segments : List Int) (total_segments : Int) :
    (build_partial_upload_command macid start_segment missing_segments total_segments).1.getD 0 0
      = 0x74 ∧
    (build_partial_upload_command macid start_segment missing_segments total_segments).1.getD 1 0
      = 0x53 ∧
    (build_partial_upload_command macid start_segment missing_segments total_segments).1.getD 3 0
      = 0xff ∧
    (build_partial_upload_command macid start_segment missing_segments total_segments).1.getD 4 0
      = 0xff ∧
    (build_partial_upload_command macid start_segment missing_segments total_segments).1.getD 5 0
      = 0xff ∧
    (build_partial_upload_command macid start_segment missing_segments total_segments).1.getD 6 0
      = 0xff ∧
    (build_partial_upload_command macid start_segment missing_segments total_segments).1.getD
      126 0 = 0x75 ∧
    (build_partial_upload_command macid start_segment missing_segments total_segments).1.getD
      127 0 = 0x50 := by
  unfold build_partial_upload_command
  dsimp only
  generalize snprintf_04x _ = a
  generalize (build_segment_bitmask _ _ _).1 = b
  simp only [getD_write_at, length_write_at, getD_replicate_eq,
    List.length_replicate, List.length_cons, List.length_nil, length_mac_bytes]
  simp

theorem BuildBroadcastCommand_markers (config_packet : List Nat) (packet_size : Nat)
    (f : List Nat) (h : BuildBroadcastCommand config_packet packet_size = some f) :
    f.getD 0 0 = 0x74 ∧ f.getD 1 0 = 0x53 ∧ f.getD 3 0 = 0xff ∧ f.getD 4 0 = 0xff ∧
    f.getD 5 0 = 0xff ∧ f.getD 6 0 = 0xff ∧ f.getD 126 0 = 0x75 ∧ f.getD 127 0 = 0x50 := by
  unfold BuildBroadcastCommand at h
  split at h
  · exact absurd h (by simp)
  · rename_i hs
    have hs2 : packet_size = 80 := by
      unfold PARAM_SEND_WORDS at hs
      omega
    subst hs2
    dsimp only at h
    split at h
    · exact absurd h (by simp)
    · injection h with h
      subst h
      have hl : (bytes_at config_packet 0 80).length = 80 := length_bytes_at _ _ _
      generalize bytes_at config_packet 0 80 = body at hl
      refine ⟨rfl, rfl, rfl, rfl, rfl, rfl, ?_, ?_⟩
      · rw [List.getD_eq_getElem?_getD, List.getElem?_append_right (by simp [hl])]
        simp [hl]
      · rw [List.getD_eq_getElem?_getD, List.getElem?_append_right (by simp [hl])]
        simp [hl]

theorem BuildBroadcastCommand_some (config_packet : List Nat) :
    BuildBroadcastCommand config_packet 80 =
      some ([0x74, 0x53, 1, 0xff, 0xff, 0xff, 0xff] ++ List.replicate 6 0x30 ++
        List.replicate 32 0x30 ++ [CMD_DATA_RESPONSE] ++ bytes_at config_packet 0 80 ++
        [0x75, 0x50]) := by
  unfold BuildBroadcastCommand
  rw [if_neg (by decide)]
  dsimp only
  rw [if_neg]
  simp [length_bytes_at]
/-- C18: every frame produced by the base's encoders (`make_command` for any
opcode, MAC, body, sampleset and clock reading, `make_erase_command`,
`build_full_upload_command`, `build_partial_upload_command`, and
`BuildBroadcastCommand`, which succeeds for an 80-byte packet) decodes with
`packet_valid = true`, `source_macid = 0xFFFFFFFF`, direction BASE_TO_UNIT and
`has_header_info = false`. -/
theorem encoder_frames_decode_as_base_frames :
    (∀ (command macid : Nat) (body_data : Option (List Nat)) (sampleset : Option Sampleset)
        (timeinfo : Option BrokenDownTime),
      DecodesAsBaseFrame (make_command command macid body_data sampleset timeinfo)) ∧
    (∀ age : Nat, DecodesAsBaseFrame (make_erase_command age)) ∧
    (∀ macid start_addr length : Nat,
      DecodesAsBaseFrame (build_full_upload_command macid start_addr length)) ∧
    (∀ (macid : Nat) (start_segment : Int) (missing_segments : List Int) (total_segments : Int),
      DecodesAsBaseFrame
        (build_partial_upload_command macid start_segment missing_segments total_segments).1) ∧
    (∀ config_packet : List Nat,
      ∃ f, BuildBroadcastCommand config_packet 80 = some f ∧ DecodesAsBaseFrame f) ∧
    (∀ (config_packet : List Nat) (packet_size : Nat) (f : List Nat),
      BuildBroadcastCommand config_packet packet_size = some f → DecodesAsBaseFrame f) := by
  refine ⟨?_, ?_, ?_, ?_, ?_, ?_⟩
  · intro command macid body_data sampleset timeinfo
    obtain ⟨h0, h1, h3, h4, h5, h6, -⟩ :=
      getD_make_command_head command macid body_data sampleset timeinfo
    obtain ⟨-, -, h126, h127⟩ := getD_make_command_tail command macid body_data sampleset timeinfo
    exact decodes_as_base_frame_of_markers _ h0 h1 h3 h4 h5 h6 h126 h127
  · intro age
    obtain ⟨h0, h1, h3, h4, h5, h6, h126, h127⟩ := make_erase_command_markers age
    exact decodes_as_base_frame_of_markers _ h0 h1 h3 h4 h5 h6 h126 h127
  · intro macid start_addr length
    obtain ⟨h0, h1, h3, h4, h5, h6, h126, h127⟩ :=
      build_full_upload_command_markers macid start_addr length
    exact decodes_as_base_frame_of_markers _ h0 h1 h3 h4 h5 h6 h126 h127
  · intro macid start_segment missing_segments total_segments
    obtain ⟨h0, h1, h3, h4, h5, h6, h126, h127⟩ :=
      build_partial_upload_command_markers macid start_segment missing_segments total_segments
    exact decodes_as_base_frame_of_markers _ h0 h1 h3 h4 h5 h6 h126 h127
  · intro config_packet
    refine ⟨_, BuildBroadcastCommand_some config_packet, ?_⟩
    obtain ⟨h0, h1, h3, h4, h5, h6, h126, h127⟩ :=
      BuildBroadcastCommand_markers config_packet 80 _ (BuildBroadcastCommand_some config_packet)
    exact decodes_as_base_frame_of_markers _ h0 h1 h3 h4 h5 h6 h126 h127
  · intro config_packet packet_size f h
    obtain ⟨h0, h1, h3, h4, h5, h6, h126, h127⟩ :=
      BuildBroadcastCommand_markers config_packet packet_size f h
    exact decodes_as_base_frame_of_markers _ h0 h1 h3 h4 h5 h6 h126 h127

theorem length_hex_padded_take (w v : Nat) : ((hex_padded w v).take w).length = w := by
  unfold hex_padded
  dsimp only
  rw [List.length_take, List.length_append, List.length_replicate]
  omega

theorem getD_default_body_R (output : List Nat) (t : Option BrokenDownTime) (i : Nat)
    (hl : output.length = 128) (h46 : 46 ≤ i) (h86 : i < 86 ∨ (100 ≤ i ∧ i < 124)) :
    (default_body output 0x52 t).getD i 0 =
      if i = 52 then 0x34
      else if i = 58 ∨ i = 59 ∨ i = 61 ∨ i = 84 then 0x31
      else if i = 85 then 0x65 else 0x30 := by
  unfold default_body
  dsimp only
  rw [if_pos (show 82 = CMD_SAMPLE_DATA ∨ 82 = CMD_SAMPLE_DATA_LC from Or.inl rfl)]
  have key : ∀ buf : List Nat, buf.length = 128 →
      (buf.getD i 0 = (((((((write_at output 46 (List.replicate 40 48)).set 52 52).set 58 49).set
        59 49).set 61 49).set 84 49).set 85 101).getD i 0) →
      (write_at buf 100 (List.replicate 24 48)).getD i 0 =
        if i = 52 then 0x34
        else if i = 58 ∨ i = 59 ∨ i = 61 ∨ i = 84 then 0x31
        else if i = 85 then 0x65 else 0x30 := by
    intro buf hb he
    rw [getD_write_at, hb, List.length_replicate, getD_replicate_eq]
    by_cases hi : 100 ≤ i ∧ i < 100 + 24 ∧ i < 128
    · rw [if_pos hi, if_pos (by omega), if_neg (by omega), if_neg (by omega), if_neg (by omega)]
    · rw [if_neg hi, he]
      simp only [getD_set_eq, List.length_set, length_write_at, hl, getD_write_at,
        List.length_replicate, getD_replicate_eq]
      have h1 : 46 ≤ i ∧ i < 46 + 40 ∧ i < 128 := by omega
      have h2 : i - 46 < 40 := by omega
      rw [if_pos h1, if_pos h2]
      by_cases c85 : i = 85
      · subst c85
        simp
      · by_cases c84 : i = 84
        · subst c84
          simp
        · by_cases c61 : i = 61
          · subst c61
            simp
          · by_cases c59 : i = 59
            · subst c59
              simp
            · by_cases c58 : i = 58
              · subst c58
                simp
              · by_cases c52 : i = 52
                · subst c52
                  simp
                · have e1 : ¬ (85 = i ∧ i < 128) := by omega
                  have e2 : ¬ (84 = i ∧ i < 128) := by omega
                  have e3 : ¬ (61 = i ∧ i < 128) := by omega
                  have e4 : ¬ (59 = i ∧ i < 128) := by omega
                  have e5 : ¬ (58 = i ∧ i < 128) := by omega
                  have e6 : ¬ (52 = i ∧ i < 128) := by omega
                  rw [if_neg e1, if_neg e2, if_neg e3, if_neg e4, if_neg e5, if_neg e6,
                    if_neg c52, if_neg (by omega), if_neg c85]
  cases t with
  | none =>
    refine key _ ?_ rfl
    simp only [List.length_set, length_write_at, hl]
  | some t =>
    refine key _ ?_ ?_
    · simp only [write_hex_ascii, List.length_set, length_write_at, hl]
    · dsimp only
      simp only [write_hex_ascii]
      rw [getD_write_at, if_neg (by rw [length_hex_padded_take]; omega),
        getD_write_at, if_neg (by rw [length_hex_padded_take]; omega),
        getD_write_at, if_neg (by rw [length_hex_padded_take]; omega),
        getD_write_at, if_neg (by rw [length_hex_padded_take]; omega),
        getD_write_at, if_neg (by rw [length_hex_padded_take]; omega),
        getD_write_at, if_neg (by rw [length_hex_padded_take]; omega)]
theorem bytes_at_eq_of_getD (buf l : List Nat) (o : Nat)
    (h : ∀ k, k < l.length → buf.getD (o + k) 0 = l.getD k 0) :
    bytes_at buf o l.length = l := by
  apply List.ext_getElem?
  intro k
  unfold bytes_at
  rw [List.getElem?_map]
  by_cases hk : k < l.length
  · rw [List.getElem?_range hk, List.getElem?_eq_getElem hk]
    show some (buf.getD (o + k) 0) = some l[k]
    rw [h k hk, List.getD_eq_getElem _ _ hk]
  · rw [List.getElem?_eq_none (by rw [List.length_range]; omega),
      List.getElem?_eq_none (by omega)]
    rfl

theorem bytes_at_congr (a b : List Nat) (o n : Nat)
    (h : ∀ k, k < n → a.getD (o + k) 0 = b.getD (o + k) 0) :
    bytes_at a o n = bytes_at b o n := by
  unfold bytes_at
  apply List.map_congr_left
  intro k hk
  exact h k (List.mem_range.mp hk)

theorem bytes_at_write_at_same (buf bs : List Nat) (off : Nat)
    (h : off + bs.length ≤ buf.length) :
    bytes_at (write_at buf off bs) off bs.length = bs := by
  apply bytes_at_eq_of_getD
  intro k hk
  rw [getD_write_at, if_pos ⟨by omega, by omega, by omega⟩, Nat.add_sub_cancel_left]

theorem bytes_at_write_at_disjoint (buf bs : List Nat) (off o n : Nat)
    (h : o + n ≤ off ∨ off + bs.length ≤ o) :
    bytes_at (write_at buf off bs) o n = bytes_at buf o n := by
  apply bytes_at_congr
  intro k hk
  rw [getD_write_at, if_neg (by omega)]

theorem bytes_at_set_disjoint (buf : List Nat) (j b o n : Nat) (h : j < o ∨ o + n ≤ j) :
    bytes_at (buf.set j b) o n = bytes_at buf o n := by
  apply bytes_at_congr
  intro k hk
  rw [getD_set_eq, if_neg (by omega)]

theorem bytes_at_default_body_ge (output : List Nat) (command : Nat)
    (t : Option BrokenDownTime) (o n : Nat) (h : 124 ≤ o) :
    bytes_at (default_body output command t) o n = bytes_at output o n := by
  apply bytes_at_congr
  intro k _
  unfold default_body
  dsimp only
  split
  · cases t <;>
      simp only [write_hex_ascii, getD_write_at, getD_set_eq, length_write_at, List.length_set,
        length_hex_padded_take, List.length_replicate] <;>
      repeat (rw [if_neg (by omega)])
  · simp only [getD_write_at, length_write_at, List.length_replicate]
    repeat (rw [if_neg (by omega)])

/-- The time text of the default `'R'` body: month + 1, day, year + 1900 (four
characters), hour, minute and second, each through `write_hex_ascii`. -/
theorem default_body_time_text (output : List Nat) (t : BrokenDownTime)
    (hl : output.length = 128) :
    bytes_at (default_body output 0x52 (some t)) 86 2 = (hex_padded 2 (t.tm_mon + 1)).take 2 ∧
    bytes_at (default_body output 0x52 (some t)) 88 2 = (hex_padded 2 t.tm_mday).take 2 ∧
    bytes_at (default_body output 0x52 (some t)) 90 4 =
      (hex_padded 4 (t.tm_year + 1900)).take 4 ∧
    bytes_at (default_body output 0x52 (some t)) 94 2 = (hex_padded 2 t.tm_hour).take 2 ∧
    bytes_at (default_body output 0x52 (some t)) 96 2 = (hex_padded 2 t.tm_min).take 2 ∧
    bytes_at (default_body output 0x52 (some t)) 98 2 = (hex_padded 2 t.tm_sec).take 2 := by
  unfold default_body
  dsimp only
  rw [if_pos (show 82 = CMD_SAMPLE_DATA ∨ 82 = CMD_SAMPLE_DATA_LC from Or.inl rfl)]
  simp only [write_hex_ascii]
  have same : ∀ (buf : List Nat) (off w v : Nat), off + w ≤ buf.length →
      bytes_at (write_at buf off ((hex_padded w v).take w)) off w = (hex_padded w v).take w := by
    intro buf off w v hb
    have := bytes_at_write_at_same buf ((hex_padded w v).take w) off
      (by rw [length_hex_padded_take]; exact hb)
    rw [length_hex_padded_take] at this
    exact this
  refine ⟨?_, ?_, ?_, ?_, ?_, ?_⟩
  · rw [bytes_at_write_at_disjoint _ _ _ _ _ (by rw [List.length_replicate]; omega),
      bytes_at_write_at_disjoint _ _ _ _ _ (by rw [length_hex_padded_take]; omega),
      bytes_at_write_at_disjoint _ _ _ _ _ (by rw [length_hex_padded_take]; omega),
      bytes_at_write_at_disjoint _ _ _ _ _ (by rw [length_hex_padded_take]; omega),
      bytes_at_write_at_disjoint _ _ _ _ _ (by rw [length_hex_padded_take]; omega),
      bytes_at_write_at_disjoint _ _ _ _ _ (by rw [length_hex_padded_take]; omega)]
    exact same _ _ _ _ (by simp only [List.length_set, length_write_at, hl]; omega)
  · rw [bytes_at_write_at_disjoint _ _ _ _ _ (by rw [List.length_replicate]; omega),
      bytes_at_write_at_disjoint _ _ _ _ _ (by rw [length_hex_padded_take]; omega),
      bytes_at_write_at_disjoint _ _ _ _ _ (by rw [length_hex_padded_take]; omega),
      bytes_at_write_at_disjoint _ _ _ _ _ (by rw [length_hex_padded_take]; omega),
      bytes_at_write_at_disjoint _ _ _ _ _ (by rw [length_hex_padded_take]; omega)]
    exact same _ _ _ _ (by simp only [List.length_set, length_write_at, hl]; omega)
  · rw [bytes_at_write_at_disjoint _ _ _ _ _ (by rw [List.length_replicate]; omega),
      bytes_at_write_at_disjoint _ _ _ _ _ (by rw [length_hex_padded_take]; omega),
      bytes_at_write_at_disjoint _ _ _ _ _ (by rw [length_hex_padded_take]; omega),
      bytes_at_write_at_disjoint _ _ _ _ _ (by rw [length_hex_padded_take]; omega)]
    exact same _ _ _ _ (by simp only [List.length_set, length_write_at, hl]; omega)
  · rw [bytes_at_write_at_disjoint _ _ _ _ _ (by rw [List.length_replicate]; omega),
      bytes_at_write_at_disjoint _ _ _ _ _ (by rw [length_hex_padded_take]; omega),
      bytes_at_write_at_disjoint _ _ _ _ _ (by rw [length_hex_padded_take]; omega)]
    exact same _ _ _ _ (by simp only [List.length_set, length_write_at, hl]; omega)
  · rw [bytes_at_write_at_disjoint _ _ _ _ _ (by rw [List.length_replicate]; omega),
      bytes_at_write_at_disjoint _ _ _ _ _ (by rw [length_hex_padded_take]; omega)]
    exact same _ _ _ _ (by simp only [List.length_set, length_write_at, hl]; omega)
  · rw [bytes_at_write_at_disjoint _ _ _ _ _ (by rw [List.length_replicate]; omega)]
    exact same _ _ _ _ (by simp only [List.length_set, length_write_at, hl]; omega)

theorem getD_default_body_R_no_time (output : List Nat) (i : Nat)
    (h86 : 86 ≤ i) (h100 : i < 100) :
    (default_body output 0x52 none).getD i 0 = output.getD i 0 := by
  unfold default_body
  dsimp only
  rw [if_pos (show 82 = CMD_SAMPLE_DATA ∨ 82 = CMD_SAMPLE_DATA_LC from Or.inl rfl)]
  simp only [getD_write_at, getD_set_eq, length_write_at, List.length_set,
    List.length_replicate]
  repeat (rw [if_neg (by omega)])
theorem be32_at_of_mac_bytes (f : List Nat) (o macid : Nat)
    (h : bytes_at f o 4 = mac_bytes macid) : be32_at f o = macid % 2 ^ 32 := by
  have h0 : f.getD o 0 = (macid >>> 24) &&& 0xff := by
    have := congrArg (fun l => l.getD 0 0) h
    simpa [bytes_at, mac_bytes] using this
  have h1 : f.getD (o + 1) 0 = (macid >>> 16) &&& 0xff := by
    have := congrArg (fun l => l.getD 1 0) h
    simpa [bytes_at, mac_bytes] using this
  have h2 : f.getD (o + 2) 0 = (macid >>> 8) &&& 0xff := by
    have := congrArg (fun l => l.getD 2 0) h
    simpa [bytes_at, mac_bytes] using this
  have h3 : f.getD (o + 3) 0 = macid &&& 0xff := by
    have := congrArg (fun l => l.getD 3 0) h
    simpa [bytes_at, mac_bytes] using this
  rw [← be32_of_word_bytes macid]
  unfold be32_at
  rw [h0, h1, h2, h3]
  rfl

theorem make_command_mac_bytes (command macid : Nat) (body_data : Option (List Nat))
    (sampleset : Option Sampleset) (timeinfo : Option BrokenDownTime) :
    bytes_at (make_command command macid body_data sampleset timeinfo) 13 4 = mac_bytes macid ∧
    bytes_at (make_command command macid body_data sampleset timeinfo) 17 4 = mac_bytes macid := by
  constructor
  · apply bytes_at_eq_of_getD _ (mac_bytes macid) 13
    intro k hk
    rw [length_mac_bytes] at hk
    rw [getD_make_command_low _ _ _ _ _ _ (by omega)]
    simp only [getD_write_at, length_write_at, List.length_replicate, List.length_cons,
      List.length_nil, length_mac_bytes]
    rw [if_neg (by omega), if_neg (by omega), if_neg (by omega),
      if_pos ⟨by omega, by omega, by omega⟩, Nat.add_sub_cancel_left]
  · apply bytes_at_eq_of_getD _ (mac_bytes macid) 17
    intro k hk
    rw [length_mac_bytes] at hk
    rw [getD_make_command_low _ _ _ _ _ _ (by omega)]
    simp only [getD_write_at, length_write_at, List.length_replicate, List.length_cons,
      List.length_nil, length_mac_bytes]
    rw [if_neg (by omega), if_neg (by omega),
      if_pos ⟨by omega, by omega, by omega⟩, Nat.add_sub_cancel_left]

theorem make_command_poll_eq (macid : Nat) (timeinfo : Option BrokenDownTime) :
    make_command 0x52 macid none none timeinfo =
      ((((default_body
        (write_at (write_at (write_at (write_at (write_at (write_at (List.replicate 128 0x30)
          0 [0x74, 0x53, 0x01, 0xff, 0xff, 0xff, 0xff, 0x01]) 8 (List.replicate 5 0x30))
          13 (mac_bytes macid)) 17 (mac_bytes macid)) 21 (List.replicate 24 0x30))
          45 [0x52 &&& 0xff]) 0x52 timeinfo).set 124 0x30).set 125 0x30).set 126 0x75).set
            127 0x50 := rfl

theorem length_poll_header (macid : Nat) :
    (write_at (write_at (write_at (write_at (write_at (write_at (List.replicate 128 0x30)
      0 [0x74, 0x53, 0x01, 0xff, 0xff, 0xff, 0xff, 0x01]) 8 (List.replicate 5 0x30))
      13 (mac_bytes macid)) 17 (mac_bytes macid)) 21 (List.replicate 24 0x30))
      45 [0x52 &&& 0xff]).length = 128 := by
  simp only [length_write_at, List.length_replicate]

theorem getD_poll_header_body (macid i : Nat) (h : 46 ≤ i) (h2 : i < 128) :
    (write_at (write_at (write_at (write_at (write_at (write_at (List.replicate 128 0x30)
      0 [0x74, 0x53, 0x01, 0xff, 0xff, 0xff, 0xff, 0x01]) 8 (List.replicate 5 0x30))
      13 (mac_bytes macid)) 17 (mac_bytes macid)) 21 (List.replicate 24 0x30))
      45 [0x52 &&& 0xff]).getD i 0 = 0x30 := by
  simp only [getD_write_at, length_write_at, List.length_replicate, List.length_cons,
    List.length_nil, length_mac_bytes, getD_replicate_eq]
  rw [if_neg (by omega), if_neg (by omega), if_neg (by omega), if_neg (by omega),
    if_neg (by omega), if_neg (by omega), if_pos h2]

theorem getD_make_command_poll (macid : Nat) (timeinfo : Option BrokenDownTime) (i : Nat)
    (h46 : 46 ≤ i) (h126 : i < 126) (ht : i < 86 ∨ 100 ≤ i) :
    (make_command 0x52 macid none none timeinfo).getD i 0 =
      if i = 52 then 0x34
      else if i = 58 ∨ i = 59 ∨ i = 61 ∨ i = 84 then 0x31
      else if i = 85 then 0x65 else 0x30 := by
  by_cases h124 : i < 124
  · rw [make_command_poll_eq]
    simp only [getD_set_eq]
    rw [if_neg (by omega), if_neg (by omega), if_neg (by omega), if_neg (by omega)]
    exact getD_default_body_R _ _ _ (length_poll_header macid) h46 (by omega)
  · have htail := getD_make_command_tail 0x52 macid none none timeinfo
    have hi : i = 124 ∨ i = 125 := by omega
    rcases hi with e | e
    · subst e
      rw [htail.1]
      rfl
    · subst e
      rw [htail.2.1]
      rfl

theorem getD_make_command_poll_no_time (macid : Nat) (i : Nat) (h86 : 86 ≤ i) (h100 : i < 100) :
    (make_command 0x52 macid none none none).getD i 0 = 0x30 := by
  rw [make_command_poll_eq]
  simp only [getD_set_eq]
  rw [if_neg (by omega), if_neg (by omega), if_neg (by omega), if_neg (by omega),
    getD_default_body_R_no_time _ _ h86 h100]
  exact getD_poll_header_body macid i (by omega) (by omega)

theorem make_command_poll_time_text (macid : Nat) (t : BrokenDownTime) :
    bytes_at (make_command 0x52 macid none none (some t)) 86 2 =
      (hex_padded 2 (t.tm_mon + 1)).take 2 ∧
    bytes_at (make_command 0x52 macid none none (some t)) 88 2 =
      (hex_padded 2 t.tm_mday).take 2 ∧
    bytes_at (make_command 0x52 macid none none (some t)) 90 4 =
      (hex_padded 4 (t.tm_year + 1900)).take 4 ∧
    bytes_at (make_command 0x52 macid none none (some t)) 94 2 =
      (hex_padded 2 t.tm_hour).take 2 ∧
    bytes_at (make_command 0x52 macid none none (some t)) 96 2 =
      (hex_padded 2 t.tm_min).take 2 ∧
    bytes_at (make_command 0x52 macid none none (some t)) 98 2 =
      (hex_padded 2 t.tm_sec).take 2 := by
  rw [make_command_poll_eq]
  simp only [bytes_at_set_disjoint _ _ _ _ _ (show (127 < 86 ∨ 86 + 2 ≤ 127) by omega),
    bytes_at_set_disjoint _ _ _ _ _ (show (126 < 86 ∨ 86 + 2 ≤ 126) by omega),
    bytes_at_set_disjoint _ _ _ _ _ (show (125 < 86 ∨ 86 + 2 ≤ 125) by omega),
    bytes_at_set_disjoint _ _ _ _ _ (show (124 < 86 ∨ 86 + 2 ≤ 124) by omega),
    bytes_at_set_disjoint _ _ _ _ _ (show (127 < 88 ∨ 88 + 2 ≤ 127) by omega),
    bytes_at_set_disjoint _ _ _ _ _ (show (126 < 88 ∨ 88 + 2 ≤ 126) by omega),
    bytes_at_set_disjoint _ _ _ _ _ (show (125 < 88 ∨ 88 + 2 ≤ 125) by omega),
    bytes_at_set_disjoint _ _ _ _ _ (show (124 < 88 ∨ 88 + 2 ≤ 124) by omega),
    bytes_at_set_disjoint _ _ _ _ _ (show (127 < 90 ∨ 90 + 4 ≤ 127) by omega),
    bytes_at_set_disjoint _ _ _ _ _ (show (126 < 90 ∨ 90 + 4 ≤ 126) by omega),
    bytes_at_set_disjoint _ _ _ _ _ (show (125 < 90 ∨ 90 + 4 ≤ 125) by omega),
    bytes_at_set_disjoint _ _ _ _ _ (show (124 < 90 ∨ 90 + 4 ≤ 124) by omega),
    bytes_at_set_disjoint _ _ _ _ _ (show (127 < 94 ∨ 94 + 2 ≤ 127) by omega),
    bytes_at_set_disjoint _ _ _ _ _ (show (126 < 94 ∨ 94 + 2 ≤ 126) by omega),
    bytes_at_set_disjoint _ _ _ _ _ (show (125 < 94 ∨ 94 + 2 ≤ 125) by omega),
    bytes_at_set_disjoint _ _ _ _ _ (show (124 < 94 ∨ 94 + 2 ≤ 124) by omega),
    bytes_at_set_disjoint _ _ _ _ _ (show (127 < 96 ∨ 96 + 2 ≤ 127) by omega),
    bytes_at_set_disjoint _ _ _ _ _ (show (126 < 96 ∨ 96 + 2 ≤ 126) by omega),
    bytes_at_set_disjoint _ _ _ _ _ (show (125 < 96 ∨ 96 + 2 ≤ 125) by omega),
    bytes_at_set_disjoint _ _ _ _ _ (show (124 < 96 ∨ 96 + 2 ≤ 124) by omega),
    bytes_at_set_disjoint _ _ _ _ _ (show (127 < 98 ∨ 98 + 2 ≤ 127) by omega),
    bytes_at_set_disjoint _ _ _ _ _ (show (126 < 98 ∨ 98 + 2 ≤ 126) by omega),
    bytes_at_set_disjoint _ _ _ _ _ (show (125 < 98 ∨ 98 + 2 ≤ 125) by omega),
    bytes_at_set_disjoint _ _ _ _ _ (show (124 < 98 ∨ 98 + 2 ≤ 124) by omega)]
  exact default_body_time_text _ t (length_poll_header macid)
theorem length_snprintf_08x_at (buf : List Nat) (off v : Nat) :
    (snprintf_08x_at buf off v).length = buf.length := by
  unfold snprintf_08x_at
  rw [length_write_at]

theorem getD_snprintf_08x_at (buf : List Nat) (off v i : Nat) :
    (snprintf_08x_at buf off v).getD i 0 =
      if off ≤ i ∧ i < off + 8 ∧ i < buf.length then ((hex_padded 8 v).take 8).getD (i - off) 0
      else if i = off + 8 ∧ i < buf.length then 0
      else buf.getD i 0 := by
  unfold snprintf_08x_at
  have hlen : ((hex_padded 8 v).take 8).length = 8 := length_hex_padded_take 8 v
  rw [getD_write_at, List.length_append, hlen, List.length_singleton]
  by_cases h1 : off ≤ i ∧ i < off + 8 ∧ i < buf.length
  · rw [if_pos h1, if_pos ⟨by omega, by omega, by omega⟩, List.getD_append _ _ _ _ (by omega)]
  · rw [if_neg h1]
    by_cases h2 : i = off + 8 ∧ i < buf.length
    · rw [if_pos h2, if_pos ⟨by omega, by omega, by omega⟩,
        List.getD_append_right _ _ _ _ (by omega), hlen,
        show i - off - 8 = 0 by omega]
      rfl
    · rw [if_neg h2, if_neg (by omega)]

theorem length_encode_sampleset_body (s : Sampleset) : (encode_sampleset_body s).length = 78 := by
  unfold encode_sampleset_body
  simp only [length_snprintf_08x_at, List.length_replicate]

/-- The bytes of `encoded_body`: five 8-character fields, a NUL at index 40 and
`'0'` from 41 on. -/
theorem getD_encode_sampleset_body (s : Sampleset) (i : Nat) (hi : i < 78) :
    (encode_sampleset_body s).getD i 0 =
      if i < 8 then ((hex_padded 8 (sampleset_capture_segments s)).take 8).getD i 0
      else if i < 16 then ((hex_padded 8 (sampleset_combined s)).take 8).getD (i - 8) 0
      else if i < 24 then ((hex_padded 8 (sampleset_dc_control s)).take 8).getD (i - 16) 0
      else if i < 32 then ((hex_padded 8 0).take 8).getD (i - 24) 0
      else if i < 40 then ((hex_padded 8 0).take 8).getD (i - 32) 0
      else if i = 40 then 0 else 0x30 := by
  unfold encode_sampleset_body
  simp only [getD_snprintf_08x_at, length_snprintf_08x_at, List.length_replicate,
    getD_replicate_eq]
  by_cases c1 : i < 8
  · repeat (rw [if_neg (by omega)])
    rw [if_pos ⟨by omega, by omega, by omega⟩, if_pos c1, Nat.sub_zero]
  · by_cases c2 : i < 16
    · repeat (rw [if_neg (by omega)])
      rw [if_pos ⟨by omega, by omega, by omega⟩, if_neg c1, if_pos c2]
    · by_cases c3 : i < 24
      · repeat (rw [if_neg (by omega)])
        rw [if_pos ⟨by omega, by omega, by omega⟩, if_neg c1, if_neg c2, if_pos c3]
      · by_cases c4 : i < 32
        · repeat (rw [if_neg (by omega)])
          rw [if_pos ⟨by omega, by omega, by omega⟩, if_neg c1, if_neg c2, if_neg c3, if_pos c4]
        · by_cases c5 : i < 40
          · rw [if_pos ⟨by omega, by omega, by omega⟩, if_neg c1, if_neg c2, if_neg c3,
              if_neg c4, if_pos c5]
          · by_cases c6 : i = 40
            · rw [if_neg (by omega), if_pos ⟨by omega, by omega⟩, if_neg c1, if_neg c2,
                if_neg c3, if_neg c4, if_neg c5, if_pos c6]
            · have h40 : 40 < i := by omega
              repeat (rw [if_neg (by omega)])
              rw [if_pos hi, if_neg c1, if_neg c2, if_neg c3, if_neg c4, if_neg c5, if_neg c6]

theorem make_command_sampleset_eq (command macid : Nat) (body_data : Option (List Nat))
    (s : Sampleset) (timeinfo : Option BrokenDownTime)
    (hc : command = CMD_SAMPLE_DATA ∨ command = CMD_SAMPLE_DATA_LC) :
    make_command command macid body_data (some s) timeinfo =
      ((((write_at
        (write_at (write_at (write_at (write_at (write_at (write_at (List.replicate 128 0x30)
          0 [0x74, 0x53, 0x01, 0xff, 0xff, 0xff, 0xff, 0x01]) 8 (List.replicate 5 0x30))
          13 (mac_bytes macid)) 17 (mac_bytes macid)) 21 (List.replicate 24 0x30))
          45 [command &&& 0xff]) 46 (encode_sampleset_body s)).set 124 0x30).set 125 0x30).set
            126 0x75).set 127 0x50 := by
  unfold make_command
  dsimp only
  rw [if_pos hc]

/-- The body of the frame that `make_command` builds for a sampleset is the
array `encoded_body`, byte for byte. -/
theorem getD_make_command_sampleset (command macid : Nat) (body_data : Option (List Nat))
    (s : Sampleset) (timeinfo : Option BrokenDownTime)
    (hc : command = CMD_SAMPLE_DATA ∨ command = CMD_SAMPLE_DATA_LC) (i : Nat) (hi : i < 78) :
    (make_command command macid body_data (some s) timeinfo).getD (46 + i) 0 =
      (encode_sampleset_body s).getD i 0 := by
  rw [make_command_sampleset_eq _ _ _ _ _ hc]
  simp only [getD_set_eq]
  rw [if_neg (by omega), if_neg (by omega), if_neg (by omega), if_neg (by omega),
    getD_write_at, length_encode_sampleset_body,
    if_pos ⟨by omega, by omega, by simp only [length_write_at, List.length_replicate]; omega⟩,
    Nat.add_sub_cancel_left]
/-- C17 fails on the code: in the `'R'` poll frame built with no body data and
no sampleset the body bytes at offsets 52 and 85 are `'4'` and `'e'`, not
`0x30`. -/
theorem poll_frame_body_not_all_padding :
    (make_command 0x52 0x12345678 none none none).getD 52 0 = 0x34 ∧
    (make_command 0x52 0x12345678 none none none).getD 52 0 ≠ 0x30 ∧
    (make_command 0x52 0x12345678 none none none).getD 85 0 = 0x65 := by
  decide

/-- C17 as amended: the `'R'` poll frame (`make_command` with no body data and
no sampleset) has 128 bytes, the target MAC big-endian at offsets 13..16 and
again at 17..20, byte 45 = `'R'`; at offsets 46..85 and 100..125 every byte is
`0x30` except offset 52 (`'4'`), offsets 58, 59, 61, 84 (`'1'`) and offset 85
(`'e'`); offsets 86..99 stay `0x30` when `localtime` returns null and otherwise
hold the text of month + 1, day, year + 1900 (four characters), hour, minute
and second as `write_hex_ascii` stores them. -/
theorem poll_frame_layout (macid : Nat) (timeinfo : Option BrokenDownTime) :
    (make_command 0x52 macid none none timeinfo).length = 128 ∧
    bytes_at (make_command 0x52 macid none none timeinfo) 13 4 = mac_bytes macid ∧
    bytes_at (make_command 0x52 macid none none timeinfo) 17 4 = mac_bytes macid ∧
    be32_at (make_command 0x52 macid none none timeinfo) 13 = macid % 2 ^ 32 ∧
    be32_at (make_command 0x52 macid none none timeinfo) 17 = macid % 2 ^ 32 ∧
    (make_command 0x52 macid none none timeinfo).getD 45 0 = 0x52 ∧
    (∀ i, 46 ≤ i → i < 126 → (i < 86 ∨ 100 ≤ i) →
      (make_command 0x52 macid none none timeinfo).getD i 0 =
        if i = 52 then 0x34
        else if i = 58 ∨ i = 59 ∨ i = 61 ∨ i = 84 then 0x31
        else if i = 85 then 0x65 else 0x30) ∧
    (∀ i, 86 ≤ i → i < 100 → (make_command 0x52 macid none none none).getD i 0 = 0x30) ∧
    (∀ t : BrokenDownTime,
      bytes_at (make_command 0x52 macid none none (some t)) 86 2 =
        (hex_padded 2 (t.tm_mon + 1)).take 2 ∧
      bytes_at (make_command 0x52 macid none none (some t)) 88 2 =
        (hex_padded 2 t.tm_mday).take 2 ∧
      bytes_at (make_command 0x52 macid none none (some t)) 90 4 =
        (hex_padded 4 (t.tm_year + 1900)).take 4 ∧
      bytes_at (make_command 0x52 macid none none (some t)) 94 2 =
        (hex_padded 2 t.tm_hour).take 2 ∧
      bytes_at (make_command 0x52 macid none none (some t)) 96 2 =
        (hex_padded 2 t.tm_min).take 2 ∧
      bytes_at (make_command 0x52 macid none none (some t)) 98 2 =
        (hex_padded 2 t.tm_sec).take 2) := by
  have hmac := make_command_mac_bytes 0x52 macid none none timeinfo
  refine ⟨length_make_command _ _ _ _ _, hmac.1, hmac.2, be32_at_of_mac_bytes _ _ _ hmac.1,
    be32_at_of_mac_bytes _ _ _ hmac.2, ?_, ?_, ?_, ?_⟩
  · exact (getD_make_command_head 0x52 macid none none timeinfo).2.2.2.2.2.2
  · intro i h46 h126 ht
    exact getD_make_command_poll macid timeinfo i h46 h126 ht
  · intro i h86 h100
    exact getD_make_command_poll_no_time macid i h86 h100
  · intro t
    exact make_command_poll_time_text macid t

/-- C15 on the code: the decoder reads `command_macid` from body offsets 47..50,
which the `'R'` poll frame fills with `'0'`, so for every target MAC and clock
reading the decoded value is `0x30303030`; for the target `0x12345678` the
frame carries the MAC at offsets 13..16 and the decoded `command_macid`
differs from it. -/
theorem poll_frame_command_macid (macid : Nat) (timeinfo : Option BrokenDownTime) :
    (parse_response (make_command 0x52 macid none none timeinfo)).command_macid = 0x30303030 ∧
    (parse_response (make_command 0x52 macid none none timeinfo)).command_code = 0x52 ∧
    be32_at (make_command 0x52 0x12345678 none none none) 13 = 0x12345678 ∧
    (parse_response (make_command 0x52 0x12345678 none none none)).command_macid ≠
      0x12345678 := by
  have key : ∀ (m : Nat) (t : Option BrokenDownTime),
      (parse_response (make_command 0x52 m none none t)).command_macid = 0x30303030 := by
    intro m t
    rw [(parse_response_fields _).2.2.2.2.2.2]
    unfold be32_at
    rw [getD_make_command_poll m t 47 (by omega) (by omega) (by omega),
      getD_make_command_poll m t (47 + 1) (by omega) (by omega) (by omega),
      getD_make_command_poll m t (47 + 2) (by omega) (by omega) (by omega),
      getD_make_command_poll m t (47 + 3) (by omega) (by omega) (by omega)]
    decide
  refine ⟨key macid timeinfo, ?_, ?_, ?_⟩
  · rw [(parse_response_fields _).2.2.2.1]
    exact (getD_make_command_head 0x52 macid none none timeinfo).2.2.2.2.2.2
  · exact (be32_at_of_mac_bytes _ _ _
      (make_command_mac_bytes 0x52 0x12345678 none none none).1).trans (by decide)
  · rw [key]
    decide

/-- C16 on the code: for every sampleset the byte at frame offset 86 of the
`'R'` (or `'r'`) frame is `0x00`, the terminator that the fifth `snprintf`
stores at `encoded_body[40]`; it is not a hexadecimal digit, and the bytes at
offsets 87..123 are `'0'`. -/
theorem sampleset_frame_offset_86_is_nul (macid : Nat) (body_data : Option (List Nat))
    (s : Sampleset) (timeinfo : Option BrokenDownTime) :
    (make_command 0x52 macid body_data (some s) timeinfo).getD 86 0 = 0 ∧
    (make_command 0x72 macid body_data (some s) timeinfo).getD 86 0 = 0 ∧
    hex_val 0 = none ∧
    (∀ i, 87 ≤ i → i < 126 →
      (make_command 0x52 macid body_data (some s) timeinfo).getD i 0 = 0x30) := by
  refine ⟨?_, ?_, by decide, ?_⟩
  · rw [getD_make_command_sampleset 0x52 macid body_data s timeinfo (Or.inl rfl) 40 (by omega),
      getD_encode_sampleset_body s 40 (by omega)]
    rfl
  · rw [getD_make_command_sampleset 0x72 macid body_data s timeinfo (Or.inr rfl) 40 (by omega),
      getD_encode_sampleset_body s 40 (by omega)]
    rfl
  · intro i h87 h126
    by_cases h124 : i < 124
    · obtain ⟨k, rfl⟩ : ∃ k, i = 46 + k := ⟨i - 46, by omega⟩
      rw [getD_make_command_sampleset 0x52 macid body_data s timeinfo (Or.inl rfl) k (by omega),
        getD_encode_sampleset_body s k (by omega)]
      rw [if_neg (by omega), if_neg (by omega), if_neg (by omega), if_neg (by omega),
        if_neg (by omega), if_neg (by omega)]
    · have htail := getD_make_command_tail 0x52 macid body_data (some s) timeinfo
      have hi : i = 124 ∨ i = 125 := by omega
      rcases hi with e | e
      · subst e
        exact htail.1
      · subst e
        exact htail.2.1

theorem hex_digits_acc (n v : Nat) (acc : List Nat) :
    hex_digits n v acc = hex_digits n v [] ++ acc := by
  induction n generalizing v acc with
  | zero => rfl
  | succ n ih =>
    unfold hex_digits
    split
    · rfl
    · rw [ih (v / 16) (hex_char (v % 16) :: acc), ih (v / 16) [hex_char (v % 16)],
        List.append_assoc]
      rfl

theorem length_hex_fixed (m v : Nat) : (hex_fixed m v).length = m := by
  induction m generalizing v with
  | zero => rfl
  | succ m ih =>
    unfold hex_fixed
    rw [List.length_append, ih, List.length_singleton]

theorem hex_fixed_zero (m : Nat) : hex_fixed m 0 = List.replicate m 48 := by
  induction m with
  | zero => rfl
  | succ m ih =>
    unfold hex_fixed
    rw [Nat.zero_div, ih, Nat.zero_mod, List.replicate_succ']
    rfl

theorem length_hex_digits_le (n v : Nat) (hn : 1 ≤ n) :
    1 ≤ (hex_digits n v []).length ∧ (hex_digits n v []).length ≤ n := by
  induction n generalizing v with
  | zero => omega
  | succ n ih =>
    unfold hex_digits
    split
    · simp
    · rw [hex_digits_acc, List.length_append, List.length_singleton]
      by_cases h0 : n = 0
      · subst h0
        simp [hex_digits]
      · have := ih (v / 16) (by omega)
        omega

/-- The zero-padded digits of a value below `16 ^ n` are its `w` fixed digits,
for every width `w ≥ n`. -/
theorem hex_digits_padded (n : Nat) (v w : Nat) (hv : v < 16 ^ n) (hn : 1 ≤ n) (hw : n ≤ w) :
    List.replicate (w - (hex_digits n v []).length) 48 ++ hex_digits n v [] = hex_fixed w v := by
  induction n generalizing v w with
  | zero => omega
  | succ n ih =>
    obtain ⟨w, rfl⟩ : ∃ k, w = k + 1 := ⟨w - 1, by omega⟩
    unfold hex_digits
    split
    · rename_i hlt
      show List.replicate (w + 1 - 1) 48 ++ [hex_char v] = hex_fixed w (v / 16) ++ [hex_char (v % 16)]
      rw [Nat.div_eq_of_lt hlt, Nat.mod_eq_of_lt hlt, hex_fixed_zero, Nat.add_sub_cancel]
    · rename_i hge
      have hn1 : 1 ≤ n := by
        rcases Nat.eq_zero_or_pos n with h0 | h0
        · subst h0
          simp at hv
          omega
        · exact h0
      have hv2 : v / 16 < 16 ^ n := by
        rw [Nat.div_lt_iff_lt_mul (by decide)]
        rw [pow_succ] at hv
        exact hv
      rw [hex_digits_acc, List.length_append, List.length_singleton, ← List.append_assoc]
      have hlen := length_hex_digits_le n (v / 16) hn1
      rw [show w + 1 - ((hex_digits n (v / 16) []).length + 1) =
        w - (hex_digits n (v / 16) []).length by omega, ih (v / 16) w hv2 hn1 (by omega)]
      rfl

theorem hex_padded_eq_fixed (v : Nat) (hv : v < 4294967296) : hex_padded 8 v = hex_fixed 8 v := by
  unfold hex_padded
  dsimp only
  rw [Nat.mod_eq_of_lt hv]
  exact hex_digits_padded 8 v 8 (by norm_num; exact hv) (by decide) (by decide)

theorem hex_padded_take8 (v : Nat) (hv : v < 4294967296) :
    (hex_padded 8 v).take 8 = hex_fixed 8 v := by
  rw [hex_padded_eq_fixed v hv]
  exact List.take_of_length_le (by rw [length_hex_fixed])

theorem hex_val_hex_char (d : Nat) (hd : d < 16) : hex_val (hex_char d) = some d := by
  unfold hex_char hex_val
  by_cases h : d < 10
  · rw [if_pos h, if_pos ⟨by omega, by omega⟩]
    congr 1
    omega
  · rw [if_neg h, if_neg (by omega), if_pos ⟨by omega, by omega⟩]
    congr 1
    omega

theorem scan_hex_digits_cons_some (c : Nat) (cs : List Nat) (a d : Nat)
    (h : hex_val c = some d) :
    scan_hex_digits (c :: cs) a = scan_hex_digits cs (a * 16 + d) := by
  rw [scan_hex_digits, h]

theorem scan_hex_digits_cons_none (c : Nat) (cs : List Nat) (a : Nat)
    (h : hex_val c = none) : scan_hex_digits (c :: cs) a = a := by
  rw [scan_hex_digits, h]

theorem scan_hex_digits_fixed (m v : Nat) (rest : List Nat) (a : Nat) :
    scan_hex_digits (hex_fixed m v ++ rest) a =
      scan_hex_digits rest (a * 16 ^ m + v % 16 ^ m) := by
  induction m generalizing v rest a with
  | zero =>
    show scan_hex_digits rest a = _
    rw [pow_zero, Nat.mod_one, Nat.mul_one, Nat.add_zero]
  | succ m ih =>
    unfold hex_fixed
    rw [List.append_assoc, ih]
    show scan_hex_digits (hex_char (v % 16) :: rest) _ = _
    rw [scan_hex_digits_cons_some _ _ _ _ (hex_val_hex_char _ (Nat.mod_lt _ (by decide)))]
    congr 1
    have e : v % 16 ^ (m + 1) = v % 16 + 16 * (v / 16 % 16 ^ m) := by
      rw [pow_succ, Nat.mul_comm (16 ^ m) 16, Nat.mod_mul]
    rw [e, pow_succ]
    ring
theorem hex_val_some_range (c d : Nat) (h : hex_val c = some d) :
    (48 ≤ c ∧ c ≤ 57) ∨ (97 ≤ c ∧ c ≤ 102) ∨ (65 ≤ c ∧ c ≤ 70) := by
  unfold hex_val at h
  by_cases h1 : 48 ≤ c ∧ c ≤ 57
  · exact Or.inl h1
  · rw [if_neg h1] at h
    by_cases h2 : 97 ≤ c ∧ c ≤ 102
    · exact Or.inr (Or.inl h2)
    · rw [if_neg h2] at h
      by_cases h3 : 65 ≤ c ∧ c ≤ 70
      · exact Or.inr (Or.inr h3)
      · rw [if_neg h3] at h
        exact absurd h (by simp)

theorem scan_hex_body_of_hex_chars (c x : Nat) (rest : List Nat) (d e : Nat)
    (hc : hex_val c = some d) (hx : hex_val x = some e) :
    scan_hex_body (c :: x :: rest) = some (scan_hex_digits (c :: x :: rest) 0) := by
  have rx := hex_val_some_range x e hx
  by_cases h48 : c = 48
  · subst h48
    have hx2 : (x == 120 || x == 88) = false := by
      have a1 : (x == 120) = false := beq_false_of_ne (by omega)
      have a2 : (x == 88) = false := beq_false_of_ne (by omega)
      rw [a1, a2]
      rfl
    have e0 : scan_hex_digits (48 :: x :: rest) 0 = scan_hex_digits (x :: rest) 0 :=
      scan_hex_digits_cons_some 48 (x :: rest) 0 0 (by decide)
    rw [e0]
    show (if (x == 120 || x == 88) && starts_with_hex rest then some (scan_hex_digits rest 0)
      else some (scan_hex_digits (x :: rest) 0)) = _
    rw [hx2]
    rfl
  · unfold scan_hex_body
    split
    · rename_i heq
      injection heq with h1 _
      exact absurd h1 h48
    · have hs : starts_with_hex (c :: x :: rest) = true := by
        show (hex_val c).isSome = true
        rw [hc]
        rfl
      rw [if_pos hs]

theorem sscanf_hex_of_hex_chars (bits c x : Nat) (rest : List Nat) (d e : Nat)
    (hc : hex_val c = some d) (hx : hex_val x = some e) :
    sscanf_hex bits (c :: x :: rest) = some (scan_hex_digits (c :: x :: rest) 0 % 2 ^ bits) := by
  have rc := hex_val_some_range c d hc
  have hsp : is_space c = false := by
    unfold is_space
    have a1 : (c == 32) = false := beq_false_of_ne (by omega)
    rw [a1, Bool.false_or]
    by_cases h9 : 9 ≤ c
    · have : decide (c ≤ 13) = false := decide_eq_false (by omega)
      rw [this, Bool.and_false]
    · have : decide (9 ≤ c) = false := decide_eq_false h9
      rw [this, Bool.false_and]
  unfold sscanf_hex
  rw [List.dropWhile_cons_of_neg (by rw [hsp]; decide)]
  split
  · rename_i heq
    injection heq with h1 _
    omega
  · rename_i heq
    injection heq with h1 _
    omega
  · rw [scan_hex_body_of_hex_chars c x rest d e hc hx]
    rfl

/-- Reading back an eight-character field: `sscanf("%x")` on the text of
`"%08x"` for a 32-bit value returns that value. -/
theorem parse_hex_param_fixed (data : List Nat) (offset v : Nat) (hv : v < 4294967296)
    (h : bytes_at data offset 8 = hex_fixed 8 v) : parse_hex_param data offset = v := by
  unfold parse_hex_param
  rw [h]
  have hshape : hex_fixed 8 v ++ [0] =
      hex_char (v / 16 / 16 / 16 / 16 / 16 / 16 / 16 % 16) ::
        hex_char (v / 16 / 16 / 16 / 16 / 16 / 16 % 16) ::
          (hex_fixed 8 v ++ [0]).drop 2 := by
    simp [hex_fixed]
  have hs := sscanf_hex_of_hex_chars 32 _ _ ((hex_fixed 8 v ++ [0]).drop 2) _ _
    (hex_val_hex_char (v / 16 / 16 / 16 / 16 / 16 / 16 / 16 % 16) (Nat.mod_lt _ (by decide)))
    (hex_val_hex_char (v / 16 / 16 / 16 / 16 / 16 / 16 % 16) (Nat.mod_lt _ (by decide)))
  rw [← hshape] at hs
  rw [hs, scan_hex_digits_fixed 8 v [0] 0]
  have e0 : scan_hex_digits [0] (0 * 16 ^ 8 + v % 16 ^ 8) = 0 * 16 ^ 8 + v % 16 ^ 8 :=
    scan_hex_digits_cons_none 0 [] _ (by decide)
  rw [e0]
  show (0 * 16 ^ 8 + v % 16 ^ 8) % 2 ^ 32 = v
  norm_num
  omega
theorem parse_command_params_sample (r : CommandResponse)
    (hdir : r.direction = PacketDirection.BASE_TO_UNIT)
    (hcode : r.command_code = 0x52 ∨ r.command_code = 0x72) :
    (parse_command_params r).has_command_params = true ∧
    (parse_command_params r).command_params =
      (List.range 10).map (fun i => parse_hex_param r.data (46 + i * 8)) ∧
    (parse_command_params r).sample_capture_segments = parse_hex_param r.data 46 ∧
    (parse_command_params r).sample_channel = parse_hex_param r.data 54 &&& 0xFF ∧
    (parse_command_params r).sample_decimation = (parse_hex_param r.data 54 >>> 8) &&& 0x0F ∧
    (parse_command_params r).advanced_checksum =
      decide ((parse_hex_param r.data 54 >>> 12) &&& 0x01 ≠ 0) ∧
    (parse_command_params r).sample_tach_delay = (parse_hex_param r.data 54 >>> 16) &&& 0xFFFF ∧
    (parse_command_params r).sample_dc_control = parse_hex_param r.data 62 ∧
    (parse_command_params r).sample_wakeup_delay =
      (parse_hex_param r.data 70 >>> 16) &&& 0xFFFF := by
  unfold parse_command_params
  rw [if_neg (by rw [hdir]; exact fun h => h rfl)]
  dsimp only
  rw [if_pos hcode]
  exact ⟨rfl, rfl, rfl, rfl, rfl, rfl, rfl, rfl, rfl⟩

theorem parse_response_params (data : List Nat)
    (hdir : determine_direction data (data.getD 45 0) = PacketDirection.BASE_TO_UNIT)
    (hcode : data.getD 45 0 = 0x52 ∨ data.getD 45 0 = 0x72) :
    (parse_response data).has_command_params = true ∧
    (parse_response data).command_params =
      (List.range 10).map (fun i => parse_hex_param data (46 + i * 8)) ∧
    (parse_response data).sample_capture_segments = parse_hex_param data 46 ∧
    (parse_response data).sample_channel = parse_hex_param data 54 &&& 0xFF ∧
    (parse_response data).sample_decimation = (parse_hex_param data 54 >>> 8) &&& 0x0F ∧
    (parse_response data).advanced_checksum =
      decide ((parse_hex_param data 54 >>> 12) &&& 0x01 ≠ 0) ∧
    (parse_response data).sample_tach_delay = (parse_hex_param data 54 >>> 16) &&& 0xFFFF ∧
    (parse_response data).sample_dc_control = parse_hex_param data 62 ∧
    (parse_response data).sample_wakeup_delay = (parse_hex_param data 70 >>> 16) &&& 0xFFFF := by
  unfold parse_response
  dsimp only
  refine ⟨?_, ?_, ?_, ?_, ?_, ?_, ?_, ?_, ?_⟩
  · rw [(parse_push_config_keeps _).2.2.2.2.2.2.2.1]
    dsimp only
    rw [(parse_upload_data_keeps _).2.2.2.2.2.2.2.1]
    refine (parse_command_params_sample _ ?_ ?_).1
    · split <;> exact hdir
    · split <;> exact hcode
  · rw [(parse_push_config_keeps _).2.2.2.2.2.2.2.2.1]
    dsimp only
    rw [(parse_upload_data_keeps _).2.2.2.2.2.2.2.2.1]
    refine ((parse_command_params_sample _ ?_ ?_).2.1).trans ?_
    · split <;> exact hdir
    · split <;> exact hcode
    · split <;> rfl
  · rw [(parse_push_config_keeps _).2.2.2.2.2.2.2.2.2.1]
    dsimp only
    rw [(parse_upload_data_keeps _).2.2.2.2.2.2.2.2.2.1]
    refine ((parse_command_params_sample _ ?_ ?_).2.2.1).trans ?_
    · split <;> exact hdir
    · split <;> exact hcode
    · split <;> rfl
  · rw [(parse_push_config_keeps _).2.2.2.2.2.2.2.2.2.2.1]
    dsimp only
    rw [(parse_upload_data_keeps _).2.2.2.2.2.2.2.2.2.2.1]
    refine ((parse_command_params_sample _ ?_ ?_).2.2.2.1).trans ?_
    · split <;> exact hdir
    · split <;> exact hcode
    · split <;> rfl
  · rw [(parse_push_config_keeps _).2.2.2.2.2.2.2.2.2.2.2.1]
    dsimp only
    rw [(parse_upload_data_keeps _).2.2.2.2.2.2.2.2.2.2.2.1]
    refine ((parse_command_params_sample _ ?_ ?_).2.2.2.2.1).trans ?_
    · split <;> exact hdir
    · split <;> exact hcode
    · split <;> rfl
  · rw [(parse_push_config_keeps _).2.2.2.2.2.2.2.2.2.2.2.2.1]
    dsimp only
    rw [(parse_upload_data_keeps _).2.2.2.2.2.2.2.2.2.2.2.2.1]
    refine ((parse_command_params_sample _ ?_ ?_).2.2.2.2.2.1).trans ?_
    · split <;> exact hdir
    · split <;> exact hcode
    · split <;> rfl
  · rw [(parse_push_config_keeps _).2.2.2.2.2.2.2.2.2.2.2.2.2.1]
    dsimp only
    rw [(parse_upload_data_keeps _).2.2.2.2.2.2.2.2.2.2.2.2.2.1]
    refine ((parse_command_params_sample _ ?_ ?_).2.2.2.2.2.2.1).trans ?_
    · split <;> exact hdir
    · split <;> exact hcode
    · split <;> rfl
  · rw [(parse_push_config_keeps _).2.2.2.2.2.2.2.2.2.2.2.2.2.2.1]
    dsimp only
    rw [(parse_upload_data_keeps _).2.2.2.2.2.2.2.2.2.2.2.2.2.2.1]
    refine ((parse_command_params_sample _ ?_ ?_).2.2.2.2.2.2.2.1).trans ?_
    · split <;> exact hdir
    · split <;> exact hcode
    · split <;> rfl
  · rw [(parse_push_config_keeps _).2.2.2.2.2.2.2.2.2.2.2.2.2.2.2]
    dsimp only
    rw [(parse_upload_data_keeps _).2.2.2.2.2.2.2.2.2.2.2.2.2.2.2]
    refine ((parse_command_params_sample _ ?_ ?_).2.2.2.2.2.2.2.2).trans ?_
    · split <;> exact hdir
    · split <;> exact hcode
    · split <;> rfl
theorem determine_direction_of_broadcast (f : List Nat) (c : Nat)
    (h3 : f.getD 3 0 = 0xff) (h4 : f.getD 4 0 = 0xff) (h5 : f.getD 5 0 = 0xff)
    (h6 : f.getD 6 0 = 0xff) : determine_direction f c = PacketDirection.BASE_TO_UNIT := by
  have hmac : be32_at f 3 = BROADCAST_MAC := by
    unfold be32_at
    rw [h3, h4, h5, h6]
    rfl
  unfold determine_direction
  simp only [hmac, if_true]

theorem getD_make_command_sampleset_pad (command macid : Nat) (body_data : Option (List Nat))
    (s : Sampleset) (timeinfo : Option BrokenDownTime)
    (hc : command = CMD_SAMPLE_DATA ∨ command = CMD_SAMPLE_DATA_LC) (i : Nat)
    (h87 : 87 ≤ i) (h126 : i < 126) :
    (make_command command macid body_data (some s) timeinfo).getD i 0 = 0x30 := by
  by_cases h124 : i < 124
  · obtain ⟨k, rfl⟩ : ∃ k, i = 46 + k := ⟨i - 46, by omega⟩
    rw [getD_make_command_sampleset command macid body_data s timeinfo hc k (by omega),
      getD_encode_sampleset_body s k (by omega)]
    rw [if_neg (by omega), if_neg (by omega), if_neg (by omega), if_neg (by omega),
      if_neg (by omega), if_neg (by omega)]
  · have htail := getD_make_command_tail command macid body_data (some s) timeinfo
    have hi : i = 124 ∨ i = 125 := by omega
    rcases hi with e | e
    · subst e
      exact htail.1
    · subst e
      exact htail.2.1

theorem parse_hex_param_of_getD (f : List Nat) (off v : Nat) (hv : v < 4294967296)
    (h : ∀ k, k < 8 → f.getD (off + k) 0 = (hex_fixed 8 v).getD k 0) :
    parse_hex_param f off = v := by
  apply parse_hex_param_fixed f off v hv
  have := bytes_at_eq_of_getD f (hex_fixed 8 v) off (by
    intro k hk
    rw [length_hex_fixed] at hk
    exact h k hk)
  rw [length_hex_fixed] at this
  exact this

theorem parse_hex_param_padding (f : List Nat) (off : Nat)
    (h : ∀ k, k < 8 → f.getD (off + k) 0 = 0x30) : parse_hex_param f off = 0 := by
  apply parse_hex_param_of_getD f off 0 (by decide)
  intro k hk
  rw [h k hk, hex_fixed_zero, getD_replicate_eq, if_pos hk]

theorem sampleset_combined_value (s : Sampleset) (hmask : s.sampling_mask < 256) :
    sampleset_combined s = 4096 + 256 * sampleset_decimation s + s.sampling_mask ∧
    1 ≤ sampleset_decimation s ∧ sampleset_decimation s ≤ 15 := by
  have hd : 1 ≤ sampleset_decimation s ∧ sampleset_decimation s ≤ 15 := by
    unfold sampleset_decimation
    dsimp only
    split_ifs <;> omega
  refine ⟨?_, hd⟩
  unfold sampleset_combined
  generalize sampleset_decimation s = d at hd
  have h1 : 2 ^ 8 * d + s.sampling_mask = 2 ^ 8 * d ||| s.sampling_mask :=
    Nat.mul_add_lt_is_or (by omega) d
  have h2 : 2 ^ 12 * 1 + (2 ^ 8 * d + s.sampling_mask) =
      2 ^ 12 * 1 ||| (2 ^ 8 * d + s.sampling_mask) := Nat.mul_add_lt_is_or (by omega) 1
  rw [Nat.shiftLeft_eq, Nat.shiftLeft_eq, Nat.lor_comm s.sampling_mask, Nat.mul_comm d,
    Nat.lor_comm _ (1 * 2 ^ 12), Nat.mul_comm 1, ← h1, ← h2]
  omega
/-- The ten parameter words that `parse_hex_param` reads back from the frame
that `make_command` builds for a sampleset. -/
theorem sampleset_frame_params (command macid : Nat) (body_data : Option (List Nat))
    (s : Sampleset) (timeinfo : Option BrokenDownTime)
    (hc : command = CMD_SAMPLE_DATA ∨ command = CMD_SAMPLE_DATA_LC)
    (hmask : s.sampling_mask < 256) :
    parse_hex_param (make_command command macid body_data (some s) timeinfo) 46 =
      sampleset_capture_segments s ∧
    parse_hex_param (make_command command macid body_data (some s) timeinfo) 54 =
      sampleset_combined s ∧
    parse_hex_param (make_command command macid body_data (some s) timeinfo) 62 =
      sampleset_dc_control s ∧
    parse_hex_param (make_command command macid body_data (some s) timeinfo) 70 = 0 ∧
    parse_hex_param (make_command command macid body_data (some s) timeinfo) 78 = 0 ∧
    parse_hex_param (make_command command macid body_data (some s) timeinfo) 86 = 0 ∧
    parse_hex_param (make_command command macid body_data (some s) timeinfo) 94 = 0 ∧
    parse_hex_param (make_command command macid body_data (some s) timeinfo) 102 = 0 ∧
    parse_hex_param (make_command command macid body_data (some s) timeinfo) 110 = 0 ∧
    parse_hex_param (make_command command macid body_data (some s) timeinfo) 118 = 0 := by
  have hcap : sampleset_capture_segments s < 4294967296 := by
    unfold sampleset_capture_segments
    split
    · decide
    · split
      · omega
      · decide
  have hcomb : sampleset_combined s < 4294967296 := by
    have := sampleset_combined_value s hmask
    omega
  have hdc : sampleset_dc_control s < 4294967296 := by
    unfold sampleset_dc_control
    split <;> decide
  have hbody : ∀ i, i < 78 →
      (make_command command macid body_data (some s) timeinfo).getD (46 + i) 0 =
        (encode_sampleset_body s).getD i 0 :=
    getD_make_command_sampleset command macid body_data s timeinfo hc
  have hpad : ∀ i, 87 ≤ i → i < 126 →
      (make_command command macid body_data (some s) timeinfo).getD i 0 = 0x30 :=
    getD_make_command_sampleset_pad command macid body_data s timeinfo hc
  refine ⟨?_, ?_, ?_, ?_, ?_, ?_, ?_, ?_, ?_, ?_⟩
  · apply parse_hex_param_of_getD _ 46 _ hcap
    intro k hk
    rw [hbody k (by omega), getD_encode_sampleset_body s k (by omega), if_pos hk,
      hex_padded_take8 _ hcap]
  · apply parse_hex_param_of_getD _ 54 _ hcomb
    intro k hk
    rw [show 54 + k = 46 + (8 + k) by omega, hbody (8 + k) (by omega),
      getD_encode_sampleset_body s (8 + k) (by omega), if_neg (by omega), if_pos (by omega),
      hex_padded_take8 _ hcomb, Nat.add_sub_cancel_left]
  · apply parse_hex_param_of_getD _ 62 _ hdc
    intro k hk
    rw [show 62 + k = 46 + (16 + k) by omega, hbody (16 + k) (by omega),
      getD_encode_sampleset_body s (16 + k) (by omega), if_neg (by omega), if_neg (by omega),
      if_pos (by omega), hex_padded_take8 _ hdc, Nat.add_sub_cancel_left]
  · apply parse_hex_param_of_getD _ 70 0 (by decide)
    intro k hk
    rw [show 70 + k = 46 + (24 + k) by omega, hbody (24 + k) (by omega),
      getD_encode_sampleset_body s (24 + k) (by omega), if_neg (by omega), if_neg (by omega),
      if_neg (by omega), if_pos (by omega), hex_padded_take8 0 (by decide),
      Nat.add_sub_cancel_left]
  · apply parse_hex_param_of_getD _ 78 0 (by decide)
    intro k hk
    rw [show 78 + k = 46 + (32 + k) by omega, hbody (32 + k) (by omega),
      getD_encode_sampleset_body s (32 + k) (by omega), if_neg (by omega), if_neg (by omega),
      if_neg (by omega), if_neg (by omega), if_pos (by omega), hex_padded_take8 0 (by decide),
      Nat.add_sub_cancel_left]
  · have hb : bytes_at (make_command command macid body_data (some s) timeinfo) 86 8 =
        [0, 48, 48, 48, 48, 48, 48, 48] := by
      apply bytes_at_eq_of_getD _ [0, 48, 48, 48, 48, 48, 48, 48] 86
      intro k hk
      rcases Nat.eq_zero_or_pos k with h0 | h0
      · subst h0
        rw [show 86 + 0 = 46 + 40 by rfl, hbody 40 (by omega),
          getD_encode_sampleset_body s 40 (by omega)]
        rfl
      · have hk8 : k < 8 := hk
        rw [hpad (86 + k) (by omega) (by omega)]
        have : k = 1 ∨ k = 2 ∨ k = 3 ∨ k = 4 ∨ k = 5 ∨ k = 6 ∨ k = 7 := by omega
        rcases this with e | e | e | e | e | e | e <;> (subst e; rfl)
    unfold parse_hex_param
    rw [hb]
    decide
  · exact parse_hex_param_padding _ 94 (fun k hk => hpad (94 + k) (by omega) (by omega))
  · exact parse_hex_param_padding _ 102 (fun k hk => hpad (102 + k) (by omega) (by omega))
  · exact parse_hex_param_padding _ 110 (fun k hk => hpad (110 + k) (by omega) (by omega))
  · exact parse_hex_param_padding _ 118 (fun k hk => hpad (118 + k) (by omega) (by omega))

/-- C14: for every sampleset (`sampling_mask` a `uint8_t`, `resolution + 15`
within `int`), decoding the `'R'` frame that `make_command` builds with that
sampleset yields opcode `'R'`, `command_params[0..4]` equal to the five words the
encoder formatted (capture segments; `channel_mask | decimation << 8 | 1 << 12`;
the DC-control word; 0; 0), `command_params[5..9] = 0`, and the decoded fields
`sample_capture_segments`, `sample_channel = sampling_mask`, `sample_decimation`,
`advanced_checksum = true`, `sample_tach_delay = 0`, `sample_dc_control` and
`sample_wakeup_delay = 0`. -/
theorem sampleset_frame_round_trip (macid : Nat) (body_data : Option (List Nat))
    (s : Sampleset) (timeinfo : Option BrokenDownTime)
    (hmask : s.sampling_mask < 256) (_hres : s.resolution + 15 < 2 ^ 31) :
    (parse_response (make_command 0x52 macid body_data (some s) timeinfo)).command_code = 0x52 ∧
    (parse_response (make_command 0x52 macid body_data (some s) timeinfo)).has_command_params
      = true ∧
    (parse_response (make_command 0x52 macid body_data (some s) timeinfo)).command_params =
      [sampleset_capture_segments s,
        s.sampling_mask ||| (sampleset_decimation s <<< 8) ||| (1 <<< 12),
        sampleset_dc_control s, 0, 0, 0, 0, 0, 0, 0] ∧
    (parse_response (make_command 0x52 macid body_data (some s) timeinfo)).sample_capture_segments
      = sampleset_capture_segments s ∧
    (parse_response (make_command 0x52 macid body_data (some s) timeinfo)).sample_channel =
      s.sampling_mask ∧
    (parse_response (make_command 0x52 macid body_data (some s) timeinfo)).sample_decimation =
      sampleset_decimation s ∧
    (parse_response (make_command 0x52 macid body_data (some s) timeinfo)).advanced_checksum
      = true ∧
    (parse_response (make_command 0x52 macid body_data (some s) timeinfo)).sample_tach_delay
      = 0 ∧
    (parse_response (make_command 0x52 macid body_data (some s) timeinfo)).sample_dc_control =
      sampleset_dc_control s ∧
    (parse_response (make_command 0x52 macid body_data (some s) timeinfo)).sample_wakeup_delay
      = 0 := by
  obtain ⟨-, -, h3, h4, h5, h6, h45⟩ :=
    getD_make_command_head 0x52 macid body_data (some s) timeinfo
  have hcode : (make_command 0x52 macid body_data (some s) timeinfo).getD 45 0 = 0x52 := h45
  have hdir := determine_direction_of_broadcast _
    ((make_command 0x52 macid body_data (some s) timeinfo).getD 45 0) h3 h4 h5 h6
  obtain ⟨q0, q1, q2, q3, q4, q5, q6, q7, q8⟩ := parse_response_params _ hdir (Or.inl hcode)
  obtain ⟨p0, p1, p2, p3, p4, p5, p6, p7, p8, p9⟩ :=
    sampleset_frame_params 0x52 macid body_data s timeinfo (Or.inl rfl) hmask
  obtain ⟨hval, hd1, hd15⟩ := sampleset_combined_value s hmask
  have hand4 : ∀ x : Nat, x &&& 0x0F = x % 16 := fun x => Nat.and_pow_two_sub_one_eq_mod x 4
  have hand1 : ∀ x : Nat, x &&& 0x01 = x % 2 := fun x => Nat.and_pow_two_sub_one_eq_mod x 1
  have hand16 : ∀ x : Nat, x &&& 0xFFFF = x % 65536 :=
    fun x => Nat.and_pow_two_sub_one_eq_mod x 16
  refine ⟨?_, q0, ?_, ?_, ?_, ?_, ?_, ?_, ?_, ?_⟩
  · rw [(parse_response_fields _).2.2.2.1, hcode]
  · rw [q1]
    show [parse_hex_param _ 46, parse_hex_param _ 54, parse_hex_param _ 62,
      parse_hex_param _ 70, parse_hex_param _ 78, parse_hex_param _ 86, parse_hex_param _ 94,
      parse_hex_param _ 102, parse_hex_param _ 110, parse_hex_param _ 118] = _
    rw [p0, p1, p2, p3, p4, p5, p6, p7, p8, p9]
    rfl
  · rw [q2, p0]
  · rw [q3, p1, and_255_eq_mod, hval]
    omega
  · rw [q4, p1, hand4, Nat.shiftRight_eq_div_pow, hval]
    omega
  · rw [q5, p1, hand1, Nat.shiftRight_eq_div_pow, hval]
    have : (4096 + 256 * sampleset_decimation s + s.sampling_mask) / 2 ^ 12 % 2 = 1 := by
      omega
    rw [this]
    rfl
  · rw [q6, p1, hand16, Nat.shiftRight_eq_div_pow, hval]
    omega
  · rw [q7, p2]
  · rw [q8, p3]
    rfl

/-- C14 at a sampleset with mask 3, decimation 4 and 1600 samples. -/
theorem sampleset_frame_round_trip_witness :
    (3 : Nat) < 256 ∧ (1600 : Int) + 15 < 2 ^ 31 ∧
    (parse_response (make_command 0x52 0x12345678 none
      (some { nodeid := 0x12345678, sampling_mask := 3, decimation_rounded := 4,
              resolution := 1600, ac_dc_flag := 1,
              interval := DoubleValue.finite 3600 }) none)).command_params =
      [100, 0x1403, 0, 0, 0, 0, 0, 0, 0, 0] :=
  ⟨by decide, by decide,
    (sampleset_frame_round_trip 0x12345678 none
      { nodeid := 0x12345678, sampling_mask := 3, decimation_rounded := 4,
        resolution := 1600, ac_dc_flag := 1,
        interval := DoubleValue.finite 3600 } none (by decide) (by decide)).2.2.1⟩

theorem getD_append_left_lt (a b : List Nat) (i : Nat) (h : i < a.length) :
    (a ++ b).getD i 0 = a.getD i 0 := List.getD_append _ _ _ _ h

theorem getD_append_right_add (a b : List Nat) (j : Nat) :
    (a ++ b).getD (a.length + j) 0 = b.getD j 0 := by
  rw [List.getD_append_right _ _ _ _ (by omega), Nat.add_sub_cancel_left]

theorem bytes_at_append_left (a b : List Nat) : bytes_at (a ++ b) 0 a.length = a := by
  apply bytes_at_eq_of_getD
  intro k hk
  rw [Nat.zero_add, getD_append_left_lt a b k hk]

theorem bytes_at_self (a : List Nat) : bytes_at a 0 a.length = a := by
  apply bytes_at_eq_of_getD
  intro k _
  rw [Nat.zero_add]

theorem be32_at_congr (f g : List Nat) (i j : Nat)
    (h : ∀ k, k < 4 → f.getD (i + k) 0 = g.getD (j + k) 0) : be32_at f i = be32_at g j := by
  unfold be32_at
  rw [h 1 (by omega), h 2 (by omega), h 3 (by omega)]
  have := h 0 (by omega)
  rw [Nat.add_zero, Nat.add_zero] at this
  rw [this]

theorem calculate_crc32_eq_reference (message : List Nat) (hbytes : ∀ b ∈ message, b < 256) :
    calculate_crc32 message = crc32_reference message := by
  have hlt := crc_reference_fold_lt message hbytes 0xFFFFFFFF (by decide)
  have h32 := crc_fold_eq_reference 32 (Or.inl rfl) message 0xFFFFFFFF
  have href : crc32_reference message =
      2 ^ 32 - 1 - message.foldl
        (fun crc byte => crc32_reference_shift^[8] (crc ^^^ byte)) 0xFFFFFFFF := by
    unfold crc32_reference
    exact xor_ones_eq_sub _ hlt
  unfold calculate_crc32 bit_not
  rw [h32, href]
  omega

theorem CalculateCRC32_eq_reference (ulong_bits : Nat) (hb : ulong_bits = 32 ∨ ulong_bits = 64)
    (message : List Nat) (hbytes : ∀ b ∈ message, b < 256) :
    be32_at (CalculateCRC32 ulong_bits message) 0 = crc32_reference message := by
  have hlt := crc_reference_fold_lt message hbytes 0xFFFFFFFF (by decide)
  have hf := crc_fold_eq_reference ulong_bits hb message 0xFFFFFFFF
  have href : crc32_reference message =
      2 ^ 32 - 1 - message.foldl
        (fun crc byte => crc32_reference_shift^[8] (crc ^^^ byte)) 0xFFFFFFFF := by
    unfold crc32_reference
    exact xor_ones_eq_sub _ hlt
  unfold CalculateCRC32
  simp only []
  rw [be32_of_word_bytes, hf, href]
  unfold bit_not
  rcases hb with e | e <;> subst e <;> omega

theorem length_CalculateCRC32 (ulong_bits : Nat) (message : List Nat) :
    (CalculateCRC32 ulong_bits message).length = 4 := rfl
theorem parse_push_config_fields (r : CommandResponse)
    (hcode : r.command_code = 0x44 ∨ r.command_code = 0x64)
    (hsrc : r.source_macid = BROADCAST_MAC) :
    (parse_push_config r).has_push_config = true ∧
    (parse_push_config r).config_packet = bytes_at r.data 46 38 ∧
    (parse_push_config r).config_target_macid = be32_at r.data 84 ∧
    (parse_push_config r).config_time_block = r.data.getD 88 0 ∧
    (parse_push_config r).config_crc32 = be32_at r.data 90 ∧
    (parse_push_config r).config_crc_valid =
      decide (calculate_crc32 (bytes_at r.data 46 44) = be32_at r.data 90) ∧
    ((r.data.getD 94 0 = 0xfa ∧ r.data.getD 95 0 = 0xde) →
      (parse_push_config r).rssi_threshold = r.data.getD 96 0 ∧
      (parse_push_config r).rssi_delay = r.data.getD 97 0 ∧
      (parse_push_config r).rssi_increment = r.data.getD 98 0 ∧
      (parse_push_config r).power_adjust = r.data.getD 99 0) := by
  unfold parse_push_config
  rw [if_neg (by omega), if_neg (fun h => h hsrc)]
  dsimp only
  refine ⟨?_, ?_, ?_, ?_, ?_, ?_, ?_⟩
  · rfl
  · split <;> rfl
  · split <;> rfl
  · split <;> rfl
  · split <;> rfl
  · split <;> rfl
  · intro hm
    rw [if_pos hm]
    exact ⟨rfl, rfl, rfl, rfl⟩

theorem parse_response_factor (data : List Nat) :
    ∃ R : CommandResponse, parse_response data = parse_push_config R ∧ R.data = data ∧
      R.command_code = data.getD 45 0 ∧ R.source_macid = be32_at data 3 := by
  unfold parse_response
  dsimp only
  refine ⟨_, rfl, ?_, ?_, ?_⟩
  · rw [(parse_upload_data_keeps _).1]
    dsimp only
    rw [(parse_command_params_keeps _).1]
    split <;> rfl
  · rw [(parse_upload_data_keeps _).2.2.2.2.2.1]
    dsimp only
    rw [(parse_command_params_keeps _).2.2.2.2.2]
    split <;> rfl
  · rw [(parse_upload_data_keeps _).2.2.1]
    dsimp only
    rw [(parse_command_params_keeps _).2.2.1]
    split <;> rfl

theorem parse_response_push_config (data : List Nat)
    (hcode : data.getD 45 0 = 0x44 ∨ data.getD 45 0 = 0x64)
    (hsrc : be32_at data 3 = BROADCAST_MAC) :
    (parse_response data).has_push_config = true ∧
    (parse_response data).config_packet = bytes_at data 46 38 ∧
    (parse_response data).config_target_macid = be32_at data 84 ∧
    (parse_response data).config_time_block = data.getD 88 0 ∧
    (parse_response data).config_crc32 = be32_at data 90 ∧
    (parse_response data).config_crc_valid =
      decide (calculate_crc32 (bytes_at data 46 44) = be32_at data 90) ∧
    ((data.getD 94 0 = 0xfa ∧ data.getD 95 0 = 0xde) →
      (parse_response data).rssi_threshold = data.getD 96 0 ∧
      (parse_response data).rssi_delay = data.getD 97 0 ∧
      (parse_response data).rssi_increment = data.getD 98 0 ∧
      (parse_response data).power_adjust = data.getD 99 0) := by
  obtain ⟨R, hR, hd, hc, hs⟩ := parse_response_factor data
  rw [hR]
  have key := parse_push_config_fields R (by rw [hc]; exact hcode) (hs.trans hsrc)
  rw [hd] at key
  exact key
theorem BuildConfigPacket_eq (ulong_bits : Nat) (config_data : List Nat)
    (macid time_block r1 r2 r3 r4 : Nat) (hlen : config_data.length = 38) :
    BuildConfigPacket ulong_bits config_data macid time_block r1 r2 r3 r4 =
      (config_data ++ mac_bytes macid ++ [(time_block >>> 7) % 256, (time_block >>> 7) % 256]) ++
        (CalculateCRC32 ulong_bits
          (config_data ++ mac_bytes macid ++
            [(time_block >>> 7) % 256, (time_block >>> 7) % 256]) ++
          ([0xfa, 0xde, r1, r2, r3, r4] ++ List.replicate 26 0)) := by
  unfold BuildConfigPacket
  dsimp only
  have hb : bytes_at config_data 0 NEW_CONFIG_LENGTH = config_data := by
    have := bytes_at_self config_data
    rw [hlen] at this
    exact this
  rw [hb]
  have hcrc : ∀ l : List Nat, l.length = 4 → [l.getD 0 0, l.getD 1 0, l.getD 2 0, l.getD 3 0] = l := by
    intro l hl
    match l, hl with
    | [a, b, c, d], _ => rfl
  rw [hcrc _ (length_CalculateCRC32 _ _)]
  have hn : PARAM_SEND_WORDS * 8 -
      (config_data ++ mac_bytes macid ++ [(time_block >>> 7) % 256, (time_block >>> 7) % 256] ++
        CalculateCRC32 ulong_bits
          (config_data ++ mac_bytes macid ++
            [(time_block >>> 7) % 256, (time_block >>> 7) % 256]) ++
        [0xfa, 0xde, r1, r2, r3, r4]).length = 26 := by
    simp only [List.length_append, hlen, length_mac_bytes, length_CalculateCRC32,
      List.length_cons, List.length_nil]
    rfl
  rw [hn]
  simp only [List.append_assoc]

theorem broadcast_frame_getD_body (config_packet : List Nat) (i : Nat) (hi : i < 80) :
    ([0x74, 0x53, 1, 0xff, 0xff, 0xff, 0xff] ++ List.replicate 6 0x30 ++
        List.replicate 32 0x30 ++ [CMD_DATA_RESPONSE] ++ bytes_at config_packet 0 80 ++
        [0x75, 0x50]).getD (46 + i) 0 = config_packet.getD i 0 := by
  have hpre : ([0x74, 0x53, 1, 0xff, 0xff, 0xff, 0xff] ++ List.replicate 6 0x30 ++
      List.replicate 32 0x30 ++ [CMD_DATA_RESPONSE]).length = 46 := rfl
  rw [getD_append_left_lt _ _ _ (by
    rw [List.length_append, hpre, length_bytes_at]
    omega)]
  have := getD_append_right_add ([0x74, 0x53, 1, 0xff, 0xff, 0xff, 0xff] ++
    List.replicate 6 0x30 ++ List.replicate 32 0x30 ++ [CMD_DATA_RESPONSE])
    (bytes_at config_packet 0 80) i
  rw [hpre] at this
  rw [this, getD_bytes_at, if_pos hi, Nat.zero_add]

theorem broadcast_frame_getD_head (config_packet : List Nat) (i : Nat) (hi : i < 46) :
    ([0x74, 0x53, 1, 0xff, 0xff, 0xff, 0xff] ++ List.replicate 6 0x30 ++
        List.replicate 32 0x30 ++ [CMD_DATA_RESPONSE] ++ bytes_at config_packet 0 80 ++
        [0x75, 0x50]).getD i 0 =
      ([0x74, 0x53, 1, 0xff, 0xff, 0xff, 0xff] ++ List.replicate 6 0x30 ++
        List.replicate 32 0x30 ++ [CMD_DATA_RESPONSE]).getD i 0 := by
  have hpre : ([0x74, 0x53, 1, 0xff, 0xff, 0xff, 0xff] ++ List.replicate 6 0x30 ++
      List.replicate 32 0x30 ++ [CMD_DATA_RESPONSE]).length = 46 := rfl
  rw [getD_append_left_lt _ _ _ (by
    rw [List.length_append, hpre, length_bytes_at]
    omega), getD_append_left_lt _ _ _ (by rw [hpre]; exact hi)]
/-- C12: for every target MAC (32 bits), time block, 38-byte blob and four
RSSI bytes, `BuildConfigPacket` followed by `BuildBroadcastCommand` returns a
128-byte frame, and decoding that frame yields `has_push_config = true`,
`config_packet` equal to the blob byte for byte, `config_target_macid` equal to
the MAC, the four RSSI bytes, and `config_crc_valid = true` (for a 32-bit and
for a 64-bit `unsigned long` in the encoder's CRC routine). -/
theorem push_config_round_trip (ulong_bits : Nat) (config_data : List Nat)
    (macid time_block r1 r2 r3 r4 : Nat) (hbits : ulong_bits = 32 ∨ ulong_bits = 64)
    (hlen : config_data.length = 38) (hbytes : ∀ b ∈ config_data, b < 256)
    (hmac : macid < 2 ^ 32) :
    ∃ frame,
      BuildBroadcastCommand
        (BuildConfigPacket ulong_bits config_data macid time_block r1 r2 r3 r4) 80 = some frame ∧
      frame.length = 128 ∧
      (parse_response frame).has_push_config = true ∧
      (parse_response frame).config_packet = config_data ∧
      (parse_response frame).config_target_macid = macid ∧
      (parse_response frame).rssi_threshold = r1 ∧
      (parse_response frame).rssi_delay = r2 ∧
      (parse_response frame).rssi_increment = r3 ∧
      (parse_response frame).power_adjust = r4 ∧
      (parse_response frame).config_crc_valid = true := by
  refine ⟨_, BuildBroadcastCommand_some _, ?_⟩
  have hcp := BuildConfigPacket_eq ulong_bits config_data macid time_block r1 r2 r3 r4 hlen
  generalize hmsg : config_data ++ mac_bytes macid ++
    [(time_block >>> 7) % 256, (time_block >>> 7) % 256] = msg at hcp
  have hmsglen : msg.length = 44 := by
    rw [← hmsg]
    simp only [List.length_append, hlen, length_mac_bytes, List.length_cons, List.length_nil]
  have hmsgbytes : ∀ b ∈ msg, b < 256 := by
    intro b hb
    rw [← hmsg] at hb
    simp only [List.mem_append, List.mem_cons, List.mem_singleton, List.not_mem_nil,
      or_false] at hb
    rcases hb with (hb | hb) | hb
    · exact hbytes b hb
    · unfold mac_bytes at hb
      simp only [List.mem_cons, List.mem_singleton, List.not_mem_nil, or_false] at hb
      rcases hb with e | e | e | e <;>
        (rw [e, and_255_eq_mod]; exact Nat.mod_lt _ (by decide))
    · rcases hb with e | e <;> (rw [e]; exact Nat.mod_lt _ (by decide))
  generalize hcpn : BuildConfigPacket ulong_bits config_data macid time_block r1 r2 r3 r4 = cp
    at hcp
  -- bytes of the 80-byte packet
  have cp_msg : ∀ k, k < 44 → cp.getD k 0 = msg.getD k 0 := by
    intro k hk
    rw [hcp, getD_append_left_lt _ _ _ (by omega)]
  have cp_crc : ∀ k, k < 4 → cp.getD (44 + k) 0 = (CalculateCRC32 ulong_bits msg).getD k 0 := by
    intro k hk
    have := getD_append_right_add msg
      (CalculateCRC32 ulong_bits msg ++ ([0xfa, 0xde, r1, r2, r3, r4] ++ List.replicate 26 0)) k
    rw [hmsglen] at this
    rw [hcp, this, getD_append_left_lt _ _ _ (by rw [length_CalculateCRC32]; exact hk)]
  have cp_rssi : ∀ k, k < 6 → cp.getD (48 + k) 0 = [0xfa, 0xde, r1, r2, r3, r4].getD k 0 := by
    intro k hk
    have h1 := getD_append_right_add msg
      (CalculateCRC32 ulong_bits msg ++ ([0xfa, 0xde, r1, r2, r3, r4] ++ List.replicate 26 0))
      (4 + k)
    rw [hmsglen] at h1
    have h2 := getD_append_right_add (CalculateCRC32 ulong_bits msg)
      ([0xfa, 0xde, r1, r2, r3, r4] ++ List.replicate 26 0) k
    rw [length_CalculateCRC32] at h2
    rw [hcp, show 48 + k = 44 + (4 + k) by omega, h1, h2,
      getD_append_left_lt _ _ _ (by simpa using hk)]
  have msg_blob : ∀ k, k < 38 → msg.getD k 0 = config_data.getD k 0 := by
    intro k hk
    rw [← hmsg, List.append_assoc, getD_append_left_lt _ _ _ (by omega)]
  have msg_mac : ∀ k, k < 4 → msg.getD (38 + k) 0 = (mac_bytes macid).getD k 0 := by
    intro k hk
    have := getD_append_right_add config_data
      (mac_bytes macid ++ [(time_block >>> 7) % 256, (time_block >>> 7) % 256]) k
    rw [hlen] at this
    rw [← hmsg, List.append_assoc, this,
      getD_append_left_lt _ _ _ (by rw [length_mac_bytes]; exact hk)]
  generalize hfr : ([0x74, 0x53, 1, 0xff, 0xff, 0xff, 0xff] ++ List.replicate 6 0x30 ++
      List.replicate 32 0x30 ++ [CMD_DATA_RESPONSE] ++ bytes_at cp 0 80 ++ [0x75, 0x50]) = frame
  have fr_body : ∀ i, i < 80 → frame.getD (46 + i) 0 = cp.getD i 0 := by
    intro i hi
    rw [← hfr]
    exact broadcast_frame_getD_body cp i hi
  have fr_head : ∀ i, i < 46 → frame.getD i 0 =
      ([0x74, 0x53, 1, 0xff, 0xff, 0xff, 0xff] ++ List.replicate 6 0x30 ++
        List.replicate 32 0x30 ++ [CMD_DATA_RESPONSE]).getD i 0 := by
    intro i hi
    rw [← hfr]
    exact broadcast_frame_getD_head cp i hi
  have hcode : frame.getD 45 0 = 0x44 := by
    rw [fr_head 45 (by omega)]
    rfl
  have hsrc : be32_at frame 3 = BROADCAST_MAC := by
    unfold be32_at
    rw [fr_head 3 (by omega), fr_head (3 + 1) (by omega), fr_head (3 + 2) (by omega),
      fr_head (3 + 3) (by omega)]
    rfl
  obtain ⟨q0, q1, q2, -, -, q5, q6⟩ := parse_response_push_config frame (Or.inl hcode) hsrc
  have hmarker : frame.getD 94 0 = 0xfa ∧ frame.getD 95 0 = 0xde := by
    constructor
    · rw [show 94 = 46 + 48 by rfl, fr_body 48 (by omega), cp_rssi 0 (by omega)]
      rfl
    · rw [show 95 = 46 + 49 by rfl, fr_body 49 (by omega), cp_rssi 1 (by omega)]
      rfl
  obtain ⟨t1, t2, t3, t4⟩ := q6 hmarker
  have hslice : bytes_at frame 46 44 = msg := by
    have := bytes_at_eq_of_getD frame msg 46 (by
      intro k hk
      rw [hmsglen] at hk
      rw [fr_body k (by omega), cp_msg k hk])
    rw [hmsglen] at this
    exact this
  refine ⟨?_, q0, ?_, ?_, ?_, ?_, ?_, ?_, ?_⟩
  · rw [← hfr]
    simp only [List.length_append, List.length_replicate, List.length_cons, List.length_nil,
      length_bytes_at]
  · rw [q1]
    have := bytes_at_eq_of_getD frame config_data 46 (by
      intro k hk
      rw [hlen] at hk
      rw [fr_body k (by omega), cp_msg k (by omega), msg_blob k hk])
    rw [hlen] at this
    exact this
  · rw [q2, be32_at_congr frame (mac_bytes macid) 84 0 (by
      intro k hk
      rw [show 84 + k = 46 + (38 + k) by omega, fr_body (38 + k) (by omega),
        cp_msg (38 + k) (by omega), msg_mac k hk, Nat.zero_add])]
    unfold mac_bytes
    rw [be32_of_word_bytes, Nat.mod_eq_of_lt hmac]
  · rw [t1, show 96 = 46 + 50 by rfl, fr_body 50 (by omega), cp_rssi 2 (by omega)]
    rfl
  · rw [t2, show 97 = 46 + 51 by rfl, fr_body 51 (by omega), cp_rssi 3 (by omega)]
    rfl
  · rw [t3, show 98 = 46 + 52 by rfl, fr_body 52 (by omega), cp_rssi 4 (by omega)]
    rfl
  · rw [t4, show 99 = 46 + 53 by rfl, fr_body 53 (by omega), cp_rssi 5 (by omega)]
    rfl
  · rw [q5, hslice, calculate_crc32_eq_reference msg hmsgbytes,
      be32_at_congr frame (CalculateCRC32 ulong_bits msg) 90 0 (by
        intro k hk
        rw [show 90 + k = 46 + (44 + k) by omega, fr_body (44 + k) (by omega), cp_crc k hk,
          Nat.zero_add]),
      CalculateCRC32_eq_reference ulong_bits hbits msg hmsgbytes]
    exact decide_eq_true rfl

/-- C12 at the blob `0, 1, .., 37`, MAC `0x12345678`, time block 300 and RSSI
bytes 10, 20, 30, 40. -/
theorem push_config_round_trip_witness :
    (List.range 38).length = 38 ∧ (∀ b ∈ List.range 38, b < 256) ∧
    (0x12345678 : Nat) < 2 ^ 32 ∧
    ∃ frame,
      BuildBroadcastCommand
        (BuildConfigPacket 64 (List.range 38) 0x12345678 300 10 20 30 40) 80 = some frame ∧
      frame.length = 128 ∧
      (parse_response frame).has_push_config = true ∧
      (parse_response frame).config_packet = List.range 38 ∧
      (parse_response frame).config_target_macid = 0x12345678 ∧
      (parse_response frame).rssi_threshold = 10 ∧
      (parse_response frame).rssi_delay = 20 ∧
      (parse_response frame).rssi_increment = 30 ∧
      (parse_response frame).power_adjust = 40 ∧
      (parse_response frame).config_crc_valid = true :=
  ⟨by decide, by decide, by decide,
    push_config_round_trip 64 (List.range 38) 0x12345678 300 10 20 30 40 (Or.inr rfl)
      (by decide) (by decide) (by decide)⟩

theorem getD_read_frame (IBUF_MASK : Nat) (r : Ring) (i : Nat) (hi : i < 128) :
    (read_frame IBUF_MASK r).getD i 0 = r.ibuf.getD ((r.ocnt + i) &&& IBUF_MASK) 0 := by
  unfold read_frame
  rw [List.getD_eq_getElem?_getD, List.getElem?_map, List.getElem?_range hi]
  rfl

/-- C20: with a ring of `2 ^ k` bytes (`IBUF_MAX = 2 ^ k`, `IBUF_MASK = 2 ^ k - 1`)
and `CLENG = 128`, `go_main` leaves the ring unchanged and dispatches nothing
when fewer than 128 bytes are buffered; with at least 128 bytes buffered, if
the bytes at read offsets 0, 1 are `0x74`, `0x53` and at offsets 126, 127 are
`0x75`, `0x50`, the 128 bytes at the read index are decoded with
`packet_valid = true`, the decoded frame is dispatched to the session and the
read index advances by 128 modulo the ring size; otherwise no frame is
dispatched and the read index advances by 1 modulo the ring size. The buffer
and the write index never change. -/
theorem go_main_frame_dispatch (k IBUF_MAX IBUF_MASK CLENG : Nat) (r : Ring)
    (hmax : IBUF_MAX = 2 ^ k) (hmask : IBUF_MASK = 2 ^ k - 1) (hcleng : CLENG = 128) :
    (get_ibuf_count IBUF_MAX r < 128 → go_main IBUF_MAX IBUF_MASK CLENG r = (r, none)) ∧
    (128 ≤ get_ibuf_count IBUF_MAX r →
      (r.ibuf.getD ((r.ocnt + 0) % IBUF_MAX) 0 = 0x74 ∧
        r.ibuf.getD ((r.ocnt + 1) % IBUF_MAX) 0 = 0x53 ∧
        r.ibuf.getD ((r.ocnt + 126) % IBUF_MAX) 0 = 0x75 ∧
        r.ibuf.getD ((r.ocnt + 127) % IBUF_MAX) 0 = 0x50) →
      (go_main IBUF_MAX IBUF_MASK CLENG r).2 = some (parse_response (read_frame IBUF_MASK r)) ∧
      (parse_response (read_frame IBUF_MASK r)).packet_valid = true ∧
      (∀ i, i < 128 → (parse_response (read_frame IBUF_MASK r)).data.getD i 0 =
        r.ibuf.getD ((r.ocnt + i) % IBUF_MAX) 0) ∧
      (go_main IBUF_MAX IBUF_MASK CLENG r).1 =
        { r with ocnt := (r.ocnt + 128) % IBUF_MAX }) ∧
    (128 ≤ get_ibuf_count IBUF_MAX r →
      ¬ (r.ibuf.getD ((r.ocnt + 0) % IBUF_MAX) 0 = 0x74 ∧
        r.ibuf.getD ((r.ocnt + 1) % IBUF_MAX) 0 = 0x53 ∧
        r.ibuf.getD ((r.ocnt + 126) % IBUF_MAX) 0 = 0x75 ∧
        r.ibuf.getD ((r.ocnt + 127) % IBUF_MAX) 0 = 0x50) →
      (go_main IBUF_MAX IBUF_MASK CLENG r).2 = none ∧
      (go_main IBUF_MAX IBUF_MASK CLENG r).1 = { r with ocnt := (r.ocnt + 1) % IBUF_MAX }) := by
  subst hmax hmask hcleng
  have hand : ∀ x : Nat, x &&& (2 ^ k - 1) = x % 2 ^ k :=
    fun x => Nat.and_pow_two_sub_one_eq_mod x k
  have hhdr : is_valid_command_header (2 ^ k - 1) 128 r = true ↔
      (r.ibuf.getD ((r.ocnt + 0) % 2 ^ k) 0 = 0x74 ∧
        r.ibuf.getD ((r.ocnt + 1) % 2 ^ k) 0 = 0x53 ∧
        r.ibuf.getD ((r.ocnt + 126) % 2 ^ k) 0 = 0x75 ∧
        r.ibuf.getD ((r.ocnt + 127) % 2 ^ k) 0 = 0x50) := by
    unfold is_valid_command_header make_pointer
    simp only [hand, Nat.add_zero]
    constructor
    · intro h
      split_ifs at h with h1 h2 h3 h4
      exact ⟨not_not.mp h1, not_not.mp h2, not_not.mp h3, not_not.mp h4⟩
    · rintro ⟨h1, h2, h3, h4⟩
      rw [if_neg (not_not.mpr h1), if_neg (not_not.mpr h2), if_neg (not_not.mpr h3),
        if_neg (not_not.mpr h4)]
  refine ⟨?_, ?_, ?_⟩
  · intro hlt
    unfold go_main
    dsimp only
    rw [if_pos (by exact_mod_cast hlt)]
  · intro hge hm
    have hvalid : (parse_response (read_frame (2 ^ k - 1) r)).packet_valid = true := by
      rw [(parse_response_fields _).2.1, getD_read_frame _ _ 0 (by omega),
        getD_read_frame _ _ 1 (by omega), getD_read_frame _ _ 126 (by omega),
        getD_read_frame _ _ 127 (by omega), hand, hand, hand, hand]
      exact decide_eq_true hm
    unfold go_main
    dsimp only
    rw [if_neg (by
      have : ((128 : Nat) : Int) = 128 := rfl
      rw [this]
      omega), if_pos (hhdr.mpr hm), if_pos hvalid]
    refine ⟨rfl, hvalid, ?_, ?_⟩
    · intro i hi
      rw [(parse_response_fields _).1, getD_read_frame _ _ i hi, hand]
    · unfold move_buffer
      rw [hand]
  · intro hge hm
    have hnot : ¬ is_valid_command_header (2 ^ k - 1) 128 r = true := fun h => hm (hhdr.mp h)
    unfold go_main
    dsimp only
    rw [if_neg (by
      have : ((128 : Nat) : Int) = 128 := rfl
      rw [this]
      omega), if_neg hnot]
    refine ⟨rfl, ?_⟩
    unfold move_buffer
    rw [hand]

/-- C20 at a ring of 256 bytes that holds one erase frame at read index 200
(the frame wraps around the end of the ring). -/
theorem go_main_frame_dispatch_witness :
    (256 : Nat) = 2 ^ 8 ∧ (255 : Nat) = 2 ^ 8 - 1 ∧ (128 : Nat) = 128 ∧
    (go_main 256 255 128
      { ibuf := (make_erase_command 5).drop 56 ++ List.replicate 128 0 ++
          (make_erase_command 5).take 56,
        icnt := 72, ocnt := 200 }).1.ocnt = 72 :=
  ⟨by decide, by decide, rfl,
    congrArg Ring.ocnt
      ((go_main_frame_dispatch 8 256 255 128
        { ibuf := (make_erase_command 5).drop 56 ++ List.replicate 128 0 ++
            (make_erase_command 5).take 56,
          icnt := 72, ocnt := 200 } (by decide) (by decide) rfl).2.1
        (by decide) (by decide)).2.2.2⟩

/-- C11 on the code: `process` tests `command_code == CMD_ACK_INIT` before it
looks at the session state, so an ack-init frame that carries header info with
non-zero `data_control_bits` is handled by `handle_r_command_response` also in
`STATE_DATA_UPLOAD_ACTIVE` and `STATE_DATA_UPLOAD_RETRY`: the session state
becomes `STATE_DATA_UPLOAD_INIT`, the pending-upload record is overwritten and
marked valid and `current_macid` is set to the frame's source, while no frame
leaves the session as it is. On the sample session at instant 1050 a tick
without a frame changes nothing and the session stays in
`STATE_DATA_UPLOAD_ACTIVE` at instant 1130; a tick with the sample ack-init
frame ends in `STATE_DATA_UPLOAD_INIT` with a valid pending record of 1024
samples, and the next tick at instant 1130 ends in `STATE_ERROR`. -/
theorem ack_init_during_upload_not_ignored :
    (∀ (s : SessionManager) (response : CommandResponse) (now : Nat),
      s.monitor_mode = false →
      (s.state_tracker.current_state = SessionState.STATE_DATA_UPLOAD_ACTIVE ∨
        s.state_tracker.current_state = SessionState.STATE_DATA_UPLOAD_RETRY) →
      response.command_code = 0x31 → response.has_header_info = true →
      response.header_data_control_bits ≠ 0 →
      (s.process_response (some response) now).state_tracker.current_state =
        SessionState.STATE_DATA_UPLOAD_INIT ∧
      (s.process_response (some response) now).upload_coord.pending_upload_response_valid
        = true ∧
      (s.process_response (some response) now).upload_coord.pending_upload_response
        = response ∧
      (s.process_response (some response) now).upload_coord.pending_upload_data_length =
        ((response.header_descriptor &&& 0xFF) + 1) * 256 ∧
      (s.process_response (some response) now).current_macid = response.source_macid ∧
      (s.process_response (some response) now).upload_coord.upload_mgr =
        s.upload_coord.upload_mgr ∧
      s.process_response none now = s) ∧
    (parse_response sample_ack_init_frame).command_code = 0x31 ∧
    (parse_response sample_ack_init_frame).packet_valid = true ∧
    (parse_response sample_ack_init_frame).has_header_info = true ∧
    (parse_response sample_ack_init_frame).header_data_control_bits = 1 ∧
    sample_upload_session.state_tracker.current_state =
      SessionState.STATE_DATA_UPLOAD_ACTIVE ∧
    sample_upload_session.process none 1050 = some sample_upload_session ∧
    ((sample_upload_session.process none 1050).bind
      (fun s => s.process none 1130)).map (fun s => s.state_tracker.current_state) =
        some SessionState.STATE_DATA_UPLOAD_ACTIVE ∧
    (sample_upload_session.process (some (parse_response sample_ack_init_frame)) 1050).map
      (fun s => (s.state_tracker.current_state, s.upload_coord.pending_upload_response_valid,
        s.upload_coord.pending_upload_data_length)) =
      some (SessionState.STATE_DATA_UPLOAD_INIT, true, 1024) ∧
    ((sample_upload_session.process (some (parse_response sample_ack_init_frame)) 1050).bind
      (fun s => s.process none 1130)).map (fun s => s.state_tracker.current_state) =
        some SessionState.STATE_ERROR := by
  refine ⟨?_, by decide, by decide, by decide, by decide, by decide, by decide, by decide,
    by decide, by decide⟩
  intro s response now hmon hstate hcode hhdr hbits
  have hne : s.state_tracker.current_state ≠ SessionState.STATE_COMMAND_SEQUENCE := by
    rcases hstate with h | h <;> (rw [h]; decide)
  have hneinit : SessionState.STATE_DATA_UPLOAD_INIT ≠ s.state_tracker.current_state := by
    rcases hstate with h | h <;> (rw [h]; decide)
  have hcode2 : response.command_code = CMD_ACK_INIT := hcode
  have hh : s.upload_coord.handle_r_command_response response s.state_tracker =
      ({ s.upload_coord with
          r_command_received_ack := true
          pending_upload_data_length :=
            UploadManager.decode_data_length_from_descriptor response.header_descriptor
          pending_upload_response := response
          pending_upload_response_valid := true },
        { s.state_tracker with current_state := SessionState.STATE_DATA_UPLOAD_INIT }) := by
    unfold UploadCoordinator.handle_r_command_response
    rw [if_pos hhdr]
    dsimp only
    rw [if_pos hbits]
    unfold SessionStateTracker.transition_state
    rw [if_pos hneinit]
  have hp : s.process_response (some response) now =
      { s with
        upload_coord :=
          { s.upload_coord with
            r_command_received_ack := true
            pending_upload_data_length :=
              UploadManager.decode_data_length_from_descriptor response.header_descriptor
            pending_upload_response := response
            pending_upload_response_valid := true }
        state_tracker :=
          { s.state_tracker with current_state := SessionState.STATE_DATA_UPLOAD_INIT }
        node_list := SessionManager.mark_data_ready s.node_list response.source_macid
        current_macid := response.source_macid } := by
    unfold SessionManager.process_response
    rw [hmon]
    simp only [Bool.false_eq_true, if_false]
    rw [if_pos hcode2, hh]
    dsimp only
    rw [if_neg hne]
    unfold UploadCoordinator.has_pending_upload
    simp only [if_true]
  refine ⟨?_, ?_, ?_, ?_, ?_, ?_, ?_⟩
  · rw [hp]
  · rw [hp]
  · rw [hp]
  · rw [hp]
    rfl
  · rw [hp]
  · rw [hp]
  · unfold SessionManager.process_response
    rw [hmon]
    rfl

theorem parse_command_params_keeps_header (r : CommandResponse) :
    (parse_command_params r).header_data_control_bits = r.header_data_control_bits ∧
    (parse_command_params r).header_descriptor = r.header_descriptor ∧
    (parse_command_params r).descriptor_length_code = r.descriptor_length_code ∧
    (parse_command_params r).descriptor_sample_length = r.descriptor_sample_length := by
  unfold parse_command_params
  split
  · exact ⟨rfl, rfl, rfl, rfl⟩
  · dsimp only
    split <;> exact ⟨rfl, rfl, rfl, rfl⟩

theorem parse_upload_data_keeps_header (r : CommandResponse) :
    (parse_upload_data r).header_data_control_bits = r.header_data_control_bits ∧
    (parse_upload_data r).header_descriptor = r.header_descriptor ∧
    (parse_upload_data r).descriptor_length_code = r.descriptor_length_code ∧
    (parse_upload_data r).descriptor_sample_length = r.descriptor_sample_length := by
  unfold parse_upload_data
  split
  · exact ⟨rfl, rfl, rfl, rfl⟩
  · dsimp only
    split
    · exact ⟨rfl, rfl, rfl, rfl⟩
    · split
      · exact ⟨rfl, rfl, rfl, rfl⟩
      · split <;> exact ⟨rfl, rfl, rfl, rfl⟩

theorem parse_push_config_keeps_header (r : CommandResponse) :
    (parse_push_config r).header_data_control_bits = r.header_data_control_bits ∧
    (parse_push_config r).header_descriptor = r.header_descriptor ∧
    (parse_push_config r).descriptor_length_code = r.descriptor_length_code ∧
    (parse_push_config r).descriptor_sample_length = r.descriptor_sample_length := by
  unfold parse_push_config
  split
  · exact ⟨rfl, rfl, rfl, rfl⟩
  · split
    · exact ⟨rfl, rfl, rfl, rfl⟩
    · dsimp only
      split <;> exact ⟨rfl, rfl, rfl, rfl⟩

/-- The header members that `parse_response` fills when header info is present. -/
theorem parse_response_header_fields (data : List Nat)
    (h : (parse_response data).has_header_info = true) :
    (parse_response data).header_data_control_bits = data.getD 19 0 ∧
    (parse_response data).header_descriptor = (data.getD 24 0 <<< 8) ||| data.getD 25 0 ∧
    (parse_response data).descriptor_length_code =
      ((data.getD 24 0 <<< 8) ||| data.getD 25 0) &&& 0xFF ∧
    (parse_response data).descriptor_sample_length =
      ((((data.getD 24 0 <<< 8) ||| data.getD 25 0) &&& 0xFF) + 1) * 256 := by
  have hh := (parse_response_fields data).2.2.2.2.2.1
  rw [h] at hh
  unfold parse_response
  dsimp only
  refine ⟨?_, ?_, ?_, ?_⟩
  · rw [(parse_push_config_keeps_header _).1]
    dsimp only
    rw [(parse_upload_data_keeps_header _).1]
    dsimp only
    rw [(parse_command_params_keeps_header _).1, if_pos hh.symm]
  · rw [(parse_push_config_keeps_header _).2.1]
    dsimp only
    rw [(parse_upload_data_keeps_header _).2.1]
    dsimp only
    rw [(parse_command_params_keeps_header _).2.1, if_pos hh.symm]
  · rw [(parse_push_config_keeps_header _).2.2.1]
    dsimp only
    rw [(parse_upload_data_keeps_header _).2.2.1]
    dsimp only
    rw [(parse_command_params_keeps_header _).2.2.1, if_pos hh.symm]
  · rw [(parse_push_config_keeps_header _).2.2.2]
    dsimp only
    rw [(parse_upload_data_keeps_header _).2.2.2]
    dsimp only
    rw [(parse_command_params_keeps_header _).2.2.2, if_pos hh.symm]

theorem start_full_upload_total (m : UploadManager) (macid start_addr num_samples : Nat)
    (triggering_resp : Option (List Nat)) (now : Nat)
    (hidle : m.current_state = UploadState.UPLOAD_IDLE) :
    (m.start_full_upload macid start_addr num_samples triggering_resp now).1 = true ∧
    (m.start_full_upload macid start_addr num_samples triggering_resp now).2.segment_tracker.get_total_count
      = (((num_samples + 32 - 1) % 4294967296 / 32 : Nat) : Int) := by
  unfold UploadManager.start_full_upload
  rw [if_neg (fun h => h hidle)]
  dsimp only
  refine ⟨rfl, ?_⟩
  unfold UploadManager.transition_state
  cases triggering_resp <;> (dsimp only; split <;> rfl)

/-- C21: for every descriptor `d` (in particular every 16-bit one),
`UploadManager::decode_data_length_from_descriptor(d)` and the
`descriptor_sample_length` of `decode_descriptor`, also as `parse_response`
stores it for a frame with header info, equal `((d & 0xFF) + 1) * 256`; the
upload session that an idle manager starts from that length, directly or
through `handle_r_command_response` and `process_upload_init`, is accepted and
has `total_count = ((d & 0xFF) + 1) * 8`, which lies between 8 and 2048. -/
theorem descriptor_length_and_segment_count (d : Nat) :
    UploadManager.decode_data_length_from_descriptor d = ((d &&& 0xFF) + 1) * 256 ∧
    (decode_descriptor d).descriptor_sample_length = ((d &&& 0xFF) + 1) * 256 ∧
    (∀ data : List Nat, (parse_response data).has_header_info = true →
      (parse_response data).header_descriptor = d →
      (parse_response data).descriptor_sample_length = ((d &&& 0xFF) + 1) * 256) ∧
    (∀ (m : UploadManager) (macid start_addr : Nat) (triggering_resp : Option (List Nat))
        (now : Nat), m.current_state = UploadState.UPLOAD_IDLE →
      (m.start_full_upload macid start_addr
        (UploadManager.decode_data_length_from_descriptor d) triggering_resp now).1 = true ∧
      (m.start_full_upload macid start_addr
        (UploadManager.decode_data_length_from_descriptor d) triggering_resp
          now).2.segment_tracker.get_total_count = (((d &&& 0xFF) + 1) * 8 : Nat)) ∧
    (∀ (c : UploadCoordinator) (response : CommandResponse) (t : SessionStateTracker)
        (send_time macid now : Nat),
      c.upload_mgr.current_state = UploadState.UPLOAD_IDLE →
      response.has_header_info = true → response.header_data_control_bits ≠ 0 →
      response.header_descriptor = d →
      ((c.handle_r_command_response response t).1.process_upload_init
        (c.handle_r_command_response response t).2 send_time macid
          now).1.upload_mgr.segment_tracker.get_total_count = (((d &&& 0xFF) + 1) * 8 : Nat)) ∧
    8 ≤ ((d &&& 0xFF) + 1) * 8 ∧ ((d &&& 0xFF) + 1) * 8 ≤ 2048 := by
  have hlow : d &&& 0xFF < 256 := by
    rw [and_255_eq_mod]
    exact Nat.mod_lt _ (by decide)
  have hdec : UploadManager.decode_data_length_from_descriptor d = ((d &&& 0xFF) + 1) * 256 :=
    rfl
  have hseg : (((d &&& 0xFF) + 1) * 256 + 32 - 1) % 4294967296 / 32 = ((d &&& 0xFF) + 1) * 8 := by
    generalize d &&& 0xFF = l at hlow
    omega
  refine ⟨hdec, rfl, ?_, ?_, ?_, by omega, by omega⟩
  · intro data h hd
    rw [(parse_response_header_fields data h).2.2.2, ← hd,
      (parse_response_header_fields data h).2.1]
  · intro m macid start_addr triggering_resp now hidle
    obtain ⟨h1, h2⟩ := start_full_upload_total m macid start_addr
      (UploadManager.decode_data_length_from_descriptor d) triggering_resp now hidle
    refine ⟨h1, ?_⟩
    rw [h2, hdec, hseg]
  · intro c response t send_time macid now hidle hhdr hbits hd
    unfold UploadCoordinator.handle_r_command_response
    rw [if_pos hhdr]
    dsimp only
    rw [if_pos hbits]
    unfold UploadCoordinator.process_upload_init
    dsimp only
    have hst : c.upload_mgr.get_state = UploadState.UPLOAD_IDLE := hidle
    rw [if_pos hst]
    simp only [Bool.not_true, Bool.false_eq_true, if_false]
    obtain ⟨h1, h2⟩ := start_full_upload_total c.upload_mgr macid 0
      (UploadManager.decode_data_length_from_descriptor response.header_descriptor)
      (some response.data) now hidle
    rw [if_pos h1]
    dsimp only
    rw [h2, hd, hdec, hseg]
/-- C22 on the code: for the sample-rate codes 6 and 7 the waveform writer
reports 312 Hz and 156 Hz (`SAMPLE_RATE_MAP[6] = 312.0`, `[7] = 156.0`), not
`20000 / 2 ^ 6 = 312.5` and `20000 / 2 ^ 7 = 156.25`, while `decode_descriptor`
names the same codes "312.5 Hz" and "156.25 Hz"; for the codes 0..5 the table
holds `20000 / 2 ^ c`. -/
theorem data_file_sample_rate_codes_6_and_7 :
    (decode_descriptor 0x6000).descriptor_sample_rate = 6 ∧
    (decode_descriptor 0x6000).descriptor_sample_rate_str = "312.5 Hz" ∧
    data_file_sample_rate 6 = some 312 ∧
    data_file_sample_rate 6 ≠ some (20000 / 2 ^ 6) ∧
    (decode_descriptor 0x7000).descriptor_sample_rate = 7 ∧
    (decode_descriptor 0x7000).descriptor_sample_rate_str = "156.25 Hz" ∧
    data_file_sample_rate 7 = some 156 ∧
    data_file_sample_rate 7 ≠ some (20000 / 2 ^ 7) ∧
    (∀ c : Nat, c ≤ 5 → data_file_sample_rate c = some (20000 / 2 ^ c)) := by
  refine ⟨by decide, by decide, rfl, ?_, by decide, by decide, rfl, ?_, ?_⟩
  · intro h
    have h2 : (312 : ℚ) = 20000 / 2 ^ 6 := Option.some.inj h
    norm_num at h2
  · intro h
    have h2 : (156 : ℚ) = 20000 / 2 ^ 7 := Option.some.inj h
    norm_num at h2
  · intro c hc
    have : c = 0 ∨ c = 1 ∨ c = 2 ∨ c = 3 ∨ c = 4 ∨ c = 5 := by omega
    rcases this with e | e | e | e | e | e <;> subst e <;>
      (show some _ = some _; congr 1; norm_num [SAMPLE_RATE_MAP])

/-- C23: for every segment count `total` of type `int` with `total >= 0`,
`get_global_timeout_ms(total) = min(15 * 25 * 100 * total, 480000)`; every
intermediate product of the 64-bit computation stays below `2 ^ 63`, and the
result is the 8-minute cap exactly when `total >= 13`. -/
theorem global_timeout_value (total : Int) (h0 : 0 ≤ total) (hint : total < 2 ^ 31) :
    UploadTimeoutManager.get_global_timeout_ms total = min (15 * 25 * 100 * total) 480000 ∧
    total * 25 < 2 ^ 63 ∧ total * 25 * 100 < 2 ^ 63 ∧ total * 25 * 100 * 15 < 2 ^ 63 ∧
    UploadTimeoutManager.get_expected_upload_time_ms total = total * 25 * 100 ∧
    (UploadTimeoutManager.get_global_timeout_ms total = 480000 ↔ 13 ≤ total) ∧
    (total < 13 → UploadTimeoutManager.get_global_timeout_ms total = 37500 * total) := by
  have hexp : UploadTimeoutManager.get_expected_upload_time_ms total = total * 25 * 100 := rfl
  have hval : UploadTimeoutManager.get_global_timeout_ms total =
      min (total * 25 * 100 * 15) 480000 := rfl
  refine ⟨?_, by omega, by omega, by omega, hexp, ?_, ?_⟩
  · rw [hval]
    congr 1
    ring
  · rw [hval]
    constructor
    · intro h
      by_contra hc
      have h1 : total * 25 * 100 * 15 ≤ 450000 := by omega
      rw [min_eq_left (by omega)] at h
      omega
    · intro h
      exact min_eq_right (by omega)
  · intro h
    rw [hval, min_eq_left (by omega)]
    ring

/-- C23 at 12 segments (450000 ms, below the cap). -/
theorem global_timeout_value_witness :
    (0 : Int) ≤ 12 ∧ (12 : Int) < 2 ^ 31 ∧
    UploadTimeoutManager.get_global_timeout_ms 12 = min (15 * 25 * 100 * 12) 480000 ∧
    UploadTimeoutManager.get_global_timeout_ms 12 = 450000 :=
  ⟨by decide, by decide, (global_timeout_value 12 (by decide) (by decide)).1, by decide⟩

/-- C24: for every upload state and every completion ratio (finite, infinite
or NaN), `get_adaptive_timeout_ms` returns at least 250 ms: it returns 500 when
the state is not `UPLOAD_COMMAND_SENT` and the ratio is below 0.50, and 250 in
every other case. The ratio that `UploadManager` passes, `received / total` with
`total > 0`, is below 0.50 exactly when `2 * received < total`. -/
theorem adaptive_timeout_values (state : UploadState) (completion_rate : DoubleValue) :
    250 ≤ UploadTimeoutManager.get_adaptive_timeout_ms state completion_rate ∧
    ((state ≠ UploadState.UPLOAD_COMMAND_SENT ∧ completion_rate.lt_const (1 / 2) = true) →
      UploadTimeoutManager.get_adaptive_timeout_ms state completion_rate = 500) ∧
    (¬ (state ≠ UploadState.UPLOAD_COMMAND_SENT ∧ completion_rate.lt_const (1 / 2) = true) →
      UploadTimeoutManager.get_adaptive_timeout_ms state completion_rate = 250) ∧
    (∀ q : ℚ, (DoubleValue.finite q).lt_const (1 / 2) = true ↔ q < 1 / 2) ∧
    (∀ received total : Int, 0 < total →
      ((completion_rate_of received total).lt_const (1 / 2) = true ↔ 2 * received < total)) ∧
    DoubleValue.neg_inf.lt_const (1 / 2) = true ∧
    DoubleValue.pos_inf.lt_const (1 / 2) = false ∧
    DoubleValue.nan.lt_const (1 / 2) = false := by
  have hexcl : completion_rate.gt_const UPLOAD_HIGH_COMPLETION_THRESHOLD = true →
      completion_rate.lt_const (1 / 2) = false := by
    intro h
    cases completion_rate with
    | finite q =>
      have hq : q > UPLOAD_HIGH_COMPLETION_THRESHOLD := of_decide_eq_true h
      unfold UPLOAD_HIGH_COMPLETION_THRESHOLD at hq
      have : ¬ q < 1 / 2 := by
        intro hlt
        have : (8106479329266893 : ℚ) / 9007199254740992 < 1 / 2 := lt_trans hq hlt
        norm_num at this
      exact decide_eq_false this
    | pos_inf => rfl
    | neg_inf => exact absurd h (by decide)
    | nan => rfl
  have key : UploadTimeoutManager.get_adaptive_timeout_ms state completion_rate =
      if state ≠ UploadState.UPLOAD_COMMAND_SENT ∧ completion_rate.lt_const (1 / 2) = true
      then 500 else 250 := by
    unfold UploadTimeoutManager.get_adaptive_timeout_ms
    by_cases hs : state = UploadState.UPLOAD_COMMAND_SENT
    · rw [if_pos hs, if_neg (fun h => h.1 hs)]
      rfl
    · rw [if_neg hs]
      dsimp only
      by_cases hg : completion_rate.gt_const UPLOAD_HIGH_COMPLETION_THRESHOLD = true
      · have hnl : ¬ (state ≠ UploadState.UPLOAD_COMMAND_SENT ∧
            completion_rate.lt_const (1 / 2) = true) := by
          rw [hexcl hg]
          simp
        rw [if_neg hnl]
        simp only [hg, if_true]
        rfl
      · by_cases hl : completion_rate.lt_const (1 / 2) = true
        · have hl2 : completion_rate.lt_const UPLOAD_LOW_COMPLETION_THRESHOLD = true := hl
          have hr : (if state ≠ UploadState.UPLOAD_COMMAND_SENT ∧
              completion_rate.lt_const (1 / 2) = true then (500 : Int) else 250) = 500 :=
            if_pos ⟨hs, hl⟩
          rw [hr]
          simp only [hg, hl2, if_true, if_false]
          rfl
        · have hl2 : ¬ completion_rate.lt_const UPLOAD_LOW_COMPLETION_THRESHOLD = true := hl
          have hr : (if state ≠ UploadState.UPLOAD_COMMAND_SENT ∧
              completion_rate.lt_const (1 / 2) = true then (500 : Int) else 250) = 250 :=
            if_neg (fun h => hl h.2)
          rw [hr]
          simp only [hg, hl2, if_false]
          rfl
  refine ⟨?_, ?_, ?_, ?_, ?_, rfl, rfl, rfl⟩
  · rw [key]
    split <;> decide
  · intro h
    rw [key, if_pos h]
  · intro h
    rw [key, if_neg h]
  · intro q
    exact decide_eq_true_iff
  · intro received total ht
    unfold completion_rate_of
    rw [if_neg (by omega)]
    have htq : (0 : ℚ) < (total : ℚ) := by exact_mod_cast ht
    show decide ((received : ℚ) / (total : ℚ) < 1 / 2) = true ↔ _
    rw [decide_eq_true_iff, div_lt_iff₀ htq]
    constructor
    · intro h
      have h2 : (2 * received : ℚ) < (total : ℚ) := by linarith
      exact_mod_cast h2
    · intro h
      have h2 : (2 * received : ℚ) < (total : ℚ) := by exact_mod_cast h
      linarith

/-! ## find_optimal_start_segment: the chosen window -/

theorem count_window_loop_eq (s e : Int) (l : List Int) (acc : Int)
    (hs : l.Pairwise (· < ·)) :
    count_window_loop s e l acc =
      acc + (List.countP (fun m => decide (s ≤ m ∧ m < e)) l : Nat) := by
  induction l generalizing acc with
  | nil => simp [count_window_loop]
  | cons seg rest ih =>
    have hrest := (List.pairwise_cons.mp hs).2
    have hgt := (List.pairwise_cons.mp hs).1
    unfold count_window_loop
    by_cases h1 : seg < s
    · rw [if_pos h1, ih acc hrest, List.countP_cons_of_neg]
      simp only [decide_eq_true_eq, not_and]
      intro h
      omega
    · rw [if_neg h1]
      by_cases h2 : seg ≥ e
      · rw [if_pos h2]
        have hz : List.countP (fun m => decide (s ≤ m ∧ m < e)) (seg :: rest) = 0 := by
          rw [List.countP_eq_zero]
          intro m hm
          simp only [decide_eq_true_eq, not_and, not_lt]
          intro _
          rcases List.mem_cons.mp hm with e1 | e1
          · rw [e1]
            exact h2
          · have := hgt m e1
            omega
        rw [hz]
        simp
      · rw [if_neg h2, ih (acc + 1) hrest, List.countP_cons_of_pos]
        · push_cast
          ring
        · simp only [decide_eq_true_eq]
          omega

theorem count_segments_in_window_eq (x : Int) (missing : List Int) (w : Int)
    (hs : missing.Pairwise (· < ·)) :
    count_segments_in_window x missing w =
      (List.countP (fun m => decide (x ≤ m ∧ m < x + w)) missing : Nat) := by
  unfold count_segments_in_window
  rw [count_window_loop_eq x (x + w) missing 0 hs, zero_add]

theorem count_segments_in_window_nonneg (x : Int) (missing : List Int) (w : Int)
    (hs : missing.Pairwise (· < ·)) : 0 ≤ count_segments_in_window x missing w := by
  rw [count_segments_in_window_eq x missing w hs]
  exact Int.natCast_nonneg _

theorem count_segments_in_window_le_length (x : Int) (missing : List Int) (w : Int)
    (hs : missing.Pairwise (· < ·)) :
    count_segments_in_window x missing w ≤ (missing.length : Int) := by
  rw [count_segments_in_window_eq x missing w hs]
  exact_mod_cast List.countP_le_length _

/-- A strictly increasing list has at most `w` entries in a window of `w`
consecutive integers. -/
theorem count_segments_in_window_le_width (x : Int) (missing : List Int) (w : Int)
    (hw : 0 ≤ w) (hs : missing.Pairwise (· < ·)) :
    count_segments_in_window x missing w ≤ w := by
  rw [count_segments_in_window_eq x missing w hs, List.countP_eq_length_filter]
  have hnd : (missing.filter (fun m => decide (x ≤ m ∧ m < x + w))).Nodup := by
    apply List.Nodup.filter
    exact hs.imp (fun h => ne_of_lt h)
  have hsub : (missing.filter (fun m => decide (x ≤ m ∧ m < x + w))).toFinset ⊆
      Finset.Ico x (x + w) := by
    intro m hm
    rw [List.mem_toFinset, List.mem_filter] at hm
    rw [Finset.mem_Ico]
    exact of_decide_eq_true hm.2
  have hcard := Finset.card_le_card hsub
  rw [List.toFinset_card_of_nodup hnd, Int.card_Ico] at hcard
  have : ((x + w - x).toNat : Int) = w := by
    rw [Int.toNat_of_nonneg (by omega)]
    ring
  omega

/-- What phase 1 of `find_optimal_start_segment` returns: after an early return
the count of the returned position, which reaches `max_possible_count`;
otherwise a best count that bounds the count of every scanned position, with
`best_start` either untouched or a scanned position with that count. -/
theorem scan_loop_spec (missing : List Int) (total w mp : Int) :
    ∀ (n : Nat) (p b bc : Int) (r : Bool × Int × Int),
      scan_loop missing total w mp n p b bc = r →
      (r.1 = true →
        count_segments_in_window r.2.1 missing w = r.2.2 ∧ mp ≤ r.2.2 ∧
          ∃ j : Nat, j < n ∧ r.2.1 = p + 28 * (j : Int) ∧ r.2.1 < total) ∧
      (r.1 = false →
        bc ≤ r.2.2 ∧
        (∀ j : Nat, j < n → p + 28 * (j : Int) < total →
          count_segments_in_window (p + 28 * (j : Int)) missing w ≤ r.2.2) ∧
        ((r.2.1 = b ∧ r.2.2 = bc) ∨
          (count_segments_in_window r.2.1 missing w = r.2.2 ∧ r.2.2 < mp ∧
            ∃ j : Nat, j < n ∧ r.2.1 = p + 28 * (j : Int) ∧ r.2.1 < total)))
  | 0, p, b, bc, r, h => by
    subst h
    refine ⟨fun h => absurd h (by simp [scan_loop]), fun _ => ⟨le_refl _, ?_, Or.inl ⟨rfl, rfl⟩⟩⟩
    intro j hj
    omega
  | n + 1, p, b, bc, r, h => by
    unfold scan_loop at h
    by_cases hp : p < total
    · rw [if_pos hp] at h
      dsimp only at h
      by_cases hc : count_segments_in_window p missing w > bc
      · rw [if_pos hc] at h
        by_cases hm : count_segments_in_window p missing w ≥ mp
        · rw [if_pos hm] at h
          subst h
          refine ⟨fun _ => ⟨rfl, hm, 0, by omega, by simp, hp⟩, fun h => absurd h (by simp)⟩
        · rw [if_neg hm] at h
          have ih := scan_loop_spec missing total w mp n (p + BITMAP_SCAN_STRIDE) p
            (count_segments_in_window p missing w) r h
          have hstride : BITMAP_SCAN_STRIDE = 28 := rfl
          rw [hstride] at ih
          refine ⟨?_, ?_⟩
          · intro ht
            obtain ⟨h1, h2, j, hj, hj2, hj3⟩ := ih.1 ht
            exact ⟨h1, h2, j + 1, by omega, by rw [hj2]; push_cast; ring, hj3⟩
          · intro hf
            obtain ⟨h1, h2, h3⟩ := ih.2 hf
            refine ⟨by omega, ?_, ?_⟩
            · intro j hj hjt
              rcases Nat.eq_zero_or_pos j with h0 | h0
              · subst h0
                simp only [Nat.cast_zero, mul_zero, add_zero]
                exact h1
              · obtain ⟨j', rfl⟩ : ∃ j', j = j' + 1 := ⟨j - 1, by omega⟩
                have e : p + 28 * ((j' + 1 : Nat) : Int) = p + 28 + 28 * (j' : Int) := by
                  push_cast
                  ring
                rw [e] at hjt ⊢
                exact h2 j' (by omega) hjt
            · right
              rcases h3 with ⟨e1, e2⟩ | ⟨e1, e2, j, hj, hj2, hj3⟩
              · refine ⟨by rw [e1, e2], by rw [e2]; omega, 0, by omega, by rw [e1]; simp, ?_⟩
                rw [e1]
                exact hp
              · exact ⟨e1, e2, j + 1, by omega, by rw [hj2]; push_cast; ring, hj3⟩
      · rw [if_neg hc] at h
        have ih := scan_loop_spec missing total w mp n (p + BITMAP_SCAN_STRIDE) b bc r h
        have hstride : BITMAP_SCAN_STRIDE = 28 := rfl
        rw [hstride] at ih
        refine ⟨?_, ?_⟩
        · intro ht
          obtain ⟨h1, h2, j, hj, hj2, hj3⟩ := ih.1 ht
          exact ⟨h1, h2, j + 1, by omega, by rw [hj2]; push_cast; ring, hj3⟩
        · intro hf
          obtain ⟨h1, h2, h3⟩ := ih.2 hf
          refine ⟨h1, ?_, ?_⟩
          · intro j hj hjt
            rcases Nat.eq_zero_or_pos j with h0 | h0
            · subst h0
              simp only [Nat.cast_zero, mul_zero, add_zero]
              omega
            · obtain ⟨j', rfl⟩ : ∃ j', j = j' + 1 := ⟨j - 1, by omega⟩
              have e : p + 28 * ((j' + 1 : Nat) : Int) = p + 28 + 28 * (j' : Int) := by
                push_cast
                ring
              rw [e] at hjt ⊢
              exact h2 j' (by omega) hjt
          · rcases h3 with h3 | ⟨e1, e2, j, hj, hj2, hj3⟩
            · exact Or.inl h3
            · exact Or.inr ⟨e1, e2, j + 1, by omega, by rw [hj2]; push_cast; ring, hj3⟩
    · rw [if_neg hp] at h
      subst h
      refine ⟨fun h => absurd h (by simp), fun _ => ⟨le_refl _, ?_, Or.inl ⟨rfl, rfl⟩⟩⟩
      intro j _ hjt
      omega

/-- The start that `find_optimal_start_segment` returns for a strictly
increasing list of at least `BITMAP_OPTIMIZATION_THRESHOLD` entries is the first
missing segment or a scanned multiple of 28 below `total`, and its window holds
at least as many missing segments as the window of every scanned position and
of the first missing segment. -/
theorem find_optimal_start_segment_spec (first : Int) (rest : List Int) (total : Int)
    (hs : (first :: rest).Pairwise (· < ·)) (hlen : 10 ≤ (first :: rest).length) :
    (find_optimal_start_segment (first :: rest) total 532 = first ∨
      ∃ j : Nat, find_optimal_start_segment (first :: rest) total 532 = 28 * (j : Int) ∧
        28 * (j : Int) < total) ∧
    (∀ j : Nat, 28 * (j : Int) < total →
      count_segments_in_window (28 * (j : Int)) (first :: rest) 532 ≤
        count_segments_in_window (find_optimal_start_segment (first :: rest) total 532)
          (first :: rest) 532) ∧
    count_segments_in_window first (first :: rest) 532 ≤
      count_segments_in_window (find_optimal_start_segment (first :: rest) total 532)
        (first :: rest) 532 := by
  have hthr : ¬ (first :: rest).length < BITMAP_OPTIMIZATION_THRESHOLD := by
    unfold BITMAP_OPTIMIZATION_THRESHOLD
    omega
  have hdef : find_optimal_start_segment (first :: rest) total 532 =
      (if (scan_loop (first :: rest) total 532 (min ((first :: rest).length : Int) 532)
          total.toNat 0 first 0).1 then
        (scan_loop (first :: rest) total 532 (min ((first :: rest).length : Int) 532)
          total.toNat 0 first 0).2.1
      else if count_segments_in_window first (first :: rest) 532 >
          (scan_loop (first :: rest) total 532 (min ((first :: rest).length : Int) 532)
            total.toNat 0 first 0).2.2 then first
        else (scan_loop (first :: rest) total 532 (min ((first :: rest).length : Int) 532)
          total.toNat 0 first 0).2.1) := by
    unfold find_optimal_start_segment
    simp only [hthr, if_false]
  rw [hdef]
  generalize hr : scan_loop (first :: rest) total 532 (min ((first :: rest).length : Int) 532)
    total.toNat 0 first 0 = r
  obtain ⟨spec1, spec2⟩ := scan_loop_spec (first :: rest) total 532
    (min ((first :: rest).length : Int) 532) total.toNat 0 first 0 r hr
  have hle : ∀ x : Int, count_segments_in_window x (first :: rest) 532 ≤
      min ((first :: rest).length : Int) 532 :=
    fun x => le_min (count_segments_in_window_le_length x _ 532 hs)
      (count_segments_in_window_le_width x _ 532 (by decide) hs)
  have hnn : ∀ x : Int, 0 ≤ count_segments_in_window x (first :: rest) 532 :=
    fun x => count_segments_in_window_nonneg x _ 532 hs
  have hfuel : ∀ j : Nat, 28 * (j : Int) < total → j < total.toNat := by
    intro j hj
    omega
  by_cases ht : r.1 = true
  · rw [if_pos ht]
    obtain ⟨h1, h2, j, _, hj2, hj3⟩ := spec1 ht
    rw [zero_add] at hj2
    refine ⟨Or.inr ⟨j, hj2, by rw [← hj2]; exact hj3⟩, ?_, ?_⟩
    · intro k _
      rw [h1]
      exact le_trans (hle _) h2
    · rw [h1]
      exact le_trans (hle _) h2
  · rw [if_neg ht]
    have hf : r.1 = false := by
      cases h : r.1
      · rfl
      · exact absurd h ht
    obtain ⟨h1, h2, h3⟩ := spec2 hf
    have hcand : ∀ k : Nat, 28 * (k : Int) < total →
        count_segments_in_window (28 * (k : Int)) (first :: rest) 532 ≤ r.2.2 := by
      intro k hk
      have := h2 k (hfuel k hk) (by rw [zero_add]; exact hk)
      rw [zero_add] at this
      exact this
    by_cases hfirst : count_segments_in_window first (first :: rest) 532 > r.2.2
    · rw [if_pos hfirst]
      refine ⟨Or.inl rfl, ?_, le_refl _⟩
      intro k hk
      exact le_of_lt (lt_of_le_of_lt (hcand k hk) hfirst)
    · rw [if_neg hfirst]
      rcases h3 with ⟨e1, e2⟩ | ⟨e1, _, j, _, hj2, hj3⟩
      · refine ⟨Or.inl e1, ?_, by rw [e1]⟩
        intro k hk
        have := hcand k hk
        rw [e2] at this
        exact le_trans this (hnn _)
      · rw [zero_add] at hj2
        refine ⟨Or.inr ⟨j, hj2, by rw [← hj2]; exact hj3⟩, ?_, ?_⟩
        · intro k hk
          rw [e1]
          exact hcand k hk
        · rw [e1]
          omega

/-- C30: for every strictly increasing list `missing` of at least 10 segment
indices, the start `s` returned by `find_optimal_start_segment` satisfies
`count(s) >= count(c)` for every candidate `c` in `0, 28, 56, ...` below `total`
and for `c = missing[0]`, where `count(x)` is the number of missing segments in
`[x, x + 532)` (which is what `count_segments_in_window` computes); `s` itself
is `missing[0]` or one of those multiples of 28. -/
theorem find_optimal_start_segment_maximal (missing : List Int) (total : Int)
    (hsorted : missing.Pairwise (· < ·)) (hlen : 10 ≤ missing.length) :
    (∀ c : Int, ((∃ k : Nat, c = 28 * (k : Int) ∧ c < total) ∨ c = missing.headD 0) →
      List.countP (fun m => decide (c ≤ m ∧ m < c + 532)) missing ≤
        List.countP (fun m => decide (find_optimal_start_segment missing total 532 ≤ m ∧
          m < find_optimal_start_segment missing total 532 + 532)) missing) ∧
    (∀ x : Int, count_segments_in_window x missing 532 =
      (List.countP (fun m => decide (x ≤ m ∧ m < x + 532)) missing : Nat)) ∧
    (find_optimal_start_segment missing total 532 = missing.headD 0 ∨
      ∃ k : Nat, find_optimal_start_segment missing total 532 = 28 * (k : Int) ∧
        28 * (k : Int) < total) := by
  have hcnt : ∀ x : Int, count_segments_in_window x missing 532 =
      (List.countP (fun m => decide (x ≤ m ∧ m < x + 532)) missing : Nat) :=
    fun x => count_segments_in_window_eq x missing 532 hsorted
  match missing, hsorted, hlen, hcnt with
  | [], _, hlen, _ => exact absurd hlen (by simp)
  | first :: rest, hsorted, hlen, hcnt =>
    obtain ⟨h1, h2, h3⟩ := find_optimal_start_segment_spec first rest total hsorted hlen
    refine ⟨?_, hcnt, h1⟩
    intro c hc
    rcases hc with ⟨k, rfl, hk⟩ | rfl
    · have := h2 k hk
      rw [hcnt, hcnt] at this
      exact_mod_cast this
    · have := h3
      rw [hcnt, hcnt] at this
      exact_mod_cast this

/-- C30 at ten missing segments of a 601-segment upload. -/
theorem find_optimal_start_segment_maximal_witness :
    [(3 : Int), 40, 41, 42, 43, 44, 45, 46, 47, 600].Pairwise (· < ·) ∧
    10 ≤ [(3 : Int), 40, 41, 42, 43, 44, 45, 46, 47, 600].length ∧
    find_optimal_start_segment [3, 40, 41, 42, 43, 44, 45, 46, 47, 600] 601 532 = 0 ∧
    List.countP (fun m => decide ((28 * ((1 : Nat) : Int)) ≤ m ∧ m < 28 * ((1 : Nat) : Int) + 532))
        [3, 40, 41, 42, 43, 44, 45, 46, 47, 600] ≤
      List.countP (fun m => decide
          (find_optimal_start_segment [3, 40, 41, 42, 43, 44, 45, 46, 47, 600] 601 532 ≤ m ∧
            m < find_optimal_start_segment [3, 40, 41, 42, 43, 44, 45, 46, 47, 600] 601 532
              + 532))
        [3, 40, 41, 42, 43, 44, 45, 46, 47, 600] :=
  ⟨by decide, by decide, by decide,
    (find_optimal_start_segment_maximal [3, 40, 41, 42, 43, 44, 45, 46, 47, 600] 601
      (by decide) (by decide)).1 (28 * ((1 : Nat) : Int)) (Or.inl ⟨1, rfl, by decide⟩)⟩

theorem find_optimal_start_segment_few (first : Int) (rest : List Int) (total w : Int)
    (hlen : (first :: rest).length < 10) :
    find_optimal_start_segment (first :: rest) total w = first := by
  unfold find_optimal_start_segment
  simp only [BITMAP_OPTIMIZATION_THRESHOLD]
  rw [if_pos hlen]

theorem build_segment_bitmask_length (start total : Int) (missing : List Int) :
    (build_segment_bitmask start missing total).1.length = 76 := by
  have h := mask_loop_spec missing total start 76 0 (List.replicate 76 1) 0 rfl
    (by simp) (by
      intro b _ hb
      rw [List.getElem?_replicate]
      simp [hb])
  simp only [Nat.cast_zero, mul_zero, add_zero] at h
  exact h.1

/-- Bytes 50..125 of the 0x55 frame are the bitmap built from the start segment
the builder settled on. -/
theorem build_partial_upload_command_bitmap (macid : Nat) (start_segment : Int)
    (missing_segments : List Int) (total_segments : Int) (b : Nat) (hb : b < 76) :
    (build_partial_upload_command macid start_segment missing_segments total_segments).1.getD
        (50 + b) 0 =
      (build_segment_bitmask
        (if find_optimal_start_segment missing_segments total_segments
            UPLOAD_MAX_SEGMENTS_PER_0X55 ≥ 0
          then find_optimal_start_segment missing_segments total_segments
            UPLOAD_MAX_SEGMENTS_PER_0X55
          else start_segment) missing_segments total_segments).1.getD b 0 := by
  unfold build_partial_upload_command
  dsimp only
  generalize snprintf_04x _ = a
  have hl := build_segment_bitmask_length
    (if find_optimal_start_segment missing_segments total_segments
        UPLOAD_MAX_SEGMENTS_PER_0X55 ≥ 0
      then find_optimal_start_segment missing_segments total_segments
        UPLOAD_MAX_SEGMENTS_PER_0X55
      else start_segment) total_segments missing_segments
  rw [getD_write_at, if_neg (by simp only [List.length_cons, List.length_nil]; omega),
    getD_write_at, if_pos]
  · congr 1
    omega
  · refine ⟨by omega, by omega, ?_⟩
    simp only [length_write_at, List.length_replicate]
    omega

/-- The window chosen by `find_optimal_start_segment` holds every missing
segment when all of them lie within 532 indices of the first one. -/
theorem find_optimal_start_segment_window (missing : List Int) (total : Int)
    (hsorted : missing.Pairwise (· < ·))
    (hspan : ∀ m ∈ missing, m < missing.headD 0 + 532) :
    ∀ m ∈ missing, find_optimal_start_segment missing total 532 ≤ m ∧
      m < find_optimal_start_segment missing total 532 + 532 := by
  match missing, hsorted, hspan with
  | [], _, _ => exact fun m hm => absurd hm (List.not_mem_nil m)
  | first :: rest, hsorted, hspan =>
    have hmin : ∀ m ∈ first :: rest, first ≤ m := by
      intro m hm
      rcases List.mem_cons.mp hm with e | e
      · exact le_of_eq e.symm
      · exact le_of_lt ((List.pairwise_cons.mp hsorted).1 m e)
    by_cases hlen : (first :: rest).length < 10
    · rw [find_optimal_start_segment_few first rest total 532 hlen]
      exact fun m hm => ⟨hmin m hm, hspan m hm⟩
    · obtain ⟨_, _, h3⟩ := find_optimal_start_segment_spec first rest total hsorted
        (by omega)
      rw [count_segments_in_window_eq _ _ _ hsorted,
        count_segments_in_window_eq _ _ _ hsorted] at h3
      have hfirst : List.countP (fun m => decide (first ≤ m ∧ m < first + 532))
          (first :: rest) = (first :: rest).length := by
        rw [List.countP_eq_length]
        intro m hm
        exact decide_eq_true ⟨hmin m hm, hspan m hm⟩
      rw [hfirst] at h3
      have hall : List.countP (fun m => decide
          (find_optimal_start_segment (first :: rest) total 532 ≤ m ∧
            m < find_optimal_start_segment (first :: rest) total 532 + 532))
          (first :: rest) = (first :: rest).length :=
        le_antisymm (List.countP_le_length _) (by exact_mod_cast h3)
      rw [List.countP_eq_length] at hall
      intro m hm
      exact of_decide_eq_true (hall m hm)

theorem find_optimal_start_segment_nonneg_of_window (missing : List Int) (total : Int)
    (hsorted : missing.Pairwise (· < ·)) (hne : missing ≠ [])
    (hrange : ∀ m ∈ missing, 0 ≤ m ∧ m < total) :
    0 ≤ find_optimal_start_segment missing total 532 := by
  match missing, hsorted, hne, hrange with
  | [], _, hne, _ => exact absurd rfl hne
  | first :: rest, hsorted, _, hrange =>
    have h0 : 0 ≤ first := (hrange first (List.mem_cons_self _ _)).1
    by_cases hlen : (first :: rest).length < 10
    · rw [find_optimal_start_segment_few first rest total 532 hlen]
      exact h0
    · obtain ⟨h1, _, _⟩ := find_optimal_start_segment_spec first rest total hsorted
        (by omega)
      rcases h1 with e | ⟨j, e, _⟩
      · rw [e]
        exact h0
      · rw [e]
        omega

/-- C25, evaluated on the code: with segments 0..530 and segment 1000 missing
out of 1001 there are exactly 532 missing segments, strictly increasing and all
below the total. `find_optimal_start_segment` returns start 0, the window
`[0, 532)` does not hold the missing segment 1000, and no window of 532
segments holds both segment 0 and segment 1000. -/
theorem window_of_532_missing_leaves_one_behind :
    ((List.range 531).map Int.ofNat ++ [1000]).length = 532 ∧
    ((List.range 531).map Int.ofNat ++ [1000]).Pairwise (· < ·) ∧
    (∀ m ∈ (List.range 531).map Int.ofNat ++ [1000], 0 ≤ m ∧ m < 1001) ∧
    find_optimal_start_segment ((List.range 531).map Int.ofNat ++ [1000]) 1001 532 = 0 ∧
    (1000 : Int) ∈ (List.range 531).map Int.ofNat ++ [1000] ∧
    ¬ (find_optimal_start_segment ((List.range 531).map Int.ofNat ++ [1000]) 1001 532 ≤ 1000 ∧
      (1000 : Int) <
        find_optimal_start_segment ((List.range 531).map Int.ofNat ++ [1000]) 1001 532 + 532) ∧
    (∀ s : Int, ¬ ∀ m ∈ (List.range 531).map Int.ofNat ++ [1000], s ≤ m ∧ m < s + 532) := by
  have hval : find_optimal_start_segment ((List.range 531).map Int.ofNat ++ [1000]) 1001 532
      = 0 := by
    decide
  refine ⟨by simp, ?_, ?_, hval, by simp, ?_, ?_⟩
  · rw [List.pairwise_append]
    refine ⟨?_, List.pairwise_singleton _ _, ?_⟩
    · rw [List.pairwise_map]
      exact (List.pairwise_lt_range 531).imp (fun h => Int.ofNat_lt.mpr h)
    · intro a ha b hb
      obtain ⟨k, hk, rfl⟩ := List.mem_map.mp ha
      rw [List.mem_singleton.mp hb]
      have := List.mem_range.mp hk
      show (k : Int) < 1000
      omega
  · intro m hm
    rcases List.mem_append.mp hm with h | h
    · obtain ⟨k, hk, rfl⟩ := List.mem_map.mp h
      have := List.mem_range.mp hk
      show (0 : Int) ≤ (k : Int) ∧ (k : Int) < 1001
      omega
    · rw [List.mem_singleton.mp h]
      decide
  · rw [hval]
    decide
  · intro s hall
    have h0 := hall 0 (List.mem_append_left _ (List.mem_map.mpr ⟨0, by simp, rfl⟩))
    have h1 := hall 1000 (List.mem_append_right _ (List.mem_singleton.mpr rfl))
    omega

theorem pairwise_lt_gap (l : List Int) (hs : l.Pairwise (· < ·)) (i : Nat) :
    ∀ d : Nat, i + d < l.length → l.getD i 0 + (d : Int) ≤ l.getD (i + d) 0
  | 0, _ => by simp
  | d + 1, h => by
    have ih := pairwise_lt_gap l hs i d (by omega)
    have hlt : l.getD (i + d) 0 < l.getD (i + (d + 1)) 0 := by
      rw [List.getD_eq_getElem?_getD, List.getD_eq_getElem?_getD,
        List.getElem?_eq_getElem (show i + d < l.length by omega),
        List.getElem?_eq_getElem h]
      exact (List.pairwise_iff_getElem.mp hs) (i + d) (i + (d + 1)) (by omega) h (by omega)
    push_cast
    omega

/-- C25, amended: when the missing segments (strictly increasing, non-empty, all
in `[0, total)`) all lie within 532 indices of the first missing one, the start
`s` chosen by `find_optimal_start_segment` gives a window `[s, s + 532)` holding
every missing segment, and every missing segment `m` has its bit set in the
bitmap of the 0x55 frame: byte `50 + b`, bit `p`, with
`m = s + 7 * b + (7 - p)`. Exactly 532 missing segments meet the condition only
as one consecutive run `missing[i] = missing[0] + i`. -/
theorem window_covers_missing_within_span (macid : Nat) (start_segment : Int)
    (missing : List Int) (total : Int)
    (hne : missing ≠ [])
    (hsorted : missing.Pairwise (· < ·))
    (hrange : ∀ m ∈ missing, 0 ≤ m ∧ m < total)
    (hspan : ∀ m ∈ missing, m < missing.headD 0 + 532) :
    (∀ m ∈ missing, find_optimal_start_segment missing total 532 ≤ m ∧
      m < find_optimal_start_segment missing total 532 + 532) ∧
    (∀ m ∈ missing, ∃ b p : Nat, b < 76 ∧ 1 ≤ p ∧ p ≤ 7 ∧
      m = find_optimal_start_segment missing total 532 + 7 * (b : Int) + (7 - (p : Int)) ∧
      ((build_partial_upload_command macid start_segment missing total).1.getD
        (50 + b) 0).testBit p = true) ∧
    (missing.length = 532 → ∀ i : Nat, i < 532 →
      missing.getD i 0 = missing.headD 0 + (i : Int)) := by
  have hwin := find_optimal_start_segment_window missing total hsorted hspan
  have hnn := find_optimal_start_segment_nonneg_of_window missing total hsorted hne hrange
  refine ⟨hwin, ?_, ?_⟩
  · intro m hm
    obtain ⟨h1, h2⟩ := hwin m hm
    generalize hs : find_optimal_start_segment missing total 532 = s at h1 h2 hnn
    have hd : ∃ d : Nat, m = s + (d : Int) ∧ d < 532 :=
      ⟨(m - s).toNat, by omega, by omega⟩
    obtain ⟨d, rfl, hd⟩ := hd
    refine ⟨d / 7, 7 - d % 7, by omega, by omega, by omega, by omega, ?_⟩
    rw [build_partial_upload_command_bitmap macid start_segment missing total (d / 7)
      (by omega)]
    have hopt : find_optimal_start_segment missing total UPLOAD_MAX_SEGMENTS_PER_0X55 = s := hs
    rw [hopt, if_pos (ge_iff_le.mpr hnn)]
    have hg := build_segment_bitmask_bytes s total missing (d / 7) (by omega)
    rw [hg.2.2 (7 - d % 7) (by omega) (by omega)]
    have hseg : s + 7 * ((d / 7 : Nat) : Int) + (7 - ((7 - d % 7 : Nat) : Int)) = s + (d : Int) := by
      omega
    rw [hseg]
    unfold requested
    rw [decide_eq_true (hrange _ hm).2, decide_eq_true hm]
    rfl
  · intro hlen i hi
    match missing, hne, hsorted, hspan, hlen with
    | first :: rest, _, hsorted, hspan, hlen =>
      have h1 := pairwise_lt_gap (first :: rest) hsorted 0 i (by omega)
      have h2 := pairwise_lt_gap (first :: rest) hsorted i (531 - i) (by omega)
      have h3 : (first :: rest).getD (i + (531 - i)) 0 < first + 532 := by
        apply hspan
        rw [List.getD_eq_getElem?_getD, List.getElem?_eq_getElem (by omega)]
        exact List.getElem_mem _
      have h0 : (first :: rest).getD 0 0 = first := rfl
      show (first :: rest).getD i 0 = first + (i : Int)
      rw [Nat.zero_add] at h1
      omega

/-- C25, amended, at three missing segments of a ten-segment upload. -/
theorem window_covers_missing_within_span_witness :
    ([2, 5, 9] : List Int) ≠ [] ∧
    (∀ m ∈ ([2, 5, 9] : List Int), find_optimal_start_segment [2, 5, 9] 10 532 ≤ m ∧
      m < find_optimal_start_segment [2, 5, 9] 10 532 + 532) :=
  ⟨by decide,
    (window_covers_missing_within_span 0x11223344 0 [2, 5, 9] 10 (by decide) (by decide)
      (by decide) (by decide)).1⟩

theorem command_sequence_inactive_counters (m : CommandSequenceManager)
    (h : CommandSequenceManager.Reachable m) :
    m.transmission_active = false → m.current_attempt = 0 ∧ m.max_attempts = 0 := by
  induction h with
  | construct => exact fun _ => ⟨rfl, rfl⟩
  | start m command delay_ms max_attempts secondary_command command_mask now _ _ =>
    intro hf
    exact absurd hf (by simp [CommandSequenceManager.start_command_transmission])
  | sent m now _ ih =>
    intro hf
    unfold CommandSequenceManager.mark_command_sent at hf ⊢
    by_cases ha : m.transmission_active = true
    · rw [ha] at hf
      exact absurd hf (by simp [ha])
    · have ha2 : m.transmission_active = false := by simpa using ha
      rw [ha2]
      exact ih ha2
  | ack m _ ih =>
    intro hf
    unfold CommandSequenceManager.record_ack_received at hf ⊢
    by_cases ha : m.transmission_active = true
    · rw [ha] at hf
      exact absurd hf (by simp [ha])
    · have ha2 : m.transmission_active = false := by simpa using ha
      rw [ha2]
      exact ih ha2
  | reset m _ _ => exact fun _ => ⟨rfl, rfl⟩

/-- C26: in every state of `CommandSequenceManager` reachable from construction
through `start_command_transmission`, `mark_command_sent`,
`record_ack_received` and `reset`, `is_transmission_complete()` is true if and
only if `ack_received` or `current_attempt >= max_attempts`; and at every clock
reading `is_ready_to_send()` is false when `is_transmission_complete()` is
true. -/
theorem is_transmission_complete_iff (m : CommandSequenceManager)
    (h : CommandSequenceManager.Reachable m) :
    (m.is_transmission_complete = true ↔
      (m.ack_received = true ∨ m.current_attempt ≥ m.max_attempts)) ∧
    (∀ now : Nat, m.is_transmission_complete = true → m.is_ready_to_send now = false) := by
  have hinv := command_sequence_inactive_counters m h
  constructor
  · unfold CommandSequenceManager.is_transmission_complete
    by_cases ha : m.transmission_active = true
    · rw [ha]
      by_cases hk : m.ack_received = true
      · simp [hk]
      · by_cases hc : m.current_attempt ≥ m.max_attempts
        · simp [hc]
        · simp [hk, hc]
    · have ha2 : m.transmission_active = false := by simpa using ha
      obtain ⟨h1, h2⟩ := hinv ha2
      rw [ha2]
      simp [h1, h2]
  · intro now hc
    unfold CommandSequenceManager.is_ready_to_send
    rw [hc]
    by_cases ha : m.transmission_active = true <;> simp [ha]

/-- C26 after construction, a start with 8 attempts and one send. -/
theorem is_transmission_complete_iff_witness :
    ((CommandSequenceManager.new.start_command_transmission 0x52 1800 8 0 0
        1000).mark_command_sent 1000).is_transmission_complete = false ∧
    ((((CommandSequenceManager.new.start_command_transmission 0x52 1800 8 0 0
        1000).mark_command_sent 1000).is_transmission_complete = true ↔
      (((CommandSequenceManager.new.start_command_transmission 0x52 1800 8 0 0
          1000).mark_command_sent 1000).ack_received = true ∨
        ((CommandSequenceManager.new.start_command_transmission 0x52 1800 8 0 0
          1000).mark_command_sent 1000).current_attempt ≥
        ((CommandSequenceManager.new.start_command_transmission 0x52 1800 8 0 0
          1000).mark_command_sent 1000).max_attempts)) ∧
      (∀ now : Nat,
        ((CommandSequenceManager.new.start_command_transmission 0x52 1800 8 0 0
          1000).mark_command_sent 1000).is_transmission_complete = true →
        ((CommandSequenceManager.new.start_command_transmission 0x52 1800 8 0 0
          1000).mark_command_sent 1000).is_ready_to_send now = false)) :=
  ⟨by decide,
    is_transmission_complete_iff _
      (CommandSequenceManager.Reachable.sent _ 1000
        (CommandSequenceManager.Reachable.start _ 0x52 1800 8 0 0 1000
          CommandSequenceManager.Reachable.construct))⟩

theorem process_monitor_idle (s : SessionManager) (hmon : s.monitor_mode = true)
    (hidle : s.state_tracker.current_state = SessionState.STATE_IDLE)
    (response : Option CommandResponse) (now : Nat) : s.process response now = some s := by
  have h1 : s.process_response response now = s := by
    unfold SessionManager.process_response
    rw [hmon]
    rfl
  unfold SessionManager.process
  rw [h1]
  unfold SessionManager.process_state_machine
  rw [hidle]
  dsimp only
  rw [hmon]
  rfl

theorem run_monitor_idle (s : SessionManager) (hmon : s.monitor_mode = true)
    (hidle : s.state_tracker.current_state = SessionState.STATE_IDLE) :
    ∀ ticks : List (Option CommandResponse × Nat), s.run ticks = some s
  | [] => rfl
  | tick :: rest => by
    unfold SessionManager.run
    rw [process_monitor_idle s hmon hidle tick.1 tick.2]
    exact run_monitor_idle s hmon hidle rest

/-- C28: a session in `STATE_IDLE` with monitor mode enabled -- such as the
constructed session after `set_monitor_mode(true)`, with or without an
initialised config broadcaster -- is left unchanged by every sequence of calls
of `process`, whatever frames and clock readings they carry: the state stays
`STATE_IDLE`, and neither `SessionManager::send_command` nor the upload manager
hands a frame to the transmitter (none of the paths that broadcast or erase
configs is entered). -/
theorem monitor_mode_stays_idle_and_silent (s : SessionManager)
    (hmon : s.monitor_mode = true)
    (hidle : s.state_tracker.current_state = SessionState.STATE_IDLE) :
    (∀ ticks : List (Option CommandResponse × Nat), ∃ s1 : SessionManager,
      s.run ticks = some s1 ∧ s1 = s ∧
      s1.state_tracker.current_state = SessionState.STATE_IDLE ∧
      s1.sent = s.sent ∧
      s1.upload_coord.upload_mgr.sent = s.upload_coord.upload_mgr.sent) ∧
    (∀ (response : Option CommandResponse) (now : Nat), s.process response now = some s) ∧
    (∀ (t : Nat) (rssi_threshold rssi_delay rssi_increment power_adjust : Nat)
        (broadcast_interval_hours : Int) (initialized : Bool),
      (((SessionManager.new t).set_monitor_mode true).initialize_config_broadcaster
        rssi_threshold rssi_delay rssi_increment power_adjust broadcast_interval_hours
        initialized).monitor_mode = true ∧
      (((SessionManager.new t).set_monitor_mode true).initialize_config_broadcaster
        rssi_threshold rssi_delay rssi_increment power_adjust broadcast_interval_hours
        initialized).state_tracker.current_state = SessionState.STATE_IDLE ∧
      (((SessionManager.new t).set_monitor_mode true).initialize_config_broadcaster
        rssi_threshold rssi_delay rssi_increment power_adjust broadcast_interval_hours
        initialized).sent = [] ∧
      (((SessionManager.new t).set_monitor_mode true).initialize_config_broadcaster
        rssi_threshold rssi_delay rssi_increment power_adjust broadcast_interval_hours
        initialized).upload_coord.upload_mgr.sent = [] ∧
      (((SessionManager.new t).set_monitor_mode true).initialize_config_broadcaster
        rssi_threshold rssi_delay rssi_increment power_adjust broadcast_interval_hours
        initialized).transmitted = []) := by
  refine ⟨?_, process_monitor_idle s hmon hidle, fun _ _ _ _ _ _ initialized => by
    cases initialized <;> exact ⟨rfl, rfl, rfl, rfl, rfl⟩⟩
  intro ticks
  exact ⟨s, run_monitor_idle s hmon hidle ticks, rfl, hidle, rfl, rfl⟩

/-- C28 on the session constructed at instant 0 with monitor mode and an
initialised config broadcaster: a tick with the sample ack-init frame and a
tick without a frame leave it as it is. -/
theorem monitor_mode_stays_idle_and_silent_witness :
    (((SessionManager.new 0).set_monitor_mode true).initialize_config_broadcaster
      0xB0 5 2 0 8 true).run
        [(some (parse_response sample_ack_init_frame), 100), (none, 2000)] =
      some (((SessionManager.new 0).set_monitor_mode true).initialize_config_broadcaster
        0xB0 5 2 0 8 true) := by
  obtain ⟨s1, h1, h2, _⟩ := (monitor_mode_stays_idle_and_silent
    (((SessionManager.new 0).set_monitor_mode true).initialize_config_broadcaster
      0xB0 5 2 0 8 true)
    rfl rfl).1 [(some (parse_response sample_ack_init_frame), 100), (none, 2000)]
  rw [h1, h2]

/-! ## The poll of one node -/

theorem process_response_no_ack (s : SessionManager)
    (hstate : s.state_tracker.current_state = SessionState.STATE_IDLE ∨
      s.state_tracker.current_state = SessionState.STATE_COMMAND_SEQUENCE)
    (response : Option CommandResponse) (now : Nat)
    (hno : ∀ r : CommandResponse, response = some r → r.command_code ≠ CMD_ACK_INIT) :
    s.process_response response now = s := by
  unfold SessionManager.process_response
  split
  · rfl
  · cases response with
    | none => rfl
    | some r =>
      dsimp only
      rw [if_neg (hno r rfl), if_neg]
      rcases hstate with h | h <;> (rw [h]; decide)

theorem get_current_macid_of_node (s : SessionManager)
    (hnode : s.current_node_index < s.node_list.length) :
    ∃ node : NodeInfo, s.node_list[s.current_node_index]? = some node ∧
      s.get_current_macid = node.macid := by
  refine ⟨s.node_list[s.current_node_index], List.getElem?_eq_getElem hnode, ?_⟩
  have hne : s.node_list.isEmpty = false := by
    cases hl : s.node_list with
    | nil => rw [hl] at hnode; exact absurd hnode (by simp)
    | cons a l => rfl
  unfold SessionManager.get_current_macid SessionManager.has_current_node
  rw [hne, List.getElem?_eq_getElem hnode]
  simp [hnode]

theorem make_erase_command_opcode (age i : Nat) :
    ((make_erase_command age).set 125 i).getD 45 0 = 0x45 := by
  unfold make_erase_command
  dsimp only
  simp only [getD_set_eq, List.length_set, getD_write_at, length_write_at, getD_replicate_eq,
    List.length_replicate, List.length_cons, List.length_nil]
  simp [CMD_ERASE_CFG]

theorem BuildBroadcastCommand_opcode (config_packet : List Nat) (packet_size : Nat)
    (f : List Nat) (h : BuildBroadcastCommand config_packet packet_size = some f) :
    f.getD 45 0 = 0x44 := by
  have hs : packet_size = 80 := by
    unfold BuildBroadcastCommand at h
    split at h
    · exact absurd h (by simp)
    · rename_i hs
      unfold PARAM_SEND_WORDS at hs
      omega
  subst hs
  rw [BuildBroadcastCommand_some] at h
  rw [← Option.some.inj h, broadcast_frame_getD_head config_packet 45 (by decide)]
  rfl

theorem BroadcastSingleConfig_opcode (b : ConfigBroadcaster) (file : ConfigFile) :
    ∀ f ∈ b.BroadcastSingleConfig file, f.getD 45 0 = 0x44 := by
  intro f hf
  unfold ConfigBroadcaster.BroadcastSingleConfig at hf
  cases hdata : file.config_data with
  | none => rw [hdata] at hf; exact absurd hf (List.not_mem_nil f)
  | some config_data =>
    rw [hdata] at hf
    dsimp only at hf
    cases hcmd : BuildBroadcastCommand (BuildConfigPacket 64 config_data file.macid 0
        b.m_rssi_threshold b.m_rssi_delay b.m_rssi_increment b.m_power_adjust)
        (PARAM_SEND_WORDS * 8) with
    | none => rw [hcmd] at hf; exact absurd hf (List.not_mem_nil f)
    | some cmd =>
      rw [hcmd] at hf
      dsimp only at hf
      rw [List.eq_of_mem_replicate hf]
      exact BuildBroadcastCommand_opcode _ _ cmd hcmd

theorem BroadcastAllConfigs_opcode (b : ConfigBroadcaster) (current_time : Int)
    (config_files : List ConfigFile) :
    ∀ f ∈ (b.BroadcastAllConfigs current_time config_files).2, f.getD 45 0 = 0x44 := by
  intro f hf
  unfold ConfigBroadcaster.BroadcastAllConfigs at hf
  dsimp only at hf
  rw [List.mem_flatten] at hf
  obtain ⟨l, hl, hfl⟩ := hf
  rw [List.mem_map] at hl
  obtain ⟨file, -, rfl⟩ := hl
  exact BroadcastSingleConfig_opcode _ file f hfl

/-- What `broadcast_config_files` changes: the broadcaster's timer, and the
transmitter receives erase (`'E'`) and config (`'D'`) frames only. -/
theorem broadcast_config_files_eq (s : SessionManager) :
    ∃ (b : ConfigBroadcaster) (t : List (List Nat)),
      s.broadcast_config_files =
        { s with config_broadcaster := b, transmitted := s.transmitted ++ t } ∧
      ∀ f ∈ t, f.getD 45 0 = 0x45 ∨ f.getD 45 0 = 0x44 := by
  unfold SessionManager.broadcast_config_files
  split
  · exact ⟨s.config_broadcaster, [], by rw [List.append_nil], fun f hf =>
      absurd hf (List.not_mem_nil f)⟩
  · split
    · exact ⟨s.config_broadcaster, [], by rw [List.append_nil], fun f hf =>
        absurd hf (List.not_mem_nil f)⟩
    · unfold SessionManager.erase_old_config_files
      split
      · refine ⟨_, (s.config_broadcaster.BroadcastAllConfigs s.wall_clock s.config_files).2,
          rfl, fun f hf => Or.inr (BroadcastAllConfigs_opcode _ _ _ f hf)⟩
      · refine ⟨(s.config_broadcaster.BroadcastAllConfigs s.wall_clock s.config_files).1,
          (List.range 4).map (fun i => (make_erase_command s.config_erase_age).set 125 (i + 1))
            ++ (s.config_broadcaster.BroadcastAllConfigs s.wall_clock s.config_files).2,
          ?_, ?_⟩
        · dsimp only
          rw [List.append_assoc]
        · intro f hf
          rcases List.mem_append.mp hf with h | h
          · rw [List.mem_map] at h
            obtain ⟨i, -, rfl⟩ := h
            exact Or.inl (make_erase_command_opcode _ _)
          · exact Or.inr (BroadcastAllConfigs_opcode _ _ _ f h)

/-- What the broadcast blocks of the `IDLE` case change: the startup flag, the
broadcaster's timer, and the transmitter receives erase (`'E'`) and config
(`'D'`) frames only. -/
theorem idle_config_broadcasts_eq (s : SessionManager) :
    ∃ (d : Bool) (b : ConfigBroadcaster) (t : List (List Nat)),
      s.idle_config_broadcasts =
        { s with
          startup_broadcast_done := d
          config_broadcaster := b
          transmitted := s.transmitted ++ t } ∧
      ∀ f ∈ t, f.getD 45 0 = 0x45 ∨ f.getD 45 0 = 0x44 := by
  have step1 : ∃ (d : Bool) (b : ConfigBroadcaster) (t : List (List Nat)),
      (if (s.config_broadcast_enabled && !s.startup_broadcast_done) = true then
          { s.broadcast_config_files with startup_broadcast_done := true }
        else s) =
        { s with
          startup_broadcast_done := d
          config_broadcaster := b
          transmitted := s.transmitted ++ t } ∧
      ∀ f ∈ t, f.getD 45 0 = 0x45 ∨ f.getD 45 0 = 0x44 := by
    split
    · obtain ⟨b, t, he, ht⟩ := broadcast_config_files_eq s
      exact ⟨true, b, t, by rw [he], ht⟩
    · exact ⟨s.startup_broadcast_done, s.config_broadcaster, [], by rw [List.append_nil],
        fun f hf => absurd hf (List.not_mem_nil f)⟩
  obtain ⟨d, b, t, he, ht⟩ := step1
  unfold SessionManager.idle_config_broadcasts
  dsimp only
  rw [he]
  split
  · obtain ⟨b2, t2, he2, ht2⟩ := broadcast_config_files_eq
      { s with
        startup_broadcast_done := d
        config_broadcaster := b
        transmitted := s.transmitted ++ t }
    refine ⟨d, b2, t ++ t2, ?_, ?_⟩
    · rw [he2]
      dsimp only
      rw [List.append_assoc]
    · intro f hf
      rcases List.mem_append.mp hf with h | h
      · exact ht f h
      · exact ht2 f h
  · exact ⟨d, b, t, rfl, ht⟩

theorem idle_config_broadcasts_disabled (s : SessionManager)
    (hcfg : s.config_broadcast_enabled = false) : s.idle_config_broadcasts = s := by
  unfold SessionManager.idle_config_broadcasts SessionManager.check_periodic_broadcast
  dsimp only
  rw [hcfg]
  simp only [Bool.false_and, Bool.false_eq_true, if_false, hcfg, Bool.not_false, if_true]

theorem idle_config_broadcasts_keeps (s : SessionManager) :
    s.idle_config_broadcasts.state_tracker = s.state_tracker ∧
    s.idle_config_broadcasts.monitor_mode = s.monitor_mode ∧
    s.idle_config_broadcasts.node_list = s.node_list ∧
    s.idle_config_broadcasts.current_node_index = s.current_node_index ∧
    s.idle_config_broadcasts.sent = s.sent ∧
    s.idle_config_broadcasts.upload_coord = s.upload_coord ∧
    s.idle_config_broadcasts.get_current_macid = s.get_current_macid := by
  obtain ⟨d, b, t, he, -⟩ := idle_config_broadcasts_eq s
  rw [he]
  exact ⟨rfl, rfl, rfl, rfl, rfl, rfl, rfl⟩

/-- The first tick of a poll: after the config broadcasts of the `IDLE` case,
the `R` sequence starts and its first command is sent at once. -/
theorem process_state_machine_idle (s0 : SessionManager)
    (hidle : s0.state_tracker.current_state = SessionState.STATE_IDLE)
    (hmon : s0.monitor_mode = false)
    (hnode : s0.current_node_index < s0.node_list.length) (now : Nat) :
    s0.process_state_machine now =
      some (polling_session s0.idle_config_broadcasts [now] none) := by
  obtain ⟨k1, k2, k3, k4, -, -, -⟩ := idle_config_broadcasts_keeps s0
  have hidle1 : s0.idle_config_broadcasts.state_tracker.current_state =
      SessionState.STATE_IDLE := by rw [k1]; exact hidle
  have hnode1 : s0.idle_config_broadcasts.current_node_index <
      s0.idle_config_broadcasts.node_list.length := by rw [k3, k4]; exact hnode
  unfold SessionManager.process_state_machine
  rw [hidle]
  dsimp only
  rw [hmon]
  simp only [Bool.not_false, if_true]
  generalize s0.idle_config_broadcasts = s1 at hidle1 hnode1 ⊢
  have hne : s1.node_list.isEmpty = false := by
    cases hl : s1.node_list with
    | nil => rw [hl] at hnode1; exact absurd hnode1 (by simp)
    | cons a l => rfl
  simp only [SessionManager.has_nodes, SessionManager.is_at_end, hne, Bool.not_false,
    Bool.not_true, Bool.false_or, if_true, if_false, Bool.false_eq_true, ge_iff_le,
    decide_eq_true_eq, not_le.mpr hnode1, Bool.false_and]
  unfold SessionManager.poll_current_node SessionManager.send_command
    SessionStateTracker.transition_state
  dsimp only
  rw [hidle1]
  simp [polling_session, polling_sequence, CommandSequenceManager.start_command_transmission,
    CommandSequenceManager.mark_command_sent, CommandSequenceManager.get_command]

theorem polling_sequence_complete (k last : Nat) :
    (polling_sequence k last).is_transmission_complete = decide (8 ≤ k) := by
  unfold CommandSequenceManager.is_transmission_complete polling_sequence CMD_R_MAX_ATTEMPTS
  by_cases h : 8 ≤ k
  · have : (k : Int) ≥ 8 := by omega
    simp [h, this]
  · have : ¬ (k : Int) ≥ 8 := by omega
    simp only [Bool.not_true, Bool.false_eq_true, if_false, this, decide_eq_false h]

theorem polling_sequence_ready (k last now : Nat) (hk : k < 8) :
    (polling_sequence k last).is_ready_to_send now = decide (last + 1800 ≤ now) := by
  unfold CommandSequenceManager.is_ready_to_send
  rw [polling_sequence_complete, decide_eq_false (by omega)]
  simp only [polling_sequence, CMD_R_RETRY_DELAY_MS, Bool.not_true, Bool.false_eq_true,
    if_false]
  by_cases h : last + 1800 ≤ now
  · rw [decide_eq_true h, decide_eq_true]
    omega
  · rw [decide_eq_false h, decide_eq_false]
    omega

/-- A tick during the poll while fewer than 8 sends were made: the command is
sent again when 1800 ms have passed since the last send, and nothing changes
otherwise. -/
theorem process_state_machine_polling (s0 : SessionManager) (sends : List Nat)
    (hk : sends.length < 8) (now : Nat) :
    (polling_session s0 sends none).process_state_machine now =
      some (if sends.getLastD 0 + 1800 ≤ now then polling_session s0 (sends ++ [now]) none
        else polling_session s0 sends none) := by
  unfold SessionManager.process_state_machine
  have hst : (polling_session s0 sends none).state_tracker.current_state =
      SessionState.STATE_COMMAND_SEQUENCE := rfl
  have hseq : (polling_session s0 sends none).cmd_seq_mgr =
      polling_sequence sends.length (sends.getLastD 0) := rfl
  rw [hst]
  dsimp only
  rw [hseq, polling_sequence_complete, decide_eq_false (by omega),
    polling_sequence_ready _ _ _ hk]
  by_cases h : sends.getLastD 0 + 1800 ≤ now
  · rw [decide_eq_true h, if_pos h]
    simp [SessionManager.send_command, polling_session, polling_sequence,
      CommandSequenceManager.mark_command_sent, CommandSequenceManager.get_command]
  · rw [decide_eq_false h, if_neg h]
    rfl

/-- A tick after the 8th send: the first one starts the settling delay, a
later one ends the poll once 500 ms have passed since that start. -/
theorem process_state_machine_settling (s0 : SessionManager)
    (hidle : s0.state_tracker.current_state = SessionState.STATE_IDLE)
    (hnode : s0.current_node_index < s0.node_list.length)
    (sends : List Nat) (hk : sends.length = 8) (settling : Option Nat) (now : Nat) :
    (polling_session s0 sends settling).process_state_machine now =
      some (match settling with
        | none => polling_session s0 sends (some now)
        | some t =>
          if t + 500 ≤ now then settled_session s0 sends t
          else polling_session s0 sends (some t)) := by
  have hne : s0.node_list.isEmpty = false := by
    cases hl : s0.node_list with
    | nil => rw [hl] at hnode; exact absurd hnode (by simp)
    | cons a l => rfl
  unfold SessionManager.process_state_machine
  have hst : (polling_session s0 sends settling).state_tracker.current_state =
      SessionState.STATE_COMMAND_SEQUENCE := rfl
  have hseq : (polling_session s0 sends settling).cmd_seq_mgr =
      polling_sequence sends.length (sends.getLastD 0) := rfl
  rw [hst]
  dsimp only
  rw [hseq, polling_sequence_complete, decide_eq_true (by omega)]
  cases settling with
  | none =>
    simp [polling_session, CMD_SETTLING_DELAY_MS]
  | some t =>
    by_cases h : t + 500 ≤ now
    · have h2 : (now : Int) - (t : Int) ≥ 500 := by omega
      simp [polling_session, settled_session, CMD_SETTLING_DELAY_MS, h, h2,
        SessionManager.move_to_next_node, hne, SessionStateTracker.transition_state, hidle]
      rw [← hidle]
    · have h2 : ¬ (now : Int) - (t : Int) ≥ 500 := by omega
      simp [polling_session, CMD_SETTLING_DELAY_MS, h, h2]

theorem process_polling (s0 : SessionManager) (sends : List Nat) (settling : Option Nat)
    (response : Option CommandResponse) (now : Nat)
    (hno : ∀ r : CommandResponse, response = some r → r.command_code ≠ CMD_ACK_INIT) :
    (polling_session s0 sends settling).process response now =
      (polling_session s0 sends settling).process_state_machine now := by
  unfold SessionManager.process
  rw [process_response_no_ack _ (Or.inr rfl) response now hno]

theorem run_until_idle_polling_step (s0 : SessionManager) (sends sends1 : List Nat)
    (settling settling1 : Option Nat) (tick : Option CommandResponse × Nat)
    (rest : List (Option CommandResponse × Nat))
    (hno : ∀ r : CommandResponse, tick.1 = some r → r.command_code ≠ CMD_ACK_INIT)
    (hstep : (polling_session s0 sends settling).process_state_machine tick.2 =
      some (polling_session s0 sends1 settling1)) :
    (polling_session s0 sends settling).run_until_idle (tick :: rest) =
      (polling_session s0 sends1 settling1).run_until_idle rest := by
  rw [SessionManager.run_until_idle, process_polling s0 sends settling tick.1 tick.2 hno, hstep]
  dsimp only
  rw [if_neg]
  show SessionState.STATE_COMMAND_SEQUENCE ≠ SessionState.STATE_IDLE
  decide

theorem run_until_idle_settled_step (s0 : SessionManager)
    (hidle : s0.state_tracker.current_state = SessionState.STATE_IDLE)
    (sends sends1 : List Nat) (settling : Option Nat) (t : Nat)
    (tick : Option CommandResponse × Nat) (rest : List (Option CommandResponse × Nat))
    (hno : ∀ r : CommandResponse, tick.1 = some r → r.command_code ≠ CMD_ACK_INIT)
    (hstep : (polling_session s0 sends settling).process_state_machine tick.2 =
      some (settled_session s0 sends1 t)) :
    (polling_session s0 sends settling).run_until_idle (tick :: rest) =
      some (settled_session s0 sends1 t) := by
  rw [SessionManager.run_until_idle, process_polling s0 sends settling tick.1 tick.2 hno, hstep]
  dsimp only
  rw [if_pos]
  exact hidle

theorem chain_gap_append (sends : List Nat) (now : Nat)
    (hc : sends.Chain' (fun a b => a + 1800 ≤ b)) (h : sends.getLastD 0 + 1800 ≤ now) :
    (sends ++ [now]).Chain' (fun a b => a + 1800 ≤ b) := by
  rw [List.chain'_append]
  refine ⟨hc, List.chain'_singleton now, ?_⟩
  intro x hx y hy
  rw [List.getLastD_eq_getLast?] at h
  rw [Option.mem_def] at hx hy
  rw [hx] at h
  simp only [List.head?_cons, Option.some.injEq] at hy
  rw [← hy]
  exact h

/-- The calls of `process` during a poll, up to the return to `STATE_IDLE`:
the sends stay at most 8 and 1800 ms apart, and the session is either still
polling or settled after exactly 8 sends and a settling delay of at least
500 ms. -/
theorem run_until_idle_polling (s0 : SessionManager)
    (hidle : s0.state_tracker.current_state = SessionState.STATE_IDLE)
    (hnode : s0.current_node_index < s0.node_list.length) :
    ∀ (rest : List (Option CommandResponse × Nat)) (sends : List Nat) (settling : Option Nat),
    (∀ tick ∈ rest, ∀ r : CommandResponse, tick.1 = some r → r.command_code ≠ CMD_ACK_INIT) →
    sends.length ≤ 8 → (settling.isSome = true → sends.length = 8) →
    sends.Chain' (fun a b => a + 1800 ≤ b) →
    ∃ sends1 : List Nat, sends <+: sends1 ∧ sends1.length ≤ 8 ∧
      sends1.Chain' (fun a b => a + 1800 ≤ b) ∧
      (∀ t ∈ sends1, t ∈ sends ∨ t ∈ rest.map Prod.snd) ∧
      ((∃ settling1 : Option Nat,
          (polling_session s0 sends settling).run_until_idle rest =
            some (polling_session s0 sends1 settling1) ∧
          (settling1.isSome = true → sends1.length = 8)) ∨
        (∃ t_detect t_done : Nat,
          (polling_session s0 sends settling).run_until_idle rest =
            some (settled_session s0 sends1 t_detect) ∧
          sends1.length = 8 ∧ t_detect + 500 ≤ t_done ∧ t_done ∈ rest.map Prod.snd ∧
          (settling = some t_detect ∨ t_detect ∈ rest.map Prod.snd)))
  | [], sends, settling, _, hlen, hset, hchain =>
    ⟨sends, List.prefix_refl _, hlen, hchain, fun t ht => Or.inl ht,
      Or.inl ⟨settling, rfl, hset⟩⟩
  | tick :: rest, sends, settling, hno, hlen, hset, hchain => by
    have hno1 : ∀ r : CommandResponse, tick.1 = some r → r.command_code ≠ CMD_ACK_INIT :=
      hno tick (List.mem_cons_self _ _)
    have hno2 : ∀ tick1 ∈ rest, ∀ r : CommandResponse, tick1.1 = some r →
        r.command_code ≠ CMD_ACK_INIT :=
      fun tick1 h => hno tick1 (List.mem_cons_of_mem _ h)
    by_cases hk : sends.length < 8
    · have hnone : settling = none := by
        cases settling with
        | none => rfl
        | some t => exact absurd (hset rfl) (by omega)
      subst hnone
      have hstep := process_state_machine_polling s0 sends hk tick.2
      by_cases hready : sends.getLastD 0 + 1800 ≤ tick.2
      · rw [if_pos hready] at hstep
        obtain ⟨sends1, hp, hl, hc, hm, hres⟩ := run_until_idle_polling s0 hidle hnode rest
          (sends ++ [tick.2]) none hno2 (by rw [List.length_append, List.length_singleton]; omega)
          (fun h => absurd h (by simp)) (chain_gap_append sends tick.2 hchain hready)
        refine ⟨sends1, (List.prefix_append sends [tick.2]).trans hp, hl, hc, ?_, ?_⟩
        · intro t ht
          rcases hm t ht with h | h
          · rcases List.mem_append.mp h with h1 | h1
            · exact Or.inl h1
            · rw [List.mem_singleton.mp h1]
              exact Or.inr (by simp)
          · exact Or.inr (by
              rw [List.map_cons]
              exact List.mem_cons_of_mem _ h)
        · rw [run_until_idle_polling_step s0 sends _ none none tick rest hno1 hstep]
          rcases hres with ⟨w, h1, h2⟩ | ⟨td, tf, h1, h2, h3, h4, h5⟩
          · exact Or.inl ⟨w, h1, h2⟩
          · refine Or.inr ⟨td, tf, h1, h2, h3, ?_, ?_⟩
            · rw [List.map_cons]
              exact List.mem_cons_of_mem _ h4
            · rcases h5 with h5 | h5
              · exact absurd h5 (by simp)
              · exact Or.inr (by
                  rw [List.map_cons]
                  exact List.mem_cons_of_mem _ h5)
      · rw [if_neg hready] at hstep
        obtain ⟨sends1, hp, hl, hc, hm, hres⟩ := run_until_idle_polling s0 hidle hnode rest
          sends none hno2 hlen hset hchain
        refine ⟨sends1, hp, hl, hc, ?_, ?_⟩
        · intro t ht
          rcases hm t ht with h | h
          · exact Or.inl h
          · exact Or.inr (by
              rw [List.map_cons]
              exact List.mem_cons_of_mem _ h)
        · rw [run_until_idle_polling_step s0 sends _ none none tick rest hno1 hstep]
          rcases hres with ⟨w, h1, h2⟩ | ⟨td, tf, h1, h2, h3, h4, h5⟩
          · exact Or.inl ⟨w, h1, h2⟩
          · refine Or.inr ⟨td, tf, h1, h2, h3, ?_, ?_⟩
            · rw [List.map_cons]
              exact List.mem_cons_of_mem _ h4
            · rcases h5 with h5 | h5
              · exact absurd h5 (by simp)
              · exact Or.inr (by
                  rw [List.map_cons]
                  exact List.mem_cons_of_mem _ h5)
    · have hk8 : sends.length = 8 := by omega
      have hstep := process_state_machine_settling s0 hidle hnode sends hk8 settling tick.2
      cases settling with
      | none =>
        dsimp only at hstep
        obtain ⟨sends1, hp, hl, hc, hm, hres⟩ := run_until_idle_polling s0 hidle hnode rest
          sends (some tick.2) hno2 hlen (fun _ => hk8) hchain
        refine ⟨sends1, hp, hl, hc, ?_, ?_⟩
        · intro t ht
          rcases hm t ht with h | h
          · exact Or.inl h
          · exact Or.inr (by
              rw [List.map_cons]
              exact List.mem_cons_of_mem _ h)
        · rw [run_until_idle_polling_step s0 sends _ none (some tick.2) tick rest hno1 hstep]
          rcases hres with ⟨w, h1, h2⟩ | ⟨td, tf, h1, h2, h3, h4, h5⟩
          · exact Or.inl ⟨w, h1, h2⟩
          · refine Or.inr ⟨td, tf, h1, h2, h3, ?_, ?_⟩
            · rw [List.map_cons]
              exact List.mem_cons_of_mem _ h4
            · rcases h5 with h5 | h5
              · rw [Option.some.injEq] at h5
                rw [← h5]
                exact Or.inr (by simp)
              · exact Or.inr (by
                  rw [List.map_cons]
                  exact List.mem_cons_of_mem _ h5)
      | some t =>
        dsimp only at hstep
        by_cases hdone : t + 500 ≤ tick.2
        · rw [if_pos hdone] at hstep
          refine ⟨sends, List.prefix_refl _, hlen, hchain, fun t ht => Or.inl ht, ?_⟩
          refine Or.inr ⟨t, tick.2, ?_, hk8, hdone, by simp, Or.inl rfl⟩
          exact run_until_idle_settled_step s0 hidle sends sends (some t) t tick rest hno1 hstep
        · rw [if_neg hdone] at hstep
          obtain ⟨sends1, hp, hl, hc, hm, hres⟩ := run_until_idle_polling s0 hidle hnode rest
            sends (some t) hno2 hlen (fun _ => hk8) hchain
          refine ⟨sends1, hp, hl, hc, ?_, ?_⟩
          · intro t ht
            rcases hm t ht with h | h
            · exact Or.inl h
            · exact Or.inr (by
                rw [List.map_cons]
                exact List.mem_cons_of_mem _ h)
          · rw [run_until_idle_polling_step s0 sends _ (some t) (some t) tick rest hno1 hstep]
            rcases hres with ⟨w, h1, h2⟩ | ⟨td, tf, h1, h2, h3, h4, h5⟩
            · exact Or.inl ⟨w, h1, h2⟩
            · refine Or.inr ⟨td, tf, h1, h2, h3, ?_, ?_⟩
              · rw [List.map_cons]
                exact List.mem_cons_of_mem _ h4
              · rcases h5 with h5 | h5
                · exact Or.inl h5
                · exact Or.inr (by
                    rw [List.map_cons]
                    exact List.mem_cons_of_mem _ h5)

theorem run_until_idle_first (s0 : SessionManager)
    (hidle : s0.state_tracker.current_state = SessionState.STATE_IDLE)
    (hmon : s0.monitor_mode = false)
    (hnode : s0.current_node_index < s0.node_list.length)
    (tick : Option CommandResponse × Nat) (rest : List (Option CommandResponse × Nat))
    (hno : ∀ r : CommandResponse, tick.1 = some r → r.command_code ≠ CMD_ACK_INIT) :
    s0.run_until_idle (tick :: rest) =
      (polling_session s0.idle_config_broadcasts [tick.2] none).run_until_idle rest := by
  rw [SessionManager.run_until_idle, SessionManager.process,
    process_response_no_ack s0 (Or.inl hidle) tick.1 tick.2 hno,
    process_state_machine_idle s0 hidle hmon hnode tick.2]
  dsimp only
  rw [if_neg]
  show SessionState.STATE_COMMAND_SEQUENCE ≠ SessionState.STATE_IDLE
  decide

theorem run_until_idle_send (s0 : SessionManager) (sends : List Nat) (now : Nat)
    (rest : List (Option CommandResponse × Nat)) (hk : sends.length < 8)
    (hready : sends.getLastD 0 + 1800 ≤ now) :
    (polling_session s0 sends none).run_until_idle ((none, now) :: rest) =
      (polling_session s0 (sends ++ [now]) none).run_until_idle rest := by
  apply run_until_idle_polling_step s0 sends (sends ++ [now]) none none (none, now) rest
  · intro r h
    exact absurd h (by simp)
  · rw [process_state_machine_polling s0 sends hk now, if_pos hready]

theorem run_until_idle_schedule (s0 : SessionManager)
    (hidle : s0.state_tracker.current_state = SessionState.STATE_IDLE)
    (hmon : s0.monitor_mode = false)
    (hnode : s0.current_node_index < s0.node_list.length)
    (t0 d t_detect e : Nat) (hd : 1800 ≤ d) (he : 500 ≤ e) :
    s0.run_until_idle [(none, t0), (none, t0 + d), (none, t0 + 2 * d), (none, t0 + 3 * d),
        (none, t0 + 4 * d), (none, t0 + 5 * d), (none, t0 + 6 * d), (none, t0 + 7 * d),
        (none, t_detect), (none, t_detect + e)] =
      some (settled_session s0.idle_config_broadcasts
        [t0, t0 + d, t0 + 2 * d, t0 + 3 * d, t0 + 4 * d, t0 + 5 * d, t0 + 6 * d, t0 + 7 * d]
        t_detect) := by
  obtain ⟨k1, -, k3, k4, -, -, -⟩ := idle_config_broadcasts_keeps s0
  have hidle1 : s0.idle_config_broadcasts.state_tracker.current_state =
      SessionState.STATE_IDLE := by rw [k1]; exact hidle
  have hnode1 : s0.idle_config_broadcasts.current_node_index <
      s0.idle_config_broadcasts.node_list.length := by rw [k3, k4]; exact hnode
  rw [run_until_idle_first s0 hidle hmon hnode (none, t0) _
    (fun r h => absurd h (by simp))]
  generalize s0.idle_config_broadcasts = s1 at hidle1 hnode1 ⊢
  rw [run_until_idle_send s1 _ _ _ (by simp) (by simp; omega)]
  rw [run_until_idle_send s1 _ _ _ (by simp) (by simp; omega)]
  rw [run_until_idle_send s1 _ _ _ (by simp) (by simp; omega)]
  rw [run_until_idle_send s1 _ _ _ (by simp) (by simp; omega)]
  rw [run_until_idle_send s1 _ _ _ (by simp) (by simp; omega)]
  rw [run_until_idle_send s1 _ _ _ (by simp) (by simp; omega)]
  rw [run_until_idle_send s1 _ _ _ (by simp) (by simp; omega)]
  rw [run_until_idle_polling_step s1 _ _ none (some t_detect) (none, t_detect) _
    (fun r h => absurd h (by simp))
    (process_state_machine_settling s1 hidle1 hnode1 _ (by simp) none t_detect)]
  apply run_until_idle_settled_step s1 hidle1 _ _ (some t_detect) t_detect (none, t_detect + e) _
    (fun r h => absurd h (by simp))
  rw [process_state_machine_settling s1 hidle1 hnode1 _ (by simp) (some t_detect)
    (t_detect + e)]
  dsimp only
  rw [if_pos (by omega)]
  rfl

theorem upload_manager_reset_keeps_sent (m : UploadManager) : m.reset.sent = m.sent := by
  unfold UploadManager.reset UploadManager.transition_state
  dsimp only
  split <;> rfl

theorem upload_manager_reset_eq (m : UploadManager) :
    m.reset =
      { m with
        current_state := UploadState.UPLOAD_IDLE
        current_macid := 0
        upload_start_addr := 0
        upload_length := 0
        retry_count := 0
        segment_tracker := { segments := [], total_segments := 0, segments_received := 0 }
        timeout_manager := { session_start_time := 0, last_packet_time := 0 }
        statistics :=
          { total_packets_received := 0, total_packets_requested := 0, checksum_errors := 0 }
        triggering_response := none } := by
  unfold UploadManager.reset UploadManager.transition_state UploadSegmentTracker.reset
  dsimp only
  by_cases h : UploadState.UPLOAD_IDLE ≠ m.current_state
  · rw [if_pos h]
  · rw [if_neg h]
    have h2 : m.current_state = UploadState.UPLOAD_IDLE := (not_not.mp h).symm
    dsimp only
    rw [h2]

/-- C27: from `STATE_IDLE` (not monitor mode) with a current node in the node
list, and for every sequence of calls of `process` that never carries an
ack-init frame, followed up to the return to `STATE_IDLE`: the first call may
hand erase (`'E'`) and config (`'D'`) frames of the config broadcast to the
transmitter -- none when config broadcasting is disabled -- and apart from
those the only frames sent are `R` polls to the current node, the first at the
first call, at most 8 of them, each at least 1800 ms after the previous one;
the session is then either still in `STATE_COMMAND_SEQUENCE` on the same node,
or back in `STATE_IDLE` after exactly 8 polls with the sequencer cleared
(inactive, no command, attempts and limits 0), the upload manager cleared
(`UPLOAD_IDLE`, no MAC, address, length, retries, segments, timers, statistics
or stored response), the dwell counter zero and the node index advanced by
one, which happened at a call at least 500 ms after the call that detected
completion. With calls at `t0, t0 + d, ..., t0 + 7 d` (`d >= 1800`), a call at
any instant `t_detect` and a call at `t_detect + e` (`e >= 500`), all 8 polls
are sent, at those instants, and the session is back in `STATE_IDLE`. -/
theorem r_poll_sent_8_times_then_advance (s0 : SessionManager)
    (hidle : s0.state_tracker.current_state = SessionState.STATE_IDLE)
    (hmon : s0.monitor_mode = false)
    (hnode : s0.current_node_index < s0.node_list.length) :
    (∃ node : NodeInfo, s0.node_list[s0.current_node_index]? = some node ∧
      s0.get_current_macid = node.macid) ∧
    (∀ (tick : Option CommandResponse × Nat) (rest : List (Option CommandResponse × Nat)),
      (∀ t ∈ tick :: rest, ∀ r : CommandResponse, t.1 = some r →
        r.command_code ≠ CMD_ACK_INIT) →
      ∃ (s1 : SessionManager) (sends : List Nat) (broadcast : List (List Nat)),
        s0.run_until_idle (tick :: rest) = some s1 ∧
        s1.sent = s0.sent ++ sends.map (SentCommand.mk 0x52 s0.get_current_macid) ∧
        s1.upload_coord.upload_mgr.sent = s0.upload_coord.upload_mgr.sent ∧
        s1.transmitted = s0.transmitted ++ broadcast ∧
        (∀ f ∈ broadcast, f.getD 45 0 = 0x45 ∨ f.getD 45 0 = 0x44) ∧
        (s0.config_broadcast_enabled = false → broadcast = []) ∧
        sends.head? = some tick.2 ∧ sends.length ≤ 8 ∧
        sends.Chain' (fun a b => a + 1800 ≤ b) ∧
        (∀ t ∈ sends, t ∈ (tick :: rest).map Prod.snd) ∧
        ((s1.state_tracker.current_state = SessionState.STATE_COMMAND_SEQUENCE ∧
            s1.current_node_index = s0.current_node_index ∧
            s1.cmd_seq_mgr = polling_sequence sends.length (sends.getLastD 0)) ∨
          (s1.state_tracker.current_state = SessionState.STATE_IDLE ∧
            sends.length = 8 ∧
            s1.cmd_seq_mgr = (polling_sequence 8 (sends.getLastD 0)).reset ∧
            s1.cmd_seq_mgr =
              { current_command := 0
                secondary_command := 0
                command_mask := 0
                delay_ms := 0
                last_send_time := ((sends.getLastD 0 : Nat) : Int)
                max_attempts := 0
                current_attempt := 0
                ack_received := false
                transmission_active := false } ∧
            s1.upload_coord.upload_mgr = s0.upload_coord.upload_mgr.reset ∧
            s1.upload_coord.upload_mgr =
              { s0.upload_coord.upload_mgr with
                current_state := UploadState.UPLOAD_IDLE
                current_macid := 0
                upload_start_addr := 0
                upload_length := 0
                retry_count := 0
                segment_tracker :=
                  { segments := [], total_segments := 0, segments_received := 0 }
                timeout_manager := { session_start_time := 0, last_packet_time := 0 }
                statistics :=
                  { total_packets_received := 0, total_packets_requested := 0,
                    checksum_errors := 0 }
                triggering_response := none } ∧
            s1.dwell_count = 0 ∧
            s1.current_node_index = s0.current_node_index + 1 ∧
            ∃ t_detect t_done : Nat, s1.settling_start_time = t_detect ∧
              t_detect + 500 ≤ t_done ∧ t_detect ∈ rest.map Prod.snd ∧
              t_done ∈ rest.map Prod.snd))) ∧
    (∀ t0 d t_detect e : Nat, 1800 ≤ d → 500 ≤ e →
      s0.run_until_idle [(none, t0), (none, t0 + d), (none, t0 + 2 * d), (none, t0 + 3 * d),
          (none, t0 + 4 * d), (none, t0 + 5 * d), (none, t0 + 6 * d), (none, t0 + 7 * d),
          (none, t_detect), (none, t_detect + e)] =
        some (settled_session s0.idle_config_broadcasts
          [t0, t0 + d, t0 + 2 * d, t0 + 3 * d, t0 + 4 * d, t0 + 5 * d, t0 + 6 * d,
            t0 + 7 * d] t_detect)) := by
  refine ⟨get_current_macid_of_node s0 hnode, ?_,
    fun t0 d t_detect e hd he =>
      run_until_idle_schedule s0 hidle hmon hnode t0 d t_detect e hd he⟩
  intro tick rest hno
  obtain ⟨k1, -, k3, k4, k5, k6, k7⟩ := idle_config_broadcasts_keeps s0
  have hidle1 : s0.idle_config_broadcasts.state_tracker.current_state =
      SessionState.STATE_IDLE := by rw [k1]; exact hidle
  have hnode1 : s0.idle_config_broadcasts.current_node_index <
      s0.idle_config_broadcasts.node_list.length := by rw [k3, k4]; exact hnode
  obtain ⟨d, b, bt, hbe, hbt⟩ := idle_config_broadcasts_eq s0
  have htx : s0.idle_config_broadcasts.transmitted = s0.transmitted ++ bt := by rw [hbe]
  have hoff : s0.config_broadcast_enabled = false →
      s0.idle_config_broadcasts.transmitted = s0.transmitted := by
    intro hcfg
    rw [idle_config_broadcasts_disabled s0 hcfg]
  rw [run_until_idle_first s0 hidle hmon hnode tick rest
    (hno tick (List.mem_cons_self _ _))]
  obtain ⟨sends, hp, hl, hc, hm, hres⟩ := run_until_idle_polling s0.idle_config_broadcasts
    hidle1 hnode1 rest
    [tick.2] none (fun t h => hno t (List.mem_cons_of_mem _ h)) (by simp)
    (fun h => absurd h (by simp)) (List.chain'_singleton _)
  have hhead : sends.head? = some tick.2 := by
    obtain ⟨l, rfl⟩ := hp
    rfl
  have hmem : ∀ t ∈ sends, t ∈ (tick :: rest).map Prod.snd := by
    intro t ht
    rw [List.map_cons]
    rcases hm t ht with h | h
    · rw [List.mem_singleton.mp h]
      exact List.mem_cons_self _ _
    · exact List.mem_cons_of_mem _ h
  have hoff2 : s0.config_broadcast_enabled = false → bt = [] := by
    intro hcfg
    have h1 := hoff hcfg
    rw [htx] at h1
    exact List.append_right_eq_self.mp h1
  rcases hres with ⟨w, h1, _⟩ | ⟨td, tf, h1, h2, h3, h4, h5⟩
  · refine ⟨_, sends, bt, h1, ?_, ?_, htx, hbt, hoff2, hhead, hl, hc, hmem,
      Or.inl ⟨rfl, k4, rfl⟩⟩
    · show s0.idle_config_broadcasts.sent ++ _ = _
      rw [k5, k7]
      rfl
    · show s0.idle_config_broadcasts.upload_coord.upload_mgr.sent = _
      rw [k6]
  · refine ⟨_, sends, bt, h1, ?_, ?_, htx, hbt, hoff2, hhead, hl, hc, hmem,
      Or.inr ⟨hidle1, h2, ?_, ?_, ?_, ?_, rfl, ?_, td, tf, rfl, h3, ?_, h4⟩⟩
    · show s0.idle_config_broadcasts.sent ++ _ = _
      rw [k5, k7]
      rfl
    · show s0.idle_config_broadcasts.upload_coord.upload_mgr.reset.sent = _
      rw [k6]
      exact upload_manager_reset_keeps_sent _
    · show (polling_sequence sends.length (sends.getLastD 0)).reset = _
      rw [h2]
    · show (polling_sequence sends.length (sends.getLastD 0)).reset = _
      rfl
    · show s0.idle_config_broadcasts.upload_coord.upload_mgr.reset = _
      rw [k6]
    · show s0.idle_config_broadcasts.upload_coord.upload_mgr.reset = _
      rw [k6]
      exact upload_manager_reset_eq _
    · show s0.idle_config_broadcasts.current_node_index + 1 = _
      rw [k4]
    · rcases h5 with h5 | h5
      · exact absurd h5 (by simp)
      · exact h5

theorem IsTimeForPeriodicBroadcast_iff (b : ConfigBroadcaster) (current_time : Int) :
    b.IsTimeForPeriodicBroadcast current_time =
      decide (3600 * b.m_broadcast_interval_hours ≤ current_time - b.m_last_broadcast_time) := by
  unfold ConfigBroadcaster.IsTimeForPeriodicBroadcast
  dsimp only
  apply decide_eq_decide.mpr
  rw [ge_iff_le, le_div_iff₀ (by norm_num : (0 : ℚ) < 3600)]
  constructor
  · intro h
    have h2 : ((b.m_broadcast_interval_hours * 3600 : Int) : ℚ) ≤
        ((current_time - b.m_last_broadcast_time : Int) : ℚ) := by
      push_cast
      push_cast at h
      exact h
    have h3 := Int.cast_le.mp h2
    omega
  · intro h
    have h2 : b.m_broadcast_interval_hours * 3600 ≤
        current_time - b.m_last_broadcast_time := by omega
    have h3 : ((b.m_broadcast_interval_hours * 3600 : Int) : ℚ) ≤
        ((current_time - b.m_last_broadcast_time : Int) : ℚ) := Int.cast_le.mpr h2
    push_cast at h3
    push_cast
    exact h3

theorem sample_broadcast_session_startup :
    sample_broadcast_session.idle_config_broadcasts.transmitted.length = 10 ∧
    sample_broadcast_session.idle_config_broadcasts.startup_broadcast_done = true := by
  unfold SessionManager.idle_config_broadcasts SessionManager.check_periodic_broadcast
  simp only [IsTimeForPeriodicBroadcast_iff]
  decide

/-- C27 on the sample session with config broadcasting enabled and one config
file, with calls every 2000 ms from instant 1000, the detecting call at 15100
and the settling call at 15600: the first call hands 4 erase frames and 6
config frames to the transmitter, and the 8 polls follow. -/
theorem r_poll_sent_8_times_then_advance_witness :
    sample_broadcast_session.run_until_idle [(none, 1000), (none, 1000 + 2000),
        (none, 1000 + 2 * 2000), (none, 1000 + 3 * 2000), (none, 1000 + 4 * 2000),
        (none, 1000 + 5 * 2000), (none, 1000 + 6 * 2000), (none, 1000 + 7 * 2000),
        (none, 15100), (none, 15100 + 500)] =
      some (settled_session sample_broadcast_session.idle_config_broadcasts
        [1000, 1000 + 2000, 1000 + 2 * 2000, 1000 + 3 * 2000, 1000 + 4 * 2000,
          1000 + 5 * 2000, 1000 + 6 * 2000, 1000 + 7 * 2000] 15100) ∧
    sample_broadcast_session.config_broadcast_enabled = true ∧
    sample_broadcast_session.idle_config_broadcasts.transmitted.length = 10 ∧
    sample_broadcast_session.idle_config_broadcasts.startup_broadcast_done = true :=
  ⟨(r_poll_sent_8_times_then_advance sample_broadcast_session rfl rfl (by decide)).2.2
    1000 2000 15100 500 (by decide) (by decide), by decide,
    sample_broadcast_session_startup.1, sample_broadcast_session_startup.2⟩

/-! ## SamplesetSupervisor::get_sampleset -/

theorem get_sampleset_loop_spec (v : SamplesetSupervisor) (now : Int) :
    ∀ (n temp_index : Nat), temp_index < v.samplesets_.length →
    ∃ result : Option Nat × SamplesetSupervisor,
      v.get_sampleset_loop now n temp_index = some result ∧
      ((∃ j : Nat, j < n ∧
          v.due_at now ((temp_index + j) % v.samplesets_.length) = true ∧
          (∀ i : Nat, i < j →
            v.due_at now ((temp_index + i) % v.samplesets_.length) = false) ∧
          result.1 = some ((temp_index + j) % v.samplesets_.length) ∧
          result.2 = { v with
            current_index_ :=
              ((temp_index + j) % v.samplesets_.length + 1) % v.samplesets_.length }) ∨
        ((∀ i : Nat, i < n →
            v.due_at now ((temp_index + i) % v.samplesets_.length) = false) ∧
          result.1 = none ∧ result.2 = v))
  | 0, temp_index, _ => ⟨(none, v), rfl, Or.inr ⟨fun i hi => absurd hi (by omega), rfl, rfl⟩⟩
  | n + 1, temp_index, ht => by
    have hpos : 0 < v.samplesets_.length := by omega
    have hmod : temp_index % v.samplesets_.length = temp_index := Nat.mod_eq_of_lt ht
    have hget : v.samplesets_[temp_index]? = some v.samplesets_[temp_index] :=
      List.getElem?_eq_getElem ht
    have hdue : v.due_at now temp_index =
        v.is_due_for_sampling v.samplesets_[temp_index] now := by
      unfold SamplesetSupervisor.due_at
      rw [hget]
    unfold SamplesetSupervisor.get_sampleset_loop
    rw [hget]
    dsimp only
    by_cases hd : v.is_due_for_sampling v.samplesets_[temp_index] now = true
    · rw [if_pos hd]
      refine ⟨_, rfl, Or.inl ⟨0, by omega, ?_, fun i hi => absurd hi (by omega), ?_, ?_⟩⟩
      · rw [Nat.add_zero, hmod, hdue]
        exact hd
      · simp only [Nat.add_zero, hmod]
      · simp only [Nat.add_zero, hmod]
    · rw [if_neg hd]
      have hd2 : v.due_at now temp_index = false := by
        rw [hdue]
        simpa using hd
      obtain ⟨result, hr, hcase⟩ := get_sampleset_loop_spec v now n
        ((temp_index + 1) % v.samplesets_.length) (Nat.mod_lt _ hpos)
      have hshift : ∀ i : Nat, ((temp_index + 1) % v.samplesets_.length + i) %
          v.samplesets_.length = (temp_index + (i + 1)) % v.samplesets_.length := by
        intro i
        rw [Nat.mod_add_mod]
        congr 1
        omega
      refine ⟨result, hr, ?_⟩
      rcases hcase with ⟨j, hj, h1, h2, h3, h4⟩ | ⟨h1, h2, h3⟩
      · refine Or.inl ⟨j + 1, by omega, ?_, ?_, ?_, ?_⟩
        · rw [← hshift]
          exact h1
        · intro i hi
          cases i with
          | zero =>
            rw [Nat.add_zero, hmod]
            exact hd2
          | succ i =>
            rw [← hshift]
            exact h2 i (by omega)
        · rw [← hshift]
          exact h3
        · rw [← hshift]
          exact h4
      · refine Or.inr ⟨?_, h2, h3⟩
        intro i hi
        cases i with
        | zero =>
          rw [Nat.add_zero, hmod]
          exact hd2
        | succ i =>
          rw [← hshift]
          exact h1 i (by omega)

theorem cyclic_order_reaches (n idx k : Nat) (hidx : idx < n) (hk : k < n) :
    ∃ j : Nat, j < n ∧ (idx + j) % n = k := by
  by_cases h : idx ≤ k
  · exact ⟨k - idx, by omega, by
      rw [show idx + (k - idx) = k by omega]
      exact Nat.mod_eq_of_lt hk⟩
  · exact ⟨k + n - idx, by omega, by
      rw [show idx + (k + n - idx) = k + n by omega, Nat.add_mod_right]
      exact Nat.mod_eq_of_lt hk⟩

/-- C29, evaluated on the code: the sample supervisor holds timestamp 0 for its
first sampleset, whose interval of 2000000000 s is longer than the 1700000100 s
elapsed since then, and the second sampleset was sampled 100 s ago with an
interval of 3600 s, so by the stated rule no sampleset is due; yet
`is_due_for_sampling` is true for the first one (a stored timestamp of 0 reads
as never sampled) and `get_sampleset` returns index 0 and moves
`current_index_` to 1. On the same supervisor before initialisation, with an
empty database (every sampleset due), `get_sampleset` returns `nullptr`. -/
theorem get_sampleset_due_with_zero_timestamp :
    sample_supervisor.samplesets_.length = 2 ∧
    sample_supervisor.current_index_ < sample_supervisor.samplesets_.length ∧
    (∀ s ∈ sample_supervisor.samplesets_, ∃ last : Int,
      sample_supervisor.sample_times_ s = some last ∧
      s.interval.le_const (((1700000100 - last : Int) : ℚ)) = false) ∧
    sample_supervisor.due_at 1700000100 0 = true ∧
    (sample_supervisor.get_sampleset 1700000100).map (fun r => (r.1, r.2.current_index_)) =
      some (some 0, 1) ∧
    (∀ k : Nat, ({ sample_supervisor with
        initialized_ := false
        sample_times_ := fun _ => none } : SamplesetSupervisor).due_at 1700000100 k =
      decide (k < 2)) ∧
    (({ sample_supervisor with
        initialized_ := false
        sample_times_ := fun _ => none } : SamplesetSupervisor).get_sampleset 1700000100).map
      (fun r => (r.1, r.2.current_index_)) = some (none, 0) := by
  refine ⟨rfl, by decide, ?_, rfl, rfl, ?_, rfl⟩
  · intro s hs
    simp only [sample_supervisor, List.mem_cons, List.mem_singleton, List.not_mem_nil,
      or_false] at hs
    rcases hs with rfl | rfl
    · refine ⟨0, rfl, ?_⟩
      simp only [DoubleValue.le_const]
      norm_num
    · refine ⟨1700000000, rfl, ?_⟩
      simp only [DoubleValue.le_const]
      norm_num
  · intro k
    match k with
    | 0 => rfl
    | 1 => rfl
    | k + 2 => rfl

/-- C29, amended: on an initialised supervisor with `n >= 2` samplesets and
`current_index_ < n`, `get_sampleset()` returns the first sampleset that is
due in the cyclic order `current_index_, current_index_ + 1, ...` and sets
`current_index_` to `(k + 1) mod n` for the returned position `k`; it returns
null, leaving the supervisor unchanged, exactly when no sampleset is due. A
sampleset is due if and only if its stored last-sample time reads 0 -- it has
no entry, or an entry with timestamp 0 -- or `now - last_sampled` is at least
its interval. -/
theorem get_sampleset_round_robin (v : SamplesetSupervisor) (now : Int)
    (hinit : v.initialized_ = true) (hn : 2 ≤ v.samplesets_.length)
    (hidx : v.current_index_ < v.samplesets_.length) :
    (∃ result : Option Nat × SamplesetSupervisor, v.get_sampleset now = some result ∧
      ((∃ j : Nat, j < v.samplesets_.length ∧
          v.due_at now ((v.current_index_ + j) % v.samplesets_.length) = true ∧
          (∀ i : Nat, i < j →
            v.due_at now ((v.current_index_ + i) % v.samplesets_.length) = false) ∧
          result.1 = some ((v.current_index_ + j) % v.samplesets_.length) ∧
          result.2 = { v with
            current_index_ :=
              ((v.current_index_ + j) % v.samplesets_.length + 1) % v.samplesets_.length }) ∨
        ((∀ k : Nat, k < v.samplesets_.length → v.due_at now k = false) ∧
          result.1 = none ∧ result.2 = v)) ∧
      (result.1 = none ↔ ∀ k : Nat, k < v.samplesets_.length → v.due_at now k = false)) ∧
    (∀ s : Sampleset, v.is_due_for_sampling s now = true ↔
      (v.getLastSampleTime s = 0 ∨
        s.interval.le_const (((now - v.getLastSampleTime s : Int) : ℚ)) = true)) ∧
    (∀ s : Sampleset, v.getLastSampleTime s = 0 ↔
      (v.sample_times_ s = none ∨ v.sample_times_ s = some 0)) := by
  refine ⟨?_, ?_, ?_⟩
  · have hne : v.samplesets_.isEmpty = false := by
      cases hl : v.samplesets_ with
      | nil => rw [hl] at hn; exact absurd hn (by simp)
      | cons a l => rfl
    have hget : v.get_sampleset now =
        v.get_sampleset_loop now v.samplesets_.length v.current_index_ := by
      unfold SamplesetSupervisor.get_sampleset
      rw [hinit, hne]
      simp only [Bool.not_true, Bool.or_self, Bool.false_eq_true, if_false]
      rw [if_neg (by omega)]
    obtain ⟨result, hr, hcase⟩ :=
      get_sampleset_loop_spec v now v.samplesets_.length v.current_index_ hidx
    have hall : (∀ i : Nat, i < v.samplesets_.length →
        v.due_at now ((v.current_index_ + i) % v.samplesets_.length) = false) →
        ∀ k : Nat, k < v.samplesets_.length → v.due_at now k = false := by
      intro h k hk
      obtain ⟨j, hj, hjk⟩ := cyclic_order_reaches _ _ k hidx hk
      rw [← hjk]
      exact h j hj
    refine ⟨result, hget.trans hr, ?_, ?_⟩
    · rcases hcase with h | ⟨h1, h2, h3⟩
      · exact Or.inl h
      · exact Or.inr ⟨hall h1, h2, h3⟩
    · rcases hcase with ⟨j, hj, h1, _, h3, _⟩ | ⟨h1, h2, _⟩
      · constructor
        · intro hnone
          rw [h3] at hnone
          exact absurd hnone (by simp)
        · intro hno
          have := hno _ (Nat.mod_lt (v.current_index_ + j) (by omega))
          rw [h1] at this
          exact absurd this (by simp)
      · exact ⟨fun _ => hall h1, fun _ => h2⟩
  · intro s
    unfold SamplesetSupervisor.is_due_for_sampling
    dsimp only
    by_cases h0 : v.getLastSampleTime s = 0
    · rw [if_pos h0]
      exact ⟨fun _ => Or.inl h0, fun _ => rfl⟩
    · rw [if_neg h0]
      exact ⟨fun h => Or.inr h, fun h => h.resolve_left h0⟩
  · intro s
    unfold SamplesetSupervisor.getLastSampleTime
    cases v.sample_times_ s with
    | none => simp
    | some t => simp

/-- C29, amended, on the sample supervisor at instant 1700000100: the first
sampleset is due and is returned. -/
theorem get_sampleset_round_robin_witness :
    sample_supervisor.initialized_ = true ∧ 2 ≤ sample_supervisor.samplesets_.length ∧
    sample_supervisor.current_index_ < sample_supervisor.samplesets_.length ∧
    ∃ result : Option Nat × SamplesetSupervisor,
      sample_supervisor.get_sampleset 1700000100 = some result ∧
      (result.1 = none ↔ ∀ k : Nat, k < sample_supervisor.samplesets_.length →
        sample_supervisor.due_at 1700000100 k = false) :=
  ⟨rfl, by decide, by decide,
    (get_sampleset_round_robin sample_supervisor 1700000100 rfl (by decide)
      (by decide)).1.elim (fun result h => ⟨result, h.1, h.2.2⟩)⟩

/-! ## find_optimal_start_segment: ties, and few missing segments -/

/-- Phase 1 of the window search, who wins: either `best_start` and
`best_count` are untouched, or the result is a scanned position whose count
exceeds the initial `best_count` and the count of every position scanned
before it. -/
theorem scan_loop_earliest (missing : List Int) (total w mp : Int) :
    ∀ (n : Nat) (p b bc : Int) (r : Bool × Int × Int),
      scan_loop missing total w mp n p b bc = r →
      (r.2.1 = b ∧ r.2.2 = bc ∧ r.1 = false) ∨
      (∃ j : Nat, j < n ∧ r.2.1 = p + 28 * (j : Int) ∧ r.2.1 < total ∧
        count_segments_in_window r.2.1 missing w = r.2.2 ∧ bc < r.2.2 ∧
        ∀ i : Nat, i < j → count_segments_in_window (p + 28 * (i : Int)) missing w < r.2.2)
  | 0, p, b, bc, r, h => by
    subst h
    exact Or.inl ⟨rfl, rfl, rfl⟩
  | n + 1, p, b, bc, r, h => by
    unfold scan_loop at h
    have hstride : BITMAP_SCAN_STRIDE = 28 := rfl
    have hshift : ∀ i : Nat, p + 28 * ((i + 1 : Nat) : Int) = p + 28 + 28 * (i : Int) := by
      intro i
      push_cast
      ring
    by_cases hp : p < total
    · rw [if_pos hp] at h
      dsimp only at h
      by_cases hc : count_segments_in_window p missing w > bc
      · rw [if_pos hc] at h
        by_cases hm : count_segments_in_window p missing w ≥ mp
        · rw [if_pos hm] at h
          subst h
          exact Or.inr ⟨0, by omega, by simp, hp, rfl, hc, fun i hi => absurd hi (by omega)⟩
        · rw [if_neg hm] at h
          have ih := scan_loop_earliest missing total w mp n (p + BITMAP_SCAN_STRIDE) p
            (count_segments_in_window p missing w) r h
          rw [hstride] at ih
          rcases ih with ⟨e1, e2, _⟩ | ⟨j, hj, hj2, hj3, hj4, hj5, hj6⟩
          · refine Or.inr ⟨0, by omega, by rw [e1]; simp, by rw [e1]; exact hp,
              by rw [e1, e2], by rw [e2]; exact hc, fun i hi => absurd hi (by omega)⟩
          · refine Or.inr ⟨j + 1, by omega, by rw [hj2, hshift], hj3, hj4, by omega, ?_⟩
            intro i hi
            cases i with
            | zero =>
              simp only [Nat.cast_zero, mul_zero, add_zero]
              exact hj5
            | succ i =>
              rw [hshift]
              exact hj6 i (by omega)
      · rw [if_neg hc] at h
        have ih := scan_loop_earliest missing total w mp n (p + BITMAP_SCAN_STRIDE) b bc r h
        rw [hstride] at ih
        rcases ih with h0 | ⟨j, hj, hj2, hj3, hj4, hj5, hj6⟩
        · exact Or.inl h0
        · refine Or.inr ⟨j + 1, by omega, by rw [hj2, hshift], hj3, hj4, hj5, ?_⟩
          intro i hi
          cases i with
          | zero =>
            simp only [Nat.cast_zero, mul_zero, add_zero]
            omega
          | succ i =>
            rw [hshift]
            exact hj6 i (by omega)
    · rw [if_neg hp] at h
      subst h
      exact Or.inl ⟨rfl, rfl, rfl⟩

/-- Who wins the window search on at least 10 missing segments: `missing[0]`
when its count exceeds the count of every scan position, and otherwise the
first scan position that attains the largest count of all candidates. -/
theorem find_optimal_start_segment_tie_break (first : Int) (rest : List Int) (total : Int)
    (hs : (first :: rest).Pairwise (· < ·)) (hlen : 10 ≤ (first :: rest).length) :
    ((∀ k : Nat, 28 * (k : Int) < total →
        count_segments_in_window (28 * (k : Int)) (first :: rest) 532 <
          count_segments_in_window first (first :: rest) 532) ∧
      find_optimal_start_segment (first :: rest) total 532 = first) ∨
    (∃ k0 : Nat, find_optimal_start_segment (first :: rest) total 532 = 28 * (k0 : Int) ∧
      28 * (k0 : Int) < total ∧
      count_segments_in_window first (first :: rest) 532 ≤
        count_segments_in_window (28 * (k0 : Int)) (first :: rest) 532 ∧
      (∀ k : Nat, 28 * (k : Int) < total →
        count_segments_in_window (28 * (k : Int)) (first :: rest) 532 ≤
          count_segments_in_window (28 * (k0 : Int)) (first :: rest) 532) ∧
      (∀ k : Nat, k < k0 →
        count_segments_in_window (28 * (k : Int)) (first :: rest) 532 <
          count_segments_in_window (28 * (k0 : Int)) (first :: rest) 532)) := by
  have hthr : ¬ (first :: rest).length < BITMAP_OPTIMIZATION_THRESHOLD := by
    unfold BITMAP_OPTIMIZATION_THRESHOLD
    omega
  have hdef : find_optimal_start_segment (first :: rest) total 532 =
      (if (scan_loop (first :: rest) total 532 (min ((first :: rest).length : Int) 532)
          total.toNat 0 first 0).1 then
        (scan_loop (first :: rest) total 532 (min ((first :: rest).length : Int) 532)
          total.toNat 0 first 0).2.1
      else if count_segments_in_window first (first :: rest) 532 >
          (scan_loop (first :: rest) total 532 (min ((first :: rest).length : Int) 532)
            total.toNat 0 first 0).2.2 then first
        else (scan_loop (first :: rest) total 532 (min ((first :: rest).length : Int) 532)
          total.toNat 0 first 0).2.1) := by
    unfold find_optimal_start_segment
    simp only [hthr, if_false]
  rw [hdef]
  generalize hr : scan_loop (first :: rest) total 532 (min ((first :: rest).length : Int) 532)
    total.toNat 0 first 0 = r
  obtain ⟨spec1, spec2⟩ := scan_loop_spec (first :: rest) total 532
    (min ((first :: rest).length : Int) 532) total.toNat 0 first 0 r hr
  have hearly := scan_loop_earliest (first :: rest) total 532
    (min ((first :: rest).length : Int) 532) total.toNat 0 first 0 r hr
  simp only [zero_add] at hearly
  have hle : ∀ x : Int, count_segments_in_window x (first :: rest) 532 ≤
      min ((first :: rest).length : Int) 532 :=
    fun x => le_min (count_segments_in_window_le_length x _ 532 hs)
      (count_segments_in_window_le_width x _ 532 (by decide) hs)
  have hfuel : ∀ j : Nat, 28 * (j : Int) < total → j < total.toNat := by
    intro j hj
    omega
  have hfirst1 : 1 ≤ count_segments_in_window first (first :: rest) 532 := by
    rw [count_segments_in_window_eq _ _ _ hs, List.countP_cons_of_pos]
    · push_cast
      omega
    · simp
  by_cases ht : r.1 = true
  · rw [if_pos ht]
    obtain ⟨h1, h2, _⟩ := spec1 ht
    rcases hearly with ⟨_, _, hf⟩ | ⟨j, _, hj2, hj3, hj4, _, hj6⟩
    · rw [ht] at hf
      exact absurd hf (by simp)
    · rw [hj2] at hj3 hj4
      refine Or.inr ⟨j, hj2, hj3, ?_, ?_, ?_⟩
      · rw [hj4]
        exact le_trans (hle _) h2
      · intro k _
        rw [hj4]
        exact le_trans (hle _) h2
      · intro k hk
        rw [hj4]
        exact hj6 k hk
  · rw [if_neg ht]
    have hf : r.1 = false := by
      cases h : r.1
      · rfl
      · exact absurd h ht
    obtain ⟨_, h2, _⟩ := spec2 hf
    have hcand : ∀ k : Nat, 28 * (k : Int) < total →
        count_segments_in_window (28 * (k : Int)) (first :: rest) 532 ≤ r.2.2 := by
      intro k hk
      have := h2 k (hfuel k hk) (by rw [zero_add]; exact hk)
      rw [zero_add] at this
      exact this
    by_cases hfirst : count_segments_in_window first (first :: rest) 532 > r.2.2
    · rw [if_pos hfirst]
      exact Or.inl ⟨fun k hk => lt_of_le_of_lt (hcand k hk) hfirst, rfl⟩
    · rw [if_neg hfirst]
      rcases hearly with ⟨_, e2, _⟩ | ⟨j, _, hj2, hj3, hj4, _, hj6⟩
      · rw [e2] at hfirst
        exact absurd hfirst1 (by omega)
      · rw [hj2] at hj3 hj4
        refine Or.inr ⟨j, hj2, hj3, ?_, ?_, ?_⟩
        · rw [hj4]
          omega
        · intro k hk
          rw [hj4]
          exact hcand k hk
        · intro k hk
          rw [hj4]
          exact hj6 k hk

/-- C31, evaluated on the code: with segments 20, 540..547 and 555 missing out
of 600 (ten missing, strictly increasing, below the total) the candidates 20
(= `missing[0]`) and 28 both have the largest window count, 9, and
`find_optimal_start_segment` returns 28, not the smaller candidate 20. -/
theorem find_optimal_start_segment_not_smallest :
    [(20 : Int), 540, 541, 542, 543, 544, 545, 546, 547, 555].Pairwise (· < ·) ∧
    [(20 : Int), 540, 541, 542, 543, 544, 545, 546, 547, 555].length = 10 ∧
    (∀ m ∈ [(20 : Int), 540, 541, 542, 543, 544, 545, 546, 547, 555], 0 ≤ m ∧ m < 600) ∧
    find_optimal_start_segment [20, 540, 541, 542, 543, 544, 545, 546, 547, 555] 600 532
      = 28 ∧
    count_segments_in_window 20 [20, 540, 541, 542, 543, 544, 545, 546, 547, 555] 532 = 9 ∧
    count_segments_in_window 28 [20, 540, 541, 542, 543, 544, 545, 546, 547, 555] 532 = 9 ∧
    (∀ k : Nat, k < 22 →
      count_segments_in_window (28 * (k : Int))
        [20, 540, 541, 542, 543, 544, 545, 546, 547, 555] 532 ≤ 9) ∧
    (28 : Int) * ((21 : Nat) : Int) < 600 ∧ ¬ (28 : Int) * ((22 : Nat) : Int) < 600 := by
  decide

/-- C31, amended: for every strictly increasing list `missing` of at least 10
segment indices, with `count(x)` the number of missing segments in
`[x, x + 532)`: if `count(missing[0])` exceeds the count of every scan position
`0, 28, 56, ...` below `total`, `find_optimal_start_segment` returns
`missing[0]`; otherwise it returns the smallest scan position that attains the
largest count of all candidates, also when `missing[0]` attains that count and
is smaller. -/
theorem find_optimal_start_segment_earliest_scan (missing : List Int) (total : Int)
    (hsorted : missing.Pairwise (· < ·)) (hlen : 10 ≤ missing.length) :
    ((∀ k : Nat, 28 * (k : Int) < total →
        List.countP (fun m => decide (28 * (k : Int) ≤ m ∧ m < 28 * (k : Int) + 532)) missing <
          List.countP (fun m => decide (missing.headD 0 ≤ m ∧ m < missing.headD 0 + 532))
            missing) ∧
      find_optimal_start_segment missing total 532 = missing.headD 0) ∨
    (∃ k0 : Nat, find_optimal_start_segment missing total 532 = 28 * (k0 : Int) ∧
      28 * (k0 : Int) < total ∧
      List.countP (fun m => decide (missing.headD 0 ≤ m ∧ m < missing.headD 0 + 532)) missing ≤
        List.countP (fun m => decide (28 * (k0 : Int) ≤ m ∧ m < 28 * (k0 : Int) + 532))
          missing ∧
      (∀ k : Nat, 28 * (k : Int) < total →
        List.countP (fun m => decide (28 * (k : Int) ≤ m ∧ m < 28 * (k : Int) + 532)) missing ≤
          List.countP (fun m => decide (28 * (k0 : Int) ≤ m ∧ m < 28 * (k0 : Int) + 532))
            missing) ∧
      (∀ k : Nat, k < k0 →
        List.countP (fun m => decide (28 * (k : Int) ≤ m ∧ m < 28 * (k : Int) + 532)) missing <
          List.countP (fun m => decide (28 * (k0 : Int) ≤ m ∧ m < 28 * (k0 : Int) + 532))
            missing)) := by
  have hcnt : ∀ x : Int, count_segments_in_window x missing 532 =
      (List.countP (fun m => decide (x ≤ m ∧ m < x + 532)) missing : Nat) :=
    fun x => count_segments_in_window_eq x missing 532 hsorted
  match missing, hsorted, hlen, hcnt with
  | [], _, hlen, _ => exact absurd hlen (by simp)
  | first :: rest, hsorted, hlen, hcnt =>
    have h := find_optimal_start_segment_tie_break first rest total hsorted hlen
    simp only [hcnt] at h
    rcases h with ⟨h1, h2⟩ | ⟨k0, h1, h2, h3, h4, h5⟩
    · exact Or.inl ⟨fun k hk => by exact_mod_cast h1 k hk, h2⟩
    · exact Or.inr ⟨k0, h1, h2, by exact_mod_cast h3, fun k hk => by exact_mod_cast h4 k hk,
        fun k hk => by exact_mod_cast h5 k hk⟩

/-- C31, amended, at ten missing segments of a 600-segment upload. -/
theorem find_optimal_start_segment_earliest_scan_witness :
    [(20 : Int), 540, 541, 542, 543, 544, 545, 546, 547, 555].Pairwise (· < ·) ∧
    10 ≤ [(20 : Int), 540, 541, 542, 543, 544, 545, 546, 547, 555].length ∧
    ∃ k0 : Nat,
      find_optimal_start_segment [20, 540, 541, 542, 543, 544, 545, 546, 547, 555] 600 532 =
        28 * (k0 : Int) ∧ 28 * (k0 : Int) < 600 :=
  ⟨by decide, by decide,
    (find_optimal_start_segment_earliest_scan
      [20, 540, 541, 542, 543, 544, 545, 546, 547, 555] 600 (by decide) (by decide)).elim
      (fun h => absurd (h.1 1 (by decide)) (by decide))
      (fun h => h.elim (fun k0 hk => ⟨k0, hk.1, hk.2.1⟩))⟩

theorem hex_digits_fuel : ∀ (n m v : Nat) (acc : List Nat), v < 16 ^ n → 1 ≤ n → n ≤ m →
    hex_digits m v acc = hex_digits n v acc
  | 0, _, _, _, _, hn, _ => absurd hn (by omega)
  | n + 1, 0, _, _, _, _, hm => absurd hm (by omega)
  | n + 1, m + 1, v, acc, hv, _, hm => by
    unfold hex_digits
    by_cases h : v < 16
    · rw [if_pos h, if_pos h]
    · rw [if_neg h, if_neg h]
      have hn1 : 1 ≤ n := by
        rcases Nat.eq_zero_or_pos n with h0 | h0
        · subst h0
          exact absurd hv (by simpa using h)
        · exact h0
      exact hex_digits_fuel n m (v / 16) _ (by
        rw [Nat.div_lt_iff_lt_mul (by decide)]
        rw [pow_succ] at hv
        exact hv) hn1 (by omega)

theorem length_snprintf_04x (value : Int) : (snprintf_04x value).length = 4 := by
  unfold snprintf_04x
  dsimp only
  rw [List.length_take, List.length_append, List.length_replicate]
  omega

theorem snprintf_04x_eq_fixed (value : Int) (h0 : 0 ≤ value) (h16 : value < 65536) :
    snprintf_04x value = hex_fixed 4 value.toNat := by
  unfold snprintf_04x
  dsimp only
  have hv : (value % 4294967296).toNat = value.toNat := by omega
  rw [hv, hex_digits_fuel 4 8 value.toNat [] (by norm_num; omega) (by decide) (by decide),
    hex_digits_padded 4 value.toNat 4 (by norm_num; omega) (by decide) (by decide)]
  exact List.take_of_length_le (by rw [length_hex_fixed])

/-- Bytes 45..49 of the 0x55 frame: the opcode and the four characters of the
start segment the builder settled on. -/
theorem build_partial_upload_command_start (macid : Nat) (start_segment : Int)
    (missing_segments : List Int) (total_segments : Int) :
    (build_partial_upload_command macid start_segment missing_segments total_segments).1.getD
        45 0 = 0x55 ∧
    bytes_at (build_partial_upload_command macid start_segment missing_segments
        total_segments).1 46 4 =
      snprintf_04x
        (if find_optimal_start_segment missing_segments total_segments
            UPLOAD_MAX_SEGMENTS_PER_0X55 ≥ 0
          then find_optimal_start_segment missing_segments total_segments
            UPLOAD_MAX_SEGMENTS_PER_0X55
          else start_segment) := by
  unfold build_partial_upload_command
  dsimp only
  have hl := length_snprintf_04x
    (if find_optimal_start_segment missing_segments total_segments
        UPLOAD_MAX_SEGMENTS_PER_0X55 ≥ 0
      then find_optimal_start_segment missing_segments total_segments
        UPLOAD_MAX_SEGMENTS_PER_0X55
      else start_segment)
  have hb := build_segment_bitmask_length
    (if find_optimal_start_segment missing_segments total_segments
        UPLOAD_MAX_SEGMENTS_PER_0X55 ≥ 0
      then find_optimal_start_segment missing_segments total_segments
        UPLOAD_MAX_SEGMENTS_PER_0X55
      else start_segment) total_segments missing_segments
  generalize snprintf_04x _ = a at hl ⊢
  generalize (build_segment_bitmask _ _ _).1 = b at hb ⊢
  constructor
  · simp only [getD_write_at, length_write_at, getD_replicate_eq,
      List.length_replicate, List.length_cons, List.length_nil, length_mac_bytes, hl, hb]
    simp
  · rw [bytes_at_write_at_disjoint _ _ _ _ _ (Or.inl (by omega)),
      bytes_at_write_at_disjoint _ _ _ _ _ (Or.inl (by omega))]
    have := bytes_at_write_at_same
      (write_at (write_at (write_at (write_at (List.replicate 128 48) 0
        [0x74, 0x53, 0x01, 0xff, 0xff, 0xff, 0xff, 0x01]) 13 (mac_bytes macid)) 17
        (mac_bytes macid)) 45 [0x55]) a 46 (by
          simp only [length_write_at, List.length_replicate]
          omega)
    rw [hl] at this
    exact this

/-- C32: whenever between 1 and 9 segments are missing, with `missing[0]` in
`[0, total)` and below `0x10000`, the 0x55 frame of
`build_partial_upload_command` carries the start segment `missing[0]` as four
hexadecimal characters at offsets 46..49 whatever start is suggested, and bit 7
of bitmap byte 0 (frame offset 50) is set. For `total = 4` with segments 1 and
2 missing the start characters are `"0001"`, bitmap byte 0 is `0b11000001` and
the other 75 bitmap bytes are `0x01`. -/
theorem partial_upload_frame_few_missing (macid : Nat) (start_segment : Int)
    (missing : List Int) (total : Int)
    (hlen1 : 1 ≤ missing.length) (hlen9 : missing.length ≤ 9)
    (h0 : 0 ≤ missing.headD 0) (hlt : missing.headD 0 < total)
    (h16 : missing.headD 0 < 65536) :
    find_optimal_start_segment missing total UPLOAD_MAX_SEGMENTS_PER_0X55 = missing.headD 0 ∧
    (build_partial_upload_command macid start_segment missing total).1.getD 45 0 = 0x55 ∧
    bytes_at (build_partial_upload_command macid start_segment missing total).1 46 4 =
      hex_fixed 4 (missing.headD 0).toNat ∧
    ((build_partial_upload_command macid start_segment missing total).1.getD 50 0).testBit 7
      = true ∧
    (∀ suggested : Int,
      bytes_at (build_partial_upload_command 0x11223344 suggested [1, 2] 4).1 46 4 =
        [0x30, 0x30, 0x30, 0x31] ∧
      (build_partial_upload_command 0x11223344 suggested [1, 2] 4).1.getD 50 0 = 0xC1 ∧
      bytes_at (build_partial_upload_command 0x11223344 suggested [1, 2] 4).1 51 75 =
        List.replicate 75 0x01) := by
  match missing, hlen1, hlen9, h0, hlt, h16 with
  | [], hlen1, _, _, _, _ => exact absurd hlen1 (by simp)
  | first :: rest, _, hlen9, h0, hlt, h16 =>
    have hopt : find_optimal_start_segment (first :: rest) total UPLOAD_MAX_SEGMENTS_PER_0X55
        = first := find_optimal_start_segment_few first rest total _ (by omega)
    have hfirst : (first :: rest).headD 0 = first := rfl
    rw [hfirst] at h0 hlt h16 ⊢
    have hstart := build_partial_upload_command_start macid start_segment (first :: rest) total
    rw [hopt, if_pos (ge_iff_le.mpr h0)] at hstart
    refine ⟨hopt, hstart.1, ?_, ?_, ?_⟩
    · rw [hstart.2, snprintf_04x_eq_fixed first h0 h16]
    · have hbit := build_partial_upload_command_bitmap macid start_segment (first :: rest)
        total 0 (by decide)
      rw [hopt, if_pos (ge_iff_le.mpr h0)] at hbit
      rw [show (50 : Nat) = 50 + 0 from rfl, hbit]
      have hg := build_segment_bitmask_bytes first total (first :: rest) 0 (by decide)
      rw [hg.2.2 7 (by decide) (by decide)]
      simp only [Nat.cast_zero, mul_zero, add_zero, Nat.cast_ofNat, sub_self]
      unfold requested
      rw [decide_eq_true hlt, decide_eq_true (List.mem_cons_self _ _)]
      rfl
    · intro suggested
      have hopt2 : find_optimal_start_segment [1, 2] 4 UPLOAD_MAX_SEGMENTS_PER_0X55 = 1 := by
        decide
      have hs2 := build_partial_upload_command_start 0x11223344 suggested [1, 2] 4
      rw [hopt2, if_pos (by decide)] at hs2
      refine ⟨hs2.2.trans (by decide), ?_, ?_⟩
      · have hbit := build_partial_upload_command_bitmap 0x11223344 suggested [1, 2] 4 0
          (by decide)
        rw [hopt2, if_pos (by decide)] at hbit
        rw [show (50 : Nat) = 50 + 0 from rfl, hbit]
        decide
      · have h75 : (75 : Nat) = (List.replicate 75 0x01).length := by simp
        rw [h75]
        apply bytes_at_eq_of_getD
        intro k hk
        rw [List.length_replicate] at hk
        have hbit := build_partial_upload_command_bitmap 0x11223344 suggested [1, 2] 4
          (k + 1) (by omega)
        rw [hopt2, if_pos (by decide)] at hbit
        rw [show 51 + k = 50 + (k + 1) by omega, hbit, getD_replicate_eq, if_pos hk]
        have hall : ∀ j : Nat, j < 75 →
            (build_segment_bitmask 1 [1, 2] 4).1.getD (j + 1) 0 = 1 := by
          decide
        exact hall k hk

/-- C32 at three missing segments of a ten-segment upload with a suggested
start of 7. -/
theorem partial_upload_frame_few_missing_witness :
    bytes_at (build_partial_upload_command 0x11223344 7 [2, 5, 9] 10).1 46 4 =
      [0x30, 0x30, 0x30, 0x32] :=
  (partial_upload_frame_few_missing 0x11223344 7 [2, 5, 9] 10 (by decide) (by decide)
    (by decide) (by decide) (by decide)).2.2.1.trans (by decide)

/-! ## The init frame of a session -/

theorem countP_lt_range (c : Nat) : ∀ n : Nat,
    List.countP (fun (i : Nat) => decide (i < c)) (List.range n) = min n c
  | 0 => by simp
  | n + 1 => by
    rw [List.range_succ, List.countP_append, countP_lt_range c n]
    by_cases h : n < c
    · rw [List.countP_cons_of_pos _ _ (by simpa using h)]
      simp only [List.countP_nil]
      omega
    · rw [List.countP_cons_of_neg _ _ (by simpa using h)]
      simp only [List.countP_nil]
      omega

/-- The missing list of a freshly initialised tracker is `0, 1, ..., total - 1`. -/
theorem missing_of_initialize (t0 : UploadSegmentTracker) (total : Int) :
    (t0.initialize_tracker total).get_missing_segments =
      (List.range total.toNat).map (fun (i : Nat) => (i : Int)) := by
  unfold UploadSegmentTracker.get_missing_segments
  have htot : (t0.initialize_tracker total).total_segments = total := rfl
  rw [htot]
  congr 1
  rw [List.filter_eq_self]
  intro i hi
  have hlt := List.mem_range.mp hi
  unfold UploadSegmentTracker.segment_at
  rw [Int.toNat_ofNat, (initialize_segments t0 total).2.2 i hlt]
  rfl

theorem pairwise_range_cast (n : Nat) :
    ((List.range n).map (fun (i : Nat) => (i : Int))).Pairwise (· < ·) := by
  rw [List.pairwise_map]
  exact (List.pairwise_lt_range n).imp (fun h => Int.ofNat_lt.mpr h)

theorem count_window_zero_full (n : Nat) :
    count_segments_in_window 0 ((List.range n).map (fun (i : Nat) => (i : Int))) 532 =
      ((min n 532 : Nat) : Int) := by
  rw [count_segments_in_window_eq 0 _ 532 (pairwise_range_cast n), List.countP_map,
    ← countP_lt_range 532 n]
  congr 2
  funext i
  simp only [Function.comp]
  congr 1
  apply propext
  constructor
  · intro h
    omega
  · intro h
    omega

/-- With every segment `0 .. n - 1` missing the window search settles on start 0. -/
theorem find_optimal_start_segment_full (n : Nat) (hn : 1 ≤ n) (total : Int) :
    find_optimal_start_segment ((List.range n).map (fun (i : Nat) => (i : Int))) total 532 =
      0 := by
  obtain ⟨k, rfl⟩ : ∃ k, n = k + 1 := ⟨n - 1, by omega⟩
  have hcount := count_window_zero_full (k + 1)
  have hs := pairwise_range_cast (k + 1)
  have hcons : (List.range (k + 1)).map (fun (i : Nat) => (i : Int)) =
      0 :: (List.range k).map (fun (i : Nat) => ((i + 1 : Nat) : Int)) := by
    rw [List.range_succ_eq_map, List.map_cons, List.map_map]
    rfl
  rw [hcons] at hcount hs ⊢
  have hlk : (0 :: (List.range k).map (fun (i : Nat) => ((i + 1 : Nat) : Int))).length =
      k + 1 := by simp
  generalize (List.range k).map (fun (i : Nat) => ((i + 1 : Nat) : Int)) = rest at hcount hs hlk
  by_cases hlen : (0 :: rest).length < 10
  · exact find_optimal_start_segment_few 0 rest total 532 hlen
  · rcases find_optimal_start_segment_tie_break 0 rest total hs (by omega) with
      ⟨_, h⟩ | ⟨k0, h1, _, _, _, h5⟩
    · exact h
    · rcases Nat.eq_zero_or_pos k0 with h0 | h0
      · rw [h1, h0]
        rfl
      · have hlt := h5 0 h0
        simp only [Nat.cast_zero, mul_zero] at hlt
        have h532 := count_segments_in_window_le_width (28 * (k0 : Int)) (0 :: rest) 532
          (by decide) hs
        have hl := count_segments_in_window_le_length (28 * (k0 : Int)) (0 :: rest) 532 hs
        rw [hcount] at hlt
        have hmin : ((min (k + 1) 532 : Nat) : Int) = min (((k + 1 : Nat)) : Int) 532 := by
          push_cast
          rfl
        omega

theorem start_full_upload_state (m0 : UploadManager) (macid start_addr num_samples : Nat)
    (triggering_resp : Option (List Nat)) (now : Nat)
    (hidle : m0.current_state = UploadState.UPLOAD_IDLE) :
    (m0.start_full_upload macid start_addr num_samples triggering_resp now).2.current_state =
      UploadState.UPLOAD_INIT ∧
    (m0.start_full_upload macid start_addr num_samples triggering_resp now).2.segment_tracker =
      m0.segment_tracker.initialize_tracker
        (((num_samples + 32 - 1) % 4294967296 / 32 : Nat) : Int) ∧
    (m0.start_full_upload macid start_addr num_samples triggering_resp now).2.current_macid =
      macid ∧
    (m0.start_full_upload macid start_addr num_samples triggering_resp now).2.sent = m0.sent ∧
    (m0.start_full_upload macid start_addr num_samples triggering_resp now).2.upload_start_addr
      = start_addr ∧
    (m0.start_full_upload macid start_addr num_samples triggering_resp now).2.upload_length =
      num_samples := by
  unfold UploadManager.start_full_upload
  rw [if_neg (fun h => h hidle)]
  dsimp only
  unfold UploadManager.transition_state
  cases triggering_resp <;>
    (dsimp only
     rw [if_pos (by rw [hidle]; decide)]
     exact ⟨rfl, rfl, rfl, rfl, rfl, rfl⟩)

theorem send_init_command_frame (m : UploadManager)
    (hinit : m.current_state = UploadState.UPLOAD_INIT) :
    m.send_init_command.1 = true ∧
    m.send_init_command.2.sent = m.sent ++
      [(build_partial_upload_command m.current_macid 0 m.segment_tracker.get_missing_segments
        m.segment_tracker.get_total_count).1] := by
  unfold UploadManager.send_init_command
  rw [if_neg (fun h => h hinit), if_pos (show FORCE_PARTIAL_UPLOAD = true from rfl)]
  unfold UploadManager.send_init_command_0x55 UploadManager.transition_state
  dsimp only
  split <;> exact ⟨rfl, rfl⟩

theorem requested_full (n : Nat) (k : Nat) :
    requested ((List.range n).map (fun (i : Nat) => (i : Int))) (n : Int) (k : Int) =
      decide (k < n) := by
  unfold requested
  by_cases h : k < n
  · rw [decide_eq_true h, decide_eq_true (show (k : Int) < (n : Int) by omega),
      decide_eq_true (List.mem_map.mpr ⟨k, List.mem_range.mpr h, rfl⟩)]
    rfl
  · rw [decide_eq_false h, decide_eq_false (show ¬ (k : Int) < (n : Int) by omega)]
    rfl

/-- The 0x55 frame built for a session in which every segment `0 .. n - 1` is
missing: opcode, start text `0000`, one bit per segment `k < 532` that is set
exactly for `k < n`, and `min n 532` segments counted as requested. -/
theorem build_partial_upload_command_full (macid : Nat) (suggested : Int) (n : Nat)
    (hn : 1 ≤ n) :
    (build_partial_upload_command macid suggested
      ((List.range n).map (fun (i : Nat) => (i : Int))) (n : Int)).1.getD 45 0 = 0x55 ∧
    bytes_at (build_partial_upload_command macid suggested
      ((List.range n).map (fun (i : Nat) => (i : Int))) (n : Int)).1 46 4 =
        [0x30, 0x30, 0x30, 0x30] ∧
    (∀ k : Nat, k < 532 →
      ((build_partial_upload_command macid suggested
        ((List.range n).map (fun (i : Nat) => (i : Int))) (n : Int)).1.getD
          (50 + k / 7) 0).testBit (7 - k % 7) = decide (k < n)) ∧
    (build_partial_upload_command macid suggested
      ((List.range n).map (fun (i : Nat) => (i : Int))) (n : Int)).2 =
        ((min n 532 : Nat) : Int) := by
  have hopt : find_optimal_start_segment ((List.range n).map (fun (i : Nat) => (i : Int)))
      (n : Int) UPLOAD_MAX_SEGMENTS_PER_0X55 = 0 :=
    find_optimal_start_segment_full n hn (n : Int)
  have hstart := build_partial_upload_command_start macid suggested
    ((List.range n).map (fun (i : Nat) => (i : Int))) (n : Int)
  rw [hopt, if_pos (by decide)] at hstart
  refine ⟨hstart.1, hstart.2.trans (by decide), ?_, ?_⟩
  · intro k hk
    have hbit := build_partial_upload_command_bitmap macid suggested
      ((List.range n).map (fun (i : Nat) => (i : Int))) (n : Int) (k / 7) (by omega)
    rw [hopt, if_pos (by decide)] at hbit
    rw [hbit]
    have hg := build_segment_bitmask_bytes 0 (n : Int)
      ((List.range n).map (fun (i : Nat) => (i : Int))) (k / 7) (by omega)
    rw [hg.2.2 (7 - k % 7) (by omega) (by omega)]
    have hseg : (0 : Int) + 7 * ((k / 7 : Nat) : Int) + (7 - ((7 - k % 7 : Nat) : Int)) =
        (k : Int) := by
      omega
    rw [hseg]
    exact requested_full n k
  · have h2 : (build_partial_upload_command macid suggested
        ((List.range n).map (fun (i : Nat) => (i : Int))) (n : Int)).2 =
        (build_segment_bitmask
          (if find_optimal_start_segment ((List.range n).map (fun (i : Nat) => (i : Int)))
              (n : Int) UPLOAD_MAX_SEGMENTS_PER_0X55 ≥ 0
            then find_optimal_start_segment ((List.range n).map (fun (i : Nat) => (i : Int)))
              (n : Int) UPLOAD_MAX_SEGMENTS_PER_0X55
            else suggested) ((List.range n).map (fun (i : Nat) => (i : Int))) (n : Int)).2 :=
      rfl
    rw [h2, hopt, if_pos (by decide), build_segment_bitmask_count]
    unfold requestedCount
    have hc : List.countP (fun (k : Nat) =>
        requested ((List.range n).map (fun (i : Nat) => (i : Int))) (n : Int)
          (0 + (k : Int))) (List.range 532) =
        List.countP (fun (i : Nat) => decide (i < n)) (List.range 532) := by
      apply List.countP_congr
      intro k _
      rw [zero_add, requested_full]
    rw [hc, countP_lt_range n 532, Nat.min_comm]

theorem build_full_upload_command_fields (macid start_addr length : Nat) :
    (build_full_upload_command macid start_addr length).getD 45 0 = 0x51 ∧
    bytes_at (build_full_upload_command macid start_addr length) 46 4 =
      snprintf_04x ((start_addr / 32 : Nat) : Int) ∧
    bytes_at (build_full_upload_command macid start_addr length) 50 4 =
      snprintf_04x ((length / 32 : Nat) : Int) := by
  unfold build_full_upload_command UPLOAD_SAMPLES_PER_SEGMENT
  dsimp only
  have hla := length_snprintf_04x ((start_addr / 32 : Nat) : Int)
  have hlb := length_snprintf_04x ((length / 32 : Nat) : Int)
  generalize snprintf_04x ((start_addr / 32 : Nat) : Int) = a at hla ⊢
  generalize snprintf_04x ((length / 32 : Nat) : Int) = b at hlb ⊢
  refine ⟨?_, ?_, ?_⟩
  · simp only [getD_write_at, length_write_at, getD_replicate_eq,
      List.length_replicate, List.length_cons, List.length_nil, length_mac_bytes, hla, hlb]
    simp
  · rw [bytes_at_write_at_disjoint _ _ _ _ _ (Or.inl (by omega)),
      bytes_at_write_at_disjoint _ _ _ _ _ (Or.inl (by omega))]
    have := bytes_at_write_at_same
      (write_at (write_at (write_at (write_at (List.replicate 128 48) 0
        [0x74, 0x53, 0x01, 0xff, 0xff, 0xff, 0xff, 0x01]) 13 (mac_bytes macid)) 17
        (mac_bytes macid)) 45 [0x51]) a 46 (by
          simp only [length_write_at, List.length_replicate]
          omega)
    rw [hla] at this
    exact this
  · rw [bytes_at_write_at_disjoint _ _ _ _ _ (Or.inl (by omega))]
    have := bytes_at_write_at_same
      (write_at (write_at (write_at (write_at (write_at (List.replicate 128 48) 0
        [0x74, 0x53, 0x01, 0xff, 0xff, 0xff, 0xff, 0x01]) 13 (mac_bytes macid)) 17
        (mac_bytes macid)) 45 [0x51]) 46 a) b 50 (by
          simp only [length_write_at, List.length_replicate]
          omega)
    rw [hlb] at this
    exact this

theorem send_init_command_statistics (m : UploadManager)
    (hinit : m.current_state = UploadState.UPLOAD_INIT) :
    m.send_init_command.2.statistics.total_packets_requested =
      m.statistics.total_packets_requested + m.segment_tracker.get_total_count := by
  unfold UploadManager.send_init_command
  rw [if_neg (fun h => h hinit), if_pos (show FORCE_PARTIAL_UPLOAD = true from rfl)]
  unfold UploadManager.send_init_command_0x55 UploadManager.transition_state
  dsimp only
  split <;> rfl

theorem start_full_upload_statistics (m0 : UploadManager) (macid start_addr num_samples : Nat)
    (triggering_resp : Option (List Nat)) (now : Nat)
    (hidle : m0.current_state = UploadState.UPLOAD_IDLE) :
    (m0.start_full_upload macid start_addr num_samples triggering_resp now).2.statistics =
      m0.statistics := by
  unfold UploadManager.start_full_upload
  rw [if_neg (fun h => h hidle)]
  dsimp only
  unfold UploadManager.transition_state
  cases triggering_resp <;>
    (dsimp only
     rw [if_pos (by rw [hidle]; decide)])

/-- C34, evaluated on the code: a session of 17152 samples (descriptor length
code 66) has 536 segments. The init frame that `send_init_command` emits for it
is the 0x55 frame built from the missing list `0 .. 535`, with start `0000`:
its bitmap has one bit for each of the segments `0 .. 531`, all set, and the
builder reports 532 segments in the frame, so the segments `532 .. 535` are
not requested; yet the statistics count all 536 segments as requested, and
the 0x51 command of the same session carries start `0000` and length `0218`,
the 536 segments `0 .. 535`. -/
theorem init_frame_0x55_omits_segments_past_531 :
    (UploadManager.new.start_full_upload 0x11223344 0 17152 none
      0).2.segment_tracker.get_total_count = 536 ∧
    (UploadManager.new.start_full_upload 0x11223344 0 17152 none 0).2.send_init_command.1 =
      true ∧
    (UploadManager.new.start_full_upload 0x11223344 0 17152 none 0).2.send_init_command.2.sent =
      [(build_partial_upload_command 0x11223344 0
        ((List.range 536).map (fun (i : Nat) => (i : Int))) ((536 : Nat) : Int)).1] ∧
    (build_partial_upload_command 0x11223344 0
      ((List.range 536).map (fun (i : Nat) => (i : Int))) ((536 : Nat) : Int)).1.getD 45 0 =
        0x55 ∧
    bytes_at (build_partial_upload_command 0x11223344 0
      ((List.range 536).map (fun (i : Nat) => (i : Int))) ((536 : Nat) : Int)).1 46 4 =
        [0x30, 0x30, 0x30, 0x30] ∧
    (∀ k : Nat, k < 532 →
      ((build_partial_upload_command 0x11223344 0
        ((List.range 536).map (fun (i : Nat) => (i : Int))) ((536 : Nat) : Int)).1.getD
          (50 + k / 7) 0).testBit (7 - k % 7) = true) ∧
    (build_partial_upload_command 0x11223344 0
      ((List.range 536).map (fun (i : Nat) => (i : Int))) ((536 : Nat) : Int)).2 = 532 ∧
    (UploadManager.new.start_full_upload 0x11223344 0 17152 none
      0).2.send_init_command.2.statistics.total_packets_requested = 536 ∧
    bytes_at (build_full_upload_command 0x11223344 0 17152) 46 4 = [0x30, 0x30, 0x30, 0x30] ∧
    bytes_at (build_full_upload_command 0x11223344 0 17152) 50 4 = [0x30, 0x32, 0x31, 0x38] := by
  have hst := start_full_upload_state UploadManager.new 0x11223344 0 17152 none 0 rfl
  have hstat := start_full_upload_statistics UploadManager.new 0x11223344 0 17152 none 0 rfl
  have hfull := build_partial_upload_command_full 0x11223344 0 536 (by decide)
  have hf := build_full_upload_command_fields 0x11223344 0 17152
  have hframe := send_init_command_frame _ hst.1
  have hcount := send_init_command_statistics _ hst.1
  have htotal : (UploadManager.new.start_full_upload 0x11223344 0 17152 none
      0).2.segment_tracker.get_total_count = 536 := by
    rw [hst.2.1]
    rfl
  refine ⟨htotal, hframe.1, ?_, hfull.1, hfull.2.1, ?_, hfull.2.2.2.trans (by decide), ?_,
    hf.2.1.trans (by decide), hf.2.2.trans (by decide)⟩
  · rw [hframe.2, hst.2.2.2.1, hst.2.2.1, hst.2.1, missing_of_initialize]
    rfl
  · intro k hk
    rw [hfull.2.2.1 k hk]
    exact decide_eq_true (by omega)
  · rw [hcount, htotal, hstat]
    rfl

/-- The init frame of any session: for every session started by
`start_full_upload` with `total >= 1` segments, the frame emitted by
`send_init_command` under `FORCE_PARTIAL_UPLOAD` is a 0x55 frame with start
segment 0 whose bitmap bit for segment `k` (`k < 532`) is set exactly when
`k < total`: it requests every segment of the session when `total <= 532`, and
the segments `0 .. 531` otherwise. The 0x51 command carries the segments
`start_addr / 32` and `num_samples / 32` as start and length; the length is
`total` when the sample count is a multiple of 32. -/
theorem init_frame_requests_up_to_532 (m0 : UploadManager)
    (macid start_addr num_samples : Nat) (triggering_resp : Option (List Nat)) (now : Nat)
    (hidle : m0.current_state = UploadState.UPLOAD_IDLE)
    (htotal : 1 ≤ (num_samples + 32 - 1) % 4294967296 / 32) :
    (∃ frame : List Nat,
      (m0.start_full_upload macid start_addr num_samples triggering_resp
        now).2.send_init_command.1 = true ∧
      (m0.start_full_upload macid start_addr num_samples triggering_resp
        now).2.send_init_command.2.sent = m0.sent ++ [frame] ∧
      frame.getD 45 0 = 0x55 ∧
      bytes_at frame 46 4 = [0x30, 0x30, 0x30, 0x30] ∧
      (∀ k : Nat, k < 532 →
        (frame.getD (50 + k / 7) 0).testBit (7 - k % 7) =
          decide (k < (num_samples + 32 - 1) % 4294967296 / 32))) ∧
    (build_full_upload_command macid start_addr num_samples).getD 45 0 = 0x51 ∧
    bytes_at (build_full_upload_command macid start_addr num_samples) 46 4 =
      snprintf_04x ((start_addr / 32 : Nat) : Int) ∧
    bytes_at (build_full_upload_command macid start_addr num_samples) 50 4 =
      snprintf_04x ((num_samples / 32 : Nat) : Int) ∧
    (num_samples % 32 = 0 → num_samples + 31 < 4294967296 →
      num_samples / 32 = (num_samples + 32 - 1) % 4294967296 / 32) := by
  have hst := start_full_upload_state m0 macid start_addr num_samples triggering_resp now hidle
  have hfull := build_partial_upload_command_full macid 0
    ((num_samples + 32 - 1) % 4294967296 / 32) htotal
  have hf := build_full_upload_command_fields macid start_addr num_samples
  have hframe := send_init_command_frame _ hst.1
  refine ⟨⟨_, hframe.1, ?_, hfull.1, hfull.2.1, hfull.2.2.1⟩, hf.1, hf.2.1, hf.2.2, ?_⟩
  · rw [hframe.2, hst.2.2.2.1, hst.2.2.1, hst.2.1, missing_of_initialize]
    rfl
  · intro h32 hlt
    omega

/-- The init frame of a session of 1024 samples (32 segments). -/
theorem init_frame_requests_up_to_532_witness :
    ∃ frame : List Nat,
      (UploadManager.new.start_full_upload 0x11223344 0 1024 none 0).2.send_init_command.2.sent
        = UploadManager.new.sent ++ [frame] ∧
      frame.getD 45 0 = 0x55 :=
  (init_frame_requests_up_to_532 UploadManager.new 0x11223344 0 1024 none 0 rfl
    (by decide)).1.elim (fun frame h => ⟨frame, h.2.1, h.2.2.1⟩)

theorem adaptive_timeout_le_500 (m : UploadManager) : m.get_adaptive_timeout_ms ≤ 500 := by
  unfold UploadManager.get_adaptive_timeout_ms UploadTimeoutManager.get_adaptive_timeout_ms
  simp only [UPLOAD_INITIAL_TIMEOUT_MS, UPLOAD_PACKET_TIMEOUT_NORMAL_MS,
    UPLOAD_PACKET_TIMEOUT_HIGH_LOSS_MS, UPLOAD_MIN_PACKET_TIMEOUT_MS]
  split_ifs <;> decide

/-- C33: a tick of `process_upload_active` on an upload that is neither complete,
failed nor past the global timeout evaluates the packet timeout only when the
upload manager is in `UPLOAD_RECEIVING` with segments missing. When the upload
manager is in `UPLOAD_RETRY_PARTIAL` -- the state in which the first 0x55
request, sent from the `UPLOAD_COMMAND_SENT` branch, leaves it while the session
stays in `DATA_UPLOAD_ACTIVE` -- the tick changes nothing, however long ago the
last packet was. On the sample session the tick at instant 1200 sends the first
0x55 request; the tick at instant 11200, 10000 ms after the last packet timer
was reset and with an adaptive timeout of at most 500 ms, sends nothing and
leaves the session as it is. -/
theorem active_tick_skips_timeout_in_retry_partial :
    (∀ (c : UploadCoordinator) (state_tracker : SessionStateTracker) (send_time now : Nat),
      c.upload_mgr.is_complete = false → c.upload_mgr.has_failed = false →
      c.upload_mgr.check_global_timeout now = false →
      c.upload_mgr.get_state = UploadState.UPLOAD_RETRY_PARTIAL →
      c.upload_mgr.get_ms_since_last_packet now > c.upload_mgr.get_adaptive_timeout_ms →
      c.process_upload_active state_tracker send_time now = (c, state_tracker)) ∧
    (∀ (c : UploadCoordinator) (state_tracker : SessionStateTracker) (send_time now : Nat),
      c.upload_mgr.is_complete = false → c.upload_mgr.has_failed = false →
      c.upload_mgr.check_global_timeout now = false →
      c.upload_mgr.get_state = UploadState.UPLOAD_RECEIVING →
      c.upload_mgr.get_missing_segments > 0 →
      c.process_upload_active state_tracker send_time now =
        c.evaluate_and_handle_timeout state_tracker now) ∧
    (sample_upload_session.process none 1200).map
      (fun s => (s.state_tracker.current_state, s.upload_coord.upload_mgr.current_state,
        s.upload_coord.upload_mgr.sent.length)) =
      some (SessionState.STATE_DATA_UPLOAD_ACTIVE, UploadState.UPLOAD_RETRY_PARTIAL, 2) ∧
    (sample_upload_session.process none 1200).map
      (fun s => (s.upload_coord.upload_mgr.get_ms_since_last_packet 11200,
        s.upload_coord.upload_mgr.is_complete, s.upload_coord.upload_mgr.has_failed,
        s.upload_coord.upload_mgr.check_global_timeout 11200)) =
      some (10000, false, false, false) ∧
    sample_upload_session.upload_coord.upload_mgr.sent.length = 1 ∧
    (∀ m : UploadManager, m.get_adaptive_timeout_ms ≤ 500) ∧
    (sample_upload_session.process none 1200).bind (fun s => s.process none 11200) =
      sample_upload_session.process none 1200 := by
  refine ⟨?_, ?_, by decide, by decide, by decide, adaptive_timeout_le_500, by decide⟩
  · intro c state_tracker send_time now h1 h2 h3 h4 _
    unfold UploadCoordinator.process_upload_active
    rw [h1, h2, h3, h4]
    simp
  · intro c state_tracker send_time now h1 h2 h3 h4 h5
    unfold UploadCoordinator.process_upload_active
    rw [h1, h2, h3, h4]
    simp [h5]

/-! ## parse_response: the fast-mode decoder, reads and writes -/

theorem fast_decode_state_succ (data : List Nat) (i : Nat) :
    fast_decode_state data (i + 1) = fast_decode_step data (fast_decode_state data i) i := by
  simp [fast_decode_state, List.range_succ, List.foldl_append]

theorem fast_decode_eq_state (data : List Nat) :
    fast_decode data = (fast_decode_state data 64).samples := rfl

theorem and_0xf_eq_mod (i : Nat) : i &&& 0xf = i % 16 :=
  Nat.and_pow_two_sub_one_eq_mod i 4

theorem fast_decode_step_skip (data : List Nat) (st : FastDecodeState) (i : Nat)
    (h : i % 16 = 0) :
    fast_decode_step data st i = { st with save_first := 0, sample_idx := st.sample_idx + 1 } := by
  unfold fast_decode_step
  rw [if_pos (by rw [and_0xf_eq_mod]; exact h)]

theorem fast_decode_step_word (data : List Nat) (st : FastDecodeState) (i : Nat)
    (h : i % 16 ≠ 0) :
    fast_decode_step data st i =
      { samples :=
          if i % 16 = 15 then
            (st.samples.set st.sample_idx (to_int16 ((fast_decode_ret data st.lcnt : Int) - 32768))).set
              (st.sample_idx - 15) (to_int16 (fast_decode_save_first data st - 32768))
          else st.samples.set st.sample_idx (to_int16 ((fast_decode_ret data st.lcnt : Int) - 32768))
        sample_idx := st.sample_idx + 1
        save_first := fast_decode_save_first data st / 2
        lcnt := st.lcnt + 1 } := by
  unfold fast_decode_step
  rw [if_neg (by rw [and_0xf_eq_mod]; exact h)]
  simp only [and_0xf_eq_mod, fast_decode_ret, fast_decode_save_first, fast_decode_word]

theorem fast_decode_state_inv (data : List Nat) : ∀ i, i ≤ 64 →
    (fast_decode_state data i).sample_idx = i ∧
    (fast_decode_state data i).lcnt = i - (i + 15) / 16 ∧
    (fast_decode_state data i).samples.length = 64 ∧
    0 ≤ (fast_decode_state data i).save_first ∧
    (fast_decode_state data i).save_first ≤ 0x7fff := by
  intro i
  induction i with
  | zero => intro _; simp [fast_decode_state]
  | succ i ih =>
    intro hi
    obtain ⟨h1, h2, h3, h4, h5⟩ := ih (by omega)
    rw [fast_decode_state_succ]
    by_cases h : i % 16 = 0
    · rw [fast_decode_step_skip data _ i h]
      refine ⟨by simp [h1], ?_, h3, by simp, by simp⟩
      simp only [h2]; omega
    · rw [fast_decode_step_word data _ i h]
      refine ⟨by simp [h1], ?_, ?_, ?_, ?_⟩
      · simp only [h2]; omega
      · simp only; split_ifs <;> simp [h3]
      · simp only [fast_decode_save_first]; split_ifs <;> omega
      · simp only [fast_decode_save_first]; split_ifs <;> omega

theorem fast_decode_ret_le (data : List Nat) (lcnt : Nat) : fast_decode_ret data lcnt ≤ 0xffff := by
  unfold fast_decode_ret
  have h : fast_decode_word data lcnt &&& 0xfffe ≤ 0xfffe := Nat.and_le_right
  split_ifs with h2
  · omega
  · omega

theorem fast_decode_step_congr (d e : List Nat) (st : FastDecodeState) (i : Nat)
    (h : i % 16 ≠ 0 → fast_decode_word d st.lcnt = fast_decode_word e st.lcnt) :
    fast_decode_step d st i = fast_decode_step e st i := by
  by_cases hi : i % 16 = 0
  · rw [fast_decode_step_skip d st i hi, fast_decode_step_skip e st i hi]
  · rw [fast_decode_step_word d st i hi, fast_decode_step_word e st i hi]
    simp only [fast_decode_ret, fast_decode_save_first, h hi]

theorem fast_decode_state_congr (d e : List Nat) (N : Nat)
    (h : ∀ k, 5 ≤ k → k ≤ N → d.getD k 0 = e.getD k 0) :
    ∀ i, i ≤ 64 → 2 * (i - (i + 15) / 16) + 4 ≤ N →
      fast_decode_state d i = fast_decode_state e i := by
  intro i
  induction i with
  | zero => intro _ _; simp [fast_decode_state]
  | succ i ih =>
    intro hi hN
    have hprev := ih (by omega) (by omega)
    rw [fast_decode_state_succ, fast_decode_state_succ, hprev]
    apply fast_decode_step_congr
    intro hmod
    have hl := (fast_decode_state_inv e i (by omega)).2.1
    unfold fast_decode_word
    rw [hl, h _ (by omega) (by omega), h _ (by omega) (by omega)]

theorem fast_decode_sample (data : List Nat) (j : Nat) (hj : j < 64) (hmod : j % 16 ≠ 0) :
    ∀ i, j < i → i ≤ 64 →
      (fast_decode_state data i).samples.getD j 0 =
        to_int16 ((fast_decode_ret data (j - (j + 15) / 16) : Int) - 32768) := by
  intro i
  induction i with
  | zero => intro h; omega
  | succ i ih =>
    intro hji hi
    obtain ⟨h1, h2, h3, -, -⟩ := fast_decode_state_inv data i (by omega)
    rw [fast_decode_state_succ]
    by_cases h : i % 16 = 0
    · rw [fast_decode_step_skip data _ i h]
      have : j < i := by
        rcases Nat.lt_or_ge j i with hlt | hge
        · exact hlt
        · exfalso; have : j = i := by omega
          subst this; exact hmod h
      exact ih this (by omega)
    · rw [fast_decode_step_word data _ i h]
      simp only [h1, h2]
      by_cases hji2 : j = i
      · subst hji2
        split_ifs with h15
        · rw [List.getD_eq_getElem?_getD, List.getElem?_set_ne (by omega),
            List.getElem?_set_self (by omega)]
          rfl
        · rw [List.getD_eq_getElem?_getD, List.getElem?_set_self (by omega)]
          rfl
      · have hlt : j < i := by omega
        have := ih hlt (by omega)
        split_ifs with h15
        · rw [List.getD_eq_getElem?_getD, List.getElem?_set_ne (by omega),
            List.getElem?_set_ne (by omega), ← List.getD_eq_getElem?_getD]
          exact this
        · rw [List.getD_eq_getElem?_getD, List.getElem?_set_ne (by omega),
            ← List.getD_eq_getElem?_getD]
          exact this

theorem fast_decode_state_frame (data : List Nat) (j : Nat) (hj : j < 32) :
    ∀ i, 32 ≤ i → i ≤ 64 →
      (fast_decode_state data i).samples.getD j 0 =
        (fast_decode_state data 32).samples.getD j 0 := by
  intro i
  induction i with
  | zero => intro h; omega
  | succ i ih =>
    intro h32 hi
    rcases Nat.lt_or_ge i 32 with hlt | hge
    · have : i + 1 = 32 := by omega
      rw [this]
    · obtain ⟨h1, h2, h3, -, -⟩ := fast_decode_state_inv data i (by omega)
      rw [fast_decode_state_succ, ← ih hge (by omega)]
      by_cases h : i % 16 = 0
      · rw [fast_decode_step_skip data _ i h]
      · rw [fast_decode_step_word data _ i h]
        simp only [h1]
        split_ifs with h15
        · rw [List.getD_eq_getElem?_getD, List.getElem?_set_ne (by omega),
            List.getElem?_set_ne (by omega), ← List.getD_eq_getElem?_getD]
        · rw [List.getD_eq_getElem?_getD, List.getElem?_set_ne (by omega),
            ← List.getD_eq_getElem?_getD]

theorem be32_at_agree (d e : List Nat) (h : ∀ i, i < 128 → d.getD i 0 = e.getD i 0)
    (k : Nat) (hk : k + 3 < 128) : be32_at d k = be32_at e k := by
  unfold be32_at
  rw [h k (by omega), h (k + 1) (by omega), h (k + 2) (by omega), h (k + 3) hk]

theorem all_padding_loop_congr (d e : List Nat)
    (h : ∀ i, i < 128 → d.getD i 0 = e.getD i 0) :
    ∀ n i, i + n ≤ 128 → all_padding_loop d n i = all_padding_loop e n i := by
  intro n
  induction n with
  | zero => intro i _; rfl
  | succ n ih =>
    intro i hi
    unfold all_padding_loop
    rw [h i (by omega), ih (i + 1) (by omega)]

theorem is_header_info_present_congr (d e : List Nat)
    (h : ∀ i, i < 128 → d.getD i 0 = e.getD i 0) :
    is_header_info_present d = is_header_info_present e := by
  unfold is_header_info_present
  rw [h 13 (by decide), h 14 (by decide), h 15 (by decide), h 16 (by decide),
    all_padding_loop_congr d e h 32 13 (by decide)]

theorem determine_direction_congr (d e : List Nat)
    (h : ∀ i, i < 128 → d.getD i 0 = e.getD i 0) (c : Nat) :
    determine_direction d c = determine_direction e c := by
  unfold determine_direction
  rw [be32_at_agree d e h 3 (by decide), is_header_info_present_congr d e h]

theorem checksum_loop_congr (d e : List Nat)
    (h : ∀ i, i < 128 → d.getD i 0 = e.getD i 0) :
    ∀ n i acc, i + n ≤ 128 → checksum_loop d n i acc = checksum_loop e n i acc := by
  intro n
  induction n with
  | zero => intro i acc _; rfl
  | succ n ih =>
    intro i acc hi
    unfold checksum_loop
    rw [h i (by omega), ih (i + 1) _ (by omega)]

theorem checksum_matches_congr (d e : List Nat)
    (h : ∀ i, i < 128 → d.getD i 0 = e.getD i 0) (b : Nat) :
    checksum_matches d b = checksum_matches e b := by
  unfold checksum_matches
  rw [h 3 (by decide), h 4 (by decide), h 5 (by decide), h 6 (by decide), h 125 (by decide)]

theorem verify_upload_checksum_congr (d e : List Nat)
    (h : ∀ i, i < 128 → d.getD i 0 = e.getD i 0) (is_fast : Bool) :
    verify_upload_checksum d is_fast = verify_upload_checksum e is_fast := by
  unfold verify_upload_checksum
  rw [h 49 (by decide), checksum_loop_congr d e h 120 5 0 (by decide),
    checksum_loop_congr d e h 64 51 0 (by decide)]
  simp only [checksum_matches_congr d e h]

theorem bytes_at_agree (d e : List Nat) (h : ∀ i, i < 128 → d.getD i 0 = e.getD i 0)
    (off n : Nat) (hn : off + n ≤ 128) : bytes_at d off n = bytes_at e off n := by
  unfold bytes_at
  apply List.map_congr_left
  intro i hi
  rw [List.mem_range] at hi
  exact h _ (by omega)

theorem command_params_congr (d e : List Nat) (h : ∀ i, i < 128 → d.getD i 0 = e.getD i 0) :
    (List.range 10).map (fun i => parse_hex_param d (46 + i * 8)) =
      (List.range 10).map (fun i => parse_hex_param e (46 + i * 8)) := by
  apply List.map_congr_left
  intro i hi
  rw [List.mem_range] at hi
  unfold parse_hex_param
  rw [bytes_at_agree d e h _ 8 (by omega)]

theorem foldl_congr_mem {α β : Type} (f g : α → β → α) (l : List β)
    (h : ∀ a, ∀ b ∈ l, f a b = g a b) (a : α) : l.foldl f a = l.foldl g a := by
  induction l generalizing a with
  | nil => rfl
  | cons x xs ih =>
    rw [List.foldl_cons, List.foldl_cons, h a x (List.mem_cons_self _ _)]
    exact ih (fun a b hb => h a b (List.mem_cons_of_mem _ hb)) _

theorem parse_upload_partial_request_congr (d e : List Nat)
    (h : ∀ i, i < 128 → d.getD i 0 = e.getD i 0) :
    parse_upload_partial_request d = parse_upload_partial_request e := by
  unfold parse_upload_partial_request
  rw [h 45 (by decide), h 46 (by decide), h 47 (by decide), h 48 (by decide), h 49 (by decide)]
  have hmask : (List.range 76).foldl
      (fun segs byte_idx => parse_mask_byte (d.getD (50 + byte_idx) 0) byte_idx segs) [] =
      (List.range 76).foldl
      (fun segs byte_idx => parse_mask_byte (e.getD (50 + byte_idx) 0) byte_idx segs) [] := by
    apply foldl_congr_mem
    intro a b hb
    rw [List.mem_range] at hb
    rw [h _ (by omega)]
  rw [hmask]

theorem fast_decode_congr (d e : List Nat) (h : ∀ i, i < 128 → d.getD i 0 = e.getD i 0) :
    fast_decode d = fast_decode e := by
  rw [fast_decode_eq_state, fast_decode_eq_state,
    fast_decode_state_congr d e 124 (fun k _ hk => h k (by omega)) 64 (by decide) (by decide)]

theorem parse_command_params_congr (r : CommandResponse) (e : List Nat)
    (h : ∀ i, i < 128 → r.data.getD i 0 = e.getD i 0) :
    parse_command_params r =
      { parse_command_params { r with data := e } with data := r.data } := by
  unfold parse_command_params
  dsimp only
  rw [command_params_congr r.data e h]
  split_ifs <;> rfl

theorem parse_upload_data_congr (r : CommandResponse) (e : List Nat)
    (h : ∀ i, i < 128 → r.data.getD i 0 = e.getD i 0) :
    parse_upload_data r =
      { parse_upload_data { r with data := e } with data := r.data } := by
  unfold parse_upload_data
  dsimp only
  rw [verify_upload_checksum_congr r.data e h, fast_decode_congr r.data e h,
    h 2 (by decide), h 3 (by decide), h 4 (by decide), h 45 (by decide), h 47 (by decide),
    h 48 (by decide)]
  have hslow : (List.range 32).map (fun i =>
      to_int16 (((r.data.getD (51 + i * 2) 0 <<< 8) ||| r.data.getD (51 + i * 2 + 1) 0 : Nat) : Int)) =
      (List.range 32).map (fun i =>
      to_int16 (((e.getD (51 + i * 2) 0 <<< 8) ||| e.getD (51 + i * 2 + 1) 0 : Nat) : Int)) := by
    apply List.map_congr_left
    intro i hi
    rw [List.mem_range] at hi
    rw [h _ (by omega), h _ (by omega)]
  rw [hslow]
  split_ifs <;> rfl

theorem parse_push_config_congr (r : CommandResponse) (e : List Nat)
    (h : ∀ i, i < 128 → r.data.getD i 0 = e.getD i 0) :
    parse_push_config r =
      { parse_push_config { r with data := e } with data := r.data } := by
  have e1 := bytes_at_agree r.data e h 46 38 (by decide)
  have e2 := bytes_at_agree r.data e h 46 44 (by decide)
  have e3 := be32_at_agree r.data e h 84 (by decide)
  have e4 := be32_at_agree r.data e h 90 (by decide)
  have e94 := h 94 (by decide)
  have e95 := h 95 (by decide)
  unfold parse_push_config
  by_cases h1 : r.command_code ≠ 0x44 ∧ r.command_code ≠ 0x64
  · rw [if_pos h1, if_pos h1]
  · rw [if_neg h1, if_neg h1]
    by_cases h2 : r.source_macid ≠ BROADCAST_MAC
    · rw [if_pos h2, if_pos h2]
    · rw [if_neg h2, if_neg h2]
      by_cases h3 : r.data.getD 94 0 = 0xfa ∧ r.data.getD 95 0 = 0xde
      · have h3e : e.getD 94 0 = 0xfa ∧ e.getD 95 0 = 0xde := by rw [← e94, ← e95]; exact h3
        dsimp only
        rw [if_pos h3, if_pos h3e]
        rw [e1, e2, e3, e4, h 88 (by decide), h 96 (by decide), h 97 (by decide),
          h 98 (by decide), h 99 (by decide)]
      · have h3e : ¬ (e.getD 94 0 = 0xfa ∧ e.getD 95 0 = 0xde) := by rw [← e94, ← e95]; exact h3
        dsimp only
        rw [if_neg h3, if_neg h3e]
        rw [e1, e2, e3, e4, h 88 (by decide)]

theorem parse_response_eq_stages (data : List Nat) :
    parse_response data =
      parse_push_config
        { parse_upload_data (parse_command_fields data
            (parse_command_params (parse_response_header data))) with
          has_upload_partial_request :=
            (parse_upload_partial_request data).has_upload_partial_request
          upload_partial_start_addr :=
            (parse_upload_partial_request data).upload_partial_start_addr
          upload_partial_segments :=
            (parse_upload_partial_request data).upload_partial_segments } := rfl

theorem stage_agree (S : CommandResponse → CommandResponse)
    (hS : ∀ (r : CommandResponse) (e : List Nat),
      (∀ i, i < 128 → r.data.getD i 0 = e.getD i 0) →
      S r = { S { r with data := e } with data := r.data })
    (d e : List Nat) (h : ∀ i, i < 128 → d.getD i 0 = e.getD i 0)
    (x y : CommandResponse) (hx : x.data = d) (hy : y.data = e)
    (hxy : x = { y with data := d }) :
    S x = { S y with data := d } := by
  subst hx hy
  have e2 : ({ x with data := y.data } : CommandResponse) = y := by rw [hxy]
  exact (hS x y.data h).trans (by rw [e2])

theorem parse_response_header_data (data : List Nat) :
    (parse_response_header data).data = data := by
  unfold parse_response_header
  dsimp only
  split <;> rfl

theorem parse_response_header_agree (d e : List Nat)
    (h : ∀ i, i < 128 → d.getD i 0 = e.getD i 0) :
    parse_response_header d = { parse_response_header e with data := d } := by
  unfold parse_response_header
  dsimp only
  rw [determine_direction_congr d e h,
    verify_upload_checksum_congr d e h, is_header_info_present_congr d e h,
    be32_at_agree d e h 3 (by decide), be32_at_agree d e h 20 (by decide),
    h 0 (by decide), h 1 (by decide), h 2 (by decide), h 19 (by decide), h 24 (by decide),
    h 25 (by decide), h 45 (by decide), h 126 (by decide), h 127 (by decide)]
  split_ifs <;> rfl

theorem parse_command_fields_agree (d e : List Nat)
    (h : ∀ i, i < 128 → d.getD i 0 = e.getD i 0)
    (x y : CommandResponse) (hxy : x = { y with data := d }) :
    parse_command_fields d x = { parse_command_fields e y with data := d } := by
  subst hxy
  unfold parse_command_fields
  rw [h 46 (by decide), h 55 (by decide), be32_at_agree d e h 47 (by decide)]

theorem parse_response_tail_agree (d e : List Nat)
    (h : ∀ i, i < 128 → d.getD i 0 = e.getD i 0)
    (x y : CommandResponse) (hx : x.data = d) (hy : y.data = e)
    (hxy : x = { y with data := d }) :
    parse_push_config
        { parse_upload_data x with
          has_upload_partial_request :=
            (parse_upload_partial_request d).has_upload_partial_request
          upload_partial_start_addr :=
            (parse_upload_partial_request d).upload_partial_start_addr
          upload_partial_segments :=
            (parse_upload_partial_request d).upload_partial_segments } =
      { parse_push_config
        { parse_upload_data y with
          has_upload_partial_request :=
            (parse_upload_partial_request e).has_upload_partial_request
          upload_partial_start_addr :=
            (parse_upload_partial_request e).upload_partial_start_addr
          upload_partial_segments :=
            (parse_upload_partial_request e).upload_partial_segments } with data := d } := by
  have h3 := stage_agree parse_upload_data parse_upload_data_congr d e h x y hx hy hxy
  have hux : (parse_upload_data x).data = d := by rw [(parse_upload_data_keeps x).1, hx]
  have huy : (parse_upload_data y).data = e := by rw [(parse_upload_data_keeps y).1, hy]
  rw [parse_upload_partial_request_congr d e h]
  generalize parse_upload_data x = u at h3 hux
  generalize parse_upload_data y = v at h3 huy
  generalize parse_upload_partial_request e = p
  apply stage_agree parse_push_config parse_push_config_congr d e h
  · exact hux
  · exact huy
  · subst h3
    rfl

theorem parse_response_agree (d e : List Nat) (h : ∀ i, i < 128 → d.getD i 0 = e.getD i 0) :
    parse_response d = { parse_response e with data := d } := by
  have hd := parse_response_header_data d
  have he := parse_response_header_data e
  have h1 := stage_agree parse_command_params parse_command_params_congr d e h
    (parse_response_header d) (parse_response_header e) hd he
    (parse_response_header_agree d e h)
  have hpd : (parse_command_params (parse_response_header d)).data = d := by
    rw [(parse_command_params_keeps _).1, hd]
  have hpe : (parse_command_params (parse_response_header e)).data = e := by
    rw [(parse_command_params_keeps _).1, he]
  rw [parse_response_eq_stages d, parse_response_eq_stages e]
  generalize parse_command_params (parse_response_header d) = x at h1 hpd
  generalize parse_command_params (parse_response_header e) = y at h1 hpe
  exact parse_response_tail_agree d e h _ _ (by unfold parse_command_fields; exact hpd)
    (by unfold parse_command_fields; exact hpe) (parse_command_fields_agree d e h x y h1)

theorem parse_header_info_agree (d e : List Nat)
    (h : ∀ i, i < 128 → d.getD i 0 = e.getD i 0) :
    parse_header_info d = parse_header_info e := by
  unfold parse_header_info
  rw [be32_at_agree d e h 20 (by decide), be32_at_agree d e h 33 (by decide),
    be32_at_agree d e h 37 (by decide),
    h 13 (by decide), h 14 (by decide), h 15 (by decide), h 16 (by decide), h 17 (by decide),
    h 18 (by decide), h 19 (by decide), h 24 (by decide), h 25 (by decide), h 26 (by decide),
    h 27 (by decide), h 28 (by decide), h 29 (by decide), h 30 (by decide), h 31 (by decide),
    h 32 (by decide), h 41 (by decide), h 42 (by decide), h 43 (by decide), h 44 (by decide)]

theorem parse_buf_words_eq (data : List Nat) (base : Nat) :
    parse_buf_words data base =
      (List.range 8).map (fun i =>
        (data.getD (base + i * 2) 0 <<< 8) ||| data.getD (base + i * 2 + 1) 0) ++
        List.replicate 8 0 := by
  simp [parse_buf_words, List.range_succ, List.range', List.replicate]

theorem parse_buf_words_agree (d e : List Nat)
    (h : ∀ i, i < 128 → d.getD i 0 = e.getD i 0) (base : Nat) (hb : base + 16 ≤ 128) :
    parse_buf_words d base = parse_buf_words e base := by
  rw [parse_buf_words_eq, parse_buf_words_eq]
  congr 1
  apply List.map_congr_left
  intro i hi
  rw [List.mem_range] at hi
  rw [h _ (by omega), h _ (by omega)]

theorem parse_unit_fields_version (data : List Nat) :
    (parse_unit_fields data PacketDirection.UNIT_TO_BASE).version = bytes_at data 56 10 ++ [0] := by
  simp [parse_unit_fields, bytes_at, List.range_succ, List.replicate]

theorem parse_unit_fields_agree (d e : List Nat)
    (h : ∀ i, i < 128 → d.getD i 0 = e.getD i 0) (direction : PacketDirection) :
    parse_unit_fields d direction = parse_unit_fields e direction := by
  by_cases hdir : direction = PacketDirection.UNIT_TO_BASE
  · subst hdir
    have hv := (parse_unit_fields_version d).trans
      ((congrArg (· ++ [0]) (bytes_at_agree d e h 56 10 (by decide))).trans
        (parse_unit_fields_version e).symm)
    unfold parse_unit_fields at hv ⊢
    rw [if_pos rfl, if_pos rfl] at hv ⊢
    dsimp only at hv
    rw [hv, parse_buf_words_agree d e h 74 (by decide), parse_buf_words_agree d e h 90 (by decide),
      parse_buf_words_agree d e h 106 (by decide), be32_at_agree d e h (45 + 25) (by decide),
      h (45 + 21) (by decide), h (45 + 22) (by decide), h (45 + 23) (by decide),
      h (45 + 24) (by decide), h 123 (by decide), h 124 (by decide), h 125 (by decide)]
  · unfold parse_unit_fields
    rw [if_neg hdir, if_neg hdir]

theorem parse_unit_fields_lengths (data : List Nat) (direction : PacketDirection) :
    (parse_unit_fields data direction).version.length = 11 ∧
    (parse_unit_fields data direction).buf_data.length = 16 ∧
    (parse_unit_fields data direction).buf_spread.length = 16 ∧
    (parse_unit_fields data direction).buf_tach.length = 16 := by
  by_cases hdir : direction = PacketDirection.UNIT_TO_BASE
  · subst hdir
    refine ⟨by rw [parse_unit_fields_version]; simp [bytes_at], ?_, ?_, ?_⟩ <;>
    · unfold parse_unit_fields
      rw [if_pos rfl]
      dsimp only
      rw [parse_buf_words_eq]
      simp
  · unfold parse_unit_fields
    rw [if_neg hdir]
    simp

theorem parse_push_config_keeps_upload (r : CommandResponse) :
    (parse_push_config r).has_upload_data = r.has_upload_data ∧
    (parse_push_config r).is_fast_mode = r.is_fast_mode ∧
    (parse_push_config r).upload_segment_addr = r.upload_segment_addr ∧
    (parse_push_config r).upload_data = r.upload_data ∧
    (parse_push_config r).command_params = r.command_params := by
  unfold parse_push_config
  split
  · exact ⟨rfl, rfl, rfl, rfl, rfl⟩
  · split
    · exact ⟨rfl, rfl, rfl, rfl, rfl⟩
    · dsimp only
      split <;> exact ⟨rfl, rfl, rfl, rfl, rfl⟩

theorem parse_upload_data_fast (r : CommandResponse) (hfast : r.data.getD 2 0 = 0x80) :
    (parse_upload_data r).has_upload_data =
      (decide (r.command_code = 0x33) && verify_upload_checksum r.data true) ∧
    ((parse_upload_data r).has_upload_data = true →
      (parse_upload_data r).is_fast_mode = true ∧
      (parse_upload_data r).upload_segment_addr = (r.data.getD 3 0 <<< 8) ||| r.data.getD 4 0 ∧
      (parse_upload_data r).upload_data = block_of (fast_decode r.data)) := by
  have hdec : decide (r.data.getD 2 0 = 0x80) = true := decide_eq_true hfast
  unfold parse_upload_data
  by_cases hc : r.command_code = 0x33
  · rw [if_neg (fun h => h hc)]
    dsimp only
    rw [hdec]
    have hcd : decide (r.command_code = 0x33) = true := decide_eq_true hc
    rw [hcd, Bool.true_and]
    by_cases hv : verify_upload_checksum r.data true = true
    · rw [if_neg (by rw [hv]; decide), if_pos rfl, hv]
      exact ⟨rfl, fun _ => ⟨rfl, rfl, rfl⟩⟩
    · have hv2 : verify_upload_checksum r.data true = false := by
        cases hvv : verify_upload_checksum r.data true
        · rfl
        · exact absurd hvv hv
      rw [if_pos (by rw [hv2]; decide), hv2]
      exact ⟨rfl, fun h => Bool.noConfusion h⟩
  · rw [if_pos hc]
    have hcd : decide (r.command_code = 0x33) = false := decide_eq_false hc
    rw [hcd, Bool.false_and]
    exact ⟨rfl, fun h => Bool.noConfusion h⟩

theorem parse_response_fast_upload (data : List Nat) (hfast : data.getD 2 0 = 0x80) :
    (parse_response data).has_upload_data =
      (decide (data.getD 45 0 = 0x33) && verify_upload_checksum data true) ∧
    ((parse_response data).has_upload_data = true →
      (parse_response data).is_fast_mode = true ∧
      (parse_response data).upload_segment_addr = (data.getD 3 0 <<< 8) ||| data.getD 4 0 ∧
      (parse_response data).upload_data = block_of (fast_decode data)) := by
  have hdata : (parse_command_fields data
      (parse_command_params (parse_response_header data))).data = data := by
    unfold parse_command_fields
    dsimp only
    rw [(parse_command_params_keeps _).1, parse_response_header_data]
  have hcode : (parse_command_fields data
      (parse_command_params (parse_response_header data))).command_code = data.getD 45 0 := by
    unfold parse_command_fields
    dsimp only
    rw [(parse_command_params_keeps _).2.2.2.2.2]
    unfold parse_response_header
    dsimp only
    split <;> rfl
  have key := parse_upload_data_fast _ (hdata.symm ▸ hfast)
  rw [hdata, hcode] at key
  rw [parse_response_eq_stages]
  obtain ⟨k1, k2, k3, k4, -⟩ := parse_push_config_keeps_upload
    { parse_upload_data (parse_command_fields data
            (parse_command_params (parse_response_header data))) with
          has_upload_partial_request :=
            (parse_upload_partial_request data).has_upload_partial_request
          upload_partial_start_addr :=
            (parse_upload_partial_request data).upload_partial_start_addr
          upload_partial_segments :=
            (parse_upload_partial_request data).upload_partial_segments }
  rw [k1, k2, k3, k4]
  exact key


theorem parse_response_header_arrays (data : List Nat) :
    (parse_response_header data).command_params = List.replicate 10 0 ∧
    (parse_response_header data).config_packet = List.replicate 38 0 := by
  unfold parse_response_header
  dsimp only
  split <;> exact ⟨rfl, rfl⟩

theorem parse_command_params_arrays (r : CommandResponse) :
    (parse_command_params r).config_packet = r.config_packet ∧
    ((parse_command_params r).command_params = r.command_params ∨
      (parse_command_params r).command_params =
        (List.range 10).map (fun i => parse_hex_param r.data (46 + i * 8))) := by
  unfold parse_command_params
  split
  · exact ⟨rfl, Or.inl rfl⟩
  · dsimp only
    split <;> exact ⟨rfl, Or.inr rfl⟩

theorem parse_upload_data_config_packet (r : CommandResponse) :
    (parse_upload_data r).config_packet = r.config_packet := by
  unfold parse_upload_data
  split
  · rfl
  · dsimp only
    split
    · rfl
    · split
      · rfl
      · split <;> rfl

theorem parse_push_config_config_packet (r : CommandResponse) :
    (parse_push_config r).config_packet = r.config_packet ∨
    (parse_push_config r).config_packet = bytes_at r.data 46 38 := by
  unfold parse_push_config
  split
  · exact Or.inl rfl
  · split
    · exact Or.inl rfl
    · dsimp only
      split <;> exact Or.inr rfl

theorem parse_response_lengths (data : List Nat) :
    (parse_response data).command_params.length = 10 ∧
    (parse_response data).config_packet.length = 38 ∧
    (parse_response data).upload_data.val.length = 32 := by
  obtain ⟨hp, hc⟩ := parse_response_header_arrays data
  obtain ⟨hc2, hp2⟩ := parse_command_params_arrays (parse_response_header data)
  refine ⟨?_, ?_, (parse_response data).upload_data.property⟩
  · rw [parse_response_eq_stages, (parse_push_config_keeps_upload _).2.2.2.2]
    dsimp only
    rw [(parse_upload_data_keeps _).2.2.2.2.2.2.2.2.1]
    unfold parse_command_fields
    dsimp only
    rcases hp2 with h | h
    · rw [h, hp]; simp
    · rw [h]; simp
  · rw [parse_response_eq_stages]
    rcases parse_push_config_config_packet
      { parse_upload_data (parse_command_fields data
            (parse_command_params (parse_response_header data))) with
          has_upload_partial_request :=
            (parse_upload_partial_request data).has_upload_partial_request
          upload_partial_start_addr :=
            (parse_upload_partial_request data).upload_partial_start_addr
          upload_partial_segments :=
            (parse_upload_partial_request data).upload_partial_segments } with h | h
    · rw [h]
      dsimp only
      rw [parse_upload_data_config_packet]
      unfold parse_command_fields
      dsimp only
      rw [hc2, hc]
      simp
    · rw [h]
      simp [bytes_at]

theorem fast_decode_state_bounds (data : List Nat) (i : Nat) (hi : i < 64) :
    (fast_decode_state data i).samples.length = 64 ∧
    (fast_decode_state data i).sample_idx = i ∧
    5 + (fast_decode_state data i).lcnt * 2 + 1 ≤ 124 ∧
    (i &&& 0xf = 0xf → 15 ≤ (fast_decode_state data i).sample_idx) ∧
    -32768 ≤ (fast_decode_ret data (fast_decode_state data i).lcnt : Int) - 32768 ∧
    (fast_decode_ret data (fast_decode_state data i).lcnt : Int) - 32768 ≤ 32767 ∧
    -32768 ≤ fast_decode_save_first data (fast_decode_state data i) - 32768 ∧
    fast_decode_save_first data (fast_decode_state data i) - 32768 ≤ 32767 := by
  obtain ⟨h1, h2, h3, h4, h5⟩ := fast_decode_state_inv data i (by omega)
  have hr := fast_decode_ret_le data (fast_decode_state data i).lcnt
  refine ⟨h3, h1, by rw [h2]; omega, ?_, by omega, by omega, ?_, ?_⟩
  · rw [and_0xf_eq_mod, h1]; omega
  · unfold fast_decode_save_first; split_ifs <;> omega
  · unfold fast_decode_save_first; split_ifs <;> omega

theorem block_of_getD (l : List Int) (i : Nat) (hi : i < 32) :
    (block_of l).val.getD i 0 = l.getD i 0 := by
  simp [block_of, List.getD_eq_getElem?_getD, List.getElem?_map, List.getElem?_range hi]

theorem to_int16_of_range (v : Int) (h1 : -32768 ≤ v) (h2 : v ≤ 32767) : to_int16 v = v := by
  unfold to_int16
  split_ifs <;> omega

theorem fast_decode_ret_of_0x33 :
    ∀ x, x < 256 →
      0x3300 ≤ (if ((0x3300 ||| x) &&& 0xfffe) &&& 2 ≠ 0 then ((0x3300 ||| x) &&& 0xfffe) + 1
        else (0x3300 ||| x) &&& 0xfffe) ∧
      (if ((0x3300 ||| x) &&& 0xfffe) &&& 2 ≠ 0 then ((0x3300 ||| x) &&& 0xfffe) + 1
        else (0x3300 ||| x) &&& 0xfffe) ≤ 0x33ff := by
  decide

/-- C39: a frame with byte 2 equal to `0x80` that `parse_response` reports as
upload data is decoded in fast mode and has `0x33` at offset 45; that offset is
the high byte of packed word 20, from which sample 22 is decoded, so the
stored sample 22 is the dithered word minus 32768 and lies between -19712 and
-19457. -/
theorem fast_upload_sample_22_range (data : List Nat) (hfast : data.getD 2 0 = 0x80)
    (hup : (parse_response data).has_upload_data = true) :
    (parse_response data).is_fast_mode = true ∧
    data.getD 45 0 = 0x33 ∧
    fast_decode_word data 20 =
      ((data.getD 45 0 <<< 8) &&& 0xff00) ||| (data.getD 46 0 &&& 0xff) ∧
    (parse_response data).upload_data.val.getD 22 0 = (fast_decode_ret data 20 : Int) - 32768 ∧
    -19712 ≤ (parse_response data).upload_data.val.getD 22 0 ∧
    (parse_response data).upload_data.val.getD 22 0 ≤ -19457 := by
  obtain ⟨hiff, himp⟩ := parse_response_fast_upload data hfast
  obtain ⟨hmode, -, hblock⟩ := himp hup
  have h45 : data.getD 45 0 = 0x33 := by
    rw [hiff, Bool.and_eq_true] at hup
    exact of_decide_eq_true hup.1
  have hsample : (parse_response data).upload_data.val.getD 22 0 =
      to_int16 ((fast_decode_ret data 20 : Int) - 32768) := by
    rw [hblock, block_of_getD _ 22 (by decide), fast_decode_eq_state]
    exact fast_decode_sample data 22 (by decide) (by decide) 64 (by decide) (by decide)
  have hx : data.getD 46 0 &&& 0xff < 256 := Nat.lt_succ_of_le Nat.and_le_right
  have hrange := fast_decode_ret_of_0x33 _ hx
  have hret : fast_decode_ret data 20 =
      (if ((0x3300 ||| (data.getD 46 0 &&& 0xff)) &&& 0xfffe) &&& 2 ≠ 0 then
        ((0x3300 ||| (data.getD 46 0 &&& 0xff)) &&& 0xfffe) + 1
      else (0x3300 ||| (data.getD 46 0 &&& 0xff)) &&& 0xfffe) := by
    unfold fast_decode_ret fast_decode_word
    rw [show 5 + 20 * 2 = 45 from rfl, show 45 + 1 = 46 from rfl, h45]
    rfl
  rw [← hret] at hrange
  have hid := to_int16_of_range ((fast_decode_ret data 20 : Int) - 32768) (by omega) (by omega)
  rw [hid] at hsample
  refine ⟨hmode, h45, rfl, hsample, ?_, ?_⟩
  · rw [hsample]; omega
  · rw [hsample]; omega

theorem fast_upload_sample_22_range_witness :
    (parse_response sample_fast_upload_frame).has_upload_data = true ∧
    (parse_response sample_fast_upload_frame).upload_data.val.getD 22 0 = -19628 ∧
    -19712 ≤ (parse_response sample_fast_upload_frame).upload_data.val.getD 22 0 ∧
    (parse_response sample_fast_upload_frame).upload_data.val.getD 22 0 ≤ -19457 :=
  have hup : (parse_response sample_fast_upload_frame).has_upload_data = true :=
    (parse_response_fast_upload sample_fast_upload_frame (by decide)).1.trans (by decide)
  have key := fast_upload_sample_22_range sample_fast_upload_frame (by decide) hup
  ⟨hup, key.2.2.2.1.trans (by decide), key.2.2.2.2.1, key.2.2.2.2.2⟩

theorem block_of_congr (l m : List Int) (h : ∀ i, i < 32 → l.getD i 0 = m.getD i 0) :
    block_of l = block_of m := by
  apply Subtype.ext
  unfold block_of
  dsimp only
  apply List.map_congr_left
  intro i hi
  exact h i (List.mem_range.mp hi)

theorem block_of_fast_decode_congr (d e : List Nat)
    (h : ∀ i, 5 ≤ i → i ≤ 64 → d.getD i 0 = e.getD i 0) :
    block_of (fast_decode d) = block_of (fast_decode e) := by
  apply block_of_congr
  intro i hi
  rw [fast_decode_eq_state, fast_decode_eq_state,
    fast_decode_state_frame d i hi 64 (by decide) (by decide),
    fast_decode_state_frame e i hi 64 (by decide) (by decide),
    fast_decode_state_congr d e 64 h 32 (by decide) (by decide)]

/-- C40: two fast-mode frames that `parse_response` both reports as upload
data (so both pass the checksum) and that agree on offsets 0..64 yield the
same segment address and the same 32 stored samples, whatever offsets 65..124
hold. -/
theorem fast_upload_ignores_second_half (d e : List Nat) (hfast : d.getD 2 0 = 0x80)
    (hd : (parse_response d).has_upload_data = true)
    (he : (parse_response e).has_upload_data = true)
    (hagree : ∀ i, i ≤ 64 → d.getD i 0 = e.getD i 0) :
    (parse_response d).upload_segment_addr = (parse_response e).upload_segment_addr ∧
    (parse_response d).upload_data = (parse_response e).upload_data := by
  have hfast2 : e.getD 2 0 = 0x80 := by rw [← hagree 2 (by decide)]; exact hfast
  obtain ⟨-, ha, hb⟩ := (parse_response_fast_upload d hfast).2 hd
  obtain ⟨-, ha2, hb2⟩ := (parse_response_fast_upload e hfast2).2 he
  rw [ha, ha2, hb, hb2, hagree 3 (by decide), hagree 4 (by decide)]
  exact ⟨rfl, block_of_fast_decode_congr d e (fun i _ hi => hagree i hi)⟩

theorem fast_upload_ignores_second_half_witness :
    sample_fast_upload_frame.getD 75 0 ≠ sample_fast_upload_frame_swapped.getD 75 0 ∧
    (parse_response sample_fast_upload_frame).upload_segment_addr =
      (parse_response sample_fast_upload_frame_swapped).upload_segment_addr ∧
    (parse_response sample_fast_upload_frame).upload_data =
      (parse_response sample_fast_upload_frame_swapped).upload_data :=
  ⟨by decide,
    fast_upload_ignores_second_half sample_fast_upload_frame sample_fast_upload_frame_swapped
      (by decide)
      ((parse_response_fast_upload sample_fast_upload_frame (by decide)).1.trans (by decide))
      ((parse_response_fast_upload sample_fast_upload_frame_swapped (by decide)).1.trans
        (by decide))
      (by decide)⟩

/-- C38: `parse_response` is a total function of the frame. Reads: a frame that
agrees with `data` on offsets 0..127 decodes to the same fields, also the
header info and the unit fields. Writes: `command_params`, `config_packet`,
`upload_data`, `version` and the word arrays have their declared sizes 10, 38,
32, 11 and 16, and the version is the ten bytes at offset 56 and a NUL. Scratch
array: when iteration `i < 64` of the fast-mode loop starts, `samples` has 64
entries, `sample_idx = i`, the word is read at offsets up to 124,
`sample_idx - 15` is not negative where it is used, and both stored values
`ret - 32768` and `save_first - 32768` lie in -32768..32767. -/
theorem parse_response_memory_safe (data other : List Nat)
    (hagree : ∀ i, i < 128 → other.getD i 0 = data.getD i 0) :
    parse_response other = { parse_response data with data := other } ∧
    parse_header_info other = parse_header_info data ∧
    (∀ direction, parse_unit_fields other direction = parse_unit_fields data direction) ∧
    (parse_response data).command_params.length = 10 ∧
    (parse_response data).config_packet.length = 38 ∧
    (parse_response data).upload_data.val.length = 32 ∧
    (∀ direction,
      (parse_unit_fields data direction).version.length = 11 ∧
      (parse_unit_fields data direction).buf_data.length = 16 ∧
      (parse_unit_fields data direction).buf_spread.length = 16 ∧
      (parse_unit_fields data direction).buf_tach.length = 16) ∧
    (parse_unit_fields data PacketDirection.UNIT_TO_BASE).version = bytes_at data 56 10 ++ [0] ∧
    (∀ i, i < 64 →
      (fast_decode_state data i).samples.length = 64 ∧
      (fast_decode_state data i).sample_idx = i ∧
      5 + (fast_decode_state data i).lcnt * 2 + 1 ≤ 124 ∧
      (i &&& 0xf = 0xf → 15 ≤ (fast_decode_state data i).sample_idx) ∧
      -32768 ≤ (fast_decode_ret data (fast_decode_state data i).lcnt : Int) - 32768 ∧
      (fast_decode_ret data (fast_decode_state data i).lcnt : Int) - 32768 ≤ 32767 ∧
      -32768 ≤ fast_decode_save_first data (fast_decode_state data i) - 32768 ∧
      fast_decode_save_first data (fast_decode_state data i) - 32768 ≤ 32767) :=
  ⟨parse_response_agree other data hagree, parse_header_info_agree other data hagree,
    parse_unit_fields_agree other data hagree,
    (parse_response_lengths data).1, (parse_response_lengths data).2.1,
    (parse_response_lengths data).2.2, parse_unit_fields_lengths data,
    parse_unit_fields_version data, fast_decode_state_bounds data⟩

theorem parse_response_memory_safe_witness :
    (sample_fast_upload_frame ++ [0xAA, 0xBB]).length = 130 ∧
    parse_response (sample_fast_upload_frame ++ [0xAA, 0xBB]) =
      { parse_response sample_fast_upload_frame with
        data := sample_fast_upload_frame ++ [0xAA, 0xBB] } ∧
    (parse_response sample_fast_upload_frame).command_params.length = 10 :=
  have key := parse_response_memory_safe sample_fast_upload_frame
    (sample_fast_upload_frame ++ [0xAA, 0xBB]) (by decide)
  ⟨by decide, key.1, key.2.2.2.1⟩

/-! ## SamplesetSupervisor: the round-robin index after a reload -/

theorem get_sampleset_keeps_index_in_range (v : SamplesetSupervisor) (now : Int)
    (h : v.current_index_ < v.samplesets_.length) :
    ∃ result : Option Nat × SamplesetSupervisor,
      v.get_sampleset now = some result ∧
      result.2.samplesets_ = v.samplesets_ ∧
      result.2.current_index_ < result.2.samplesets_.length := by
  have hpos : 0 < v.samplesets_.length := by omega
  unfold SamplesetSupervisor.get_sampleset
  split_ifs with h1 h2
  · exact ⟨_, rfl, rfl, h⟩
  · rw [List.getElem?_eq_getElem hpos]
    dsimp only
    split_ifs
    · exact ⟨_, rfl, rfl, h⟩
    · exact ⟨_, rfl, rfl, h⟩
  · obtain ⟨result, hr, hcase⟩ := get_sampleset_loop_spec v now v.samplesets_.length
      v.current_index_ h
    refine ⟨result, hr, ?_⟩
    rcases hcase with ⟨j, -, -, -, -, h2⟩ | ⟨-, -, h2⟩
    · rw [h2]
      exact ⟨rfl, Nat.mod_lt _ hpos⟩
    · rw [h2]
      exact ⟨rfl, h⟩

theorem initialize_index_in_range (v : SamplesetSupervisor)
    (loaded : Option (Sampleset → Option Int)) (generated : Option (List Sampleset))
    (populated : Sampleset → Option Int)
    (h : (v.initialize_supervisor loaded generated populated).1 = true) :
    (v.initialize_supervisor loaded generated populated).2.initialized_ = true ∧
    (v.initialize_supervisor loaded generated populated).2.current_index_ = 0 ∧
    0 < (v.initialize_supervisor loaded generated populated).2.samplesets_.length := by
  unfold SamplesetSupervisor.initialize_supervisor at h ⊢
  cases loaded with
  | none => exact absurd h (by simp)
  | some database =>
    dsimp only at h ⊢
    unfold SamplesetSupervisor.load_and_generate at h ⊢
    cases generated with
    | none => exact absurd h (by simp)
    | some l =>
      dsimp only at h ⊢
      by_cases hl : l.isEmpty = true
      · rw [if_pos hl] at h
        exact absurd h (by simp)
      · rw [if_neg hl]
        refine ⟨rfl, rfl, ?_⟩
        simp only [Bool.not_true, Bool.false_eq_true, if_false, SamplesetSupervisor.init_index]
        cases l with
        | nil => exact absurd rfl hl
        | cons a t => simp

/-- C37: `initialize` leaves `current_index_ = 0` below the size of a non-empty
list and `get_sampleset` keeps `current_index_` below the size, but
`reload_configuration` replaces `samplesets_` without touching
`current_index_`: a supervisor initialised with three samplesets whose index
reached 2 and that reloads a configuration with two samplesets has
`current_index_ = 2` with 2 entries, and its next `get_sampleset` reads
`samplesets_[2]`. -/
theorem reload_configuration_leaves_index_out_of_range :
    (∀ (v : SamplesetSupervisor) loaded generated populated,
      (v.initialize_supervisor loaded generated populated).1 = true →
      (v.initialize_supervisor loaded generated populated).2.current_index_ <
        (v.initialize_supervisor loaded generated populated).2.samplesets_.length) ∧
    (∀ (v : SamplesetSupervisor) (now : Int), v.current_index_ < v.samplesets_.length →
      ∃ result : Option Nat × SamplesetSupervisor,
        v.get_sampleset now = some result ∧
        result.2.current_index_ < result.2.samplesets_.length) ∧
    (∀ (v : SamplesetSupervisor) generated populated,
      (v.reload_configuration generated populated).2.current_index_ = v.current_index_) ∧
    sample_supervisor_at_2.map (fun v => (v.initialized_, v.current_index_, v.samplesets_.length))
      = some (true, 2, 3) ∧
    sample_supervisor_at_2.map (fun v =>
        let r := v.reload_configuration (some [sample_sampleset 1, sample_sampleset 2])
          (fun _ => none)
        (r.1, r.2.current_index_, r.2.samplesets_.length,
          (r.2.get_sampleset 1700000000).isNone))
      = some (true, 2, 2, true) := by
  refine ⟨?_, ?_, ?_, ?_, ?_⟩
  · intro v loaded generated populated h
    obtain ⟨-, h2, h3⟩ := initialize_index_in_range v loaded generated populated h
    rw [h2]
    exact h3
  · intro v now h
    obtain ⟨result, h1, -, h3⟩ := get_sampleset_keeps_index_in_range v now h
    exact ⟨result, h1, h3⟩
  · intro v generated populated
    unfold SamplesetSupervisor.reload_configuration SamplesetSupervisor.load_and_generate
    cases generated with
    | none => rfl
    | some l =>
      dsimp only
      by_cases hl : l.isEmpty = true
      · rw [if_pos hl]; rfl
      · rw [if_neg hl]; rfl
  · decide
  · decide

/-! ## NodeListManager: load attempts and the MAC that is polled -/

theorem tdiv_1000_ge_10 (a : Int) : Int.tdiv a 1000 ≥ 10 ↔ a ≥ 10000 := by
  rcases Int.lt_or_le a 0 with h | h
  · have h1 : Int.tdiv a 1000 ≤ 0 := by
      have := Int.tdiv_nonneg (a := -a) (b := 1000) (by omega) (by omega)
      rw [Int.neg_tdiv] at this
      omega
    constructor <;> intro h2 <;> omega
  · rw [Int.tdiv_eq_ediv h (by omega)]
    constructor <;> intro h2 <;> omega

theorem should_attempt_load_iff (s : SessionManager) (now : Nat) :
    s.should_attempt_load now = decide (s.last_load_attempt + 10000 ≤ now) := by
  unfold SessionManager.should_attempt_load SessionManager.LOAD_RETRY_INTERVAL_SECONDS
  dsimp only
  by_cases h : s.last_load_attempt + 10000 ≤ now
  · rw [decide_eq_true h, decide_eq_true]
    rw [tdiv_1000_ge_10]
    omega
  · rw [decide_eq_false h, decide_eq_false]
    rw [tdiv_1000_ge_10]
    omega

theorem load_node_list_without_file (s : SessionManager) (now : Nat)
    (h : s.nodelist_file = none) : s.load_node_list now = (false, s) := by
  unfold SessionManager.load_node_list
  rw [h]

theorem load_node_list_with_file (s : SessionManager) (now : Nat) (macids : List Nat)
    (h : s.nodelist_file = some macids) :
    (s.load_node_list now).2 =
      { s with
        node_list := (macids.filter is_echobox).map (fun macid => NodeInfo.mk macid false)
        current_node_index := 0
        last_load_attempt := now } := by
  unfold SessionManager.load_node_list
  rw [h]

/-- C35: a call of `load_node_list` that finds no file returns false before it
stores the instant of the attempt, so `should_attempt_load` answers afterwards
what it answered before: for the constructed session it is true at 10000 ms,
the load fails, and it is true again 1 ms later. Only a call that opens the
file stores the instant and makes `should_attempt_load` false for the next
10 seconds, also when the file holds no EchoBox entry and the call returns
false. -/
theorem failed_load_does_not_delay_next_attempt :
    (∀ (s : SessionManager) (now later : Nat), s.nodelist_file = none →
      (s.load_node_list now).1 = false ∧
      (s.load_node_list now).2.last_load_attempt = s.last_load_attempt ∧
      (s.load_node_list now).2.should_attempt_load later = s.should_attempt_load later) ∧
    (∀ (s : SessionManager) (macids : List Nat) (now later : Nat),
      s.nodelist_file = some macids →
      (s.load_node_list now).2.last_load_attempt = now ∧
      (s.load_node_list now).2.should_attempt_load later = decide (now + 10000 ≤ later)) ∧
    (SessionManager.new 0).should_attempt_load 10000 = true ∧
    ((SessionManager.new 0).load_node_list 10000).1 = false ∧
    ((SessionManager.new 0).load_node_list 10000).2.should_attempt_load 10001 = true ∧
    (({ SessionManager.new 0 with nodelist_file := some [] }).load_node_list 10000).1 = false ∧
    (({ SessionManager.new 0 with nodelist_file := some [] }).load_node_list 10000).2.should_attempt_load
      10001 = false ∧
    (({ SessionManager.new 0 with nodelist_file := some [] }).load_node_list 10000).2.should_attempt_load
      20000 = true := by
  refine ⟨?_, ?_, ?_, ?_, ?_, ?_, ?_, ?_⟩
  · intro s now later h
    rw [load_node_list_without_file s now h]
    exact ⟨rfl, rfl, rfl⟩
  · intro s macids now later h
    rw [should_attempt_load_iff, load_node_list_with_file s now macids h]
    exact ⟨rfl, rfl⟩
  · rw [should_attempt_load_iff]; decide
  · decide
  · rw [should_attempt_load_iff]; decide
  · decide
  · rw [should_attempt_load_iff]; decide
  · rw [should_attempt_load_iff]; decide

theorem is_echobox_ne_zero (macid : Nat) (h : is_echobox macid = true) : macid ≠ 0 := by
  intro h0
  subst h0
  exact absurd h (by decide)

theorem poll_current_node_fields (s : SessionManager) (now : Nat) :
    (s.poll_current_node now).current_macid = s.get_current_macid ∧
    (s.poll_current_node now).sent =
      s.sent ++ [SentCommand.mk CMD_SAMPLE_DATA s.get_current_macid now] ∧
    (s.poll_current_node now).node_list = s.node_list ∧
    (s.poll_current_node now).current_node_index = s.current_node_index := by
  unfold SessionManager.poll_current_node SessionManager.send_command
  dsimp only
  refine ⟨rfl, ?_, rfl, rfl⟩
  simp [CommandSequenceManager.get_command, CommandSequenceManager.start_command_transmission]

theorem get_current_macid_at_end (s : SessionManager)
    (h : s.node_list.length ≤ s.current_node_index) : s.get_current_macid = 0 := by
  unfold SessionManager.get_current_macid SessionManager.has_current_node
  have : decide (s.current_node_index < s.node_list.length) = false :=
    decide_eq_false (by omega)
  rw [this]
  simp

/-- C36: when the tick in `STATE_IDLE` finds a current node, the poll goes to
the MAC of that entry, and every entry that `load_node_list` stores is an
EchoBox MAC, hence not 0. But when the list is at its end and the file cannot
be opened, `check_and_reload_if_at_end` leaves the old list and the index in
place, `has_nodes()` still holds, and the tick starts the `R` sequence with
`current_macid = get_current_macid() = 0`, which is no entry of the list: the
session that loaded the node `0xbc000001`, polled it eight times and settled
sends its next `R` to MAC 0 once the file is gone. -/
theorem idle_polls_mac_zero_after_failed_reload :
    (∀ (s : SessionManager) (now : Nat),
      s.state_tracker.current_state = SessionState.STATE_IDLE → s.monitor_mode = false →
      s.config_broadcast_enabled = false →
      s.current_node_index < s.node_list.length →
      ∃ s1 node, s.process_state_machine now = some s1 ∧
        s.node_list[s.current_node_index]? = some node ∧ s1.current_macid = node.macid ∧
        s1.state_tracker.current_state = SessionState.STATE_COMMAND_SEQUENCE) ∧
    (∀ (s : SessionManager) (macids : List Nat) (now : Nat),
      s.nodelist_file = some macids →
      ∀ node ∈ (s.load_node_list now).2.node_list, node.macid ≠ 0) ∧
    (∀ (s : SessionManager) (now : Nat),
      s.state_tracker.current_state = SessionState.STATE_IDLE → s.monitor_mode = false →
      s.config_broadcast_enabled = false → s.has_samplesets = false →
      s.node_list ≠ [] → s.node_list.length ≤ s.current_node_index →
      s.nodelist_file = none →
      ∃ s1, s.process_state_machine now = some s1 ∧
        s1.state_tracker.current_state = SessionState.STATE_COMMAND_SEQUENCE ∧
        s1.node_list = s.node_list ∧
        s1.current_macid = 0 ∧
        s1.sent = s.sent ++ [SentCommand.mk CMD_SAMPLE_DATA 0 now]) ∧
    sample_polled_session.map (fun s =>
        (s.state_tracker.current_state, s.node_list.map (fun node => node.macid),
          s.current_node_index, s.sent.length)) =
      some (SessionState.STATE_IDLE, [0xbc000001], 1, 8) ∧
    (sample_polled_session.bind (fun s =>
        ({ s with nodelist_file := none }).process none 25000)).map (fun s =>
        (s.state_tracker.current_state, s.node_list.map (fun node => node.macid),
          s.current_macid, s.sent.getLast?)) =
      some (SessionState.STATE_COMMAND_SEQUENCE, [0xbc000001], 0,
        some (SentCommand.mk CMD_SAMPLE_DATA 0 25000)) := by
  refine ⟨?_, ?_, ?_, ?_, ?_⟩
  · intro s now hidle hmon hcfg hnode
    have hstep := process_state_machine_idle s hidle hmon hnode now
    rw [idle_config_broadcasts_disabled s hcfg] at hstep
    refine ⟨_, s.node_list[s.current_node_index], hstep, List.getElem?_eq_getElem hnode, ?_,
      rfl⟩
    unfold polling_session
    dsimp only
    unfold SessionManager.get_current_macid SessionManager.has_current_node
    have hne : s.node_list.isEmpty = false := by
      cases hl : s.node_list with
      | nil => rw [hl] at hnode; exact absurd hnode (by simp)
      | cons a l => rfl
    rw [hne, List.getElem?_eq_getElem hnode]
    simp [hnode]
  · intro s macids now hfile node hmem
    rw [load_node_list_with_file s now macids hfile] at hmem
    dsimp only at hmem
    rw [List.mem_map] at hmem
    obtain ⟨m, hm, rfl⟩ := hmem
    exact is_echobox_ne_zero m (List.mem_filter.mp hm).2
  · intro s now hidle hmon hcfg hss hne hend hfile
    have hempty : s.node_list.isEmpty = false := by
      cases hl : s.node_list with
      | nil => exact absurd hl hne
      | cons a l => rfl
    have hnodes : s.has_nodes = true := by
      unfold SessionManager.has_nodes
      rw [hempty]; rfl
    have hatend : s.is_at_end = true := by
      unfold SessionManager.is_at_end
      rw [hempty, Bool.false_or]
      exact decide_eq_true hend
    have hreload : (s.check_and_reload_if_at_end now).2 = s := by
      unfold SessionManager.check_and_reload_if_at_end SessionManager.reload_node_list
      rw [hatend, if_pos rfl, load_node_list_without_file s now hfile]
      rfl
    obtain ⟨p1, p2, p3, -⟩ := poll_current_node_fields s now
    rw [get_current_macid_at_end s hend] at p1 p2
    refine ⟨s.poll_current_node now, ?_, ?_, p3, p1, p2⟩
    · unfold SessionManager.process_state_machine
      rw [hidle]
      dsimp only
      rw [hmon, idle_config_broadcasts_disabled s hcfg, hnodes]
      simp only [Bool.not_true, Bool.not_false, Bool.false_eq_true, if_false, if_true,
        Bool.false_and, Bool.and_true, hatend, hreload, hnodes, hss]
    · unfold SessionManager.poll_current_node SessionManager.send_command
        SessionStateTracker.transition_state
      dsimp only
      rw [hidle]
      rfl
  · decide
  · decide

end XferServer
